import Mathlib

/-!
FakePtrPass: a verification development

Shallow embedding of `llvm/lib/Transforms/Utils/FakePtrPass.cpp` (the in-tree
variant of the pass) together with the part of the LLVM IR and of the LLVM
construction API that the pass touches. The parts of the out-of-tree variant
(`llvm-pass/fakeptr/FakePtrPass.cpp`) that differ from the in-tree text are
embedded under `OutOfTree`.

Conventions of the embedding

* An IR object that C++ identifies by its address is identified by a number
  (`Inst.id`, `Function.id`); `Module.nextId` is the next unused number.
* A function body is the sequence of its instructions in program order (the
  pass always walks the blocks in order and the instructions of each block in
  order). An operand naming an instruction is resolved in the enclosing
  body, as the IR verifier demands; a number that does not resolve stands for
  a destroyed instruction.
* Behaviour that C++ leaves undefined (flowing off the end of a non-void
  function, a call through a null pointer, a read of a destroyed instruction)
  is an explicit `Fault`.
* Erasing an object does not look at its users: an operand that named an
  erased instruction, or a callee that named an erased function, is left as it
  is and names nothing afterwards.
* Value names, debug locations, the output on `errs()` and the results of the
  verifier calls (which the pass discards) are not part of the state.
-/

namespace FakePtr

/-! ## Types -/

/-- IR types. A struct with a name is identified by that name, as in an
    `LLVMContext`; every other struct is `anonStruct`. -/
inductive Ty where
  | void
  | int (bits : Nat)
  | ptr (elem : Ty) (addrSpace : Nat)
  | struct (name : String)
  | anonStruct (id : Nat)
  | other (id : Nat)
  deriving DecidableEq, Repr, Inhabited

/-- Function types: `FunctionType::get(ret, params, isVarArg)`. -/
structure FnTy where
  ret : Ty
  params : List Ty
  varArg : Bool
  deriving DecidableEq, Repr, Inhabited

def FAKEPTR_NUM_BITS : Nat := 32

def FAKEPTR_NAME : String := "FakePtr"

/-- The named-struct table of an `LLVMContext`: the names in use and the
    counter `NamedStructTypesUniqueID`. -/
structure Context where
  structNames : List String
  uniqueId : Nat
  deriving DecidableEq, Repr, Inhabited

/-- The rename loop of `StructType::setName`: try `base.N` for successive
    values of the counter until a name is free. -/
def probeStructName (names : List String) (base : String) : Nat → Nat → String × Nat
  | 0, uid => (base ++ "." ++ toString uid, uid + 1)
  | fuel + 1, uid =>
    if (base ++ "." ++ toString uid) ∈ names then probeStructName names base fuel (uid + 1)
    else (base ++ "." ++ toString uid, uid + 1)

/-- LLVM `StructType::create(ctx, elements, name)`: always makes a new
    identified struct; on a name collision the new type is called `name.N`. -/
def Context.createStruct (ctx : Context) (name : String) : String × Context :=
  if name ∈ ctx.structNames then
    let r := probeStructName ctx.structNames name ctx.structNames.length ctx.uniqueId
    (r.1, { structNames := r.1 :: ctx.structNames, uniqueId := r.2 })
  else
    (name, { structNames := name :: ctx.structNames, uniqueId := ctx.uniqueId })

/-- Source: `getFakePtrType`. Returns the handle struct and the context that
    now holds it. The body of the struct is the single field `i32`. -/
def getFakePtrType (ctx : Context) : Ty × Context :=
  let r := ctx.createStruct FAKEPTR_NAME
  (Ty.struct r.1, r.2)

def makeRealStructName (structname : String) : String :=
  "struct." ++ structname

/-- `StringRef::startswith`. -/
def startswith (s pre : String) : Bool :=
  pre.data.isPrefixOf s.data

/-- `StringRef::substr(n)`. -/
def substr (s : String) (n : Nat) : String :=
  String.mk (s.data.drop n)

/-- Source: `getStrippedStructName` on a non-null type. -/
def strippedStructNameOf : Ty → String
  | Ty.struct name => if !startswith name "struct." then name else substr name 7
  | Ty.ptr elem _ => strippedStructNameOf elem
  | _ => ""

/-- Source: `getStrippedStructName`; `none` is the null pointer. -/
def getStrippedStructName (t : Option Ty) : String :=
  match t with
  | some ty => strippedStructNameOf ty
  | none => ""

/-- Source: `isStructWithName`. -/
def isStructWithName (t : Option Ty) (struct_names : List String) : Bool :=
  match t with
  | some (Ty.struct name) => decide (name ∈ struct_names)
  | _ => false

/-- Source: `isStructPtrWithName`. -/
def isStructPtrWithName (t : Option Ty) (struct_names : List String) : Bool :=
  match t with
  | some (Ty.ptr elem _) => isStructWithName (some elem) struct_names
  | _ => false

/-- Source: `correctType`. -/
def correctType (t : Option Ty) (struct_names : List String) (replacement : Option Ty) :
    Option Ty :=
  if isStructPtrWithName t struct_names then replacement else t

/-- Source: `correctType` at the call site in `runOnModule`, where neither
    pointer is null. -/
def correctTy (t : Ty) (struct_names : List String) (replacement : Ty) : Ty :=
  (correctType (some t) struct_names (some replacement)).getD t

/-! ## Values, instructions, functions, modules -/

/-- An operand. An argument reference carries the owning function, the
    position and the type of the `Argument`; `const` is any constant other
    than a `ConstantInt` (globals, null, undef, constant expressions). -/
inductive Value where
  | inst (id : Nat)
  | arg (fn : Nat) (idx : Nat) (ty : Ty)
  | constInt (bits : Nat) (val : Nat)
  | const (ty : Ty) (tag : Nat)
  deriving DecidableEq, Repr, Inhabited

/-- The called operand of a call: a function of the module, a constant
    bitcast of a global to another function type (what
    `getOrInsertFunction` hands out on a signature clash), or any value. -/
inductive Callee where
  | func (id : Nat)
  | castFunc (id : Nat) (ty : FnTy)
  | castGlobal (name : String) (ty : FnTy)
  | value (v : Value)
  deriving DecidableEq, Repr, Inhabited

/-- Instruction kinds the pass distinguishes; `other` is every other opcode. -/
inductive Op where
  | alloca (allocTy : Ty) (count : Value) (align : Nat)
  | load (ptr : Value) (vol : Bool) (align : Nat)
  | store (val : Value) (ptr : Value) (vol : Bool) (align : Nat)
  | gep (srcTy : Ty) (ptr : Value) (idxs : List Value) (inBounds : Bool)
  | call (fnTy : FnTy) (callee : Callee) (args : List Value)
  | other (opcode : Nat) (operands : List Value)
  deriving DecidableEq, Repr, Inhabited

/-- An instruction: identity, result type (`Value::getType`), kind and operands. -/
structure Inst where
  id : Nat
  ty : Ty
  op : Op
  deriving DecidableEq, Repr, Inhabited

inductive Attr where
  | optimizeNone
  | other (kind : Nat)
  deriving DecidableEq, Repr, Inhabited

abbrev AttributeSet := List Attr

/-- An `AttributeList`: function, return and per-parameter attribute sets. -/
structure AttributeList where
  fnAttrs : AttributeSet
  retAttrs : AttributeSet
  paramAttrs : List AttributeSet
  deriving DecidableEq, Repr, Inhabited

/-- `AttributeList::getParamAttributes(i)`: the empty set past the stored ones. -/
def AttributeList.getParamAttributes (l : AttributeList) (i : Nat) : AttributeSet :=
  l.paramAttrs.getD i []

/-- Drop the empty attribute sets at the end of a list. -/
def dropTrailingEmpty : List AttributeSet → List AttributeSet
  | [] => []
  | a :: rest =>
    match dropTrailingEmpty rest with
    | [] => if a = [] then [] else [a]
    | r => a :: r

/-- `AttributeList::get(ctx, fnAttrs, retAttrs, argAttrs)`: the list is stored
    up to the last argument that has attributes. -/
def AttributeList.get (fnAttrs retAttrs : AttributeSet) (argAttrs : List AttributeSet) :
    AttributeList :=
  { fnAttrs := fnAttrs, retAttrs := retAttrs, paramAttrs := dropTrailingEmpty argAttrs }

/-- `Function::removeFnAttr(kind)`. -/
def AttributeList.removeFnAttr (l : AttributeList) (kind : Attr) : AttributeList :=
  { l with fnAttrs := l.fnAttrs.filter (fun a => a ≠ kind) }

/-- A function of the module. `props` stands for what
    `Function::copyAttributesFrom` copies besides the attribute list (calling
    convention, visibility, section, alignment, GC, personality ...). A
    function without a name has the name `""`. -/
structure Function where
  id : Nat
  name : String
  ty : FnTy
  linkage : Nat
  addrSpace : Nat
  comdat : Option String
  attrs : AttributeList
  props : Nat
  metadata : List (Nat × Nat)
  body : List Inst
  deriving DecidableEq, Repr, Inhabited

/-- `Function::getInstructionCount`. -/
def Function.getInstructionCount (f : Function) : Nat :=
  f.body.length

/-- A module: type context, function list, the names of its other global
    values (variables, aliases) and the next unused object number. -/
structure Module where
  ctx : Context
  functions : List Function
  globals : List String
  programAddrSpace : Nat
  nextId : Nat
  deriving DecidableEq, Repr, Inhabited

/-- Undefined behaviour of the C++ program, and exhaustion of the driver
    loop's step budget. -/
inductive Fault where
  | missingReturn
  | nullDeref
  | dangling
  | badGepType
  | outOfFuel
  deriving DecidableEq, Repr, Inhabited

abbrev Result (α : Type) := Except Fault α

/-! ## IR primitives -/

def Callee.mapOperands (f : Value → Value) : Callee → Callee
  | Callee.value v => Callee.value (f v)
  | c => c

/-- Apply `f` to every operand of an instruction kind. -/
def Op.mapOperands (f : Value → Value) : Op → Op
  | Op.alloca t c a => Op.alloca t (f c) a
  | Op.load p v a => Op.load (f p) v a
  | Op.store x p v a => Op.store (f x) (f p) v a
  | Op.gep t p idxs ib => Op.gep t (f p) (idxs.map f) ib
  | Op.call ft c args => Op.call ft (c.mapOperands f) (args.map f)
  | Op.other oc ops => Op.other oc (ops.map f)

def Inst.mapOperands (f : Value → Value) (i : Inst) : Inst :=
  { i with op := i.op.mapOperands f }

/-- The instruction with the given identity, if the body still holds it. -/
def findInst (body : List Inst) (id : Nat) : Option Inst :=
  body.find? (fun i => i.id = id)

/-- `Value::getType` of an operand of an instruction of `body`. -/
def typeOf (body : List Inst) : Value → Result Ty
  | Value.inst id =>
    match findInst body id with
    | some i => pure i.ty
    | none => throw Fault.dangling
  | Value.arg _ _ ty => pure ty
  | Value.constInt bits _ => pure (Ty.int bits)
  | Value.const ty _ => pure ty

/-- The redirection `old ↦ new` that `replaceAllUsesWith` applies to each
    operand. -/
def redirect (old new : Nat) (v : Value) : Value :=
  if v = Value.inst old then Value.inst new else v

/-- `Value::replaceAllUsesWith` for an instruction: every operand naming
    `old` names `new` afterwards. -/
def replaceInstUses (old new : Nat) (body : List Inst) : List Inst :=
  body.map (Inst.mapOperands (redirect old new))

/-- `Value::replaceAllUsesWith` for an argument: every use of argument `idx`
    of function `oldFn` becomes a use of `newArg`. -/
def replaceArgUses (oldFn idx : Nat) (newArg : Value) (body : List Inst) : List Inst :=
  body.map (Inst.mapOperands (fun v =>
    match v with
    | Value.arg fn i _ => if fn = oldFn ∧ i = idx then newArg else v
    | _ => v))

/-- `Instruction::insertBefore` / construction with an insertion point: put
    `new` right before the instruction `pos`. -/
def insertBefore (pos : Nat) (new : Inst) (body : List Inst) : List Inst :=
  body.flatMap (fun i => if i.id = pos then [new, i] else [i])

/-- `Instruction::eraseFromParent`. Operands that still name the instruction
    are left as they are. -/
def eraseInst (id : Nat) (body : List Inst) : List Inst :=
  body.filter (fun i => i.id ≠ id)

/-- `ReplaceInstWithInst(from, to)`: insert `to` before `from`, redirect all
    uses of `from` to `to`, erase `from`. The three-argument call of the source
    (`..., false`) is the same operation without the type assertion. -/
def replaceInstWithInst (old : Nat) (new : Inst) (body : List Inst) : List Inst :=
  eraseInst old (replaceInstUses old new.id (insertBefore old new body))

def externalLinkage : Nat := 0

def defaultProps : Nat := 0

/-- `Module::getOrInsertFunction(name, fnTy)`: a function of that name is
    handed out as it is when its type is `fnTy` and as a constant bitcast
    otherwise; another global of that name is handed out cast to `fnTy`;
    when the name is free a declaration is appended to the function list. -/
def Module.getOrInsertFunction (M : Module) (name : String) (fnTy : FnTy) : Callee × Module :=
  match M.functions.find? (fun f => f.name = name) with
  | some f => if f.ty = fnTy then (Callee.func f.id, M) else (Callee.castFunc f.id fnTy, M)
  | none =>
    if name ∈ M.globals then (Callee.castGlobal name fnTy, M)
    else
      let New : Function :=
        { id := M.nextId, name := name, ty := fnTy, linkage := externalLinkage,
          addrSpace := M.programAddrSpace, comdat := none,
          attrs := { fnAttrs := [], retAttrs := [], paramAttrs := [] },
          props := defaultProps, metadata := [], body := [] }
      (Callee.func New.id, { M with functions := M.functions ++ [New], nextId := M.nextId + 1 })

/-! ## The pass -/

/-- Is `v` the argument number `idx` of function `fn`? -/
def isArgNo (v : Value) (fn idx : Nat) : Bool :=
  match v with
  | Value.arg f i _ => decide (f = fn) && decide (i = idx)
  | _ => false

def isStoreOfArg (fn argi : Nat) (i : Inst) : Bool :=
  match i.op with
  | Op.store v _ _ _ => isArgNo v fn argi
  | _ => false

/-- Source: `getFirstArgStoreInst`. The C++ function has no `return` after
    its loops: when no instruction stores the argument, control flows off the
    end of a function that returns a pointer. -/
def getFirstArgStoreInst (fn : Nat) (body : List Inst) (argi : Nat) : Result Inst :=
  match body.find? (isStoreOfArg fn argi) with
  | some storeInst => pure storeInst
  | none => throw Fault.missingReturn

def isAlloca (i : Inst) : Bool :=
  match i.op with
  | Op.alloca _ _ _ => true
  | _ => false

/-- Source: `getFirstNonAllocaInst`; it too has no `return` after its loops. -/
def getFirstNonAllocaInst (body : List Inst) : Result Inst :=
  match body.find? (fun i => !isAlloca i) with
  | some i => pure i
  | none => throw Fault.missingReturn

/-- Source: the argument loop of `runOnModule` (lines 214-223): corrected
    parameter types, copied per-parameter attribute sets, changed indices. -/
def collectParams (struct_names : List String) (int32arg_t : Ty) (oldAttributeList : AttributeList) :
    List Ty → Nat → List Ty × List AttributeSet × List Nat
  | [], _ => ([], [], [])
  | arg_t :: rest, argi =>
    let corrected_t := correctTy arg_t struct_names int32arg_t
    let r := collectParams struct_names int32arg_t oldAttributeList rest (argi + 1)
    (corrected_t :: r.1,
     oldAttributeList.getParamAttributes argi :: r.2.1,
     if arg_t ≠ corrected_t then argi :: r.2.2 else r.2.2)

/-- Source: the loop at lines 250-255: every use of old argument `i` becomes
    a use of new argument `i`. -/
def replaceAllArgs (oldFn newFn : Nat) (params : List Ty) (body : List Inst) : List Inst :=
  (List.range params.length).foldl
    (fun b i => replaceArgUses oldFn i (Value.arg newFn i (params.getD i Ty.void)) b) body

/-- State threaded through the rewriting of one body: next unused object
    number and the instructions. -/
structure BodyState where
  nextId : Nat
  body : List Inst
  deriving DecidableEq, Repr, Inhabited

/-- Lines 270-278: the new slot, the GEP to its field and the new store
    for the old slot `oldAlloca` and old store `oldStore` of value `val`. -/
def retypeSlot (fakeptr_t int32arg_t : Ty) (st : BodyState) (oldAlloca oldStore : Nat)
    (val : Value) : BodyState :=
  let newAllocaInst : Inst :=
    { id := st.nextId, ty := Ty.ptr fakeptr_t 0,
      op := Op.alloca fakeptr_t (Value.constInt 32 1) 4 }
  let constantint := Value.constInt 32 0
  let newGetElemPtrInst : Inst :=
    { id := st.nextId + 1, ty := Ty.ptr int32arg_t 0,
      op := Op.gep fakeptr_t (Value.inst newAllocaInst.id) [constantint, constantint] true }
  let newStoreInst : Inst :=
    { id := st.nextId + 2, ty := Ty.void,
      op := Op.store val (Value.inst newGetElemPtrInst.id) false 4 }
  { nextId := st.nextId + 3,
    body := replaceInstWithInst oldStore newStoreInst
      (insertBefore oldStore newGetElemPtrInst
        (replaceInstWithInst oldAlloca newAllocaInst st.body)) }

/-- Source: one round of the prologue fixer (lines 266-281) for the changed
    argument `argi` of the new function `fn`. -/
def fixPrologueArg (fakeptr_t int32arg_t : Ty) (fn : Nat) (st : BodyState) (argi : Nat) :
    Result BodyState :=
  getFirstArgStoreInst fn st.body argi >>= fun oldStoreInst =>
    match oldStoreInst.op with
    | Op.store val (Value.inst a) _ _ =>
      match findInst st.body a with
      | none => throw Fault.dangling
      | some oldAllocaInst =>
        if isAlloca oldAllocaInst then
          pure (retypeSlot fakeptr_t int32arg_t st oldAllocaInst.id oldStoreInst.id val)
        else pure st
    | _ => pure st

/-- Source: the prologue fixer loop over `changedArgs`. -/
def fixPrologue (fakeptr_t int32arg_t : Ty) (fn : Nat) (st : BodyState) (changedArgs : List Nat) :
    Result BodyState :=
  changedArgs.foldlM (fixPrologueArg fakeptr_t int32arg_t fn) st

/-- `dyn_cast<T>(v)` for an instruction class `T` given by `isT`: the
    instruction when `v` names one of that class, null (`none`) when `v` is
    anything else, a fault when `v` names a destroyed instruction. -/
def dynCastInst (isT : Inst → Bool) (body : List Inst) (v : Value) : Result (Option Inst) :=
  match v with
  | Value.inst id =>
    match findInst body id with
    | none => throw Fault.dangling
    | some i => pure (if isT i then some i else none)
  | _ => pure none

def isGep (i : Inst) : Bool :=
  match i.op with
  | Op.gep _ _ _ _ => true
  | _ => false

def isLoad (i : Inst) : Bool :=
  match i.op with
  | Op.load _ _ _ => true
  | _ => false

def isStore (i : Inst) : Bool :=
  match i.op with
  | Op.store _ _ _ _ => true
  | _ => false

/-- `getPointerOperand` of a load, store or GEP. -/
def Inst.pointerOperand (i : Inst) : Option Value :=
  match i.op with
  | Op.load p _ _ => some p
  | Op.store _ p _ _ => some p
  | Op.gep _ p _ _ => some p
  | _ => none

/-- Lines 296-302 (and 310-316): the GEP's pointer operand is an inner load
    whose own pointer operand has the type pointer-to-handle. -/
def innerLoadReadsHandle (fakeptr_ptr_t : Ty) (body : List Inst) (gptr : Value) : Result Bool :=
  dynCastInst isLoad body gptr >>= fun prev =>
    match prev with
    | none => pure false
    | some prev_load_inst =>
      match prev_load_inst.pointerOperand with
      | none => pure false
      | some lptr => typeOf body lptr >>= fun lptr_t => pure (decide (lptr_t = fakeptr_ptr_t))

/-- Lines 295-303 (and 309-317) for a GEP with pointer operand `gptr`. -/
def gepIsAccess (struct_names : List String) (fakeptr_ptr_t : Ty) (body : List Inst)
    (gptr : Value) : Result Bool :=
  typeOf body gptr >>= fun gptr_t =>
    if isStructPtrWithName (some gptr_t) struct_names then
      innerLoadReadsHandle fakeptr_ptr_t body gptr
    else pure false

/-- Source: the test applied to the address operand of a load (lines 294-302)
    or store (lines 308-316): is it a GEP over a protected struct pointer
    that an inner load reads through a pointer-to-handle? -/
def isAccessSite (struct_names : List String) (fakeptr_ptr_t : Ty) (body : List Inst)
    (addr : Value) : Result Bool :=
  dynCastInst isGep body addr >>= fun g =>
    match g with
    | none => pure false
    | some gep_inst =>
      match gep_inst.pointerOperand with
      | none => pure false
      | some gptr => gepIsAccess struct_names fakeptr_ptr_t body gptr

/-- The two queues of the collection loop. -/
structure Queues where
  queued_loadinsts : List Nat
  queued_storeinsts : List Nat
  deriving DecidableEq, Repr, Inhabited

/-- Source: one step of the collection loop (lines 291-321). -/
def collectStep (struct_names : List String) (fakeptr_ptr_t : Ty) (body : List Inst)
    (q : Queues) (inst : Inst) : Result Queues :=
  match inst.op with
  | Op.load p _ _ =>
    isAccessSite struct_names fakeptr_ptr_t body p >>= fun b =>
      pure (if b then { q with queued_loadinsts := q.queued_loadinsts ++ [inst.id] } else q)
  | Op.store _ p _ _ =>
    isAccessSite struct_names fakeptr_ptr_t body p >>= fun b =>
      pure (if b then { q with queued_storeinsts := q.queued_storeinsts ++ [inst.id] } else q)
  | _ => pure q

/-- Source: the collection loop (lines 290-322). -/
def collectQueues (struct_names : List String) (fakeptr_ptr_t : Ty) (body : List Inst) :
    Result Queues :=
  body.foldlM (collectStep struct_names fakeptr_ptr_t body)
    { queued_loadinsts := [], queued_storeinsts := [] }

/-- `ConstantInt::getZExtValue` narrowed to `int32_t`. -/
def fieldIndexOf (bits val : Nat) : Int :=
  let z : Nat := (val % 2 ^ bits) % 2 ^ 64
  let w : Nat := z % 2 ^ 32
  if w < 2 ^ 31 then Int.ofNat w else Int.ofNat w - 2 ^ 32

/-- Operand number `getNumIndices()` of a GEP: its last index, or its pointer
    when it has no index. -/
def trailingIndex (gptr : Value) (idxs : List Value) : Value :=
  (gptr :: idxs).getD idxs.length gptr

/-- Source: lines 331-337 and 377-383: the trailing index of the GEP as a
    constant (`some k`), or `none` when it is not a `ConstantInt`. -/
def fieldIndex (body : List Inst) (gptr : Value) (idxs : List Value) : Result (Option Int) :=
  match trailingIndex gptr idxs with
  | Value.constInt bits val => pure (some (fieldIndexOf bits val))
  | Value.inst id =>
    match findInst body id with
    | none => throw Fault.dangling
    | some _ => pure none
  | _ => pure none

/-- Result type of `GetElementPtrInst::CreateInBounds(ptr, 0, 0)`. The
    handle struct has the single field `i32`; the layout of other types is not
    recorded, and the queues admit a site only when this pointer is a pointer
    to the handle. -/
def handleFieldPtrType (fakeptr_t int32arg_t : Ty) (ptr_t : Ty) : Result Ty :=
  match ptr_t with
  | Ty.ptr elem addrSpace =>
    if elem = fakeptr_t then pure (Ty.ptr int32arg_t addrSpace) else throw Fault.badGepType
  | _ => throw Fault.badGepType

/-- `eraseFromParent` on an instruction that must still exist. -/
def eraseLive (id : Nat) (body : List Inst) : Result (List Inst) :=
  match findInst body id with
  | none => throw Fault.dangling
  | some _ => pure (eraseInst id body)

/-- What the two rewrite loops differ in: a field read, or a field write of
    the stored value. -/
inductive Access where
  | read
  | write (val : Value)
  deriving DecidableEq, Repr, Inhabited

/-- Lines 348 and 394. -/
def accessorName (field_index : Int) (struct_name : String) : Access → String
  | Access.read => "get_field_" ++ toString field_index ++ "_in_" ++ struct_name ++ "_ffi"
  | Access.write _ => "set_field_" ++ toString field_index ++ "_in_" ++ struct_name ++ "_ffi"

/-- The function type handed to `getOrInsertFunction` (lines 350 and 396). -/
def accessorType (int32arg_t : Ty) (body : List Inst) (site : Inst) : Access → Result FnTy
  | Access.read => pure { ret := site.ty, params := [int32arg_t], varArg := false }
  | Access.write val =>
    typeOf body val >>= fun val_t =>
      pure { ret := Ty.void, params := [int32arg_t, val_t], varArg := false }

/-- The argument vector of the call (lines 356 and 402). -/
def accessorArgs (new_load_inst : Inst) : Access → List Value
  | Access.read => [Value.inst new_load_inst.id]
  | Access.write val => [Value.inst new_load_inst.id, val]

/-- Lines 327-338 and 372-384: the GEP and inner load of the site, the field
    index, the struct name. -/
structure Site where
  gep_inst : Inst
  prev_load_inst : Option Inst
  field_index : Option Int
  struct_name : String
  deriving DecidableEq, Repr, Inhabited

def resolveSite (body : List Inst) (addr : Value) : Result Site :=
  dynCastInst isGep body addr >>= fun g =>
    match g with
    | none => throw Fault.nullDeref
    | some gep_inst =>
      match gep_inst.op with
      | Op.gep _ gptr idxs _ =>
        dynCastInst isLoad body gptr >>= fun prev_load_inst =>
        fieldIndex body gptr idxs >>= fun field_index =>
        typeOf body gptr >>= fun gptr_t =>
          pure { gep_inst := gep_inst, prev_load_inst := prev_load_inst,
                 field_index := field_index,
                 struct_name := getStrippedStructName (some gptr_t) }
      | _ => throw Fault.nullDeref

/-- State threaded through the two rewrite loops: the module (for the
    accessor declarations and the object numbers) and the body of the new
    function. -/
structure RewriteState where
  M : Module
  body : List Inst
  deriving DecidableEq, Repr, Inhabited

/-- The inner load of a site with the new GEP and the new 32-bit load of the
    handle. -/
structure HandleLoad where
  prev_load_inst : Inst
  new_gep_inst : Inst
  new_load_inst : Inst
  deriving DecidableEq, Repr, Inhabited

/-- Lines 341-345 and 387-391: create the new GEP and the new load, numbered
    `n` and `n + 1`. -/
def newHandleLoad (fakeptr_t int32arg_t : Ty) (body : List Inst) (prev_load_inst : Option Inst)
    (n : Nat) : Result HandleLoad :=
  match prev_load_inst with
  | none => throw Fault.nullDeref
  | some l =>
    match l.pointerOperand with
    | none => throw Fault.nullDeref
    | some lptr =>
      typeOf body lptr >>= fun lptr_t =>
      handleFieldPtrType fakeptr_t int32arg_t lptr_t >>= fun gep_t =>
        pure { prev_load_inst := l,
               new_gep_inst :=
                 { id := n, ty := gep_t,
                   op := Op.gep fakeptr_t lptr [Value.constInt 32 0, Value.constInt 32 0] true },
               new_load_inst :=
                 { id := n + 1, ty := int32arg_t, op := Op.load (Value.inst n) false 0 } }

/-- Lines 360-365 and 406-411: replace the access by the call, put the new
    load and GEP before it, erase the old GEP and inner load. The new load
    and GEP exist, not yet inserted, when `ReplaceInstWithInst` redirects the
    uses of the access, so the redirection reaches their operands too. -/
def commitSite (site gep_inst prev_load_inst : Nat) (new_gep_inst new_load_inst call : Inst)
    (body : List Inst) : Result (List Inst) :=
  eraseLive gep_inst
      (insertBefore new_load_inst.id (new_gep_inst.mapOperands (redirect site call.id))
        (insertBefore call.id (new_load_inst.mapOperands (redirect site call.id))
          (replaceInstWithInst site call body))) >>=
    fun b => eraseLive prev_load_inst b

/-- Source: the body of both rewrite loops (lines 327-365 and 372-411) for
    the queued instruction `site` with address operand `addr`. -/
def rewriteSite (fakeptr_t int32arg_t : Ty) (st : RewriteState) (site : Inst) (addr : Value)
    (acc : Access) : Result RewriteState :=
  resolveSite st.body addr >>= fun s =>
    match s.field_index with
    | none => pure st
    | some field_index =>
      newHandleLoad fakeptr_t int32arg_t st.body s.prev_load_inst st.M.nextId >>= fun h =>
      accessorType int32arg_t st.body site acc >>= fun fnTy =>
      commitSite site.id s.gep_inst.id h.prev_load_inst.id h.new_gep_inst h.new_load_inst
          { id := st.M.nextId + 2, ty := fnTy.ret,
            op := Op.call fnTy
              (({ st.M with nextId := st.M.nextId + 3 } : Module).getOrInsertFunction
                (accessorName field_index s.struct_name acc) fnTy).1
              (accessorArgs h.new_load_inst acc) }
          st.body >>= fun body =>
        pure { M := (({ st.M with nextId := st.M.nextId + 3 } : Module).getOrInsertFunction
                      (accessorName field_index s.struct_name acc) fnTy).2,
               body := body }

/-- Source: one round of the loop over `queued_loadinsts` (lines 326-367). -/
def rewriteLoad (fakeptr_t int32arg_t : Ty) (st : RewriteState) (load_id : Nat) :
    Result RewriteState :=
  match findInst st.body load_id with
  | none => throw Fault.dangling
  | some load_inst =>
    match load_inst.op with
    | Op.load addr _ _ => rewriteSite fakeptr_t int32arg_t st load_inst addr Access.read
    | _ => throw Fault.dangling

/-- Source: one round of the loop over `queued_storeinsts` (lines 371-413). -/
def rewriteStore (fakeptr_t int32arg_t : Ty) (st : RewriteState) (store_id : Nat) :
    Result RewriteState :=
  match findInst st.body store_id with
  | none => throw Fault.dangling
  | some store_inst =>
    match store_inst.op with
    | Op.store val addr _ _ =>
      rewriteSite fakeptr_t int32arg_t st store_inst addr (Access.write val)
    | _ => throw Fault.dangling

/-- The protected set of the reference implementation (lines 191-192). -/
def struct_names : List String := [makeRealStructName "MyStruct"]

/-- Source: the part of the loop body of `runOnModule` after the signature
    test (lines 264-413) that works on the moved body: prologue fixer, first
    non-alloca instruction, collection, the two rewrite loops. -/
def rewriteBody (fakeptr_t int32arg_t : Ty) (M : Module) (newFn : Nat) (changedArgs : List Nat)
    (body : List Inst) : Result RewriteState :=
  fixPrologue fakeptr_t int32arg_t newFn { nextId := M.nextId, body := body } changedArgs >>=
  fun st =>
    getFirstNonAllocaInst st.body >>= fun _ =>
    collectQueues struct_names (Ty.ptr fakeptr_t 0) st.body >>= fun q =>
    q.queued_loadinsts.foldlM (rewriteLoad fakeptr_t int32arg_t)
        { M := { M with nextId := st.nextId }, body := st.body } >>= fun st1 =>
      q.queued_storeinsts.foldlM (rewriteStore fakeptr_t int32arg_t) st1

/-- Source: one round of the driver loop of `runOnModule` (lines 201-438) for
    the function `oldFun` found at position `pos` of the function list. The
    result is the value this round gives to `isChanged` and the module. -/
def visitFunction (fakeptr_t : Ty) (M : Module) (pos : Nat) (oldFun : Function) :
    Result (Bool × Module) :=
  if oldFun.getInstructionCount = 0 then pure (false, M)
  else
    let int32arg_t := Ty.int 32
    let oldFunTy := oldFun.ty
    let oldAttributeList := oldFun.attrs
    let r := collectParams struct_names int32arg_t oldAttributeList oldFunTy.params 0
    let params := r.1
    let newParamAttributes := r.2.1
    let changedArgs := r.2.2
    let newRetTy := oldFunTy.ret
    let newFunTy : FnTy := { ret := newRetTy, params := params, varArg := oldFunTy.varArg }
    if newFunTy = oldFunTy then pure (false, M)
    else
      let newFun : Function :=
        { id := M.nextId, name := oldFun.name, ty := newFunTy, linkage := oldFun.linkage,
          addrSpace := oldFun.addrSpace, comdat := oldFun.comdat,
          attrs := AttributeList.get oldAttributeList.fnAttrs oldAttributeList.retAttrs
            newParamAttributes,
          props := oldFun.props, metadata := oldFun.metadata, body := [] }
      let emptied : Function := { oldFun with name := "", body := [] }
      let M1 : Module :=
        { M with functions := M.functions.take pos ++ newFun :: emptied :: M.functions.drop (pos + 1),
                 nextId := M.nextId + 1 }
      let body := replaceAllArgs oldFun.id newFun.id params oldFun.body
      rewriteBody fakeptr_t int32arg_t M1 newFun.id changedArgs body >>= fun st =>
        pure (true,
          { st.M with functions :=
              st.M.functions.take pos ++
                { newFun with body := st.body,
                              attrs := newFun.attrs.removeFnAttr Attr.optimizeNone } ::
                st.M.functions.drop (pos + 2) })

/-- State of the driver loop: the flag, the module and the cursor `f` as a
    position in the function list. -/
structure DriverState where
  isChanged : Bool
  M : Module
  pos : Nat
  deriving DecidableEq, Repr, Inhabited

/-- Source: the driver loop of `runOnModule` (lines 200-439), run for at most
    the given number of rounds. Each round reads the function under the
    cursor, advances the cursor and visits the function; the loop stops when
    the cursor is at the end of the list. A rewritten function leaves its
    replacement at `pos` and nothing at `pos + 1`, so the advanced cursor is
    `pos + 1` in every case. -/
def driverRounds (fakeptr_t : Ty) : Nat → DriverState → Result DriverState
  | 0, s => pure s
  | n + 1, s =>
    match s.M.functions.get? s.pos with
    | none => pure s
    | some oldFun =>
      visitFunction fakeptr_t s.M s.pos oldFun >>= fun r =>
        driverRounds fakeptr_t n { isChanged := s.isChanged || r.1, M := r.2, pos := s.pos + 1 }

/-- Source: `FakePtrPass::runOnModule`. The driver loop is given one round
    for every function present at the start and then one round for every
    function that is behind the cursor after those; `Fault.outOfFuel` reports
    a cursor that has still not reached the end of the list. -/
def runOnModule (M : Module) : Result (Bool × Module) :=
  let r := getFakePtrType M.ctx
  let fakeptr_t := r.1
  driverRounds fakeptr_t M.functions.length
      { isChanged := false, M := { M with ctx := r.2 }, pos := 0 } >>= fun a =>
    driverRounds fakeptr_t (a.M.functions.length - a.pos) a >>= fun b =>
      if b.pos < b.M.functions.length then throw Fault.outOfFuel
      else pure (b.isChanged, b.M)

/-! ## Predicates used to state the properties -/

/-- A pointer to a struct of the protected set. -/
def isProtectedPtr (t : Ty) : Bool :=
  isStructPtrWithName (some t) struct_names

/-- Some parameter of the function is a pointer to a protected struct. -/
def Function.hasProtectedParam (f : Function) : Bool :=
  f.ty.params.any isProtectedPtr

/-- `M'` is `M` with declarations appended to the function list. -/
def Appended (M M' : Module) : Prop :=
  ∃ decls, M'.functions = M.functions ++ decls ∧ (∀ d ∈ decls, d.body = []) ∧
    M'.ctx = M.ctx ∧ M'.globals = M.globals ∧ M'.programAddrSpace = M.programAddrSpace

/-- The signature `runOnModule` gives to the replacement of a function of
    type `ty`. -/
def newSignature (ty : FnTy) : FnTy :=
  { ret := ty.ret,
    params := ty.params.map (fun t => correctTy t struct_names (Ty.int 32)),
    varArg := ty.varArg }

/-- The function that a rewriting round leaves in place of `oldFun`, as a
    function of its number and its final body. -/
def replacementOf (oldFun : Function) (newId : Nat) (body : List Inst) : Function :=
  { id := newId, name := oldFun.name, ty := newSignature oldFun.ty,
    linkage := oldFun.linkage, addrSpace := oldFun.addrSpace, comdat := oldFun.comdat,
    attrs := (AttributeList.get oldFun.attrs.fnAttrs oldFun.attrs.retAttrs
      (collectParams struct_names (Ty.int 32) oldFun.attrs oldFun.ty.params 0).2.1).removeFnAttr
        Attr.optimizeNone,
    props := oldFun.props, metadata := oldFun.metadata, body := body }

/-- The functions `runOnModule` rewrites: defined (at least one instruction)
    and with a protected pointer among the parameters. -/
def Function.needsRewrite (f : Function) : Bool :=
  decide (f.getInstructionCount ≠ 0) && f.hasProtectedParam

/-! ## Example modules -/

def myStructPtr : Ty := Ty.ptr (Ty.struct "struct.MyStruct") 0

/-- Scenario 6 of the specification: `define i32 @f(%struct.MyStruct* %p, i32 %n)`
    storing both parameters to stack slots and returning `%n`. -/
def mixedFunction : Function :=
  { id := 100, name := "f",
    ty := { ret := Ty.int 32, params := [myStructPtr, Ty.int 32], varArg := false },
    linkage := 0, addrSpace := 0, comdat := none,
    attrs := { fnAttrs := [Attr.optimizeNone], retAttrs := [],
               paramAttrs := [[Attr.other 1], [Attr.other 2]] },
    props := 0, metadata := [],
    body := [
      { id := 1, ty := Ty.ptr myStructPtr 0, op := Op.alloca myStructPtr (Value.constInt 32 1) 8 },
      { id := 2, ty := Ty.ptr (Ty.int 32) 0, op := Op.alloca (Ty.int 32) (Value.constInt 32 1) 4 },
      { id := 3, ty := Ty.void,
        op := Op.store (Value.arg 100 0 myStructPtr) (Value.inst 1) false 8 },
      { id := 4, ty := Ty.void,
        op := Op.store (Value.arg 100 1 (Ty.int 32)) (Value.inst 2) false 4 },
      { id := 5, ty := Ty.int 32, op := Op.load (Value.inst 2) false 4 },
      { id := 6, ty := Ty.void, op := Op.other 1 [Value.inst 5] } ] }

def mixedModule : Module :=
  { ctx := { structNames := ["struct.MyStruct"], uniqueId := 0 }, functions := [mixedFunction],
    globals := [], programAddrSpace := 0, nextId := 200 }

/-- The function `runOnModule` leaves in place of `mixedFunction`. -/
def mixedRewritten : Function :=
  { id := 200, name := "f",
    ty := { ret := Ty.int 32, params := [Ty.int 32, Ty.int 32], varArg := false },
    linkage := 0, addrSpace := 0, comdat := none,
    attrs := { fnAttrs := [], retAttrs := [], paramAttrs := [[Attr.other 1], [Attr.other 2]] },
    props := 0, metadata := [],
    body := [
      { id := 201, ty := Ty.ptr (Ty.struct "FakePtr") 0,
        op := Op.alloca (Ty.struct "FakePtr") (Value.constInt 32 1) 4 },
      { id := 2, ty := Ty.ptr (Ty.int 32) 0, op := Op.alloca (Ty.int 32) (Value.constInt 32 1) 4 },
      { id := 202, ty := Ty.ptr (Ty.int 32) 0,
        op := Op.gep (Ty.struct "FakePtr") (Value.inst 201)
          [Value.constInt 32 0, Value.constInt 32 0] true },
      { id := 203, ty := Ty.void,
        op := Op.store (Value.arg 200 0 (Ty.int 32)) (Value.inst 202) false 4 },
      { id := 4, ty := Ty.void,
        op := Op.store (Value.arg 200 1 (Ty.int 32)) (Value.inst 2) false 4 },
      { id := 5, ty := Ty.int 32, op := Op.load (Value.inst 2) false 4 },
      { id := 6, ty := Ty.void, op := Op.other 1 [Value.inst 5] } ] }

def mixedResult : Module :=
  { ctx := { structNames := ["FakePtr", "struct.MyStruct"], uniqueId := 0 },
    functions := [mixedRewritten], globals := [], programAddrSpace := 0, nextId := 204 }

/-! ## The claims as the specification states them -/

/-- C1 as stated, for a function `F` of the input and a function `G` of the
    output: same name, return type, parameter count and varargs flag, and
    parameter `i` of `G` is `i32` exactly when parameter `i` of `F` is a
    protected pointer. -/
def RetypedExactly (F G : Function) : Prop :=
  G.name = F.name ∧ G.ty.ret = F.ty.ret ∧ G.ty.params.length = F.ty.params.length ∧
  G.ty.varArg = F.ty.varArg ∧
  ∀ i, i < F.ty.params.length →
    (G.ty.params[i]? = some (Ty.int 32) ↔ (F.ty.params[i]?).any isProtectedPtr = true)

instance (F G : Function) : Decidable (RetypedExactly F G) := by
  unfold RetypedExactly; infer_instance

/-- `define i32 @g(i32 %n)` returning `%n`: no protected parameter. -/
def plainFunction : Function :=
  { id := 101, name := "g",
    ty := { ret := Ty.int 32, params := [Ty.int 32], varArg := false },
    linkage := 0, addrSpace := 0, comdat := none,
    attrs := { fnAttrs := [Attr.optimizeNone], retAttrs := [], paramAttrs := [] },
    props := 0, metadata := [],
    body := [ { id := 11, ty := Ty.void, op := Op.other 1 [Value.arg 101 0 (Ty.int 32)] } ] }

/-- Scenario 2 of the specification: `declare i32 @h(%struct.MyStruct*)`. -/
def declaredFunction : Function :=
  { id := 102, name := "h",
    ty := { ret := Ty.int 32, params := [myStructPtr], varArg := false },
    linkage := 0, addrSpace := 0, comdat := none,
    attrs := { fnAttrs := [], retAttrs := [], paramAttrs := [] },
    props := 0, metadata := [], body := [] }

/-- `f`, `g` and the declaration `h` in one module. -/
def pairModule : Module :=
  { ctx := { structNames := ["struct.MyStruct"], uniqueId := 0 },
    functions := [mixedFunction, plainFunction, declaredFunction],
    globals := [], programAddrSpace := 0, nextId := 200 }

def pairResult : Module :=
  { ctx := { structNames := ["FakePtr", "struct.MyStruct"], uniqueId := 0 },
    functions := [mixedRewritten, plainFunction, declaredFunction],
    globals := [], programAddrSpace := 0, nextId := 204 }

/-- Scenario 1 of the specification: a module without functions. -/
def emptyModule : Module :=
  { ctx := { structNames := [], uniqueId := 0 }, functions := [],
    globals := [], programAddrSpace := 0, nextId := 0 }

/-- Scenario 2 of the specification: a module whose only function is the
    declaration `h`. -/
def declarationModule : Module :=
  { ctx := { structNames := ["struct.MyStruct"], uniqueId := 0 },
    functions := [declaredFunction], globals := [], programAddrSpace := 0, nextId := 200 }

/-- `define i32 @at(%struct.MyStruct* %p, i64 %n)` reading field 0 of `p[n]`
    through one GEP with the indices `%n, 0`. -/
def indexedFunction : Function :=
  { id := 100, name := "at",
    ty := { ret := Ty.int 32, params := [myStructPtr, Ty.int 64], varArg := false },
    linkage := 0, addrSpace := 0, comdat := none,
    attrs := { fnAttrs := [], retAttrs := [], paramAttrs := [] },
    props := 0, metadata := [],
    body := [
      { id := 1, ty := Ty.ptr myStructPtr 0, op := Op.alloca myStructPtr (Value.constInt 32 1) 8 },
      { id := 2, ty := Ty.void,
        op := Op.store (Value.arg 100 0 myStructPtr) (Value.inst 1) false 8 },
      { id := 3, ty := myStructPtr, op := Op.load (Value.inst 1) false 8 },
      { id := 4, ty := Ty.ptr (Ty.int 32) 0,
        op := Op.gep (Ty.struct "struct.MyStruct") (Value.inst 3)
          [Value.arg 100 1 (Ty.int 64), Value.constInt 32 0] true },
      { id := 5, ty := Ty.int 32, op := Op.load (Value.inst 4) false 4 },
      { id := 6, ty := Ty.void, op := Op.other 1 [Value.inst 5] } ] }

def indexedModule : Module :=
  { ctx := { structNames := ["struct.MyStruct"], uniqueId := 0 }, functions := [indexedFunction],
    globals := [], programAddrSpace := 0, nextId := 200 }

/-- The declaration `getOrInsertFunction` makes for the getter of field 0. -/
def getField0Decl (id : Nat) : Function :=
  { id := id, name := "get_field_0_in_MyStruct_ffi",
    ty := { ret := Ty.int 32, params := [Ty.int 32], varArg := false },
    linkage := 0, addrSpace := 0, comdat := none,
    attrs := { fnAttrs := [], retAttrs := [], paramAttrs := [] },
    props := 0, metadata := [], body := [] }

def indexedRewritten : Function :=
  { id := 200, name := "at",
    ty := { ret := Ty.int 32, params := [Ty.int 32, Ty.int 64], varArg := false },
    linkage := 0, addrSpace := 0, comdat := none,
    attrs := { fnAttrs := [], retAttrs := [], paramAttrs := [] },
    props := 0, metadata := [],
    body := [
      { id := 201, ty := Ty.ptr (Ty.struct "FakePtr") 0,
        op := Op.alloca (Ty.struct "FakePtr") (Value.constInt 32 1) 4 },
      { id := 202, ty := Ty.ptr (Ty.int 32) 0,
        op := Op.gep (Ty.struct "FakePtr") (Value.inst 201)
          [Value.constInt 32 0, Value.constInt 32 0] true },
      { id := 203, ty := Ty.void,
        op := Op.store (Value.arg 200 0 (Ty.int 32)) (Value.inst 202) false 4 },
      { id := 204, ty := Ty.ptr (Ty.int 32) 0,
        op := Op.gep (Ty.struct "FakePtr") (Value.inst 201)
          [Value.constInt 32 0, Value.constInt 32 0] true },
      { id := 205, ty := Ty.int 32, op := Op.load (Value.inst 204) false 0 },
      { id := 206, ty := Ty.int 32,
        op := Op.call { ret := Ty.int 32, params := [Ty.int 32], varArg := false }
          (Callee.func 207) [Value.inst 205] },
      { id := 6, ty := Ty.void, op := Op.other 1 [Value.inst 206] } ] }

def indexedResult : Module :=
  { ctx := { structNames := ["FakePtr", "struct.MyStruct"], uniqueId := 0 },
    functions := [indexedRewritten, getField0Decl 207],
    globals := [], programAddrSpace := 0, nextId := 208 }

def Callee.operands : Callee → List Value
  | Callee.value v => [v]
  | _ => []

/-- The operands of an instruction kind. -/
def Op.operands : Op → List Value
  | Op.alloca _ c _ => [c]
  | Op.load p _ _ => [p]
  | Op.store x p _ _ => [x, p]
  | Op.gep _ p idxs _ => p :: idxs
  | Op.call _ c args => c.operands ++ args
  | Op.other _ ops => ops

/-- The identities of the instructions of a body, in order. -/
def ids (body : List Inst) : List Nat :=
  body.map (fun i => i.id)

/-- An operand that names an instruction names one numbered below `n`. -/
def Value.below (n : Nat) : Value → Prop
  | Value.inst x => x < n
  | _ => True

instance (n : Nat) (v : Value) : Decidable (v.below n) := by
  unfold Value.below
  split <;> infer_instance

/-- Well-formedness of a body with respect to the counter of unused object
    numbers: distinct instructions have distinct identities, and no identity
    and no operand is an unused number. -/
def BodyWF (nextId : Nat) (body : List Inst) : Prop :=
  (ids body).Nodup ∧ (∀ i ∈ body, i.id < nextId) ∧
    ∀ i ∈ body, ∀ v ∈ i.op.operands, v.below nextId

instance (n : Nat) (body : List Inst) : Decidable (BodyWF n body) := by
  unfold BodyWF; infer_instance

/-- Number of uses, in `body`, of argument `idx` of function `fn`. -/
def argUseCount (fn idx : Nat) (body : List Inst) : Nat :=
  (body.flatMap (fun i => i.op.operands)).countP (fun v => isArgNo v fn idx)

/-- The simultaneous replacement of the first `n` arguments of `oldFn` by the
    arguments of `newFn` with the types `params`. -/
def argSubst (oldFn newFn : Nat) (params : List Ty) (n : Nat) (v : Value) : Value :=
  match v with
  | Value.arg fn idx _ =>
    if fn = oldFn ∧ idx < n then Value.arg newFn idx (params.getD idx Ty.void) else v
  | _ => v


/-- The GEP `getelementptr inbounds %FakePtr, slot, i32 0, i32 0` numbered `n`
    that reads the integer field of a handle slot. -/
def handleGep (fakeptr_t : Ty) (n addrSpace : Nat) (slot : Value) : Inst :=
  { id := n, ty := Ty.ptr (Ty.int 32) addrSpace,
    op := Op.gep fakeptr_t slot [Value.constInt 32 0, Value.constInt 32 0] true }

/-- The 32-bit load, numbered `n + 1`, from the GEP numbered `n`. -/
def handleLoad (n : Nat) : Inst :=
  { id := n + 1, ty := Ty.int 32, op := Op.load (Value.inst n) false 0 }

/-- The body after the rewrite of the access `I` between `pre` and `post`:
    the new GEP, the new load and the call stand where `I` stood, every use of
    `I` is a use of the call, the old GEP `g` and the inner load `l` are gone. -/
def siteRewritten (pre post : List Inst) (I : Inst) (g l : Nat) (newGep newLoad call : Inst) :
    List Inst :=
  eraseInst l (eraseInst g
    (pre.map (Inst.mapOperands (redirect I.id call.id)) ++
      [newGep.mapOperands (redirect I.id call.id), newLoad,
        call.mapOperands (redirect I.id call.id)] ++
      post.map (Inst.mapOperands (redirect I.id call.id))))

/-- The call to the accessor `callee` of type `fnTy`, numbered `n + 2`, whose
    first argument is the new load numbered `n + 1`. -/
def accessorCall (n : Nat) (fnTy : FnTy) (callee : Callee) (acc : Access) : Inst :=
  { id := n + 2, ty := fnTy.ret,
    op := Op.call fnTy callee (accessorArgs (handleLoad n) acc) }

/-- The callee is the global value called `name` of module `M` (directly or
    through a constant bitcast). -/
def Callee.denotes (M : Module) (name : String) : Callee → Prop
  | Callee.func id => ∃ f ∈ M.functions, f.id = id ∧ f.name = name
  | Callee.castFunc id _ => ∃ f ∈ M.functions, f.id = id ∧ f.name = name
  | Callee.castGlobal nm _ => nm = name ∧ name ∈ M.globals
  | Callee.value _ => False

/-- Scenario 3 of the specification: `define i32 @read_x(%struct.MyStruct* %p)`
    that stores `%p` to a slot, loads it back, takes the address of field 0,
    loads an `i32` and returns it. -/
def readXFunction : Function :=
  { id := 100, name := "read_x",
    ty := { ret := Ty.int 32, params := [myStructPtr], varArg := false },
    linkage := 0, addrSpace := 0, comdat := none,
    attrs := { fnAttrs := [Attr.optimizeNone], retAttrs := [], paramAttrs := [] },
    props := 0, metadata := [],
    body := [
      { id := 1, ty := Ty.ptr myStructPtr 0, op := Op.alloca myStructPtr (Value.constInt 32 1) 8 },
      { id := 2, ty := Ty.void,
        op := Op.store (Value.arg 100 0 myStructPtr) (Value.inst 1) false 8 },
      { id := 3, ty := myStructPtr, op := Op.load (Value.inst 1) false 8 },
      { id := 4, ty := Ty.ptr (Ty.int 32) 0,
        op := Op.gep (Ty.struct "struct.MyStruct") (Value.inst 3)
          [Value.constInt 32 0, Value.constInt 32 0] true },
      { id := 5, ty := Ty.int 32, op := Op.load (Value.inst 4) false 4 },
      { id := 6, ty := Ty.void, op := Op.other 1 [Value.inst 5] } ] }

def readXModule : Module :=
  { ctx := { structNames := ["struct.MyStruct"], uniqueId := 0 }, functions := [readXFunction],
    globals := [], programAddrSpace := 0, nextId := 200 }

/-- The prologue of a rewritten function: the handle slot, the GEP to its
    field and the store of the new first argument of function `fn`. -/
def handlePrologue (fn : Nat) : List Inst :=
  [ { id := 201, ty := Ty.ptr (Ty.struct "FakePtr") 0,
      op := Op.alloca (Ty.struct "FakePtr") (Value.constInt 32 1) 4 },
    { id := 202, ty := Ty.ptr (Ty.int 32) 0,
      op := Op.gep (Ty.struct "FakePtr") (Value.inst 201)
        [Value.constInt 32 0, Value.constInt 32 0] true },
    { id := 203, ty := Ty.void,
      op := Op.store (Value.arg fn 0 (Ty.int 32)) (Value.inst 202) false 4 } ]

/-- The state of the rewrite loops of `read_x` when the loop over the queued
    loads starts: the prologue is fixed, the load numbered 5 is queued. -/
def readXState : RewriteState :=
  { M := { ctx := { structNames := ["FakePtr", "struct.MyStruct"], uniqueId := 0 },
           functions := [
             { id := 200, name := "read_x",
               ty := { ret := Ty.int 32, params := [Ty.int 32], varArg := false },
               linkage := 0, addrSpace := 0, comdat := none,
               attrs := { fnAttrs := [Attr.optimizeNone], retAttrs := [], paramAttrs := [] },
               props := 0, metadata := [], body := [] },
             { readXFunction with name := "", body := [] } ],
           globals := [], programAddrSpace := 0, nextId := 204 },
    body := handlePrologue 200 ++ [
      { id := 3, ty := myStructPtr, op := Op.load (Value.inst 201) false 8 },
      { id := 4, ty := Ty.ptr (Ty.int 32) 0,
        op := Op.gep (Ty.struct "struct.MyStruct") (Value.inst 3)
          [Value.constInt 32 0, Value.constInt 32 0] true },
      { id := 5, ty := Ty.int 32, op := Op.load (Value.inst 4) false 4 },
      { id := 6, ty := Ty.void, op := Op.other 1 [Value.inst 5] } ] }

def readXRewritten : Function :=
  { id := 200, name := "read_x",
    ty := { ret := Ty.int 32, params := [Ty.int 32], varArg := false },
    linkage := 0, addrSpace := 0, comdat := none,
    attrs := { fnAttrs := [], retAttrs := [], paramAttrs := [] },
    props := 0, metadata := [],
    body := handlePrologue 200 ++ [
      handleGep (Ty.struct "FakePtr") 204 0 (Value.inst 201),
      handleLoad 204,
      { id := 206, ty := Ty.int 32,
        op := Op.call { ret := Ty.int 32, params := [Ty.int 32], varArg := false }
          (Callee.func 207) [Value.inst 205] },
      { id := 6, ty := Ty.void, op := Op.other 1 [Value.inst 206] } ] }

def readXResult : Module :=
  { ctx := { structNames := ["FakePtr", "struct.MyStruct"], uniqueId := 0 },
    functions := [readXRewritten, getField0Decl 207],
    globals := [], programAddrSpace := 0, nextId := 208 }

def isCall (i : Inst) : Bool :=
  match i.op with
  | Op.call _ _ _ => true
  | _ => false

/-- The inner load, the GEP and the field read of `read_x` (after the
    prologue fixer has retyped the slot). -/
def readXInner : Inst :=
  { id := 3, ty := myStructPtr, op := Op.load (Value.inst 201) false 8 }

def readXGep : Inst :=
  { id := 4, ty := Ty.ptr (Ty.int 32) 0,
    op := Op.gep (Ty.struct "struct.MyStruct") (Value.inst 3)
      [Value.constInt 32 0, Value.constInt 32 0] true }

def readXLoad : Inst :=
  { id := 5, ty := Ty.int 32, op := Op.load (Value.inst 4) false 4 }

/-- Scenario 4 of the specification: `define void @write_y(%struct.MyStruct* %p, i1 %v)`
    that writes `%v` into field 1 of `%p`. -/
def writeYFunction : Function :=
  { id := 100, name := "write_y",
    ty := { ret := Ty.void, params := [myStructPtr, Ty.int 1], varArg := false },
    linkage := 0, addrSpace := 0, comdat := none,
    attrs := { fnAttrs := [Attr.optimizeNone], retAttrs := [], paramAttrs := [] },
    props := 0, metadata := [],
    body := [
      { id := 1, ty := Ty.ptr myStructPtr 0, op := Op.alloca myStructPtr (Value.constInt 32 1) 8 },
      { id := 2, ty := Ty.void,
        op := Op.store (Value.arg 100 0 myStructPtr) (Value.inst 1) false 8 },
      { id := 3, ty := myStructPtr, op := Op.load (Value.inst 1) false 8 },
      { id := 4, ty := Ty.ptr (Ty.int 1) 0,
        op := Op.gep (Ty.struct "struct.MyStruct") (Value.inst 3)
          [Value.constInt 32 0, Value.constInt 32 1] true },
      { id := 5, ty := Ty.void,
        op := Op.store (Value.arg 100 1 (Ty.int 1)) (Value.inst 4) false 1 },
      { id := 6, ty := Ty.void, op := Op.other 1 [] } ] }

def writeYModule : Module :=
  { ctx := { structNames := ["struct.MyStruct"], uniqueId := 0 }, functions := [writeYFunction],
    globals := [], programAddrSpace := 0, nextId := 200 }

def writeYGep : Inst :=
  { id := 4, ty := Ty.ptr (Ty.int 1) 0,
    op := Op.gep (Ty.struct "struct.MyStruct") (Value.inst 3)
      [Value.constInt 32 0, Value.constInt 32 1] true }

def writeYStore : Inst :=
  { id := 5, ty := Ty.void, op := Op.store (Value.arg 200 1 (Ty.int 1)) (Value.inst 4) false 1 }

/-- The state of the rewrite loops of `write_y` when the loop over the queued
    stores starts. -/
def writeYState : RewriteState :=
  { M := { ctx := { structNames := ["FakePtr", "struct.MyStruct"], uniqueId := 0 },
           functions := [
             { id := 200, name := "write_y",
               ty := { ret := Ty.void, params := [Ty.int 32, Ty.int 1], varArg := false },
               linkage := 0, addrSpace := 0, comdat := none,
               attrs := { fnAttrs := [Attr.optimizeNone], retAttrs := [], paramAttrs := [] },
               props := 0, metadata := [], body := [] },
             { writeYFunction with name := "", body := [] } ],
           globals := [], programAddrSpace := 0, nextId := 204 },
    body := (handlePrologue 200 ++ [readXInner, writeYGep]) ++ writeYStore ::
      [{ id := 6, ty := Ty.void, op := Op.other 1 [] }] }

/-- The declaration `getOrInsertFunction` makes for the setter of field 1. -/
def setField1Decl (id : Nat) : Function :=
  { id := id, name := "set_field_1_in_MyStruct_ffi",
    ty := { ret := Ty.void, params := [Ty.int 32, Ty.int 1], varArg := false },
    linkage := 0, addrSpace := 0, comdat := none,
    attrs := { fnAttrs := [], retAttrs := [], paramAttrs := [] },
    props := 0, metadata := [], body := [] }

def writeYRewritten : Function :=
  { id := 200, name := "write_y",
    ty := { ret := Ty.void, params := [Ty.int 32, Ty.int 1], varArg := false },
    linkage := 0, addrSpace := 0, comdat := none,
    attrs := { fnAttrs := [], retAttrs := [], paramAttrs := [] },
    props := 0, metadata := [],
    body := handlePrologue 200 ++ [
      handleGep (Ty.struct "FakePtr") 204 0 (Value.inst 201),
      handleLoad 204,
      { id := 206, ty := Ty.void,
        op := Op.call { ret := Ty.void, params := [Ty.int 32, Ty.int 1], varArg := false }
          (Callee.func 207) [Value.inst 205, Value.arg 200 1 (Ty.int 1)] },
      { id := 6, ty := Ty.void, op := Op.other 1 [] } ] }

def writeYResult : Module :=
  { ctx := { structNames := ["FakePtr", "struct.MyStruct"], uniqueId := 0 },
    functions := [writeYRewritten, setField1Decl 207],
    globals := [], programAddrSpace := 0, nextId := 208 }

/-- The global value a callee stands for: a function (by number) or another
    global (by name). -/
def Callee.target : Callee → Option (Nat ⊕ String)
  | Callee.func id => some (Sum.inl id)
  | Callee.castFunc id _ => some (Sum.inl id)
  | Callee.castGlobal name _ => some (Sum.inr name)
  | Callee.value _ => none

/-- The declaration `getOrInsertFunction` appends for a free name. -/
def newDeclaration (M : Module) (name : String) (fnTy : FnTy) : Function :=
  { id := M.nextId, name := name, ty := fnTy, linkage := externalLinkage,
    addrSpace := M.programAddrSpace, comdat := none,
    attrs := { fnAttrs := [], retAttrs := [], paramAttrs := [] },
    props := defaultProps, metadata := [], body := [] }

/-- C7 as stated, for a call of module `M`: the callee is a function of the
    module itself (no cast) whose signature is the function type of the call. -/
def CallResolves (M : Module) (i : Inst) : Prop :=
  match i.op with
  | Op.call fnTy callee _ => ∃ f ∈ M.functions, callee = Callee.func f.id ∧ f.ty = fnTy
  | _ => True

instance (M : Module) (i : Inst) : Decidable (CallResolves M i) := by
  unfold CallResolves
  split <;> infer_instance

/-- `define i8 @read_y(%struct.MyStruct* %p)` reading the `bool` field 1 as
    `i8`, in a module that declares the getter of field 1 the way the header
    `libfake_ptr.h` does, `declare i1 @get_field_1_in_MyStruct_ffi(i32)`. -/
def readYFunction : Function :=
  { id := 100, name := "read_y",
    ty := { ret := Ty.int 8, params := [myStructPtr], varArg := false },
    linkage := 0, addrSpace := 0, comdat := none,
    attrs := { fnAttrs := [], retAttrs := [], paramAttrs := [] },
    props := 0, metadata := [],
    body := [
      { id := 1, ty := Ty.ptr myStructPtr 0, op := Op.alloca myStructPtr (Value.constInt 32 1) 8 },
      { id := 2, ty := Ty.void,
        op := Op.store (Value.arg 100 0 myStructPtr) (Value.inst 1) false 8 },
      { id := 3, ty := myStructPtr, op := Op.load (Value.inst 1) false 8 },
      { id := 4, ty := Ty.ptr (Ty.int 8) 0,
        op := Op.gep (Ty.struct "struct.MyStruct") (Value.inst 3)
          [Value.constInt 32 0, Value.constInt 32 1] true },
      { id := 5, ty := Ty.int 8, op := Op.load (Value.inst 4) false 1 },
      { id := 6, ty := Ty.void, op := Op.other 1 [Value.inst 5] } ] }

def headerGetter : Function :=
  { id := 101, name := "get_field_1_in_MyStruct_ffi",
    ty := { ret := Ty.int 1, params := [Ty.int 32], varArg := false },
    linkage := 0, addrSpace := 0, comdat := none,
    attrs := { fnAttrs := [], retAttrs := [], paramAttrs := [] },
    props := 0, metadata := [], body := [] }

def readYModule : Module :=
  { ctx := { structNames := ["struct.MyStruct"], uniqueId := 0 },
    functions := [readYFunction, headerGetter],
    globals := [], programAddrSpace := 0, nextId := 200 }

/-- The call the pass puts in place of the field read of `read_y`. -/
def readYCall : Inst :=
  { id := 206, ty := Ty.int 8,
    op := Op.call { ret := Ty.int 8, params := [Ty.int 32], varArg := false }
      (Callee.castFunc 101 { ret := Ty.int 8, params := [Ty.int 32], varArg := false })
      [Value.inst 205] }

def readYRewritten : Function :=
  { id := 200, name := "read_y",
    ty := { ret := Ty.int 8, params := [Ty.int 32], varArg := false },
    linkage := 0, addrSpace := 0, comdat := none,
    attrs := { fnAttrs := [], retAttrs := [], paramAttrs := [] },
    props := 0, metadata := [],
    body := handlePrologue 200 ++ [
      handleGep (Ty.struct "FakePtr") 204 0 (Value.inst 201),
      handleLoad 204,
      readYCall,
      { id := 6, ty := Ty.void, op := Op.other 1 [Value.inst 206] } ] }

def readYResult : Module :=
  { ctx := { structNames := ["FakePtr", "struct.MyStruct"], uniqueId := 0 },
    functions := [readYRewritten, headerGetter],
    globals := [], programAddrSpace := 0, nextId := 207 }

/-- The module after `getOrInsertFunction` has appended a declaration. -/
def Module.withDeclaration (M : Module) (name : String) (fnTy : FnTy) : Module :=
  { M with functions := M.functions ++ [newDeclaration M name fnTy], nextId := M.nextId + 1 }

/-- The state of the rewrite loops of `read_x` after the round for the load
    numbered 5. -/
def readXAfter : RewriteState :=
  { M := { readXState.M with
             functions := readXState.M.functions ++ [getField0Decl 207], nextId := 208 },
    body := readXRewritten.body }

/-- Modelled from the spec: the IR verifier (not under src/) accepts a load
    only when its "operand types [are] consistent with its operands'
    definitions": the pointer operand is a pointer to the type of the loaded
    value. Every other instruction passes this rule. -/
def loadWellTyped (body : List Inst) (i : Inst) : Prop :=
  match i.op with
  | Op.load p _ _ => ∃ addrSpace, typeOf body p = Except.ok (Ty.ptr i.ty addrSpace)
  | _ => True

/-- `define void @pass_on(%struct.MyStruct* %p)` that stores `%p` to a slot,
    loads it back and hands it to `declare void @sink(%struct.MyStruct*)`. -/
def passOnFunction : Function :=
  { id := 100, name := "pass_on",
    ty := { ret := Ty.void, params := [myStructPtr], varArg := false },
    linkage := 0, addrSpace := 0, comdat := none,
    attrs := { fnAttrs := [], retAttrs := [], paramAttrs := [] },
    props := 0, metadata := [],
    body := [
      { id := 1, ty := Ty.ptr myStructPtr 0, op := Op.alloca myStructPtr (Value.constInt 32 1) 8 },
      { id := 2, ty := Ty.void,
        op := Op.store (Value.arg 100 0 myStructPtr) (Value.inst 1) false 8 },
      { id := 3, ty := myStructPtr, op := Op.load (Value.inst 1) false 8 },
      { id := 4, ty := Ty.void,
        op := Op.call { ret := Ty.void, params := [myStructPtr], varArg := false }
          (Callee.func 101) [Value.inst 3] },
      { id := 5, ty := Ty.void, op := Op.other 1 [] } ] }

def sinkDeclaration : Function :=
  { id := 101, name := "sink",
    ty := { ret := Ty.void, params := [myStructPtr], varArg := false },
    linkage := 0, addrSpace := 0, comdat := none,
    attrs := { fnAttrs := [], retAttrs := [], paramAttrs := [] },
    props := 0, metadata := [], body := [] }

def passOnModule : Module :=
  { ctx := { structNames := ["struct.MyStruct"], uniqueId := 0 },
    functions := [passOnFunction, sinkDeclaration],
    globals := [], programAddrSpace := 0, nextId := 200 }

/-- The load of the slot of `pass_on`, which feeds the call to `sink`. -/
def passOnLoad (slot : Nat) : Inst :=
  { id := 3, ty := myStructPtr, op := Op.load (Value.inst slot) false 8 }

def passOnRewritten : Function :=
  { id := 200, name := "pass_on",
    ty := { ret := Ty.void, params := [Ty.int 32], varArg := false },
    linkage := 0, addrSpace := 0, comdat := none,
    attrs := { fnAttrs := [], retAttrs := [], paramAttrs := [] },
    props := 0, metadata := [],
    body := handlePrologue 200 ++ [
      passOnLoad 201,
      { id := 4, ty := Ty.void,
        op := Op.call { ret := Ty.void, params := [myStructPtr], varArg := false }
          (Callee.func 101) [Value.inst 3] },
      { id := 5, ty := Ty.void, op := Op.other 1 [] } ] }

def passOnResult : Module :=
  { ctx := { structNames := ["FakePtr", "struct.MyStruct"], uniqueId := 0 },
    functions := [passOnRewritten, sinkDeclaration],
    globals := [], programAddrSpace := 0, nextId := 204 }

/-- The argument indices `runOnModule` records in `changedArgs` for a
    function. -/
def changedArgsOf (F : Function) : List Nat :=
  (collectParams struct_names (Ty.int 32) F.attrs F.ty.params 0).2.2

/-- `body` is what lines 264-413 of `runOnModule` make of the body of `F`
    when the replacement of `F` has the number `n`. -/
def RewrittenBody (fakeptr_t : Ty) (F : Function) (n : Nat) (body : List Inst) : Prop :=
  ∃ M1 st, M1.nextId = n + 1 ∧
    rewriteBody fakeptr_t (Ty.int 32) M1 n (changedArgsOf F)
      (replaceAllArgs F.id n (newSignature F.ty).params F.body) = Except.ok st ∧
    st.body = body

/-- Every body of the module is well-formed with respect to the module's
    counter of unused object numbers. -/
def ModuleWF (M : Module) : Prop :=
  ∀ F ∈ M.functions, BodyWF M.nextId F.body

instance (M : Module) : Decidable (ModuleWF M) := by
  unfold ModuleWF; infer_instance

/-- The address operand of a load or store. -/
def Inst.accessAddress (i : Inst) : Option Value :=
  match i.op with
  | Op.load p _ _ => some p
  | Op.store _ p _ _ => some p
  | _ => none

def isConstInt (v : Value) : Bool :=
  match v with
  | Value.constInt _ _ => true
  | _ => false

/-- The instruction `i` of `body` is a load or store whose address operand
    is a GEP of `body` whose pointer operand has the type of a pointer to a
    protected struct. -/
def protectedAccess (body : List Inst) (i : Inst) : Bool :=
  match i.accessAddress with
  | some (Value.inst g) =>
    match findInst body g with
    | some G =>
      match G.op with
      | Op.gep _ gptr _ _ =>
        match typeOf body gptr with
        | Except.ok T => isProtectedPtr T
        | Except.error _ => false
      | _ => false
    | none => false
  | _ => false

/-- The instruction `i` of `body` is a load or store whose address operand
    is a GEP of `body` with a constant integer as last index, whose pointer
    operand is the result of a load of `body` that has the type of a pointer
    to a protected struct and reads through a pointer of type
    `fakeptr_ptr_t`. -/
def recognisedAccess (fakeptr_ptr_t : Ty) (body : List Inst) (i : Inst) : Bool :=
  match i.accessAddress with
  | some (Value.inst g) =>
    match findInst body g with
    | some G =>
      match G.op with
      | Op.gep _ (Value.inst l) idxs _ =>
        match findInst body l with
        | some L =>
          match L.op with
          | Op.load lptr _ _ =>
            match typeOf body lptr with
            | Except.ok t =>
              isProtectedPtr L.ty && decide (t = fakeptr_ptr_t) &&
                isConstInt (trailingIndex (Value.inst l) idxs)
            | Except.error _ => false
          | _ => false
        | none => false
      | _ => false
    | none => false
  | _ => false

/-- The function
    `define i32 @read_copy(%struct.MyStruct* %p)` of
    `int read_copy(MyStruct *p) { MyStruct *q = p; return q->x; }`:
    `%p` is stored to its slot, loaded back and stored to the slot of the
    local `q`; the field is read through the load of `q`. -/
def readCopyFunction : Function :=
  { id := 100, name := "read_copy",
    ty := { ret := Ty.int 32, params := [myStructPtr], varArg := false },
    linkage := 0, addrSpace := 0, comdat := none,
    attrs := { fnAttrs := [Attr.optimizeNone], retAttrs := [], paramAttrs := [] },
    props := 0, metadata := [],
    body := [
      { id := 1, ty := Ty.ptr myStructPtr 0, op := Op.alloca myStructPtr (Value.constInt 32 1) 8 },
      { id := 2, ty := Ty.ptr myStructPtr 0, op := Op.alloca myStructPtr (Value.constInt 32 1) 8 },
      { id := 3, ty := Ty.void,
        op := Op.store (Value.arg 100 0 myStructPtr) (Value.inst 1) false 8 },
      { id := 4, ty := myStructPtr, op := Op.load (Value.inst 1) false 8 },
      { id := 5, ty := Ty.void, op := Op.store (Value.inst 4) (Value.inst 2) false 8 },
      { id := 6, ty := myStructPtr, op := Op.load (Value.inst 2) false 8 },
      { id := 7, ty := Ty.ptr (Ty.int 32) 0,
        op := Op.gep (Ty.struct "struct.MyStruct") (Value.inst 6)
          [Value.constInt 32 0, Value.constInt 32 0] true },
      { id := 8, ty := Ty.int 32, op := Op.load (Value.inst 7) false 4 },
      { id := 9, ty := Ty.void, op := Op.other 1 [Value.inst 8] } ] }

def readCopyModule : Module :=
  { ctx := { structNames := ["struct.MyStruct"], uniqueId := 0 },
    functions := [readCopyFunction],
    globals := [], programAddrSpace := 0, nextId := 200 }

/-- The load of the field in `read_copy`. -/
def readCopyLoad : Inst :=
  { id := 8, ty := Ty.int 32, op := Op.load (Value.inst 7) false 4 }

/-- What `runOnModule` leaves of `read_copy`: the slot of `%p` is retyped,
    the slot of `q` and the field read through it are as before. -/
def readCopyRewritten : Function :=
  { id := 200, name := "read_copy",
    ty := { ret := Ty.int 32, params := [Ty.int 32], varArg := false },
    linkage := 0, addrSpace := 0, comdat := none,
    attrs := { fnAttrs := [], retAttrs := [], paramAttrs := [] },
    props := 0, metadata := [],
    body := [
      { id := 201, ty := Ty.ptr (Ty.struct "FakePtr") 0,
        op := Op.alloca (Ty.struct "FakePtr") (Value.constInt 32 1) 4 },
      { id := 2, ty := Ty.ptr myStructPtr 0, op := Op.alloca myStructPtr (Value.constInt 32 1) 8 },
      { id := 202, ty := Ty.ptr (Ty.int 32) 0,
        op := Op.gep (Ty.struct "FakePtr") (Value.inst 201)
          [Value.constInt 32 0, Value.constInt 32 0] true },
      { id := 203, ty := Ty.void,
        op := Op.store (Value.arg 200 0 (Ty.int 32)) (Value.inst 202) false 4 },
      { id := 4, ty := myStructPtr, op := Op.load (Value.inst 201) false 8 },
      { id := 5, ty := Ty.void, op := Op.store (Value.inst 4) (Value.inst 2) false 8 },
      { id := 6, ty := myStructPtr, op := Op.load (Value.inst 2) false 8 },
      { id := 7, ty := Ty.ptr (Ty.int 32) 0,
        op := Op.gep (Ty.struct "struct.MyStruct") (Value.inst 6)
          [Value.constInt 32 0, Value.constInt 32 0] true },
      readCopyLoad,
      { id := 9, ty := Ty.void, op := Op.other 1 [Value.inst 8] } ] }

def readCopyResult : Module :=
  { ctx := { structNames := ["FakePtr", "struct.MyStruct"], uniqueId := 0 },
    functions := [readCopyRewritten],
    globals := [], programAddrSpace := 0, nextId := 204 }

/-- The type left when every pointer layer of `t` is taken off. -/
def pointeeRoot : Ty → Ty
  | Ty.ptr elem _ => pointeeRoot elem
  | t => t

/-- The body after the prologue fixer has dealt with the slot `a` and the
    store `s` of the value `val`, the new instructions being numbered from
    `n`: the new slot stands where the old slot stood, the new GEP and the new
    store stand where the old store stood, and every other instruction stands
    where it stood, its uses of the old slot (and of the old store) redirected
    to the new ones. -/
def retypedBody (fakeptr_t int32arg_t : Ty) (n a s : Nat) (val : Value) (body : List Inst) :
    List Inst :=
  body.flatMap (fun i =>
    if i.id = a then
      [{ id := n, ty := Ty.ptr fakeptr_t 0, op := Op.alloca fakeptr_t (Value.constInt 32 1) 4 }]
    else if i.id = s then
      [{ id := n + 1, ty := Ty.ptr int32arg_t 0,
         op := Op.gep fakeptr_t (Value.inst n) [Value.constInt 32 0, Value.constInt 32 0] true },
       { id := n + 2, ty := Ty.void, op := Op.store val (Value.inst (n + 1)) false 4 }]
    else [i.mapOperands (fun v => redirect s (n + 2) (redirect a n v))])

/-- The body of `read_x` when the prologue fixer starts: the blocks are
    moved to the new function numbered 200 and the uses of the old argument
    are uses of the new one. -/
def readXMoved : BodyState :=
  { nextId := 201,
    body := [
      { id := 1, ty := Ty.ptr myStructPtr 0, op := Op.alloca myStructPtr (Value.constInt 32 1) 8 },
      { id := 2, ty := Ty.void,
        op := Op.store (Value.arg 200 0 (Ty.int 32)) (Value.inst 1) false 8 },
      { id := 3, ty := myStructPtr, op := Op.load (Value.inst 1) false 8 },
      { id := 4, ty := Ty.ptr (Ty.int 32) 0,
        op := Op.gep (Ty.struct "struct.MyStruct") (Value.inst 3)
          [Value.constInt 32 0, Value.constInt 32 0] true },
      { id := 5, ty := Ty.int 32, op := Op.load (Value.inst 4) false 4 },
      { id := 6, ty := Ty.void, op := Op.other 1 [Value.inst 5] } ] }

/-- The function `define i32 @ignore(%struct.MyStruct* %p)` that never
    stores its parameter: its body is `ret i32 0`. -/
def ignoreFunction : Function :=
  { id := 100, name := "ignore",
    ty := { ret := Ty.int 32, params := [myStructPtr], varArg := false },
    linkage := 0, addrSpace := 0, comdat := none,
    attrs := { fnAttrs := [], retAttrs := [], paramAttrs := [] },
    props := 0, metadata := [],
    body := [ { id := 1, ty := Ty.void, op := Op.other 1 [Value.constInt 32 0] } ] }

def ignoreModule : Module :=
  { ctx := { structNames := ["struct.MyStruct"], uniqueId := 0 },
    functions := [ignoreFunction],
    globals := [], programAddrSpace := 0, nextId := 200 }

/-- The body of `ignore` when the prologue fixer starts. -/
def ignoreMoved : BodyState :=
  { nextId := 201,
    body := [ { id := 1, ty := Ty.void, op := Op.other 1 [Value.constInt 32 0] } ] }

/-- The function
    `define i32 @elem_plus_x(%struct.MyStruct* %p, i64 %n)` that reads the
    element `%n` of the array field 2 through one GEP with the indices
    `0, 2, %n`, reads field 0, and returns the sum. -/
def elemFunction : Function :=
  { id := 100, name := "elem_plus_x",
    ty := { ret := Ty.int 32, params := [myStructPtr, Ty.int 64], varArg := false },
    linkage := 0, addrSpace := 0, comdat := none,
    attrs := { fnAttrs := [Attr.optimizeNone], retAttrs := [], paramAttrs := [] },
    props := 0, metadata := [],
    body := [
      { id := 1, ty := Ty.ptr myStructPtr 0, op := Op.alloca myStructPtr (Value.constInt 32 1) 8 },
      { id := 2, ty := Ty.ptr (Ty.int 64) 0, op := Op.alloca (Ty.int 64) (Value.constInt 32 1) 8 },
      { id := 3, ty := Ty.void,
        op := Op.store (Value.arg 100 0 myStructPtr) (Value.inst 1) false 8 },
      { id := 4, ty := Ty.void,
        op := Op.store (Value.arg 100 1 (Ty.int 64)) (Value.inst 2) false 8 },
      { id := 5, ty := myStructPtr, op := Op.load (Value.inst 1) false 8 },
      { id := 6, ty := Ty.int 64, op := Op.load (Value.inst 2) false 8 },
      { id := 7, ty := Ty.ptr (Ty.int 32) 0,
        op := Op.gep (Ty.struct "struct.MyStruct") (Value.inst 5)
          [Value.constInt 64 0, Value.constInt 32 2, Value.inst 6] true },
      { id := 8, ty := Ty.int 32, op := Op.load (Value.inst 7) false 4 },
      { id := 9, ty := myStructPtr, op := Op.load (Value.inst 1) false 8 },
      { id := 10, ty := Ty.ptr (Ty.int 32) 0,
        op := Op.gep (Ty.struct "struct.MyStruct") (Value.inst 9)
          [Value.constInt 32 0, Value.constInt 32 0] true },
      { id := 11, ty := Ty.int 32, op := Op.load (Value.inst 10) false 4 },
      { id := 12, ty := Ty.int 32, op := Op.other 2 [Value.inst 8, Value.inst 11] },
      { id := 13, ty := Ty.void, op := Op.other 1 [Value.inst 12] } ] }

def elemModule : Module :=
  { ctx := { structNames := ["struct.MyStruct"], uniqueId := 0 },
    functions := [elemFunction],
    globals := [], programAddrSpace := 0, nextId := 200 }

/-- The instructions of `elem_plus_x` from the store of `%n` to the load of
    the array element: they are the same before and after the rewrite loops. -/
def elemKept : List Inst :=
  [ { id := 4, ty := Ty.void,
      op := Op.store (Value.arg 200 1 (Ty.int 64)) (Value.inst 2) false 8 },
    { id := 5, ty := myStructPtr, op := Op.load (Value.inst 201) false 8 },
    { id := 6, ty := Ty.int 64, op := Op.load (Value.inst 2) false 8 },
    { id := 7, ty := Ty.ptr (Ty.int 32) 0,
      op := Op.gep (Ty.struct "struct.MyStruct") (Value.inst 5)
        [Value.constInt 64 0, Value.constInt 32 2, Value.inst 6] true },
    { id := 8, ty := Ty.int 32, op := Op.load (Value.inst 7) false 4 } ]

/-- The slots of `elem_plus_x` and the prologue of the handle after the
    prologue fixer. -/
def elemPrologue : List Inst :=
  [ { id := 201, ty := Ty.ptr (Ty.struct "FakePtr") 0,
      op := Op.alloca (Ty.struct "FakePtr") (Value.constInt 32 1) 4 },
    { id := 2, ty := Ty.ptr (Ty.int 64) 0, op := Op.alloca (Ty.int 64) (Value.constInt 32 1) 8 },
    { id := 202, ty := Ty.ptr (Ty.int 32) 0,
      op := Op.gep (Ty.struct "FakePtr") (Value.inst 201)
        [Value.constInt 32 0, Value.constInt 32 0] true },
    { id := 203, ty := Ty.void,
      op := Op.store (Value.arg 200 0 (Ty.int 32)) (Value.inst 202) false 4 } ]

/-- The state of the rewrite loops of `elem_plus_x` when the loop over the
    queued loads starts; the loads numbered 8 and 11 are queued. -/
def elemState : RewriteState :=
  { M := { ctx := { structNames := ["FakePtr", "struct.MyStruct"], uniqueId := 0 },
           functions := [
             { id := 200, name := "elem_plus_x",
               ty := { ret := Ty.int 32, params := [Ty.int 32, Ty.int 64], varArg := false },
               linkage := 0, addrSpace := 0, comdat := none,
               attrs := { fnAttrs := [Attr.optimizeNone], retAttrs := [], paramAttrs := [] },
               props := 0, metadata := [], body := [] },
             { elemFunction with name := "", body := [] } ],
           globals := [], programAddrSpace := 0, nextId := 204 },
    body := elemPrologue ++ elemKept ++ [
      { id := 9, ty := myStructPtr, op := Op.load (Value.inst 201) false 8 },
      { id := 10, ty := Ty.ptr (Ty.int 32) 0,
        op := Op.gep (Ty.struct "struct.MyStruct") (Value.inst 9)
          [Value.constInt 32 0, Value.constInt 32 0] true },
      { id := 11, ty := Ty.int 32, op := Op.load (Value.inst 10) false 4 },
      { id := 12, ty := Ty.int 32, op := Op.other 2 [Value.inst 8, Value.inst 11] },
      { id := 13, ty := Ty.void, op := Op.other 1 [Value.inst 12] } ] }

def elemRewritten : Function :=
  { id := 200, name := "elem_plus_x",
    ty := { ret := Ty.int 32, params := [Ty.int 32, Ty.int 64], varArg := false },
    linkage := 0, addrSpace := 0, comdat := none,
    attrs := { fnAttrs := [], retAttrs := [], paramAttrs := [] },
    props := 0, metadata := [],
    body := elemPrologue ++ elemKept ++ [
      { id := 204, ty := Ty.ptr (Ty.int 32) 0,
        op := Op.gep (Ty.struct "FakePtr") (Value.inst 201)
          [Value.constInt 32 0, Value.constInt 32 0] true },
      { id := 205, ty := Ty.int 32, op := Op.load (Value.inst 204) false 0 },
      { id := 206, ty := Ty.int 32,
        op := Op.call { ret := Ty.int 32, params := [Ty.int 32], varArg := false }
          (Callee.func 207) [Value.inst 205] },
      { id := 12, ty := Ty.int 32, op := Op.other 2 [Value.inst 8, Value.inst 206] },
      { id := 13, ty := Ty.void, op := Op.other 1 [Value.inst 12] } ] }

def elemResult : Module :=
  { ctx := { structNames := ["FakePtr", "struct.MyStruct"], uniqueId := 0 },
    functions := [elemRewritten, getField0Decl 207],
    globals := [], programAddrSpace := 0, nextId := 208 }

/-- The function `define i32 @sum_xy(%struct.MyStruct* %p)` in the form
    that common-subexpression elimination leaves: `%p` is loaded from its slot
    once, and the fields 0 and 1 are both read through that one load. -/
def sumXYFunction : Function :=
  { id := 100, name := "sum_xy",
    ty := { ret := Ty.int 32, params := [myStructPtr], varArg := false },
    linkage := 0, addrSpace := 0, comdat := none,
    attrs := { fnAttrs := [], retAttrs := [], paramAttrs := [] },
    props := 0, metadata := [],
    body := [
      { id := 1, ty := Ty.ptr myStructPtr 0, op := Op.alloca myStructPtr (Value.constInt 32 1) 8 },
      { id := 2, ty := Ty.void,
        op := Op.store (Value.arg 100 0 myStructPtr) (Value.inst 1) false 8 },
      { id := 3, ty := myStructPtr, op := Op.load (Value.inst 1) false 8 },
      { id := 4, ty := Ty.ptr (Ty.int 32) 0,
        op := Op.gep (Ty.struct "struct.MyStruct") (Value.inst 3)
          [Value.constInt 32 0, Value.constInt 32 0] true },
      { id := 5, ty := Ty.int 32, op := Op.load (Value.inst 4) false 4 },
      { id := 6, ty := Ty.ptr (Ty.int 32) 0,
        op := Op.gep (Ty.struct "struct.MyStruct") (Value.inst 3)
          [Value.constInt 32 0, Value.constInt 32 1] true },
      { id := 7, ty := Ty.int 32, op := Op.load (Value.inst 6) false 4 },
      { id := 8, ty := Ty.int 32, op := Op.other 2 [Value.inst 5, Value.inst 7] },
      { id := 9, ty := Ty.void, op := Op.other 1 [Value.inst 8] } ] }

def sumXYModule : Module :=
  { ctx := { structNames := ["struct.MyStruct"], uniqueId := 0 },
    functions := [sumXYFunction],
    globals := [], programAddrSpace := 0, nextId := 200 }

/-- The GEP of the second read of `sum_xy`. -/
def sumXYSecondGep : Inst :=
  { id := 6, ty := Ty.ptr (Ty.int 32) 0,
    op := Op.gep (Ty.struct "struct.MyStruct") (Value.inst 3)
      [Value.constInt 32 0, Value.constInt 32 1] true }

/-- The state of the rewrite loops of `sum_xy` when the loop over the queued
    loads starts; the loads numbered 5 and 7 are queued. -/
def sumXYState : RewriteState :=
  { M := { ctx := { structNames := ["FakePtr", "struct.MyStruct"], uniqueId := 0 },
           functions := [
             { id := 200, name := "sum_xy",
               ty := { ret := Ty.int 32, params := [Ty.int 32], varArg := false },
               linkage := 0, addrSpace := 0, comdat := none,
               attrs := { fnAttrs := [], retAttrs := [], paramAttrs := [] },
               props := 0, metadata := [], body := [] },
             { sumXYFunction with name := "", body := [] } ],
           globals := [], programAddrSpace := 0, nextId := 204 },
    body := handlePrologue 200 ++ [
      { id := 3, ty := myStructPtr, op := Op.load (Value.inst 201) false 8 },
      { id := 4, ty := Ty.ptr (Ty.int 32) 0,
        op := Op.gep (Ty.struct "struct.MyStruct") (Value.inst 3)
          [Value.constInt 32 0, Value.constInt 32 0] true },
      { id := 5, ty := Ty.int 32, op := Op.load (Value.inst 4) false 4 },
      sumXYSecondGep,
      { id := 7, ty := Ty.int 32, op := Op.load (Value.inst 6) false 4 },
      { id := 8, ty := Ty.int 32, op := Op.other 2 [Value.inst 5, Value.inst 7] },
      { id := 9, ty := Ty.void, op := Op.other 1 [Value.inst 8] } ] }

/-- The computation does not stop for lack of rounds. -/
def NoFuelFault {α : Type} (x : Result α) : Prop :=
  x ≠ Except.error Fault.outOfFuel

/-- The number of arguments of a call instruction. -/
def callArity (i : Inst) : Option Nat :=
  match i.op with
  | Op.call _ _ args => some args.length
  | _ => none

/-- The operand map `f` changes only operands that named a queued site, and
    what it puts there names a call of `body` that the rewrite loops
    created. -/
def GoodSubst (q : List Nat) (n0 : Nat) (body : List Inst) (f : Value → Value) : Prop :=
  ∀ v, f v ≠ v → ∃ y c, v = Value.inst y ∧ y ∈ q ∧ f v = Value.inst c ∧ n0 ≤ c ∧
    ∃ K ∈ body, K.id = c ∧ isCall K = true

/-- The instruction numbered `u` of `B0` is a queued site, the GEP that is
    the address of a queued site, or the pointer operand of that GEP. -/
def Touched (B0 : List Inst) (q : List Nat) (u : Nat) : Prop :=
  u ∈ q ∨ ∃ x ∈ q, ∃ S g, findInst B0 x = some S ∧ S.accessAddress = some (Value.inst g) ∧
    (u = g ∨ ∃ G, findInst B0 g = some G ∧ G.pointerOperand = some (Value.inst u))

/-- Invariant of the two rewrite loops: every instruction of `st.body` that
    the loops did not create is an instruction of the body `B0` the loops
    started with, up to operands that named a rewritten site, and every
    instruction of `B0` that is not `Touched` is still in `st.body`, up to
    such operands. -/
def TrackInv (B0 : List Inst) (n0 : Nat) (q : List Nat) (st : RewriteState) : Prop :=
  BodyWF st.M.nextId st.body ∧ n0 ≤ st.M.nextId ∧
  (∀ J ∈ st.body, J.id < n0 → ∃ J0 f, findInst B0 J.id = some J0 ∧ J = J0.mapOperands f ∧
    GoodSubst q n0 st.body f) ∧
  (∀ J0 ∈ B0, ¬ Touched B0 q J0.id → ∃ f, J0.mapOperands f ∈ st.body ∧
    GoodSubst q n0 st.body f)

/-- The function `define i32 @next_x(%struct.MyStruct* %p)` of
    `return p->next->x;`: field 2 of `%struct.MyStruct` is a pointer to
    `%struct.MyStruct`. The read of `next` goes through the slot of `%p`; the
    read of `x` goes through the pointer that the read of `next` gave. -/
def nextXFunction : Function :=
  { id := 100, name := "next_x",
    ty := { ret := Ty.int 32, params := [myStructPtr], varArg := false },
    linkage := 0, addrSpace := 0, comdat := none,
    attrs := { fnAttrs := [Attr.optimizeNone], retAttrs := [], paramAttrs := [] },
    props := 0, metadata := [],
    body := [
      { id := 1, ty := Ty.ptr myStructPtr 0, op := Op.alloca myStructPtr (Value.constInt 32 1) 8 },
      { id := 2, ty := Ty.void,
        op := Op.store (Value.arg 100 0 myStructPtr) (Value.inst 1) false 8 },
      { id := 3, ty := myStructPtr, op := Op.load (Value.inst 1) false 8 },
      { id := 4, ty := Ty.ptr myStructPtr 0,
        op := Op.gep (Ty.struct "struct.MyStruct") (Value.inst 3)
          [Value.constInt 32 0, Value.constInt 32 2] true },
      { id := 5, ty := myStructPtr, op := Op.load (Value.inst 4) false 8 },
      { id := 6, ty := Ty.ptr (Ty.int 32) 0,
        op := Op.gep (Ty.struct "struct.MyStruct") (Value.inst 5)
          [Value.constInt 32 0, Value.constInt 32 0] true },
      { id := 7, ty := Ty.int 32, op := Op.load (Value.inst 6) false 4 },
      { id := 8, ty := Ty.void, op := Op.other 1 [Value.inst 7] } ] }

def nextXModule : Module :=
  { ctx := { structNames := ["struct.MyStruct"], uniqueId := 0 },
    functions := [nextXFunction],
    globals := [], programAddrSpace := 0, nextId := 200 }

/-- The read of `next`: the load numbered 5, which is the inner load of the
    read of `x`. -/
def nextXInner : Inst :=
  { id := 5, ty := myStructPtr, op := Op.load (Value.inst 4) false 8 }

/-- The GEP of the read of `x`. -/
def nextXGep : Inst :=
  { id := 6, ty := Ty.ptr (Ty.int 32) 0,
    op := Op.gep (Ty.struct "struct.MyStruct") (Value.inst 5)
      [Value.constInt 32 0, Value.constInt 32 0] true }

/-- The read of `x`. -/
def nextXLoad : Inst :=
  { id := 7, ty := Ty.int 32, op := Op.load (Value.inst 6) false 4 }

/-- The state of the rewrite loops of `next_x` when the loop over the queued
    loads starts; only the load numbered 5 is queued. -/
def nextXState : RewriteState :=
  { M := { ctx := { structNames := ["FakePtr", "struct.MyStruct"], uniqueId := 0 },
           functions := [
             { id := 200, name := "next_x",
               ty := { ret := Ty.int 32, params := [Ty.int 32], varArg := false },
               linkage := 0, addrSpace := 0, comdat := none,
               attrs := { fnAttrs := [Attr.optimizeNone], retAttrs := [], paramAttrs := [] },
               props := 0, metadata := [], body := [] },
             { nextXFunction with name := "", body := [] } ],
           globals := [], programAddrSpace := 0, nextId := 204 },
    body := handlePrologue 200 ++ [
      { id := 3, ty := myStructPtr, op := Op.load (Value.inst 201) false 8 },
      { id := 4, ty := Ty.ptr myStructPtr 0,
        op := Op.gep (Ty.struct "struct.MyStruct") (Value.inst 3)
          [Value.constInt 32 0, Value.constInt 32 2] true },
      nextXInner, nextXGep, nextXLoad,
      { id := 8, ty := Ty.void, op := Op.other 1 [Value.inst 7] } ] }

def getField2Decl (id : Nat) : Function :=
  { id := id, name := "get_field_2_in_MyStruct_ffi",
    ty := { ret := myStructPtr, params := [Ty.int 32], varArg := false },
    linkage := 0, addrSpace := 0, comdat := none,
    attrs := { fnAttrs := [], retAttrs := [], paramAttrs := [] },
    props := 0, metadata := [], body := [] }

/-- The state of `next_x` after the rewrite loops: the read of `next` is the
    call numbered 206, and the GEP of the read of `x` takes its pointer from
    that call. -/
def nextXAfter : RewriteState :=
  { M := { nextXState.M with functions := nextXState.M.functions ++ [getField2Decl 207],
                             nextId := 208 },
    body := handlePrologue 200 ++ [
      handleGep (Ty.struct "FakePtr") 204 0 (Value.inst 201), handleLoad 204,
      { id := 206, ty := myStructPtr,
        op := Op.call { ret := myStructPtr, params := [Ty.int 32], varArg := false }
          (Callee.func 207) [Value.inst 205] },
      { id := 6, ty := Ty.ptr (Ty.int 32) 0,
        op := Op.gep (Ty.struct "struct.MyStruct") (Value.inst 206)
          [Value.constInt 32 0, Value.constInt 32 0] true },
      nextXLoad,
      { id := 8, ty := Ty.void, op := Op.other 1 [Value.inst 7] } ] }

def nextXRewritten : Function :=
  { id := 200, name := "next_x",
    ty := { ret := Ty.int 32, params := [Ty.int 32], varArg := false },
    linkage := 0, addrSpace := 0, comdat := none,
    attrs := { fnAttrs := [], retAttrs := [], paramAttrs := [] },
    props := 0, metadata := [], body := nextXAfter.body }

def nextXResult : Module :=
  { ctx := { structNames := ["FakePtr", "struct.MyStruct"], uniqueId := 0 },
    functions := [nextXRewritten, getField2Decl 207],
    globals := [], programAddrSpace := 0, nextId := 208 }

/-! ## Calls of a rewritten function -/

/-- The call `%r = call i32 @read_x(%struct.MyStruct* %s)` of `main`; the
    callee is the function numbered 100, `read_x` of scenario 3. -/
def mainCall : Inst :=
  { id := 12, ty := Ty.int 32,
    op := Op.call readXFunction.ty (Callee.func 100) [Value.inst 11] }

/-- The function `define i32 @main()` that calls `read_x` on a local struct:
    `%s = alloca %struct.MyStruct`, `%r = call i32 @read_x(%struct.MyStruct* %s)`,
    `ret i32 %r`. It has no parameter. -/
def mainFunction : Function :=
  { id := 101, name := "main",
    ty := { ret := Ty.int 32, params := [], varArg := false },
    linkage := 0, addrSpace := 0, comdat := none,
    attrs := { fnAttrs := [Attr.optimizeNone], retAttrs := [], paramAttrs := [] },
    props := 0, metadata := [],
    body := [
      { id := 11, ty := myStructPtr,
        op := Op.alloca (Ty.struct "struct.MyStruct") (Value.constInt 32 1) 4 },
      mainCall,
      { id := 13, ty := Ty.void, op := Op.other 1 [Value.inst 12] } ] }

/-- The module with `read_x` of scenario 3 and its caller `main`. -/
def callerModule : Module :=
  { ctx := { structNames := ["struct.MyStruct"], uniqueId := 0 },
    functions := [readXFunction, mainFunction],
    globals := [], programAddrSpace := 0, nextId := 200 }

/-- The result of the pass on `callerModule`: `read_x` is replaced by the
    function numbered 200, `main` is kept as it was. -/
def callerResult : Module :=
  { ctx := { structNames := ["FakePtr", "struct.MyStruct"], uniqueId := 0 },
    functions := [readXRewritten, mainFunction, getField0Decl 207],
    globals := [], programAddrSpace := 0, nextId := 208 }

/-- C21 as stated, for an instruction `i` of the body `body` in module `M`:
    a call has a callee that is a function of the function list of `M` (named
    directly or through a constant cast), and the parameter types of that
    function are the types of the arguments of the call. -/
def CallMatches (M : Module) (body : List Inst) (i : Inst) : Prop :=
  match i.op with
  | Op.call _ callee args =>
    ∃ f ∈ M.functions, callee.target = some (Sum.inl f.id) ∧
      args.mapM (fun a => (typeOf body a).toOption) = some f.ty.params
  | _ => True

instance (M : Module) (body : List Inst) (i : Inst) : Decidable (CallMatches M body i) := by
  unfold CallMatches
  split <;> infer_instance

/-- C21 as stated, for a module: every call of every function matches. -/
def CallsMatch (M : Module) : Prop :=
  ∀ F ∈ M.functions, ∀ i ∈ F.body, CallMatches M F.body i

instance (M : Module) : Decidable (CallsMatch M) := by
  unfold CallsMatch
  infer_instance

/-! ## The out-of-tree variant

The file `safe-rust-cpp-ffi/llvm-pass/fakeptr/FakePtrPass.cpp` holds a second
`FakePtrPass`. Its `getFakePtrType`, `correctType`, `getFirstArgStoreInst`,
`getFirstNonAllocaInst`, collection loop and loop over the queued stores are
the text of the in-tree file, so the definitions above stand for them. The
parts that differ are embedded here under `OutOfTree`. The output on `errs()`
(the probing functions) is not part of the state. -/

/-- Source (out-of-tree, lines 21-27): `ReplaceAllUsesWith_Unsafe(from, to)`
    sets every use of the argument `from` (argument `idx` of `oldFn`) to
    `to`. -/
def ReplaceAllUsesWith_Unsafe (oldFn idx : Nat) (to_ : Value) (body : List Inst) : List Inst :=
  body.map (Inst.mapOperands (fun U =>
    match U with
    | Value.arg fn i _ => if fn = oldFn ∧ i = idx then to_ else U
    | _ => U))

/-- Source (out-of-tree, lines 31-37): `ReplaceInstWithInst_Unsafe(from, to)`
    sets every use of the instruction `from` to `to` and erases `from`; `to`
    is in the body already. -/
def ReplaceInstWithInst_Unsafe (from_ to_ : Nat) (body : List Inst) : List Inst :=
  eraseInst from_ (body.map (Inst.mapOperands (redirect from_ to_)))

/-- Source (out-of-tree, lines 295-302): the loop over the arguments. -/
def OutOfTree.replaceAllArgs (oldFn newFn : Nat) (params : List Ty) (body : List Inst) :
    List Inst :=
  (List.range params.length).foldl
    (fun b i => ReplaceAllUsesWith_Unsafe oldFn i (Value.arg newFn i (params.getD i Ty.void)) b)
    body

/-- Source (out-of-tree, lines 317-326): the new slot is created with the
    old slot as its insertion point, the old slot is replaced with the unsafe
    helper; the GEP and the new store are made as in the in-tree file. -/
def OutOfTree.retypeSlot (fakeptr_t int32arg_t : Ty) (st : BodyState) (oldAlloca oldStore : Nat)
    (val : Value) : BodyState :=
  let newAllocaInst : Inst :=
    { id := st.nextId, ty := Ty.ptr fakeptr_t 0,
      op := Op.alloca fakeptr_t (Value.constInt 32 1) 4 }
  let constantint := Value.constInt 32 0
  let newGetElemPtrInst : Inst :=
    { id := st.nextId + 1, ty := Ty.ptr int32arg_t 0,
      op := Op.gep fakeptr_t (Value.inst newAllocaInst.id) [constantint, constantint] true }
  let newStoreInst : Inst :=
    { id := st.nextId + 2, ty := Ty.void,
      op := Op.store val (Value.inst newGetElemPtrInst.id) false 4 }
  { nextId := st.nextId + 3,
    body := replaceInstWithInst oldStore newStoreInst
      (insertBefore oldStore newGetElemPtrInst
        (ReplaceInstWithInst_Unsafe oldAlloca newAllocaInst.id
          (insertBefore oldAlloca newAllocaInst st.body))) }

/-- Source (out-of-tree, lines 313-328): one round of the prologue fixer. -/
def OutOfTree.fixPrologueArg (fakeptr_t int32arg_t : Ty) (fn : Nat) (st : BodyState)
    (argi : Nat) : Result BodyState :=
  getFirstArgStoreInst fn st.body argi >>= fun oldStoreInst =>
    match oldStoreInst.op with
    | Op.store val (Value.inst a) _ _ =>
      match findInst st.body a with
      | none => throw Fault.dangling
      | some oldAllocaInst =>
        if isAlloca oldAllocaInst then
          pure (OutOfTree.retypeSlot fakeptr_t int32arg_t st oldAllocaInst.id oldStoreInst.id val)
        else pure st
    | _ => pure st

/-- Source (out-of-tree): the prologue fixer loop over `changedArgs`. -/
def OutOfTree.fixPrologue (fakeptr_t int32arg_t : Ty) (fn : Nat) (st : BodyState)
    (changedArgs : List Nat) : Result BodyState :=
  changedArgs.foldlM (OutOfTree.fixPrologueArg fakeptr_t int32arg_t fn) st

/-- Source (out-of-tree, lines 374-380): one round of the loop over
    `queued_loadinsts`. The round takes the GEP of the load and the inner
    load of the GEP and does nothing with them. -/
def OutOfTree.rewriteLoad (st : RewriteState) (load_id : Nat) : Result RewriteState :=
  match findInst st.body load_id with
  | none => throw Fault.dangling
  | some load_inst =>
    match load_inst.op with
    | Op.load addr _ _ =>
      dynCastInst isGep st.body addr >>= fun g =>
        match g with
        | none => throw Fault.nullDeref
        | some gep_inst =>
          match gep_inst.op with
          | Op.gep _ gptr _ _ => dynCastInst isLoad st.body gptr >>= fun _ => pure st
          | _ => throw Fault.nullDeref
    | _ => throw Fault.dangling

/-- Source (out-of-tree, lines 311-426): prologue fixer, first non-alloca
    instruction, collection, the two loops over the queues. -/
def OutOfTree.rewriteBody (fakeptr_t int32arg_t : Ty) (M : Module) (newFn : Nat)
    (changedArgs : List Nat) (body : List Inst) : Result RewriteState :=
  OutOfTree.fixPrologue fakeptr_t int32arg_t newFn { nextId := M.nextId, body := body }
      changedArgs >>=
  fun st =>
    getFirstNonAllocaInst st.body >>= fun _ =>
    collectQueues struct_names (Ty.ptr fakeptr_t 0) st.body >>= fun q =>
    q.queued_loadinsts.foldlM OutOfTree.rewriteLoad
        { M := { M with nextId := st.nextId }, body := st.body } >>= fun st1 =>
      q.queued_storeinsts.foldlM (rewriteStore fakeptr_t int32arg_t) st1

/-- Source (out-of-tree, lines 238-449): one round of the driver loop. The
    round ends without `removeFnAttr(Attribute::OptimizeNone)`. -/
def OutOfTree.visitFunction (fakeptr_t : Ty) (M : Module) (pos : Nat) (oldFun : Function) :
    Result (Bool × Module) :=
  if oldFun.getInstructionCount = 0 then pure (false, M)
  else
    let int32arg_t := Ty.int 32
    let oldFunTy := oldFun.ty
    let oldAttributeList := oldFun.attrs
    let r := collectParams struct_names int32arg_t oldAttributeList oldFunTy.params 0
    let params := r.1
    let newParamAttributes := r.2.1
    let changedArgs := r.2.2
    let newRetTy := oldFunTy.ret
    let newFunTy : FnTy := { ret := newRetTy, params := params, varArg := oldFunTy.varArg }
    if newFunTy = oldFunTy then pure (false, M)
    else
      let newFun : Function :=
        { id := M.nextId, name := oldFun.name, ty := newFunTy, linkage := oldFun.linkage,
          addrSpace := oldFun.addrSpace, comdat := oldFun.comdat,
          attrs := AttributeList.get oldAttributeList.fnAttrs oldAttributeList.retAttrs
            newParamAttributes,
          props := oldFun.props, metadata := oldFun.metadata, body := [] }
      let emptied : Function := { oldFun with name := "", body := [] }
      let M1 : Module :=
        { M with functions := M.functions.take pos ++ newFun :: emptied :: M.functions.drop (pos + 1),
                 nextId := M.nextId + 1 }
      let body := OutOfTree.replaceAllArgs oldFun.id newFun.id params oldFun.body
      OutOfTree.rewriteBody fakeptr_t int32arg_t M1 newFun.id changedArgs body >>= fun st =>
        pure (true,
          { st.M with functions :=
              st.M.functions.take pos ++
                { newFun with body := st.body } :: st.M.functions.drop (pos + 2) })

/-- Source (out-of-tree, lines 237-450): the driver loop, run for at most
    the given number of rounds. -/
def OutOfTree.driverRounds (fakeptr_t : Ty) : Nat → DriverState → Result DriverState
  | 0, s => pure s
  | n + 1, s =>
    match s.M.functions.get? s.pos with
    | none => pure s
    | some oldFun =>
      OutOfTree.visitFunction fakeptr_t s.M s.pos oldFun >>= fun r =>
        OutOfTree.driverRounds fakeptr_t n
          { isChanged := s.isChanged || r.1, M := r.2, pos := s.pos + 1 }

/-- Source (out-of-tree): `FakePtrPass::runOnModule`, with the rounds of the
    driver loop counted as for the in-tree variant. -/
def OutOfTree.runOnModule (M : Module) : Result (Bool × Module) :=
  let r := getFakePtrType M.ctx
  let fakeptr_t := r.1
  OutOfTree.driverRounds fakeptr_t M.functions.length
      { isChanged := false, M := { M with ctx := r.2 }, pos := 0 } >>= fun a =>
    OutOfTree.driverRounds fakeptr_t (a.M.functions.length - a.pos) a >>= fun b =>
      if b.pos < b.M.functions.length then throw Fault.outOfFuel
      else pure (b.isChanged, b.M)

/-- The loads that the round of the driver loop for `oldFun` in module `M`
    queues as field reads: the queue `queued_loadinsts` as the collection
    loop leaves it (no load when the round skips the function). -/
def queuedLoads (fakeptr_t : Ty) (M : Module) (oldFun : Function) : Result (List Nat) :=
  if oldFun.getInstructionCount = 0 then pure []
  else
    let int32arg_t := Ty.int 32
    let oldFunTy := oldFun.ty
    let r := collectParams struct_names int32arg_t oldFun.attrs oldFunTy.params 0
    let params := r.1
    let changedArgs := r.2.2
    let newFunTy : FnTy := { ret := oldFunTy.ret, params := params, varArg := oldFunTy.varArg }
    if newFunTy = oldFunTy then pure []
    else
      fixPrologue fakeptr_t int32arg_t M.nextId
          { nextId := M.nextId + 1,
            body := replaceAllArgs oldFun.id M.nextId params oldFun.body } changedArgs >>=
      fun st =>
        getFirstNonAllocaInst st.body >>= fun _ =>
        collectQueues struct_names (Ty.ptr fakeptr_t 0) st.body >>= fun q =>
          pure q.queued_loadinsts

/-- No load is queued as a field read in the round for `oldFun`. -/
def noLoadQueuedIn (fakeptr_t : Ty) (M : Module) (oldFun : Function) : Bool :=
  match queuedLoads fakeptr_t M oldFun with
  | Except.ok (_ :: _) => false
  | _ => true

/-- No load is queued as a field read in the first rounds of the driver loop
    from state `s` on. -/
def noLoadQueuedFrom (fakeptr_t : Ty) : Nat → DriverState → Bool
  | 0, _ => true
  | n + 1, s =>
    match s.M.functions.get? s.pos with
    | none => true
    | some oldFun =>
      noLoadQueuedIn fakeptr_t s.M oldFun &&
        match visitFunction fakeptr_t s.M s.pos oldFun with
        | Except.ok r =>
          noLoadQueuedFrom fakeptr_t n
            { isChanged := s.isChanged || r.1, M := r.2, pos := s.pos + 1 }
        | Except.error _ => true

/-- C22, "every module in which no load is queued as a field read": no round
    of the driver loop of `runOnModule` on `M` queues a load. -/
def Module.noLoadQueued (M : Module) : Bool :=
  noLoadQueuedFrom (getFakePtrType M.ctx).1 M.functions.length
    { isChanged := false, M := { M with ctx := (getFakePtrType M.ctx).2 }, pos := 0 }

/-- C22, "differing at most in the OptimizeNone attribute": `g` is `f`, or
    `f` without the function attribute `optnone`. -/
def DiffersInOptimizeNone (f g : Function) : Prop :=
  g = f ∨ g = { f with attrs := f.attrs.removeFnAttr Attr.optimizeNone }

instance (f g : Function) : Decidable (DiffersInOptimizeNone f g) := by
  unfold DiffersInOptimizeNone
  infer_instance

/-- Two results are related: the same fault, or two values related by `P`. -/
def ResultRel {α β : Type} (P : α → β → Prop) : Result α → Result β → Prop
  | Except.ok a, Except.ok b => P a b
  | Except.error e, Except.error e' => e' = e
  | _, _ => False

instance {α β : Type} (P : α → β → Prop) [∀ a b, Decidable (P a b)] (x : Result α)
    (y : Result β) : Decidable (ResultRel P x y) := by
  cases x <;> cases y <;> unfold ResultRel <;> infer_instance

/-- The modules have the same context, globals and counter, and their
    function lists agree function by function up to `DiffersInOptimizeNone`. -/
def ModulesAgree (A B : Module) : Prop :=
  B.ctx = A.ctx ∧ B.globals = A.globals ∧ B.programAddrSpace = A.programAddrSpace ∧
    B.nextId = A.nextId ∧ List.Forall₂ DiffersInOptimizeNone A.functions B.functions

instance (A B : Module) : Decidable (ModulesAgree A B) := by
  unfold ModulesAgree
  infer_instance

/-- The two results are the same fault, or the same flag with modules that
    agree. -/
def SameUpToOptimizeNone (x y : Result (Bool × Module)) : Prop :=
  ResultRel (fun a b => b.1 = a.1 ∧ ModulesAgree a.2 b.2) x y

instance (x y : Result (Bool × Module)) : Decidable (SameUpToOptimizeNone x y) := by
  unfold SameUpToOptimizeNone
  infer_instance

/-- The modules of two rewrite loops that started from the function lists
    `FA` and `FB`: the same context, globals and counter, and the same
    declarations appended to the two lists. -/
def LoopsAgree (FA FB : List Function) (A B : Module) : Prop :=
  B.ctx = A.ctx ∧ B.globals = A.globals ∧ B.programAddrSpace = A.programAddrSpace ∧
    B.nextId = A.nextId ∧
    ∃ D, A.functions = FA ++ D ∧ B.functions = FB ++ D ∧ ∀ d ∈ D, d.body = []

/-- The states of two driver loops agree: same cursor and flag, modules that
    agree, and the same functions from the cursor on. -/
def DriversAgree (a b : DriverState) : Prop :=
  b.pos = a.pos ∧ b.isChanged = a.isChanged ∧ ModulesAgree a.M b.M ∧
    a.M.functions.drop a.pos = b.M.functions.drop a.pos

/-- The read of the array element in `elem_plus_x`: the load numbered 8,
    through the GEP numbered 7 whose trailing index is `%n`. -/
def elemLoad : Inst :=
  { id := 8, ty := Ty.int 32, op := Op.load (Value.inst 7) false 4 }

/-- The result of the out-of-tree variant on `elemModule`: the body is the
    one the loop over the queued loads was given, `optnone` is kept, no
    accessor is declared. -/
def elemOutOfTree : Module :=
  { ctx := { structNames := ["FakePtr", "struct.MyStruct"], uniqueId := 0 },
    functions := [
      { id := 200, name := "elem_plus_x",
        ty := { ret := Ty.int 32, params := [Ty.int 32, Ty.int 64], varArg := false },
        linkage := 0, addrSpace := 0, comdat := none,
        attrs := { fnAttrs := [Attr.optimizeNone], retAttrs := [], paramAttrs := [] },
        props := 0, metadata := [], body := elemState.body } ],
    globals := [], programAddrSpace := 0, nextId := 204 }

/-- The one call in `elem_plus_x` after the in-tree pass: the getter of
    field 0, in the place of the load numbered 11. -/
def elemCall : Inst :=
  { id := 206, ty := Ty.int 32,
    op := Op.call { ret := Ty.int 32, params := [Ty.int 32], varArg := false }
      (Callee.func 207) [Value.inst 205] }

/-- The result of the out-of-tree variant on `readXModule`: the read of `x`
    is in place. -/
def readXOutOfTree : Module :=
  { ctx := { structNames := ["FakePtr", "struct.MyStruct"], uniqueId := 0 },
    functions := [
      { id := 200, name := "read_x",
        ty := { ret := Ty.int 32, params := [Ty.int 32], varArg := false },
        linkage := 0, addrSpace := 0, comdat := none,
        attrs := { fnAttrs := [Attr.optimizeNone], retAttrs := [], paramAttrs := [] },
        props := 0, metadata := [], body := readXState.body } ],
    globals := [], programAddrSpace := 0, nextId := 204 }

/-! ## The visits of the driver loop -/

/-- C20 as stated: visit the functions of the list `fs` one after the other,
    each of them once, in list order, the first at position `pos` of the
    function list, the next at `pos + 1`, and so on. Every visit works on the
    module the visit before left; the flag is the disjunction of the flags of
    the visits. -/
def visitInOrder (fakeptr_t : Ty) : List Function → Nat → Bool × Module → Result (Bool × Module)
  | [], _, r => pure r
  | F :: rest, pos, r =>
    visitFunction fakeptr_t r.2 pos F >>= fun r' =>
      visitInOrder fakeptr_t rest (pos + 1) (r.1 || r'.1, r'.2)

/-- A second function with a protected parameter,
    `define void @write_z(%struct.MyStruct* %p, i1 %v)`, that writes `%v`
    into field 1 of `%p`; its objects have other numbers than those of
    `read_x`. -/
def writeZFunction : Function :=
  { id := 101, name := "write_z",
    ty := { ret := Ty.void, params := [myStructPtr, Ty.int 1], varArg := false },
    linkage := 0, addrSpace := 0, comdat := none,
    attrs := { fnAttrs := [Attr.optimizeNone], retAttrs := [], paramAttrs := [] },
    props := 0, metadata := [],
    body := [
      { id := 11, ty := Ty.ptr myStructPtr 0,
        op := Op.alloca myStructPtr (Value.constInt 32 1) 8 },
      { id := 12, ty := Ty.void,
        op := Op.store (Value.arg 101 0 myStructPtr) (Value.inst 11) false 8 },
      { id := 13, ty := myStructPtr, op := Op.load (Value.inst 11) false 8 },
      { id := 14, ty := Ty.ptr (Ty.int 1) 0,
        op := Op.gep (Ty.struct "struct.MyStruct") (Value.inst 13)
          [Value.constInt 32 0, Value.constInt 32 1] true },
      { id := 15, ty := Ty.void,
        op := Op.store (Value.arg 101 1 (Ty.int 1)) (Value.inst 14) false 1 },
      { id := 16, ty := Ty.void, op := Op.other 1 [] } ] }

/-- A module with two functions to rewrite, `read_x` and `write_z`, and the
    function `g` between them. -/
def bothModule : Module :=
  { ctx := { structNames := ["struct.MyStruct"], uniqueId := 0 },
    functions := [readXFunction, plainFunction, writeZFunction],
    globals := [], programAddrSpace := 0, nextId := 200 }

/-- The module `bothModule` when two rounds of the driver loop are done:
    `read_x` is replaced, `g` is as it was, `write_z` is still to visit and
    the getter of field 0 is declared behind it. -/
def bothMiddle : Module :=
  { ctx := { structNames := ["FakePtr", "struct.MyStruct"], uniqueId := 0 },
    functions := [readXRewritten, plainFunction, writeZFunction, getField0Decl 207],
    globals := [], programAddrSpace := 0, nextId := 208 }

/-- The function the pass leaves in place of `write_z`. -/
def writeZRewritten : Function :=
  { id := 208, name := "write_z",
    ty := { ret := Ty.void, params := [Ty.int 32, Ty.int 1], varArg := false },
    linkage := 0, addrSpace := 0, comdat := none,
    attrs := { fnAttrs := [], retAttrs := [], paramAttrs := [] },
    props := 0, metadata := [],
    body := [
      { id := 209, ty := Ty.ptr (Ty.struct "FakePtr") 0,
        op := Op.alloca (Ty.struct "FakePtr") (Value.constInt 32 1) 4 },
      { id := 210, ty := Ty.ptr (Ty.int 32) 0,
        op := Op.gep (Ty.struct "FakePtr") (Value.inst 209)
          [Value.constInt 32 0, Value.constInt 32 0] true },
      { id := 211, ty := Ty.void,
        op := Op.store (Value.arg 208 0 (Ty.int 32)) (Value.inst 210) false 4 },
      { id := 212, ty := Ty.ptr (Ty.int 32) 0,
        op := Op.gep (Ty.struct "FakePtr") (Value.inst 209)
          [Value.constInt 32 0, Value.constInt 32 0] true },
      { id := 213, ty := Ty.int 32, op := Op.load (Value.inst 212) false 0 },
      { id := 214, ty := Ty.void,
        op := Op.call { ret := Ty.void, params := [Ty.int 32, Ty.int 1], varArg := false }
          (Callee.func 215) [Value.inst 213, Value.arg 208 1 (Ty.int 1)] },
      { id := 16, ty := Ty.void, op := Op.other 1 [] } ] }

/-- The result of the pass on `bothModule`. -/
def bothResult : Module :=
  { ctx := { structNames := ["FakePtr", "struct.MyStruct"], uniqueId := 0 },
    functions := [readXRewritten, plainFunction, writeZRewritten, getField0Decl 207,
      setField1Decl 215],
    globals := [], programAddrSpace := 0, nextId := 216 }

/-! ## Auxiliary facts -/

theorem bind_ok {α β : Type} {x : Result α} {f : α → Result β} {b : β}
    (h : x >>= f = Except.ok b) : ∃ a, x = Except.ok a ∧ f a = Except.ok b := by
  cases x with
  | error e => simp [bind, Except.bind] at h
  | ok a => exact ⟨a, rfl, h⟩

theorem pure_ok {α : Type} {a b : α} (h : (pure a : Result α) = Except.ok b) : a = b := by
  simpa [pure, Except.pure] using h

theorem throw_ne_ok {α : Type} {e : Fault} {b : α} (h : (throw e : Result α) = Except.ok b) :
    False := by
  simp [throw, throwThe, MonadExceptOf.throw] at h

/-- A relation that every step of a monadic fold respects holds between the
    start and the end of the fold. -/
theorem foldlM_rel {α β : Type} (f : β → α → Result β) (R : β → β → Prop)
    (hrefl : ∀ b, R b b) (htrans : ∀ a b c, R a b → R b c → R a c)
    (hstep : ∀ b a b', f b a = Except.ok b' → R b b') :
    ∀ (l : List α) (b b' : β), l.foldlM f b = Except.ok b' → R b b' := by
  intro l
  induction l with
  | nil =>
    intro b b' h
    have := pure_ok h
    subst this
    exact hrefl b
  | cons a l ih =>
    intro b b' h
    rw [List.foldlM_cons] at h
    obtain ⟨b1, h1, h2⟩ := bind_ok h
    exact htrans _ _ _ (hstep _ _ _ h1) (ih _ _ h2)

theorem appended_refl (M : Module) : Appended M M :=
  ⟨[], by simp, by simp, rfl, rfl, rfl⟩

theorem appended_trans {A B C : Module} (h1 : Appended A B) (h2 : Appended B C) :
    Appended A C := by
  obtain ⟨d1, e1, b1, c1, g1, p1⟩ := h1
  obtain ⟨d2, e2, b2, c2, g2, p2⟩ := h2
  refine ⟨d1 ++ d2, ?_, ?_, c2.trans c1, g2.trans g1, p2.trans p1⟩
  · rw [e2, e1, List.append_assoc]
  · intro d hd
    rcases List.mem_append.mp hd with h | h
    · exact b1 d h
    · exact b2 d h

theorem getOrInsertFunction_appended (M : Module) (name : String) (fnTy : FnTy) :
    Appended M (M.getOrInsertFunction name fnTy).2 := by
  unfold Module.getOrInsertFunction
  split
  · split <;> exact appended_refl M
  · split
    · exact appended_refl M
    · exact ⟨[_], rfl, by simp, rfl, rfl, rfl⟩

theorem appended_nextId (M : Module) (n : Nat) : Appended M { M with nextId := n } :=
  ⟨[], by simp, by simp, rfl, rfl, rfl⟩

theorem rewriteSite_appended (fakeptr_t int32arg_t : Ty) (st st' : RewriteState) (site : Inst)
    (addr : Value) (acc : Access)
    (h : rewriteSite fakeptr_t int32arg_t st site addr acc = Except.ok st') :
    Appended st.M st'.M := by
  unfold rewriteSite at h
  obtain ⟨s, _, h⟩ := bind_ok h
  split at h
  · have := pure_ok h; subst this; exact appended_refl _
  · obtain ⟨hl, _, h⟩ := bind_ok h
    obtain ⟨fnTy, _, h⟩ := bind_ok h
    obtain ⟨body, _, h⟩ := bind_ok h
    have := pure_ok h; subst this
    exact appended_trans (appended_nextId _ _) (getOrInsertFunction_appended _ _ _)

theorem rewriteLoad_appended (fakeptr_t int32arg_t : Ty) (st : RewriteState) (id : Nat)
    (st' : RewriteState) (h : rewriteLoad fakeptr_t int32arg_t st id = Except.ok st') :
    Appended st.M st'.M := by
  unfold rewriteLoad at h
  split at h
  · exact (throw_ne_ok h).elim
  · split at h
    · exact rewriteSite_appended _ _ _ _ _ _ _ h
    · exact (throw_ne_ok h).elim

theorem rewriteStore_appended (fakeptr_t int32arg_t : Ty) (st : RewriteState) (id : Nat)
    (st' : RewriteState) (h : rewriteStore fakeptr_t int32arg_t st id = Except.ok st') :
    Appended st.M st'.M := by
  unfold rewriteStore at h
  split at h
  · exact (throw_ne_ok h).elim
  · split at h
    · exact rewriteSite_appended _ _ _ _ _ _ _ h
    · exact (throw_ne_ok h).elim

theorem rewriteBody_appended (fakeptr_t int32arg_t : Ty) (M : Module) (newFn : Nat)
    (changedArgs : List Nat) (body : List Inst) (st : RewriteState)
    (h : rewriteBody fakeptr_t int32arg_t M newFn changedArgs body = Except.ok st) :
    Appended M st.M := by
  unfold rewriteBody at h
  obtain ⟨bs, _, h⟩ := bind_ok h
  obtain ⟨_, _, h⟩ := bind_ok h
  obtain ⟨q, _, h⟩ := bind_ok h
  obtain ⟨st1, h1, h2⟩ := bind_ok h
  have a1 := foldlM_rel (rewriteLoad fakeptr_t int32arg_t) (fun a b => Appended a.M b.M)
    (fun b => appended_refl _) (fun _ _ _ h1 h2 => appended_trans h1 h2)
    (rewriteLoad_appended fakeptr_t int32arg_t) _ _ _ h1
  have a2 := foldlM_rel (rewriteStore fakeptr_t int32arg_t) (fun a b => Appended a.M b.M)
    (fun b => appended_refl _) (fun _ _ _ h1 h2 => appended_trans h1 h2)
    (rewriteStore_appended fakeptr_t int32arg_t) _ _ _ h2
  exact appended_trans (appended_nextId M bs.nextId) (appended_trans a1 a2)

theorem correctTy_eq (t r : Ty) (names : List String) :
    correctTy t names r = if isStructPtrWithName (some t) names then r else t := by
  unfold correctTy correctType
  split <;> rfl

theorem isProtectedPtr_int (n : Nat) : isProtectedPtr (Ty.int n) = false := rfl

theorem correctTy_protected {t : Ty} (h : isProtectedPtr t = true) :
    correctTy t struct_names (Ty.int 32) = Ty.int 32 := by
  rw [correctTy_eq]; unfold isProtectedPtr at h; simp [h]

theorem correctTy_unprotected {t : Ty} (h : isProtectedPtr t = false) :
    correctTy t struct_names (Ty.int 32) = t := by
  rw [correctTy_eq]; unfold isProtectedPtr at h; simp [h]

theorem correctTy_eq_self_iff (t : Ty) :
    correctTy t struct_names (Ty.int 32) = t ↔ isProtectedPtr t = false := by
  constructor
  · intro h
    cases hp : isProtectedPtr t with
    | false => rfl
    | true =>
      rw [correctTy_protected hp] at h
      rw [← h] at hp
      simp [isProtectedPtr_int] at hp
  · exact correctTy_unprotected

theorem collectParams_fst (names : List String) (r : Ty) (attrs : AttributeList) :
    ∀ (ps : List Ty) (k : Nat),
      (collectParams names r attrs ps k).1 = ps.map (fun t => correctTy t names r) := by
  intro ps
  induction ps with
  | nil => intro k; rfl
  | cons t ts ih => intro k; simp [collectParams, ih]

theorem collectParams_attrs (names : List String) (r : Ty) (attrs : AttributeList) :
    ∀ (ps : List Ty) (k j : Nat), j < ps.length →
      (collectParams names r attrs ps k).2.1.getD j [] = attrs.getParamAttributes (k + j) := by
  intro ps
  induction ps with
  | nil => intro k j h; simp at h
  | cons t ts ih =>
    intro k j h
    cases j with
    | zero => simp [collectParams]
    | succ j =>
      simp only [collectParams, List.getD_cons_succ]
      rw [ih (k + 1) j (by simpa using h)]
      congr 1
      omega

theorem collectParams_attrs_length (names : List String) (r : Ty) (attrs : AttributeList) :
    ∀ (ps : List Ty) (k : Nat), (collectParams names r attrs ps k).2.1.length = ps.length := by
  intro ps
  induction ps with
  | nil => intro k; rfl
  | cons t ts ih => intro k; simp [collectParams, ih]

theorem map_correctTy_eq_self_iff (ps : List Ty) :
    ps.map (fun t => correctTy t struct_names (Ty.int 32)) = ps ↔
      ps.any isProtectedPtr = false := by
  induction ps with
  | nil => simp
  | cons t ts ih =>
    simp only [List.map_cons, List.cons.injEq, List.any_cons, Bool.or_eq_false_iff]
    rw [ih, correctTy_eq_self_iff]

/-- The signature test of `runOnModule` (line 231) succeeds exactly when no
    parameter is a protected pointer. -/
theorem newFunTy_eq_iff (ty : FnTy) (attrs : AttributeList) :
    ({ ret := ty.ret,
       params := (collectParams struct_names (Ty.int 32) attrs ty.params 0).1,
       varArg := ty.varArg } : FnTy) = ty ↔ ty.params.any isProtectedPtr = false := by
  rw [collectParams_fst, ← map_correctTy_eq_self_iff]
  cases ty with
  | mk ret params va => simp

theorem visitFunction_skip (fakeptr_t : Ty) (M : Module) (pos : Nat) (oldFun : Function)
    (h : oldFun.getInstructionCount = 0 ∨ oldFun.hasProtectedParam = false) :
    visitFunction fakeptr_t M pos oldFun = Except.ok (false, M) := by
  unfold visitFunction
  by_cases h0 : oldFun.getInstructionCount = 0
  · simp [h0]; rfl
  · rcases h with h | h
    · exact absurd h h0
    · have := (newFunTy_eq_iff oldFun.ty oldFun.attrs).mpr h
      simp only [h0, if_false, this, if_true]
      rfl

theorem getOrInsertFunction_nextId (M : Module) (name : String) (fnTy : FnTy) :
    M.nextId ≤ (M.getOrInsertFunction name fnTy).2.nextId := by
  unfold Module.getOrInsertFunction
  split
  · split <;> exact Nat.le_refl _
  · split
    · exact Nat.le_refl _
    · exact Nat.le_succ _

theorem rewriteSite_nextId (fakeptr_t int32arg_t : Ty) (st st' : RewriteState) (site : Inst)
    (addr : Value) (acc : Access)
    (h : rewriteSite fakeptr_t int32arg_t st site addr acc = Except.ok st') :
    st.M.nextId ≤ st'.M.nextId := by
  unfold rewriteSite at h
  obtain ⟨s, _, h⟩ := bind_ok h
  split at h
  · have := pure_ok h; subst this; exact Nat.le_refl _
  · obtain ⟨hl, _, h⟩ := bind_ok h
    obtain ⟨fnTy, _, h⟩ := bind_ok h
    obtain ⟨body, _, h⟩ := bind_ok h
    have := pure_ok h; subst this
    refine Nat.le_trans ?_ (getOrInsertFunction_nextId _ _ _)
    exact Nat.le_add_right _ 3

theorem rewriteLoad_nextId (fakeptr_t int32arg_t : Ty) (st : RewriteState) (id : Nat)
    (st' : RewriteState) (h : rewriteLoad fakeptr_t int32arg_t st id = Except.ok st') :
    st.M.nextId ≤ st'.M.nextId := by
  unfold rewriteLoad at h
  split at h
  · exact (throw_ne_ok h).elim
  · split at h
    · exact rewriteSite_nextId _ _ _ _ _ _ _ h
    · exact (throw_ne_ok h).elim

theorem rewriteStore_nextId (fakeptr_t int32arg_t : Ty) (st : RewriteState) (id : Nat)
    (st' : RewriteState) (h : rewriteStore fakeptr_t int32arg_t st id = Except.ok st') :
    st.M.nextId ≤ st'.M.nextId := by
  unfold rewriteStore at h
  split at h
  · exact (throw_ne_ok h).elim
  · split at h
    · exact rewriteSite_nextId _ _ _ _ _ _ _ h
    · exact (throw_ne_ok h).elim

theorem fixPrologueArg_nextId (fakeptr_t int32arg_t : Ty) (fn : Nat) (st : BodyState)
    (argi : Nat) (st' : BodyState)
    (h : fixPrologueArg fakeptr_t int32arg_t fn st argi = Except.ok st') :
    st.nextId ≤ st'.nextId := by
  unfold fixPrologueArg at h
  obtain ⟨s, _, h⟩ := bind_ok h
  split at h
  · split at h
    · exact (throw_ne_ok h).elim
    · split at h
      · have := pure_ok h; subst this; simp [retypeSlot]
      · have := pure_ok h; subst this; exact Nat.le_refl _
  · have := pure_ok h; subst this; exact Nat.le_refl _

theorem rewriteBody_nextId (fakeptr_t int32arg_t : Ty) (M : Module) (newFn : Nat)
    (changedArgs : List Nat) (body : List Inst) (st : RewriteState)
    (h : rewriteBody fakeptr_t int32arg_t M newFn changedArgs body = Except.ok st) :
    M.nextId ≤ st.M.nextId := by
  unfold rewriteBody at h
  obtain ⟨bs, h0, h⟩ := bind_ok h
  obtain ⟨_, _, h⟩ := bind_ok h
  obtain ⟨q, _, h⟩ := bind_ok h
  obtain ⟨st1, h1, h2⟩ := bind_ok h
  have a0 := foldlM_rel (fixPrologueArg fakeptr_t int32arg_t newFn)
    (fun a b => a.nextId ≤ b.nextId) (fun b => Nat.le_refl _)
    (fun _ _ _ h1 h2 => Nat.le_trans h1 h2)
    (fun b a b' hb => fixPrologueArg_nextId fakeptr_t int32arg_t newFn b a b' hb) _ _ _ h0
  have a1 := foldlM_rel (rewriteLoad fakeptr_t int32arg_t)
    (fun a b => a.M.nextId ≤ b.M.nextId) (fun b => Nat.le_refl _)
    (fun _ _ _ h1 h2 => Nat.le_trans h1 h2)
    (rewriteLoad_nextId fakeptr_t int32arg_t) _ _ _ h1
  have a2 := foldlM_rel (rewriteStore fakeptr_t int32arg_t)
    (fun a b => a.M.nextId ≤ b.M.nextId) (fun b => Nat.le_refl _)
    (fun _ _ _ h1 h2 => Nat.le_trans h1 h2)
    (rewriteStore_nextId fakeptr_t int32arg_t) _ _ _ h2
  simp only at a0 a1 a2
  omega

theorem take_drop_splice {α : Type} (A B D : List α) (x y z : α) (pos : Nat)
    (h : A.length = pos) :
    List.take pos ((A ++ x :: y :: B) ++ D) ++ z :: List.drop (pos + 2) ((A ++ x :: y :: B) ++ D)
      = A ++ z :: (B ++ D) := by
  subst h
  rw [List.append_assoc, List.take_left, List.drop_append]
  simp

theorem visitFunction_rewrite (fakeptr_t : Ty) (M : Module) (pos : Nat) (oldFun : Function)
    (r : Bool × Module) (hpos : pos ≤ M.functions.length)
    (hc : oldFun.getInstructionCount ≠ 0) (hp : oldFun.hasProtectedParam = true)
    (h : visitFunction fakeptr_t M pos oldFun = Except.ok r) :
    r.1 = true ∧ M.nextId ≤ r.2.nextId ∧ ∃ body decls,
      RewrittenBody fakeptr_t oldFun M.nextId body ∧
      r.2.functions = M.functions.take pos ++
        replacementOf oldFun M.nextId body :: (M.functions.drop (pos + 1) ++ decls) ∧
      (∀ d ∈ decls, d.body = []) ∧ r.2.ctx = M.ctx ∧ r.2.globals = M.globals ∧
      r.2.programAddrSpace = M.programAddrSpace := by
  unfold visitFunction at h
  have hne := (newFunTy_eq_iff oldFun.ty oldFun.attrs).not.mpr
    (by unfold Function.hasProtectedParam at hp; simp [hp])
  simp only [hc, if_false, hne] at h
  obtain ⟨st, hst, h⟩ := bind_ok h
  have := pure_ok h
  subst this
  obtain ⟨decls, hf, hd, hctx, hg, hpa⟩ := rewriteBody_appended _ _ _ _ _ _ _ hst
  have hmono := rewriteBody_nextId _ _ _ _ _ _ _ hst
  refine ⟨rfl, ?_, st.body, decls, ?_, ?_, hd, hctx, hg, hpa⟩
  · simp only at hmono ⊢
    omega
  · have hst1 := hst
    simp only [collectParams_fst] at hst1
    refine ⟨_, st, ?_, hst1, rfl⟩
    rfl
  · simp only [hf]
    rw [take_drop_splice _ _ _ _ _ _ pos (by simp [List.length_take, hpos])]
    simp [replacementOf, newSignature, collectParams_fst]

theorem needsRewrite_false_iff (f : Function) :
    f.needsRewrite = false ↔ f.getInstructionCount = 0 ∨ f.hasProtectedParam = false := by
  unfold Function.needsRewrite
  by_cases h : f.getInstructionCount = 0 <;> simp [h]

theorem needsRewrite_true_iff (f : Function) :
    f.needsRewrite = true ↔ f.getInstructionCount ≠ 0 ∧ f.hasProtectedParam = true := by
  unfold Function.needsRewrite
  by_cases h : f.getInstructionCount = 0 <;> simp [h]

theorem needsRewrite_of_body_nil {f : Function} (h : f.body = []) : f.needsRewrite = false := by
  rw [needsRewrite_false_iff]; left; simp [Function.getInstructionCount, h]

theorem eq_take_cons_drop {α : Type} (l : List α) (pos : Nat) (x : α) (h : l[pos]? = some x) :
    l = l.take pos ++ x :: l.drop (pos + 1) := by
  induction l generalizing pos with
  | nil => simp at h
  | cons a l ih =>
    cases pos with
    | zero => simp at h; simp [h]
    | succ n =>
      simp at h
      simp only [List.take_succ_cons, List.drop_succ_cons, List.cons_append, List.cons.injEq,
        true_and]
      exact ih n h

/-- The shape of the function list after one round of the driver loop. -/
theorem visitFunction_shape (fakeptr_t : Ty) (M : Module) (pos : Nat) (oldFun : Function)
    (r : Bool × Module) (hpos : M.functions[pos]? = some oldFun)
    (h : visitFunction fakeptr_t M pos oldFun = Except.ok r) :
    ∃ X decls,
      r.2.functions = M.functions.take pos ++ X :: (M.functions.drop (pos + 1) ++ decls) ∧
      (∀ d ∈ decls, d.body = []) ∧ r.2.ctx = M.ctx ∧ r.2.globals = M.globals ∧
      r.2.programAddrSpace = M.programAddrSpace ∧ M.nextId ≤ r.2.nextId ∧
      ((oldFun.needsRewrite = false ∧ X = oldFun ∧ r.1 = false ∧ r.2 = M) ∨
       (oldFun.needsRewrite = true ∧ r.1 = true ∧
          ∃ body, RewrittenBody fakeptr_t oldFun M.nextId body ∧
            X = replacementOf oldFun M.nextId body)) := by
  cases hn : oldFun.needsRewrite with
  | false =>
    have hs := visitFunction_skip fakeptr_t M pos oldFun ((needsRewrite_false_iff _).mp hn)
    rw [hs] at h
    injection h with h
    subst h
    refine ⟨oldFun, [], ?_, by simp, rfl, rfl, rfl, Nat.le_refl _, Or.inl ⟨rfl, rfl, rfl, rfl⟩⟩
    simpa using eq_take_cons_drop _ _ _ hpos
  | true =>
    obtain ⟨hc, hp⟩ := (needsRewrite_true_iff _).mp hn
    have hle : pos ≤ M.functions.length := by
      have := (List.getElem?_eq_some.mp hpos).1
      omega
    obtain ⟨h1, hmono, body, decls, hrb, hf, hd, hctx, hg, hpa⟩ :=
      visitFunction_rewrite fakeptr_t M pos oldFun r hle hc hp h
    exact ⟨_, decls, hf, hd, hctx, hg, hpa, hmono, Or.inr ⟨rfl, h1, body, hrb, rfl⟩⟩

theorem getElem?_splice_lt {α : Type} (l : List α) (pos i : Nat) (X : α) (T : List α)
    (hpos : pos ≤ l.length) (hi : i < pos) :
    (l.take pos ++ X :: T)[i]? = l[i]? := by
  rw [List.getElem?_append_left (by simp [List.length_take]; omega)]
  rw [List.getElem?_take_of_lt hi]

theorem getElem?_splice_eq {α : Type} (l : List α) (pos : Nat) (X : α) (T : List α)
    (hpos : pos ≤ l.length) :
    (l.take pos ++ X :: T)[pos]? = some X := by
  have hl : (l.take pos).length = pos := by simp [List.length_take, hpos]
  rw [List.getElem?_append_right (by omega)]
  simp [hl]

theorem getElem?_splice_gt {α : Type} (l : List α) (pos i : Nat) (X : α) (D : List α)
    (hpos : pos ≤ l.length) (hi : pos < i) (hil : i < l.length) :
    (l.take pos ++ X :: (l.drop (pos + 1) ++ D))[i]? = l[i]? := by
  have hl : (l.take pos).length = pos := by simp [List.length_take, hpos]
  rw [List.getElem?_append_right (by omega), hl]
  obtain ⟨k, rfl⟩ : ∃ k, i = pos + 1 + k := ⟨i - pos - 1, by omega⟩
  have : pos + 1 + k - pos = k + 1 := by omega
  rw [this, List.getElem?_cons_succ, List.getElem?_append_left (by simp; omega)]
  simp

theorem drop_splice {α : Type} (l : List α) (pos : Nat) (X : α) (T : List α)
    (hpos : pos ≤ l.length) :
    (l.take pos ++ X :: T).drop (pos + 1) = T := by
  have hl : (l.take pos).length = pos := by simp [List.length_take, hpos]
  rw [List.drop_append_eq_append_drop, hl]
  simp

theorem any_needsRewrite_decls (decls : List Function) (h : ∀ d ∈ decls, d.body = []) :
    decls.any Function.needsRewrite = false := by
  rw [List.any_eq_false]
  intro d hd
  simp [needsRewrite_of_body_nil (h d hd)]

theorem any_take_append_decls (A decls : List Function) (k : Nat)
    (h : ∀ d ∈ decls, d.body = []) :
    ((A ++ decls).take k).any Function.needsRewrite = (A.take k).any Function.needsRewrite := by
  rw [List.take_append_eq_append_take, List.any_append]
  rw [any_needsRewrite_decls _ (fun d hd => h d (List.mem_of_mem_take hd))]
  simp

theorem length_splice {α : Type} (l : List α) (pos : Nat) (X : α) (D : List α)
    (hpos : pos < l.length) :
    (l.take pos ++ X :: (l.drop (pos + 1) ++ D)).length = l.length + D.length := by
  simp [List.length_take, List.length_drop]
  omega

theorem getElem?_splice_decl {α : Type} (l : List α) (pos i : Nat) (X F : α) (D : List α)
    (hpos : pos < l.length) (hi : l.length ≤ i)
    (h : (l.take pos ++ X :: (l.drop (pos + 1) ++ D))[i]? = some F) : F ∈ D := by
  have hl : (l.take pos).length = pos := by simp [List.length_take]; omega
  rw [List.getElem?_append_right (by omega), hl] at h
  obtain ⟨k, rfl⟩ : ∃ k, i = pos + 1 + k := ⟨i - pos - 1, by omega⟩
  have : pos + 1 + k - pos = k + 1 := by omega
  rw [this, List.getElem?_cons_succ,
    List.getElem?_append_right (by simp [List.length_drop]; omega)] at h
  exact List.getElem?_mem h

/-- What the driver loop does to the function list in `n` rounds started
    with the cursor at `s.pos`. -/
theorem driverRounds_spec (fakeptr_t : Ty) :
    ∀ (n : Nat) (s s' : DriverState), driverRounds fakeptr_t n s = Except.ok s' →
      s'.M.ctx = s.M.ctx ∧ s'.M.globals = s.M.globals ∧
      s.pos ≤ s'.pos ∧ s'.pos ≤ s.pos + n ∧
      (s'.pos = s.pos + n ∨ s'.M.functions.length ≤ s'.pos) ∧
      s.M.functions.length ≤ s'.M.functions.length ∧
      s'.isChanged = (s.isChanged ||
        ((s.M.functions.drop s.pos).take (s'.pos - s.pos)).any Function.needsRewrite) ∧
      (∀ i F, s.M.functions[i]? = some F → (i < s.pos ∨ F.needsRewrite = false) →
        s'.M.functions[i]? = some F) ∧
      (∀ i F, s.M.functions[i]? = some F → s.pos ≤ i → i < s'.pos → F.needsRewrite = true →
        ∃ k body, s.M.nextId ≤ k ∧ RewrittenBody fakeptr_t F k body ∧
          s'.M.functions[i]? = some (replacementOf F k body)) ∧
      (∀ i F, s'.M.functions[i]? = some F → s.M.functions.length ≤ i → F.body = []) ∧
      s.M.nextId ≤ s'.M.nextId := by
  intro n
  induction n with
  | zero =>
    intro s s' h
    unfold driverRounds at h
    have := pure_ok h
    subst this
    refine ⟨rfl, rfl, Nat.le_refl _, by omega, Or.inl rfl, Nat.le_refl _, by simp,
      fun i F hF _ => hF, ?_, ?_, Nat.le_refl _⟩
    · intro i F _ h1 h2; omega
    · intro i F hF hi
      have := (List.getElem?_eq_some.mp hF).1
      omega
  | succ n ih =>
    intro s s' h
    unfold driverRounds at h
    rw [List.get?_eq_getElem?] at h
    split at h
    · rename_i hnone
      have := pure_ok h
      subst this
      have hlen : s.M.functions.length ≤ s.pos := by
        rcases Nat.lt_or_ge s.pos s.M.functions.length with hlt | hge
        · rw [List.getElem?_eq_getElem hlt] at hnone; simp at hnone
        · exact hge
      refine ⟨rfl, rfl, Nat.le_refl _, by omega, Or.inr hlen, Nat.le_refl _, by simp,
        fun i F hF _ => hF, ?_, ?_, Nat.le_refl _⟩
      · intro i F _ h1 h2; omega
      · intro i F hF hi
        have := (List.getElem?_eq_some.mp hF).1
        omega
    · rename_i oldFun hsome
      obtain ⟨r, hr, h⟩ := bind_ok h
      obtain ⟨X, decls, hf, hd, hctx, hg, _, hmono, hX⟩ :=
        visitFunction_shape fakeptr_t s.M s.pos oldFun r hsome hr
      obtain ⟨ictx, iglob, ipos, iub, iend, ilen, ib, i1, i2, i3, imono⟩ := ih _ s' h
      simp only at ictx iglob ipos iub iend ilen ib i1 i2 i3 imono
      have hposlt : s.pos < s.M.functions.length := (List.getElem?_eq_some.mp hsome).1
      have hple : s.pos ≤ s.M.functions.length := Nat.le_of_lt hposlt
      have hr1 : r.1 = oldFun.needsRewrite := by
        rcases hX with ⟨a, _, c, _⟩ | ⟨a, c, _⟩ <;> rw [a, c]
      have hlen2 : r.2.functions.length = s.M.functions.length + decls.length := by
        rw [hf, length_splice _ _ _ _ hposlt]
      have hkeep : ∀ i F, s.M.functions[i]? = some F → i ≠ s.pos → r.2.functions[i]? = some F := by
        intro i F hF hne
        rw [hf]
        rcases Nat.lt_or_gt_of_ne hne with hlt | hgt
        · rw [getElem?_splice_lt _ _ _ _ _ hple hlt]; exact hF
        · rw [getElem?_splice_gt _ _ _ _ _ hple hgt (List.getElem?_eq_some.mp hF).1]
          exact hF
      have hat : r.2.functions[s.pos]? = some X := by
        rw [hf, getElem?_splice_eq _ _ _ _ hple]
      refine ⟨ictx.trans hctx, iglob.trans hg, by omega, by omega, ?_, by omega, ?_, ?_, ?_, ?_,
        Nat.le_trans hmono imono⟩
      · rcases iend with h1 | h1
        · left; omega
        · right; exact h1
      · rw [ib, hf, drop_splice _ _ _ _ hple, any_take_append_decls _ _ _ hd, hr1]
        have hdrop : s.M.functions.drop s.pos = oldFun :: s.M.functions.drop (s.pos + 1) := by
          rw [List.drop_eq_getElem_cons hposlt]
          congr 1
          have := List.getElem?_eq_getElem hposlt
          rw [hsome] at this
          injection this with this
          exact this.symm
        obtain ⟨k, hk⟩ : ∃ k, s'.pos - s.pos = k + 1 := ⟨s'.pos - s.pos - 1, by omega⟩
        have hk2 : s'.pos - (s.pos + 1) = k := by omega
        rw [hdrop, hk, hk2, List.take_succ_cons, List.any_cons, Bool.or_assoc]
      · intro i F hF hcond
        apply i1 i F
        · by_cases hne : i = s.pos
          · subst hne
            rw [hsome] at hF
            injection hF with hF
            subst hF
            rw [hat]
            rcases hcond with hc | hc
            · omega
            · rcases hX with ⟨_, c, _⟩ | ⟨a, _⟩
              · rw [c]
              · rw [hc] at a; cases a
          · exact hkeep i F hF hne
        · rcases hcond with hc | hc
          · left; omega
          · right; exact hc
      · intro i F hF hi hi2 hn
        rcases Nat.eq_or_lt_of_le hi with heq | hgt
        · subst heq
          rw [hsome] at hF
          injection hF with hF
          subst hF
          rcases hX with ⟨a, _⟩ | ⟨_, _, body, hrb, c⟩
          · rw [hn] at a; cases a
          · refine ⟨s.M.nextId, body, Nat.le_refl _, hrb, ?_⟩
            apply i1 s.pos
            · rw [hat, c]
            · left; omega
        · obtain ⟨k, body, hk, hrb, hG⟩ := i2 i F (hkeep i F hF (by omega)) (by omega) hi2 hn
          exact ⟨k, body, Nat.le_trans hmono hk, hrb, hG⟩
      · intro i F hF hi
        by_cases hi2 : r.2.functions.length ≤ i
        · exact i3 i F hF hi2
        · have hlt : i < r.2.functions.length := by omega
          have hget := List.getElem?_eq_getElem hlt
          have hmem : r.2.functions[i] ∈ decls := by
            apply getElem?_splice_decl s.M.functions s.pos i X _ decls hposlt hi
            rw [← hf]; exact hget
          have := i1 i _ hget (Or.inr (needsRewrite_of_body_nil (hd _ hmem)))
          rw [hF] at this
          injection this with this
          rw [this]
          exact hd _ hmem

/-- Rounds of the driver loop over functions that need no rewrite only move
    the cursor. -/
theorem driverRounds_skip (fakeptr_t : Ty) :
    ∀ (n : Nat) (s : DriverState),
      (∀ (i : Nat) (F : Function), s.M.functions[i]? = some F → s.pos ≤ i →
        F.needsRewrite = false) →
      ∃ p, driverRounds fakeptr_t n s = Except.ok { s with pos := p } ∧
        (s.M.functions.length ≤ s.pos + n → s.M.functions.length ≤ p) := by
  intro n
  induction n with
  | zero =>
    intro s _
    exact ⟨s.pos, rfl, fun h => by omega⟩
  | succ n ih =>
    intro s hs
    unfold driverRounds
    rw [List.get?_eq_getElem?]
    split
    · rename_i hnone
      refine ⟨s.pos, rfl, fun _ => ?_⟩
      rcases Nat.lt_or_ge s.pos s.M.functions.length with hlt | hge
      · rw [List.getElem?_eq_getElem hlt] at hnone; simp at hnone
      · exact hge
    · rename_i oldFun hsome
      have hskip := visitFunction_skip fakeptr_t s.M s.pos oldFun
        ((needsRewrite_false_iff _).mp (hs _ _ hsome (Nat.le_refl _)))
      rw [hskip]
      obtain ⟨p, hp, hlen⟩ := ih { isChanged := s.isChanged || false, M := s.M, pos := s.pos + 1 }
        (fun i F hF hi => hs i F hF (by simp at hi; omega))
      refine ⟨p, ?_, fun h => hlen (by simp; omega)⟩
      simp only [bind, Except.bind]
      rw [hp]
      simp

/-- The second batch of rounds in `runOnModule` only moves the cursor to the
    end of the list: the result of `runOnModule` is the state after the first
    batch. -/
theorem runOnModule_eq (M : Module) (a : DriverState)
    (h : driverRounds (getFakePtrType M.ctx).1 M.functions.length
      { isChanged := false, M := { M with ctx := (getFakePtrType M.ctx).2 }, pos := 0 }
        = Except.ok a) :
    runOnModule M = Except.ok (a.isChanged, a.M) := by
  obtain ⟨_, _, hp1, hp2, hend, hlen, _, _, _, hdecl, _⟩ := driverRounds_spec _ _ _ _ h
  simp only at hp1 hp2 hend hlen hdecl
  have hapos : a.pos = M.functions.length := by
    rcases hend with h1 | h1 <;> omega
  obtain ⟨p, hp, hpl⟩ := driverRounds_skip (getFakePtrType M.ctx).1
    (a.M.functions.length - a.pos) a
    (fun i F hF hi => needsRewrite_of_body_nil (hdecl i F hF (by omega)))
  unfold runOnModule
  simp only [h, bind, Except.bind, hp]
  have : ¬ (p < a.M.functions.length) := by
    have := hpl (by omega)
    omega
  simp [this, pure, Except.pure]

theorem driverRounds_error_run (M : Module) (e : Fault)
    (h : driverRounds (getFakePtrType M.ctx).1 M.functions.length
      { isChanged := false, M := { M with ctx := (getFakePtrType M.ctx).2 }, pos := 0 }
        = Except.error e) :
    runOnModule M = Except.error e := by
  unfold runOnModule
  simp only [h, bind, Except.bind]

/-- The cursor of the driver loop always reaches the end of the function
    list within the rounds `runOnModule` allows. -/
theorem runOnModule_ne_outOfFuel_of_ok (M : Module) (r : Bool × Module)
    (h : runOnModule M = Except.ok r) :
    ∃ a, driverRounds (getFakePtrType M.ctx).1 M.functions.length
      { isChanged := false, M := { M with ctx := (getFakePtrType M.ctx).2 }, pos := 0 }
        = Except.ok a ∧ r = (a.isChanged, a.M) := by
  cases ha : driverRounds (getFakePtrType M.ctx).1 M.functions.length
      { isChanged := false, M := { M with ctx := (getFakePtrType M.ctx).2 }, pos := 0 } with
  | error e => rw [driverRounds_error_run M e ha] at h; cases h
  | ok a =>
    rw [runOnModule_eq M a ha] at h
    injection h with h
    exact ⟨a, rfl, h.symm⟩

/-- What `runOnModule` does to the function list. -/
theorem runOnModule_spec (M M' : Module) (b : Bool) (h : runOnModule M = Except.ok (b, M')) :
    M'.ctx = (getFakePtrType M.ctx).2 ∧ M'.globals = M.globals ∧
    M.functions.length ≤ M'.functions.length ∧
    b = M.functions.any Function.needsRewrite ∧
    (∀ (i : Nat) (F : Function), M.functions[i]? = some F → F.needsRewrite = false →
      M'.functions[i]? = some F) ∧
    (∀ (i : Nat) (F : Function), M.functions[i]? = some F → F.needsRewrite = true →
      ∃ k body, M.nextId ≤ k ∧ RewrittenBody (getFakePtrType M.ctx).1 F k body ∧
        M'.functions[i]? = some (replacementOf F k body)) ∧
    (∀ (i : Nat) (F : Function), M'.functions[i]? = some F → M.functions.length ≤ i →
      F.body = []) := by
  obtain ⟨a, ha, hr⟩ := runOnModule_ne_outOfFuel_of_ok M _ h
  injection hr with hb hM
  subst hb; subst hM
  obtain ⟨hctx, hg, hp1, hp2, hend, hlen, hch, h1, h2, h3, _⟩ := driverRounds_spec _ _ _ _ ha
  simp only at hctx hg hp1 hp2 hend hlen hch h1 h2 h3
  have hapos : a.pos = M.functions.length := by
    rcases hend with h1 | h1 <;> omega
  refine ⟨hctx, hg, hlen, ?_, fun i F hF hn => h1 i F hF (Or.inr hn), ?_, h3⟩
  · rw [hch, hapos]; simp
  · intro i F hF hn
    exact h2 i F hF (Nat.zero_le _) (by rw [hapos]; exact (List.getElem?_eq_some.mp hF).1) hn

/-! ## C1: the signature of a rewritten function -/

theorem getElem?_map_correctTy (ps : List Ty) (i : Nat) (t : Ty) (h : ps[i]? = some t) :
    (ps.map (fun t => correctTy t struct_names (Ty.int 32)))[i]? =
      some (if isProtectedPtr t then Ty.int 32 else t) := by
  rw [List.getElem?_map, h]
  simp only [Option.map_some']
  congr 1
  cases hp : isProtectedPtr t with
  | true => simp [correctTy_protected hp]
  | false => simp [correctTy_unprotected hp]

/-- C1 (as amended): every defined function with a protected pointer parameter
    has, in the post-pass module and at the same position, a function of the
    same name, return type, parameter count and varargs flag whose parameter
    `i` is `i32` when the old parameter `i` was a protected pointer and has the
    old type otherwise. -/
theorem C1_signature_retyped (M M' : Module) (b : Bool)
    (h : runOnModule M = Except.ok (b, M')) (i : Nat) (F : Function)
    (hF : M.functions[i]? = some F) (hdef : F.getInstructionCount ≠ 0)
    (hp : F.hasProtectedParam = true) :
    ∃ G, M'.functions[i]? = some G ∧ G ∈ M'.functions ∧ G.name = F.name ∧
      G.ty.ret = F.ty.ret ∧ G.ty.params.length = F.ty.params.length ∧
      G.ty.varArg = F.ty.varArg ∧
      ∀ (j : Nat) (t : Ty), F.ty.params[j]? = some t →
        G.ty.params[j]? = some (if isProtectedPtr t then Ty.int 32 else t) := by
  obtain ⟨_, _, _, _, _, h2, _⟩ := runOnModule_spec M M' b h
  obtain ⟨k, body, _, _, hG⟩ := h2 i F hF ((needsRewrite_true_iff F).mpr ⟨hdef, hp⟩)
  refine ⟨_, hG, List.getElem?_mem hG, rfl, rfl, ?_, rfl, ?_⟩
  · simp [replacementOf, newSignature]
  · intro j t ht
    exact getElem?_map_correctTy _ _ _ ht

theorem C1_signature_retyped_witness :
    runOnModule mixedModule = Except.ok (true, mixedResult) ∧
    ∃ G, mixedResult.functions[0]? = some G ∧ G ∈ mixedResult.functions ∧
      G.name = mixedFunction.name ∧
      G.ty.ret = mixedFunction.ty.ret ∧
      G.ty.params.length = mixedFunction.ty.params.length ∧
      G.ty.varArg = mixedFunction.ty.varArg ∧
      ∀ (j : Nat) (t : Ty), mixedFunction.ty.params[j]? = some t →
        G.ty.params[j]? = some (if isProtectedPtr t then Ty.int 32 else t) :=
  ⟨by rfl, C1_signature_retyped mixedModule mixedResult true (by rfl) 0 mixedFunction (by rfl)
    (by decide) (by decide)⟩

/-- C1 as stated fails: `f(%struct.MyStruct*, i32)` is rewritten to
    `f(i32, i32)`, whose second parameter is `i32` although the second
    parameter of the input function is no protected pointer. -/
theorem C1_exactly_when_fails :
    runOnModule mixedModule = Except.ok (true, mixedResult) ∧
    mixedFunction ∈ mixedModule.functions ∧ mixedFunction.getInstructionCount ≠ 0 ∧
    mixedFunction.hasProtectedParam = true ∧
    ¬ ∃ G ∈ mixedResult.functions, RetypedExactly mixedFunction G := by
  refine ⟨by rfl, by decide, by decide, by decide, by decide⟩

/-! ## C2: functions without a protected parameter -/

theorem needsRewrite_of_unprotected {f : Function} (h : f.hasProtectedParam = false) :
    f.needsRewrite = false :=
  (needsRewrite_false_iff f).mpr (Or.inr h)

/-- C2: a function of the input module none of whose parameters is a
    protected pointer is, after the pass, still the function at its position
    of the function list, unchanged: same name, signature, attributes and
    instruction list, whatever the other functions are. -/
theorem C2_unprotected_function_untouched (M M' : Module) (b : Bool)
    (h : runOnModule M = Except.ok (b, M')) (i : Nat) (G : Function)
    (hG : M.functions[i]? = some G) (hp : G.hasProtectedParam = false) :
    M'.functions[i]? = some G ∧
    ∃ G', G' ∈ M'.functions ∧ G'.name = G.name ∧ G'.ty = G.ty ∧ G'.attrs = G.attrs ∧
      G'.body = G.body := by
  obtain ⟨_, _, _, _, h1, _⟩ := runOnModule_spec M M' b h
  have := h1 i G hG (needsRewrite_of_unprotected hp)
  exact ⟨this, G, List.getElem?_mem this, rfl, rfl, rfl, rfl⟩

theorem C2_unprotected_function_untouched_witness :
    runOnModule pairModule = Except.ok (true, pairResult) ∧
    pairModule.functions[1]? = some plainFunction ∧
    plainFunction.hasProtectedParam = false ∧
    pairResult.functions[1]? = some plainFunction ∧
    ∃ G', G' ∈ pairResult.functions ∧ G'.name = plainFunction.name ∧
      G'.ty = plainFunction.ty ∧ G'.attrs = plainFunction.attrs ∧
      G'.body = plainFunction.body :=
  ⟨by rfl, by rfl, by decide,
    C2_unprotected_function_untouched pairModule pairResult true (by rfl) 1 plainFunction
      (by rfl) (by decide)⟩

/-! ## C3: the returned flag -/

theorem any_needsRewrite_iff (fs : List Function) :
    fs.any Function.needsRewrite = true ↔
      ∃ F ∈ fs, F.getInstructionCount ≠ 0 ∧ F.hasProtectedParam = true := by
  rw [List.any_eq_true]
  constructor
  · rintro ⟨F, hF, hn⟩
    exact ⟨F, hF, (needsRewrite_true_iff F).mp hn⟩
  · rintro ⟨F, hF, hn⟩
    exact ⟨F, hF, (needsRewrite_true_iff F).mpr hn⟩

theorem runOnModule_nothing_to_rewrite (M : Module)
    (h : ¬ ∃ F ∈ M.functions, F.getInstructionCount ≠ 0 ∧ F.hasProtectedParam = true) :
    runOnModule M = Except.ok (false, { M with ctx := (getFakePtrType M.ctx).2 }) := by
  have hall : ∀ (i : Nat) (F : Function), M.functions[i]? = some F → F.needsRewrite = false := by
    intro i F hF
    cases hn : F.needsRewrite with
    | false => rfl
    | true =>
      exact absurd ⟨F, List.getElem?_mem hF, (needsRewrite_true_iff F).mp hn⟩ h
  obtain ⟨p, hp, _⟩ := driverRounds_skip (getFakePtrType M.ctx).1 M.functions.length
    { isChanged := false, M := { M with ctx := (getFakePtrType M.ctx).2 }, pos := 0 }
    (fun i F hF _ => hall i F hF)
  exact runOnModule_eq M _ hp

/-! ## C10: parameters that are not retyped, parameter attributes -/

theorem dropTrailingEmpty_getD (l : List AttributeSet) :
    ∀ j, (dropTrailingEmpty l).getD j [] = l.getD j [] := by
  induction l with
  | nil => intro j; rfl
  | cons a rest ih =>
    intro j
    unfold dropTrailingEmpty
    split
    · rename_i hnil
      rw [hnil] at ih
      cases j with
      | zero => by_cases ha : a = [] <;> simp [ha]
      | succ j =>
        have h1 : rest.getD j [] = [] := by rw [← ih j]; rfl
        rw [List.getD_cons_succ, h1]
        by_cases ha : a = []
        · rw [if_pos ha]; rfl
        · rw [if_neg ha]; rfl
    · cases j with
      | zero => simp
      | succ j => simpa using ih j

theorem callee_mapOperands_comp (f g : Value → Value) (c : Callee) :
    (c.mapOperands g).mapOperands f = c.mapOperands (f ∘ g) := by
  cases c <;> rfl

theorem inst_mapOperands_comp (f g : Value → Value) (i : Inst) :
    (i.mapOperands g).mapOperands f = i.mapOperands (f ∘ g) := by
  cases i with
  | mk n ty op =>
    cases op <;>
      simp [Inst.mapOperands, Op.mapOperands, callee_mapOperands_comp, List.map_map]

theorem argSubst_step (oldFn newFn : Nat) (params : List Ty) (m : Nat) :
    (fun v => match v with
      | Value.arg fn i _ =>
        if fn = oldFn ∧ i = m then Value.arg newFn m (params.getD m Ty.void) else v
      | _ => v) ∘ argSubst oldFn newFn params m = argSubst oldFn newFn params (m + 1) := by
  funext v
  cases v with
  | arg fn idx ty =>
    simp only [Function.comp, argSubst]
    by_cases h1 : fn = oldFn
    · subst h1
      rcases Nat.lt_trichotomy idx m with h | h | h
      · have : idx < m + 1 := by omega
        have hne : ¬ (idx = m) := by omega
        simp [h, this, hne]
      · subst h
        simp
      · have h2 : ¬ idx < m := by omega
        have h3 : ¬ idx < m + 1 := by omega
        have hne : ¬ (idx = m) := by omega
        simp [h2, h3, hne]
    · simp [h1]
  | inst id => rfl
  | constInt b v => rfl
  | const t k => rfl

theorem argSubst_zero (oldFn newFn : Nat) (params : List Ty) :
    argSubst oldFn newFn params 0 = fun v => v := by
  funext v
  cases v <;> simp [argSubst]

theorem mapOperands_self (i : Inst) : Inst.mapOperands (fun v => v) i = i := by
  cases i with
  | mk n ty op =>
    cases op with
    | call ft c args => cases c <;> simp [Inst.mapOperands, Op.mapOperands, Callee.mapOperands]
    | _ => simp [Inst.mapOperands, Op.mapOperands]

/-- The loop of lines 250-255 is one simultaneous replacement: every use of
    an old argument is a use of the new argument of the same index, and
    nothing else in the body changes. -/
theorem replaceAllArgs_eq (oldFn newFn : Nat) (params : List Ty) (body : List Inst) :
    replaceAllArgs oldFn newFn params body =
      body.map (Inst.mapOperands (argSubst oldFn newFn params params.length)) := by
  unfold replaceAllArgs
  generalize params.length = n
  induction n with
  | zero =>
    have : Inst.mapOperands (argSubst oldFn newFn params 0) = fun i => i := by
      rw [argSubst_zero]; exact funext mapOperands_self
    rw [this]
    simp
  | succ m ih =>
    rw [List.range_succ, List.foldl_append, ih]
    simp only [List.foldl_cons, List.foldl_nil, replaceArgUses, List.map_map]
    congr 1
    funext i
    simp only [Function.comp]
    rw [inst_mapOperands_comp]
    congr 1
    exact argSubst_step oldFn newFn params m

theorem replacementOf_getParamAttributes (F : Function) (k : Nat) (body : List Inst) (j : Nat)
    (hj : j < F.ty.params.length) :
    (replacementOf F k body).attrs.getParamAttributes j = F.attrs.getParamAttributes j := by
  simp only [replacementOf, AttributeList.removeFnAttr, AttributeList.get,
    AttributeList.getParamAttributes]
  rw [dropTrailingEmpty_getD, collectParams_attrs _ _ _ _ _ _ hj]
  simp [AttributeList.getParamAttributes]

/-- C10 (as amended): in the replacement of a rewritten function every
    parameter that is no protected pointer has its old type, every parameter
    has the attribute set the old function had at that index, and the
    argument loop of lines 250-255 turns each use of an old argument into a use
    of the new argument of the same index, changing nothing else. -/
theorem C10_parameters_and_attributes (M M' : Module) (b : Bool)
    (h : runOnModule M = Except.ok (b, M')) (i : Nat) (F : Function)
    (hF : M.functions[i]? = some F) (hdef : F.getInstructionCount ≠ 0)
    (hp : F.hasProtectedParam = true) :
    ∃ G, M'.functions[i]? = some G ∧
      (∀ (j : Nat) (t : Ty), F.ty.params[j]? = some t → isProtectedPtr t = false →
        G.ty.params[j]? = some t) ∧
      (∀ j, j < F.ty.params.length →
        G.attrs.getParamAttributes j = F.attrs.getParamAttributes j) ∧
      (∀ newFn, replaceAllArgs F.id newFn G.ty.params F.body =
        F.body.map (Inst.mapOperands (argSubst F.id newFn G.ty.params F.ty.params.length))) := by
  obtain ⟨_, _, _, _, _, h2, _⟩ := runOnModule_spec M M' b h
  obtain ⟨k, body, _, _, hG⟩ := h2 i F hF ((needsRewrite_true_iff F).mpr ⟨hdef, hp⟩)
  refine ⟨_, hG, ?_, ?_, ?_⟩
  · intro j t ht hu
    have := getElem?_map_correctTy _ _ _ ht
    simpa [replacementOf, newSignature, hu] using this
  · intro j hj
    exact replacementOf_getParamAttributes F k body j hj
  · intro newFn
    rw [replaceAllArgs_eq]
    simp [replacementOf, newSignature]

theorem C10_parameters_and_attributes_witness :
    runOnModule mixedModule = Except.ok (true, mixedResult) ∧
    ∃ G, mixedResult.functions[0]? = some G ∧
      (∀ (j : Nat) (t : Ty), mixedFunction.ty.params[j]? = some t → isProtectedPtr t = false →
        G.ty.params[j]? = some t) ∧
      (∀ j, j < mixedFunction.ty.params.length →
        G.attrs.getParamAttributes j = mixedFunction.attrs.getParamAttributes j) ∧
      (∀ newFn, replaceAllArgs mixedFunction.id newFn G.ty.params mixedFunction.body =
        mixedFunction.body.map (Inst.mapOperands
          (argSubst mixedFunction.id newFn G.ty.params mixedFunction.ty.params.length))) :=
  ⟨by rfl, C10_parameters_and_attributes mixedModule mixedResult true (by rfl) 0 mixedFunction
    (by rfl) (by decide) (by decide)⟩

/-- C10 as stated fails: in `at(%struct.MyStruct* %p, i64 %n)` the only use
    of `%n` is an index of the GEP of a field read; the rewrite of the read
    erases that GEP, and no use of the second parameter is left. -/
theorem C10_uses_not_kept :
    runOnModule indexedModule = Except.ok (true, indexedResult) ∧
    indexedModule.functions = [indexedFunction] ∧
    indexedFunction.ty.params[1]? = some (Ty.int 64) ∧
    isProtectedPtr (Ty.int 64) = false ∧
    argUseCount indexedFunction.id 1 indexedFunction.body = 1 ∧
    ∀ G ∈ indexedResult.functions, argUseCount G.id 1 G.body = 0 := by
  refine ⟨by rfl, by rfl, by rfl, by rfl, by decide, by decide⟩

/-! ## C8: running the pass twice -/

theorem isProtectedPtr_correctTy (t : Ty) :
    isProtectedPtr (correctTy t struct_names (Ty.int 32)) = false := by
  cases hp : isProtectedPtr t with
  | true => rw [correctTy_protected hp]; rfl
  | false => rw [correctTy_unprotected hp]; exact hp

theorem replacementOf_needsRewrite (F : Function) (k : Nat) (body : List Inst) :
    (replacementOf F k body).needsRewrite = false := by
  apply needsRewrite_of_unprotected
  simp only [Function.hasProtectedParam, replacementOf, newSignature, List.any_eq_false]
  intro t ht
  obtain ⟨u, _, rfl⟩ := List.mem_map.mp ht
  simp [isProtectedPtr_correctTy]

/-- After a completed run no function of the module needs a rewrite. -/
theorem runOnModule_result_settled (M M' : Module) (b : Bool)
    (h : runOnModule M = Except.ok (b, M')) :
    ∀ F ∈ M'.functions, F.needsRewrite = false := by
  obtain ⟨_, _, _, _, h1, h2, h3⟩ := runOnModule_spec M M' b h
  intro F hF
  obtain ⟨i, hi, hget⟩ := List.getElem_of_mem hF
  have hget' : M'.functions[i]? = some F := by
    rw [List.getElem?_eq_getElem hi, hget]
  rcases Nat.lt_or_ge i M.functions.length with hlt | hge
  · have hold := List.getElem?_eq_getElem hlt
    cases hn : (M.functions[i]).needsRewrite with
    | false =>
      have := h1 i _ hold hn
      rw [hget'] at this
      injection this with this
      rw [this]; exact hn
    | true =>
      obtain ⟨k, body, _, _, hk⟩ := h2 i _ hold hn
      rw [hget'] at hk
      injection hk with hk
      rw [hk]; exact replacementOf_needsRewrite _ _ _
  · exact needsRewrite_of_body_nil (h3 i F hget' hge)

theorem createStruct_structNames (ctx : Context) (name : String) :
    (ctx.createStruct name).2.structNames = (ctx.createStruct name).1 :: ctx.structNames := by
  unfold Context.createStruct
  split <;> rfl

theorem getFakePtrType_ctx_ne (ctx : Context) : (getFakePtrType ctx).2 ≠ ctx := by
  intro h
  have h1 := congrArg (fun c => c.structNames.length) h
  simp only [getFakePtrType, createStruct_structNames, List.length_cons] at h1
  omega

/-- C8 (as amended): when a run of the pass has completed, a second run on
    its result completes, returns false and leaves the functions (list,
    signatures, attributes, instruction lists) as they are; the type context
    is not the same, since the second run creates a handle struct of its
    own. -/
theorem C8_second_run (M M1 : Module) (b : Bool) (h : runOnModule M = Except.ok (b, M1)) :
    ∃ M2, runOnModule M1 = Except.ok (false, M2) ∧ M2.functions = M1.functions ∧
      M2.globals = M1.globals ∧ M2.nextId = M1.nextId ∧
      M2.ctx = (getFakePtrType M1.ctx).2 ∧ M2.ctx ≠ M1.ctx := by
  have hs := runOnModule_result_settled M M1 b h
  have hnone : ¬ ∃ F ∈ M1.functions, F.getInstructionCount ≠ 0 ∧ F.hasProtectedParam = true := by
    rintro ⟨F, hF, hn⟩
    have := hs F hF
    rw [(needsRewrite_true_iff F).mpr hn] at this
    cases this
  exact ⟨_, runOnModule_nothing_to_rewrite M1 hnone, rfl, rfl, rfl, rfl,
    getFakePtrType_ctx_ne _⟩

theorem C8_second_run_witness :
    runOnModule mixedModule = Except.ok (true, mixedResult) ∧
    ∃ M2, runOnModule mixedResult = Except.ok (false, M2) ∧
      M2.functions = mixedResult.functions ∧
      M2.globals = mixedResult.globals ∧ M2.nextId = mixedResult.nextId ∧
      M2.ctx = (getFakePtrType mixedResult.ctx).2 ∧ M2.ctx ≠ mixedResult.ctx :=
  ⟨by rfl, C8_second_run mixedModule mixedResult true (by rfl)⟩

/-- C8 as stated fails: the second run on the result of the first returns a
    module whose type context holds a second handle struct, `FakePtr.0`, so
    the module is not the one the first run returned. -/
theorem C8_type_context_grows :
    runOnModule mixedModule = Except.ok (true, mixedResult) ∧
    getFakePtrType mixedModule.ctx =
      (Ty.struct "FakePtr", { structNames := ["FakePtr", "struct.MyStruct"], uniqueId := 0 }) ∧
    getFakePtrType mixedResult.ctx =
      (Ty.struct "FakePtr.0",
        { structNames := ["FakePtr.0", "FakePtr", "struct.MyStruct"], uniqueId := 1 }) ∧
    runOnModule mixedResult = Except.ok (false,
      { mixedResult with
        ctx := { structNames := ["FakePtr.0", "FakePtr", "struct.MyStruct"], uniqueId := 1 } }) ∧
    ({ mixedResult with
        ctx := { structNames := ["FakePtr.0", "FakePtr", "struct.MyStruct"], uniqueId := 1 } }
      : Module) ≠ mixedResult := by
  refine ⟨by rfl, by rfl, by rfl, by rfl, by decide⟩

/-! ## Facts about the IR primitives -/

theorem mapOperands_id (f : Value → Value) (i : Inst) : (i.mapOperands f).id = i.id := rfl

theorem mapOperands_ty (f : Value → Value) (i : Inst) : (i.mapOperands f).ty = i.ty := rfl

theorem mem_insertBefore (p : Nat) (new K : Inst) (B : List Inst) :
    K ∈ insertBefore p new B ↔ K ∈ B ∨ (K = new ∧ ∃ J ∈ B, J.id = p) := by
  unfold insertBefore
  rw [List.mem_flatMap]
  constructor
  · rintro ⟨J, hJ, hK⟩
    by_cases h : J.id = p
    · rw [if_pos h] at hK
      simp only [List.mem_cons, List.mem_singleton, List.not_mem_nil, or_false] at hK
      rcases hK with rfl | rfl
      · exact Or.inr ⟨rfl, J, hJ, h⟩
      · exact Or.inl hJ
    · rw [if_neg h] at hK
      simp only [List.mem_singleton] at hK
      subst hK
      exact Or.inl hJ
  · rintro (hK | ⟨rfl, J, hJ, h⟩)
    · refine ⟨K, hK, ?_⟩
      by_cases h : K.id = p <;> simp [h]
    · exact ⟨J, hJ, by simp [h]⟩

theorem mem_replaceInstUses (a b : Nat) (K : Inst) (B : List Inst) :
    K ∈ replaceInstUses a b B ↔ ∃ J ∈ B, K = J.mapOperands (redirect a b) := by
  unfold replaceInstUses
  rw [List.mem_map]
  constructor
  · rintro ⟨J, hJ, rfl⟩; exact ⟨J, hJ, rfl⟩
  · rintro ⟨J, hJ, rfl⟩; exact ⟨J, hJ, rfl⟩

theorem mem_eraseInst (x : Nat) (K : Inst) (B : List Inst) :
    K ∈ eraseInst x B ↔ K ∈ B ∧ K.id ≠ x := by
  unfold eraseInst
  simp [List.mem_filter]

theorem findInst_some {B : List Inst} {x : Nat} {J : Inst} (h : findInst B x = some J) :
    J ∈ B ∧ J.id = x := by
  unfold findInst at h
  exact ⟨List.mem_of_find?_eq_some h, by simpa using List.find?_some h⟩

theorem findInst_none {B : List Inst} {x : Nat} :
    findInst B x = none ↔ ∀ J ∈ B, J.id ≠ x := by
  unfold findInst
  simp [List.find?_eq_none]

theorem findInst_isSome_of_mem {B : List Inst} {J : Inst} (h : J ∈ B) :
    ∃ K, findInst B J.id = some K := by
  cases hf : findInst B J.id with
  | some K => exact ⟨K, rfl⟩
  | none => exact absurd rfl (findInst_none.mp hf J h)

theorem eq_of_mem_of_id_eq {B : List Inst} (hnd : (ids B).Nodup) {J K : Inst}
    (hJ : J ∈ B) (hK : K ∈ B) (h : J.id = K.id) : J = K := by
  unfold ids at hnd
  exact List.inj_on_of_nodup_map hnd hJ hK h

theorem findInst_of_mem {B : List Inst} (hnd : (ids B).Nodup) {J : Inst} (h : J ∈ B) :
    findInst B J.id = some J := by
  obtain ⟨K, hK⟩ := findInst_isSome_of_mem h
  obtain ⟨hm, hid⟩ := findInst_some hK
  rw [hK, eq_of_mem_of_id_eq hnd hm h hid]

theorem ids_eraseInst (x : Nat) (B : List Inst) :
    ids (eraseInst x B) = (ids B).filter (fun y => y ≠ x) := by
  unfold ids eraseInst
  rw [List.filter_map]
  rfl

theorem ids_insertBefore (p : Nat) (new : Inst) (B : List Inst) :
    ids (insertBefore p new B) = (ids B).flatMap (fun y => if y = p then [new.id, y] else [y]) := by
  unfold ids insertBefore
  induction B with
  | nil => rfl
  | cons J B ih =>
    simp only [List.flatMap_cons, List.map_append, List.map_cons, ih]
    by_cases h : J.id = p <;> simp [h]

theorem mem_flatMap_insert (l : List Nat) (p x z : Nat) :
    z ∈ l.flatMap (fun y => if y = p then [x, y] else [y]) ↔ z ∈ l ∨ (z = x ∧ p ∈ l) := by
  rw [List.mem_flatMap]
  constructor
  · rintro ⟨y, hy, hz⟩
    by_cases h : y = p
    · rw [if_pos h] at hz
      simp only [List.mem_cons, List.mem_singleton, List.not_mem_nil, or_false] at hz
      rcases hz with rfl | rfl
      · exact Or.inr ⟨rfl, h ▸ hy⟩
      · exact Or.inl hy
    · rw [if_neg h] at hz
      simp only [List.mem_singleton] at hz
      exact Or.inl (hz ▸ hy)
  · rintro (hz | ⟨rfl, hp⟩)
    · refine ⟨z, hz, ?_⟩
      by_cases h : z = p <;> simp [h]
    · exact ⟨p, hp, by simp⟩

theorem nodup_flatMap_insert (l : List Nat) (p x : Nat) (hnd : l.Nodup) (hx : x ∉ l) :
    (l.flatMap (fun y => if y = p then [x, y] else [y])).Nodup := by
  induction l with
  | nil => simp
  | cons a l ih =>
    have hnd' := (List.nodup_cons.mp hnd)
    have hx' : x ∉ l := fun h => hx (List.mem_cons_of_mem _ h)
    have hxa : x ≠ a := fun h => hx (by rw [h]; exact List.mem_cons_self _ _)
    have ih1 := ih hnd'.2 hx'
    rw [List.flatMap_cons]
    by_cases h : a = p
    · subst h
      simp only [if_true, List.cons_append, List.nil_append, List.nodup_cons, List.mem_cons,
        mem_flatMap_insert]
      refine ⟨?_, ?_, ih1⟩
      · rintro (h | h | ⟨_, h⟩)
        · exact hxa h
        · exact hx' h
        · exact hnd'.1 h
      · rintro (h | ⟨h, _⟩)
        · exact hnd'.1 h
        · exact hxa h.symm
    · simp only [h, if_false, List.singleton_append, List.nodup_cons, mem_flatMap_insert]
      refine ⟨?_, ih1⟩
      rintro (h | ⟨h, _⟩)
      · exact hnd'.1 h
      · exact hxa h.symm

theorem nodup_insertBefore (p : Nat) (new : Inst) (B : List Inst) (hnd : (ids B).Nodup)
    (hx : new.id ∉ ids B) : (ids (insertBefore p new B)).Nodup := by
  rw [ids_insertBefore]
  exact nodup_flatMap_insert _ _ _ hnd hx

theorem mem_ids {B : List Inst} {x : Nat} : x ∈ ids B ↔ ∃ J ∈ B, J.id = x := by
  unfold ids
  simp [List.mem_map]

theorem not_mem_ids {B : List Inst} {x : Nat} : x ∉ ids B ↔ ∀ J ∈ B, J.id ≠ x := by
  rw [mem_ids]
  constructor
  · intro h J hJ hid; exact h ⟨J, hJ, hid⟩
  · rintro h ⟨J, hJ, hid⟩; exact h J hJ hid

theorem ids_append (A B : List Inst) : ids (A ++ B) = ids A ++ ids B := by
  unfold ids; simp

theorem ids_cons (X : Inst) (B : List Inst) : ids (X :: B) = X.id :: ids B := rfl

theorem insertBefore_not_mem (p : Nat) (new : Inst) (B : List Inst) (h : p ∉ ids B) :
    insertBefore p new B = B := by
  unfold insertBefore
  induction B with
  | nil => rfl
  | cons J B ih =>
    rw [ids_cons, List.mem_cons, not_or] at h
    rw [List.flatMap_cons, ih h.2, if_neg (fun e => h.1 e.symm)]
    rfl

theorem insertBefore_append (p : Nat) (new : Inst) (A B : List Inst) :
    insertBefore p new (A ++ B) = insertBefore p new A ++ insertBefore p new B := by
  unfold insertBefore
  simp [List.flatMap_append]

theorem insertBefore_unique (p : Nat) (new X : Inst) (pre post : List Inst)
    (hX : X.id = p) (h1 : p ∉ ids pre) (h2 : p ∉ ids post) :
    insertBefore p new (pre ++ X :: post) = pre ++ new :: X :: post := by
  rw [insertBefore_append, insertBefore_not_mem _ _ _ h1]
  congr 1
  show insertBefore p new ([X] ++ post) = _
  rw [insertBefore_append, insertBefore_not_mem _ _ _ h2]
  simp [insertBefore, hX]

theorem eraseInst_not_mem (x : Nat) (B : List Inst) (h : x ∉ ids B) : eraseInst x B = B := by
  unfold eraseInst
  rw [List.filter_eq_self]
  intro J hJ
  simpa using (not_mem_ids.mp h) J hJ

theorem eraseInst_append (x : Nat) (A B : List Inst) :
    eraseInst x (A ++ B) = eraseInst x A ++ eraseInst x B := by
  unfold eraseInst; simp

theorem eraseInst_unique (x : Nat) (X : Inst) (pre post : List Inst)
    (hX : X.id = x) (h1 : x ∉ ids pre) (h2 : x ∉ ids post) :
    eraseInst x (pre ++ X :: post) = pre ++ post := by
  rw [eraseInst_append, eraseInst_not_mem _ _ h1]
  congr 1
  show eraseInst x ([X] ++ post) = _
  rw [eraseInst_append, eraseInst_not_mem _ _ h2]
  simp [eraseInst, hX]

theorem ids_map_mapOperands (f : Value → Value) (B : List Inst) :
    ids (B.map (Inst.mapOperands f)) = ids B := by
  unfold ids
  rw [List.map_map]
  rfl

/-- `ReplaceInstWithInst` on a body in which the replaced instruction occurs
    once: the new instruction takes its place and every use is redirected. -/
theorem replaceInstWithInst_unique (X new : Inst) (pre post : List Inst)
    (h1 : X.id ∉ ids pre) (h2 : X.id ∉ ids post) (hn : new.id ≠ X.id) :
    replaceInstWithInst X.id new (pre ++ X :: post) =
      pre.map (Inst.mapOperands (redirect X.id new.id)) ++
        new.mapOperands (redirect X.id new.id) ::
        post.map (Inst.mapOperands (redirect X.id new.id)) := by
  unfold replaceInstWithInst
  rw [insertBefore_unique _ _ _ _ _ rfl h1 h2]
  unfold replaceInstUses
  rw [List.map_append, List.map_cons, List.map_cons]
  have e : pre.map (Inst.mapOperands (redirect X.id new.id)) ++
      new.mapOperands (redirect X.id new.id) :: X.mapOperands (redirect X.id new.id) ::
        post.map (Inst.mapOperands (redirect X.id new.id)) =
      (pre.map (Inst.mapOperands (redirect X.id new.id)) ++
        [new.mapOperands (redirect X.id new.id)]) ++ X.mapOperands (redirect X.id new.id) ::
        post.map (Inst.mapOperands (redirect X.id new.id)) := by simp
  have h3 : X.id ∉ ids (pre.map (Inst.mapOperands (redirect X.id new.id)) ++
      [new.mapOperands (redirect X.id new.id)]) := by
    rw [ids_append, List.mem_append, ids_map_mapOperands]
    rintro (h | h)
    · exact h1 h
    · simp [ids, mapOperands_id] at h
      exact hn h.symm
  have h4 : X.id ∉ ids (post.map (Inst.mapOperands (redirect X.id new.id))) := by
    rw [ids_map_mapOperands]; exact h2
  rw [e, eraseInst_unique X.id (X.mapOperands (redirect X.id new.id)) _ _ rfl h3 h4]
  simp

theorem dynCastInst_of_find {isT : Inst → Bool} {B : List Inst} {x : Nat} {J : Inst}
    (h : findInst B x = some J) (hT : isT J = true) :
    dynCastInst isT B (Value.inst x) = Except.ok (some J) := by
  simp [dynCastInst, h, hT, pure, Except.pure]

theorem typeOf_of_find {B : List Inst} {x : Nat} {J : Inst} (h : findInst B x = some J) :
    typeOf B (Value.inst x) = Except.ok J.ty := by
  simp [typeOf, h, pure, Except.pure]

theorem eraseLive_of_mem {B : List Inst} {J : Inst} (h : J ∈ B) :
    eraseLive J.id B = Except.ok (eraseInst J.id B) := by
  obtain ⟨K, hK⟩ := findInst_isSome_of_mem h
  simp [eraseLive, hK, pure, Except.pure]

/-- The two insertions and the replacement of `commitSite` on a body in which
    the access occurs once and the new numbers are unused. -/
theorem commit_positional (I newGep newLoad call : Inst) (pre post : List Inst) (n : Nat)
    (hwf : BodyWF n (pre ++ I :: post))
    (hl : newLoad.id = n + 1) (hc : call.id = n + 2) :
    insertBefore newLoad.id newGep (insertBefore call.id newLoad
      (replaceInstWithInst I.id call (pre ++ I :: post))) =
    pre.map (Inst.mapOperands (redirect I.id call.id)) ++
      [newGep, newLoad, call.mapOperands (redirect I.id call.id)] ++
      post.map (Inst.mapOperands (redirect I.id call.id)) := by
  obtain ⟨hnd, hlt, _⟩ := hwf
  rw [ids_append, ids_cons] at hnd
  have hnd2 := List.nodup_append.mp hnd
  have hI1 : I.id ∉ ids pre := fun h =>
    hnd2.2.2 h (List.mem_cons_self _ _)
  have hI2 : I.id ∉ ids post := (List.nodup_cons.mp hnd2.2.1).1
  have hfresh : ∀ k, n ≤ k → k ∉ ids (pre ++ I :: post) := by
    intro k hk hmem
    obtain ⟨J, hJ, hid⟩ := mem_ids.mp hmem
    have := hlt J hJ
    omega
  have hIlt : I.id < n := hlt I (by simp)
  have hfr : ∀ k, n ≤ k → k ∉ ids (pre.map (Inst.mapOperands (redirect I.id call.id))) ∧
      k ∉ ids (post.map (Inst.mapOperands (redirect I.id call.id))) := by
    intro k hk
    have := hfresh k hk
    rw [ids_append, ids_cons, List.mem_append, List.mem_cons] at this
    rw [ids_map_mapOperands, ids_map_mapOperands]
    exact ⟨fun h => this (Or.inl h), fun h => this (Or.inr (Or.inr h))⟩
  rw [replaceInstWithInst_unique I call pre post hI1 hI2 (by omega)]
  rw [insertBefore_unique call.id newLoad (call.mapOperands (redirect I.id call.id)) _ _ rfl
    (hfr _ (by omega)).1 (hfr _ (by omega)).2]
  rw [insertBefore_unique newLoad.id newGep newLoad _ _ rfl (hfr _ (by omega)).1]
  · simp
  · rw [ids_cons, List.mem_cons, not_or]
    exact ⟨by rw [mapOperands_id]; omega, (hfr _ (by omega)).2⟩

theorem redirect_handleLoad (I n c : Nat) (h : I < n) :
    (handleLoad n).mapOperands (redirect I c) = handleLoad n := by
  simp only [handleLoad, Inst.mapOperands, Op.mapOperands, redirect]
  have : ¬ (Value.inst n = Value.inst I) := by
    intro e; injection e with e; omega
  simp [this]

/-- `commitSite` on a well-formed body: the access is replaced in place by
    the new GEP, the new load and the call, its uses are redirected to the
    call, the GEP `G` and the inner load `L` are erased. -/
theorem commitSite_forward (I G L newGep newLoad call : Inst) (pre post : List Inst) (n : Nat)
    (hwf : BodyWF n (pre ++ I :: post))
    (hl : newLoad.id = n + 1) (hc : call.id = n + 2)
    (hload : newLoad.mapOperands (redirect I.id call.id) = newLoad)
    (hG : G ∈ pre ++ I :: post) (hL : L ∈ pre ++ I :: post)
    (hGI : G.id ≠ I.id) (hLI : L.id ≠ I.id) (hLG : L.id ≠ G.id) :
    commitSite I.id G.id L.id newGep newLoad call (pre ++ I :: post) =
      Except.ok (siteRewritten pre post I G.id L.id newGep newLoad call) := by
  have hpos := commit_positional I (newGep.mapOperands (redirect I.id call.id)) newLoad call
    pre post n hwf hl hc
  have hmemσ : ∀ J, J ∈ pre ++ I :: post → J.id ≠ I.id →
      J.mapOperands (redirect I.id call.id) ∈
        pre.map (Inst.mapOperands (redirect I.id call.id)) ++
          [newGep.mapOperands (redirect I.id call.id), newLoad,
            call.mapOperands (redirect I.id call.id)] ++
          post.map (Inst.mapOperands (redirect I.id call.id)) := by
    intro J hJ hid
    rcases List.mem_append.mp hJ with h | h
    · exact List.mem_append_left _ (List.mem_append_left _ (List.mem_map_of_mem _ h))
    · rcases List.mem_cons.mp h with h | h
      · exact absurd (h ▸ rfl) hid
      · exact List.mem_append_right _ (List.mem_map_of_mem _ h)
  have he1 := eraseLive_of_mem (hmemσ G hG hGI)
  have hL2 : L.mapOperands (redirect I.id call.id) ∈ eraseInst G.id
      (pre.map (Inst.mapOperands (redirect I.id call.id)) ++
          [newGep.mapOperands (redirect I.id call.id), newLoad,
            call.mapOperands (redirect I.id call.id)] ++
          post.map (Inst.mapOperands (redirect I.id call.id))) := by
    rw [mem_eraseInst]
    exact ⟨hmemσ L hL hLI, hLG⟩
  have he2 := eraseLive_of_mem hL2
  rw [mapOperands_id] at he1 he2
  unfold commitSite siteRewritten
  rw [hload, hpos, he1]
  simp only [bind, Except.bind]
  rw [he2]

/-- The rewrite of one access site (either loop) on a well-formed body, for
    a site whose GEP `G` has a constant trailing index and whose inner load
    `L`, another instruction than the access, reads through a pointer to the
    handle struct. -/
theorem rewriteSite_forward (fakeptr_t : Ty) (st : RewriteState) (I G L : Inst)
    (pre post : List Inst) (g l : Nat) (srcTy : Ty) (idxs : List Value) (ib : Bool)
    (bits val : Nat) (lptr : Value) (lv : Bool) (la addrSpace : Nat) (acc : Access) (fnTy : FnTy)
    (hbody : st.body = pre ++ I :: post) (hwf : BodyWF st.M.nextId st.body)
    (hG : findInst st.body g = some G) (hGop : G.op = Op.gep srcTy (Value.inst l) idxs ib)
    (hk : trailingIndex (Value.inst l) idxs = Value.constInt bits val)
    (hL : findInst st.body l = some L) (hLop : L.op = Op.load lptr lv la)
    (hne : l ≠ I.id) (hgne : g ≠ I.id)
    (hH : typeOf st.body lptr = Except.ok (Ty.ptr fakeptr_t addrSpace))
    (hacc : accessorType (Ty.int 32) st.body I acc = Except.ok fnTy) :
    rewriteSite fakeptr_t (Ty.int 32) st I (Value.inst g) acc =
      Except.ok
        { M := (({ st.M with nextId := st.M.nextId + 3 } : Module).getOrInsertFunction
              (accessorName (fieldIndexOf bits val) (getStrippedStructName (some L.ty)) acc)
              fnTy).2,
          body := siteRewritten pre post I g l
            (handleGep fakeptr_t st.M.nextId addrSpace lptr) (handleLoad st.M.nextId)
            (accessorCall st.M.nextId fnTy
              (({ st.M with nextId := st.M.nextId + 3 } : Module).getOrInsertFunction
                (accessorName (fieldIndexOf bits val) (getStrippedStructName (some L.ty)) acc)
                fnTy).1 acc) } := by
  have hGgep : isGep G = true := by simp [isGep, hGop]
  have hLload : isLoad L = true := by simp [isLoad, hLop]
  have hres : resolveSite st.body (Value.inst g) = Except.ok
      { gep_inst := G, prev_load_inst := some L, field_index := some (fieldIndexOf bits val),
        struct_name := getStrippedStructName (some L.ty) } := by
    simp only [resolveSite, dynCastInst_of_find hG hGgep, hGop, dynCastInst_of_find hL hLload,
      fieldIndex, hk, typeOf_of_find hL, bind, Except.bind, pure, Except.pure]
  have hnew : newHandleLoad fakeptr_t (Ty.int 32) st.body (some L) st.M.nextId = Except.ok
      { prev_load_inst := L,
        new_gep_inst := handleGep fakeptr_t st.M.nextId addrSpace lptr,
        new_load_inst := handleLoad st.M.nextId } := by
    simp only [newHandleLoad, Inst.pointerOperand, hLop, hH, handleFieldPtrType, bind, Except.bind,
      pure, Except.pure, if_true, handleGep, handleLoad]
  have hGid := (findInst_some hG).2
  have hLid := (findInst_some hL).2
  have hGmem := (findInst_some hG).1
  have hLmem := (findInst_some hL).1
  have hIlt : I.id < st.M.nextId := hwf.2.1 I (by rw [hbody]; simp)
  have hlg : l ≠ g := by
    intro e
    rw [e, hG] at hL
    injection hL with hL
    rw [hL, hLop] at hGop
    cases hGop
  rw [hbody] at hwf hGmem hLmem
  generalize hr : (({ st.M with nextId := st.M.nextId + 3 } : Module).getOrInsertFunction
    (accessorName (fieldIndexOf bits val) (getStrippedStructName (some L.ty)) acc) fnTy) = r
  have hcommit := commitSite_forward I G L (handleGep fakeptr_t st.M.nextId addrSpace lptr)
    (handleLoad st.M.nextId) (accessorCall st.M.nextId fnTy r.1 acc) pre post st.M.nextId hwf
    rfl rfl (redirect_handleLoad _ _ _ hIlt) hGmem hLmem (by rw [hGid]; exact hgne)
    (by rw [hLid]; exact hne) (by rw [hLid, hGid]; exact hlg)
  rw [hGid, hLid] at hcommit
  rw [hbody] at hres hnew hacc
  simp only [rewriteSite, hbody, hres, hnew, hacc, bind, Except.bind, hr]
  simp only [accessorCall] at hcommit ⊢
  rw [hGid, hLid, hcommit]
  rfl

theorem strippedStructName_struct (S : String) (addrSpace : Nat) :
    getStrippedStructName (some (Ty.ptr (Ty.struct ("struct." ++ S)) addrSpace)) = S := by
  have hpre : startswith ("struct." ++ S) "struct." = true := by
    unfold startswith
    rw [String.data_append, List.isPrefixOf_iff_prefix]
    exact List.prefix_append _ _
  have hlen : ("struct." : String).data.length = 7 := by decide
  simp only [getStrippedStructName, strippedStructNameOf, hpre, Bool.not_true, Bool.false_eq_true,
    if_false, substr]
  rw [String.data_append, List.drop_left' hlen]

theorem operands_mapOperands_callee (f : Value → Value) (c : Callee) :
    (c.mapOperands f).operands = c.operands.map f := by
  cases c <;> rfl

theorem operands_mapOperands (f : Value → Value) (i : Inst) :
    (i.mapOperands f).op.operands = i.op.operands.map f := by
  cases i with
  | mk n ty op =>
    cases op <;>
      simp [Inst.mapOperands, Op.mapOperands, Op.operands, operands_mapOperands_callee]

theorem redirect_ne (a b : Nat) (h : b ≠ a) (v : Value) : redirect a b v ≠ Value.inst a := by
  unfold redirect
  split
  · intro e; injection e with e; exact h e
  · assumption

theorem no_use_after_redirect (a b : Nat) (h : b ≠ a) (i : Inst) :
    Value.inst a ∉ (i.mapOperands (redirect a b)).op.operands := by
  rw [operands_mapOperands, List.mem_map]
  rintro ⟨v, _, hv⟩
  exact redirect_ne a b h v hv

/-! ## C5 and C6: the rewrite of a field read and of a field write -/

theorem getOrInsertFunction_denotes (M : Module) (name : String) (fnTy : FnTy) :
    (M.getOrInsertFunction name fnTy).1.denotes (M.getOrInsertFunction name fnTy).2 name := by
  unfold Module.getOrInsertFunction
  split
  · rename_i f hf
    have hmem := List.mem_of_find?_eq_some hf
    have hname : f.name = name := by simpa using List.find?_some hf
    split
    · exact ⟨f, hmem, rfl, hname⟩
    · exact ⟨f, hmem, rfl, hname⟩
  · split
    · rename_i hg
      exact ⟨rfl, hg⟩
    · exact ⟨_, List.mem_append_right _ (List.mem_singleton_self _), rfl, rfl⟩

theorem rewriteLoad_eq_site (fakeptr_t : Ty) (st : RewriteState) (I : Inst) (addr : Value)
    (vol : Bool) (al : Nat) (hwf : BodyWF st.M.nextId st.body) (hI : I ∈ st.body)
    (hop : I.op = Op.load addr vol al) :
    rewriteLoad fakeptr_t (Ty.int 32) st I.id =
      rewriteSite fakeptr_t (Ty.int 32) st I addr Access.read := by
  unfold rewriteLoad
  rw [findInst_of_mem hwf.1 hI]
  simp only [hop]

theorem rewriteStore_eq_site (fakeptr_t : Ty) (st : RewriteState) (I : Inst) (v addr : Value)
    (vol : Bool) (al : Nat) (hwf : BodyWF st.M.nextId st.body) (hI : I ∈ st.body)
    (hop : I.op = Op.store v addr vol al) :
    rewriteStore fakeptr_t (Ty.int 32) st I.id =
      rewriteSite fakeptr_t (Ty.int 32) st I addr (Access.write v) := by
  unfold rewriteStore
  rw [findInst_of_mem hwf.1 hI]
  simp only [hop]

theorem mem_siteRewritten_no_use (pre post : List Inst) (I : Inst) (g l : Nat)
    (newGep newLoad call : Inst) (hc : call.id ≠ I.id)
    (hl : Value.inst I.id ∉ newLoad.op.operands) :
    ∀ J ∈ siteRewritten pre post I g l newGep newLoad call,
      Value.inst I.id ∉ J.op.operands := by
  intro J hJ
  unfold siteRewritten at hJ
  rw [mem_eraseInst, mem_eraseInst] at hJ
  have hJ := hJ.1.1
  simp only [List.mem_append, List.mem_map, List.mem_cons, List.mem_singleton,
    List.not_mem_nil, or_false] at hJ
  rcases hJ with (⟨K, _, rfl⟩ | rfl | rfl | rfl) | ⟨K, _, rfl⟩
  · exact no_use_after_redirect _ _ hc K
  · exact no_use_after_redirect _ _ hc newGep
  · exact hl
  · exact no_use_after_redirect _ _ hc call
  · exact no_use_after_redirect _ _ hc K

theorem fieldIndexOf_small (bits val : Nat) (h1 : val < 2 ^ bits) (h2 : val < 2 ^ 31) :
    toString (fieldIndexOf bits val) = toString val := by
  unfold fieldIndexOf
  have e1 : val % 2 ^ bits = val := Nat.mod_eq_of_lt h1
  have e2 : val % 2 ^ 64 = val := Nat.mod_eq_of_lt (by omega)
  have e3 : val % 2 ^ 32 = val := Nat.mod_eq_of_lt (by omega)
  simp only [e1, e2, e3, h2, if_true]
  rfl

/-- C5: the rewrite of a queued field read. On a well-formed body
    `pre ++ I :: post` whose load `I` reads through the GEP `G` with constant
    trailing index over the inner load `L` (another instruction than `I`) of a
    pointer to `struct.S`, `L` reading through a pointer to the handle, one
    round of the load loop puts, in the place of `I`, a new GEP on the pointer
    operand of `L`, a new 32-bit load from it and one call to the function
    called `get_field_<k>_in_<S>_ffi` (`k` the index as an `int32_t`), of `I`'s type and with the new load as
    its only argument; no use of `I` is left (they are uses of the call); `G`
    and `L` are erased. For `read_x` the pass ends with exactly one call, to
    `get_field_0_in_MyStruct_ffi`, whose result is returned. -/
theorem C5_field_read (fakeptr_t : Ty) (st : RewriteState) (I G L : Inst)
    (pre post : List Inst) (g l : Nat) (vol : Bool) (al : Nat) (srcTy : Ty) (idxs : List Value)
    (ib : Bool) (bits val : Nat) (lptr : Value) (lv : Bool) (la : Nat) (S : String)
    (addrSpace : Nat)
    (hbody : st.body = pre ++ I :: post) (hwf : BodyWF st.M.nextId st.body)
    (hI : I.op = Op.load (Value.inst g) vol al)
    (hG : findInst st.body g = some G) (hGop : G.op = Op.gep srcTy (Value.inst l) idxs ib)
    (hk : trailingIndex (Value.inst l) idxs = Value.constInt bits val)
    (hL : findInst st.body l = some L) (hLop : L.op = Op.load lptr lv la)
    (hne : l ≠ I.id)
    (hS : L.ty = Ty.ptr (Ty.struct ("struct." ++ S)) addrSpace)
    (hH : typeOf st.body lptr = Except.ok (Ty.ptr fakeptr_t 0)) :
    (∃ callee M',
      rewriteLoad fakeptr_t (Ty.int 32) st I.id = Except.ok
        { M := M',
          body := siteRewritten pre post I g l
            (handleGep fakeptr_t st.M.nextId 0 lptr) (handleLoad st.M.nextId)
            { id := st.M.nextId + 2, ty := I.ty,
              op := Op.call { ret := I.ty, params := [Ty.int 32], varArg := false } callee
                [Value.inst (handleLoad st.M.nextId).id] } } ∧
      callee.denotes M'
        ("get_field_" ++ toString (fieldIndexOf bits val) ++ "_in_" ++ S ++ "_ffi") ∧
      (∀ J ∈ siteRewritten pre post I g l
            (handleGep fakeptr_t st.M.nextId 0 lptr) (handleLoad st.M.nextId)
            { id := st.M.nextId + 2, ty := I.ty,
              op := Op.call { ret := I.ty, params := [Ty.int 32], varArg := false } callee
                [Value.inst (handleLoad st.M.nextId).id] },
        Value.inst I.id ∉ J.op.operands)) ∧
    (val < 2 ^ bits → val < 2 ^ 31 → toString (fieldIndexOf bits val) = toString val) ∧
    (runOnModule readXModule = Except.ok (true, readXResult) ∧
      (readXRewritten.body.filter isCall) =
        [ { id := 206, ty := Ty.int 32,
            op := Op.call { ret := Ty.int 32, params := [Ty.int 32], varArg := false }
              (Callee.func 207) [Value.inst 205] } ] ∧
      (getField0Decl 207).name = "get_field_0_in_MyStruct_ffi" ∧
      readXRewritten.body.getLast? = some { id := 6, ty := Ty.void, op := Op.other 1 [Value.inst 206] }) := by
  have hImem : I ∈ st.body := by rw [hbody]; simp
  have hIlt : I.id < st.M.nextId := hwf.2.1 I hImem
  have hgne : g ≠ I.id := by
    intro e
    rw [e, findInst_of_mem hwf.1 hImem] at hG
    injection hG with hG
    rw [← hG, hI] at hGop
    cases hGop
  have hfw := rewriteSite_forward fakeptr_t st I G L pre post g l srcTy idxs ib bits val lptr lv
    la 0 Access.read { ret := I.ty, params := [Ty.int 32], varArg := false } hbody hwf hG hGop hk
    hL hLop hne hgne hH rfl
  rw [hS, strippedStructName_struct] at hfw
  have hden := getOrInsertFunction_denotes ({ st.M with nextId := st.M.nextId + 3 } : Module)
    (accessorName (fieldIndexOf bits val) S Access.read)
    { ret := I.ty, params := [Ty.int 32], varArg := false }
  generalize (({ st.M with nextId := st.M.nextId + 3 } : Module).getOrInsertFunction
    (accessorName (fieldIndexOf bits val) S Access.read)
    { ret := I.ty, params := [Ty.int 32], varArg := false }) = r at hfw hden
  refine ⟨⟨r.1, r.2, ?_, ?_, ?_⟩, fieldIndexOf_small bits val, by rfl, by rfl, by rfl, by rfl⟩
  · rw [rewriteLoad_eq_site fakeptr_t st I _ vol al hwf hImem hI, hfw]
    rfl
  · exact hden
  · apply mem_siteRewritten_no_use
    · show st.M.nextId + 2 ≠ I.id
      omega
    · simp only [handleLoad, Op.operands, List.mem_singleton]
      intro e; injection e with e; omega

theorem C5_field_read_witness :
    (readXState.body = (handlePrologue 200 ++ [readXInner, readXGep]) ++ readXLoad ::
        [{ id := 6, ty := Ty.void, op := Op.other 1 [Value.inst 5] }] ∧
      BodyWF readXState.M.nextId readXState.body ∧
      collectQueues struct_names (Ty.ptr (Ty.struct "FakePtr") 0) readXState.body =
        Except.ok { queued_loadinsts := [5], queued_storeinsts := [] } ∧
      findInst readXState.body 4 = some readXGep ∧
      findInst readXState.body 3 = some readXInner ∧
      typeOf readXState.body (Value.inst 201) = Except.ok (Ty.ptr (Ty.struct "FakePtr") 0)) ∧
    ((∃ callee M',
      rewriteLoad (Ty.struct "FakePtr") (Ty.int 32) readXState readXLoad.id = Except.ok
        { M := M',
          body := siteRewritten (handlePrologue 200 ++ [readXInner, readXGep])
            [{ id := 6, ty := Ty.void, op := Op.other 1 [Value.inst 5] }] readXLoad 4 3
            (handleGep (Ty.struct "FakePtr") readXState.M.nextId 0 (Value.inst 201))
            (handleLoad readXState.M.nextId)
            { id := readXState.M.nextId + 2, ty := readXLoad.ty,
              op := Op.call { ret := readXLoad.ty, params := [Ty.int 32], varArg := false } callee
                [Value.inst (handleLoad readXState.M.nextId).id] } } ∧
      callee.denotes M'
        ("get_field_" ++ toString (fieldIndexOf 32 0) ++ "_in_" ++ "MyStruct" ++ "_ffi") ∧
      (∀ J ∈ siteRewritten (handlePrologue 200 ++ [readXInner, readXGep])
            [{ id := 6, ty := Ty.void, op := Op.other 1 [Value.inst 5] }] readXLoad 4 3
            (handleGep (Ty.struct "FakePtr") readXState.M.nextId 0 (Value.inst 201))
            (handleLoad readXState.M.nextId)
            { id := readXState.M.nextId + 2, ty := readXLoad.ty,
              op := Op.call { ret := readXLoad.ty, params := [Ty.int 32], varArg := false } callee
                [Value.inst (handleLoad readXState.M.nextId).id] },
        Value.inst readXLoad.id ∉ J.op.operands)) ∧
    (0 < 2 ^ 32 → 0 < 2 ^ 31 → toString (fieldIndexOf 32 0) = toString 0) ∧
    (runOnModule readXModule = Except.ok (true, readXResult) ∧
      (readXRewritten.body.filter isCall) =
        [ { id := 206, ty := Ty.int 32,
            op := Op.call { ret := Ty.int 32, params := [Ty.int 32], varArg := false }
              (Callee.func 207) [Value.inst 205] } ] ∧
      (getField0Decl 207).name = "get_field_0_in_MyStruct_ffi" ∧
      readXRewritten.body.getLast? =
        some { id := 6, ty := Ty.void, op := Op.other 1 [Value.inst 206] })) :=
  ⟨⟨by rfl, by decide, by rfl, by rfl, by rfl, by rfl⟩,
    C5_field_read (Ty.struct "FakePtr") readXState readXLoad readXGep readXInner
      (handlePrologue 200 ++ [readXInner, readXGep])
      [{ id := 6, ty := Ty.void, op := Op.other 1 [Value.inst 5] }] 4 3 false 4
      (Ty.struct "struct.MyStruct") [Value.constInt 32 0, Value.constInt 32 0] true 32 0
      (Value.inst 201) false 8 "MyStruct" 0
      (by rfl) (by decide) (by rfl) (by rfl) (by rfl) (by rfl) (by rfl) (by rfl) (by decide)
      (by rfl) (by rfl)⟩

theorem redirect_self_of_ne {a b : Nat} {v : Value} (h : v ≠ Value.inst a) :
    redirect a b v = v := by
  unfold redirect
  rw [if_neg h]

/-- C6: the rewrite of a queued field write. On a well-formed body
    `pre ++ I :: post` whose store `I` of the value `v` of type `T` writes
    through the GEP `G` with constant trailing index over the inner load `L`
    (another instruction than `I`) of a pointer to `struct.S`, `L` reading
    through a pointer to the handle, one round of the store loop puts, in the
    place of `I`, a new GEP on the pointer operand of `L`, a new 32-bit load
    from it and one call to the function called `set_field_<k>_in_<S>_ffi` (`k` the
    index as an `int32_t`), of
    type `(i32, T) -> void`, with the new load and `v` as arguments; `G` and `L`
    are erased. For `write_y` the pass ends with one call to
    `set_field_1_in_MyStruct_ffi(i32, i1)` and no store through a GEP. -/
theorem C6_field_write (fakeptr_t : Ty) (st : RewriteState) (I G L : Inst)
    (pre post : List Inst) (g l : Nat) (v : Value) (T : Ty) (vol : Bool) (al : Nat) (srcTy : Ty)
    (idxs : List Value) (ib : Bool) (bits val : Nat) (lptr : Value) (lv : Bool) (la : Nat)
    (S : String) (addrSpace : Nat)
    (hbody : st.body = pre ++ I :: post) (hwf : BodyWF st.M.nextId st.body)
    (hI : I.op = Op.store v (Value.inst g) vol al)
    (hT : typeOf st.body v = Except.ok T) (hv : v ≠ Value.inst I.id)
    (hG : findInst st.body g = some G) (hGop : G.op = Op.gep srcTy (Value.inst l) idxs ib)
    (hk : trailingIndex (Value.inst l) idxs = Value.constInt bits val)
    (hL : findInst st.body l = some L) (hLop : L.op = Op.load lptr lv la)
    (hne : l ≠ I.id)
    (hS : L.ty = Ty.ptr (Ty.struct ("struct." ++ S)) addrSpace)
    (hH : typeOf st.body lptr = Except.ok (Ty.ptr fakeptr_t 0)) :
    (∃ callee M',
      rewriteStore fakeptr_t (Ty.int 32) st I.id = Except.ok
        { M := M',
          body := siteRewritten pre post I g l
            (handleGep fakeptr_t st.M.nextId 0 lptr) (handleLoad st.M.nextId)
            { id := st.M.nextId + 2, ty := Ty.void,
              op := Op.call { ret := Ty.void, params := [Ty.int 32, T], varArg := false } callee
                [Value.inst (handleLoad st.M.nextId).id, v] } } ∧
      callee.denotes M'
        ("set_field_" ++ toString (fieldIndexOf bits val) ++ "_in_" ++ S ++ "_ffi") ∧
      Inst.mapOperands (redirect I.id (st.M.nextId + 2))
          { id := st.M.nextId + 2, ty := Ty.void,
            op := Op.call { ret := Ty.void, params := [Ty.int 32, T], varArg := false } callee
              [Value.inst (handleLoad st.M.nextId).id, v] } =
        { id := st.M.nextId + 2, ty := Ty.void,
          op := Op.call { ret := Ty.void, params := [Ty.int 32, T], varArg := false } callee
            [Value.inst (handleLoad st.M.nextId).id, v] }) ∧
    (val < 2 ^ bits → val < 2 ^ 31 → toString (fieldIndexOf bits val) = toString val) ∧
    (runOnModule writeYModule = Except.ok (true, writeYResult) ∧
      (writeYRewritten.body.filter isCall) =
        [ { id := 206, ty := Ty.void,
            op := Op.call { ret := Ty.void, params := [Ty.int 32, Ty.int 1], varArg := false }
              (Callee.func 207) [Value.inst 205, Value.arg 200 1 (Ty.int 1)] } ] ∧
      (setField1Decl 207).name = "set_field_1_in_MyStruct_ffi" ∧
      (writeYRewritten.body.filter isStore) =
        [ { id := 203, ty := Ty.void,
            op := Op.store (Value.arg 200 0 (Ty.int 32)) (Value.inst 202) false 4 } ]) := by
  have hImem : I ∈ st.body := by rw [hbody]; simp
  have hIlt : I.id < st.M.nextId := hwf.2.1 I hImem
  have hgne : g ≠ I.id := by
    intro e
    rw [e, findInst_of_mem hwf.1 hImem] at hG
    injection hG with hG
    rw [← hG, hI] at hGop
    cases hGop
  have hacc : accessorType (Ty.int 32) st.body I (Access.write v) =
      Except.ok { ret := Ty.void, params := [Ty.int 32, T], varArg := false } := by
    simp only [accessorType, hT, bind, Except.bind, pure, Except.pure]
  have hfw := rewriteSite_forward fakeptr_t st I G L pre post g l srcTy idxs ib bits val lptr lv
    la 0 (Access.write v) { ret := Ty.void, params := [Ty.int 32, T], varArg := false } hbody hwf
    hG hGop hk hL hLop hne hgne hH hacc
  rw [hS, strippedStructName_struct] at hfw
  have hden := getOrInsertFunction_denotes ({ st.M with nextId := st.M.nextId + 3 } : Module)
    (accessorName (fieldIndexOf bits val) S (Access.write v))
    { ret := Ty.void, params := [Ty.int 32, T], varArg := false }
  generalize (({ st.M with nextId := st.M.nextId + 3 } : Module).getOrInsertFunction
    (accessorName (fieldIndexOf bits val) S (Access.write v))
    { ret := Ty.void, params := [Ty.int 32, T], varArg := false }) = r at hfw hden
  refine ⟨⟨r.1, r.2, ?_, hden, ?_⟩, fieldIndexOf_small bits val, by rfl, by rfl, by rfl, by rfl⟩
  · rw [rewriteStore_eq_site fakeptr_t st I v _ vol al hwf hImem hI, hfw]
    rfl
  · have h1 : redirect I.id (st.M.nextId + 2) (Value.inst (handleLoad st.M.nextId).id) =
        Value.inst (handleLoad st.M.nextId).id := by
      apply redirect_self_of_ne
      simp only [handleLoad]
      intro e; injection e with e; omega
    cases hr : r.1 with
    | value w => rw [hr] at hden; exact hden.elim
    | _ => simp [Inst.mapOperands, Op.mapOperands, Callee.mapOperands, h1, redirect_self_of_ne hv]

theorem C6_field_write_witness :
    (writeYState.body = (handlePrologue 200 ++ [readXInner, writeYGep]) ++ writeYStore ::
        [{ id := 6, ty := Ty.void, op := Op.other 1 [] }] ∧
      BodyWF writeYState.M.nextId writeYState.body ∧
      collectQueues struct_names (Ty.ptr (Ty.struct "FakePtr") 0) writeYState.body =
        Except.ok { queued_loadinsts := [], queued_storeinsts := [5] } ∧
      findInst writeYState.body 4 = some writeYGep ∧
      findInst writeYState.body 3 = some readXInner ∧
      typeOf writeYState.body (Value.inst 201) = Except.ok (Ty.ptr (Ty.struct "FakePtr") 0)) ∧
    ((∃ callee M',
      rewriteStore (Ty.struct "FakePtr") (Ty.int 32) writeYState writeYStore.id = Except.ok
        { M := M',
          body := siteRewritten (handlePrologue 200 ++ [readXInner, writeYGep])
            [{ id := 6, ty := Ty.void, op := Op.other 1 [] }] writeYStore 4 3
            (handleGep (Ty.struct "FakePtr") writeYState.M.nextId 0 (Value.inst 201))
            (handleLoad writeYState.M.nextId)
            { id := writeYState.M.nextId + 2, ty := Ty.void,
              op := Op.call { ret := Ty.void, params := [Ty.int 32, Ty.int 1], varArg := false }
                callee
                [Value.inst (handleLoad writeYState.M.nextId).id, Value.arg 200 1 (Ty.int 1)] } } ∧
      callee.denotes M'
        ("set_field_" ++ toString (fieldIndexOf 32 1) ++ "_in_" ++ "MyStruct" ++ "_ffi") ∧
      Inst.mapOperands (redirect writeYStore.id (writeYState.M.nextId + 2))
          { id := writeYState.M.nextId + 2, ty := Ty.void,
            op := Op.call { ret := Ty.void, params := [Ty.int 32, Ty.int 1], varArg := false }
              callee
              [Value.inst (handleLoad writeYState.M.nextId).id, Value.arg 200 1 (Ty.int 1)] } =
        { id := writeYState.M.nextId + 2, ty := Ty.void,
          op := Op.call { ret := Ty.void, params := [Ty.int 32, Ty.int 1], varArg := false }
            callee
            [Value.inst (handleLoad writeYState.M.nextId).id, Value.arg 200 1 (Ty.int 1)] }) ∧
    (1 < 2 ^ 32 → 1 < 2 ^ 31 → toString (fieldIndexOf 32 1) = toString 1) ∧
    (runOnModule writeYModule = Except.ok (true, writeYResult) ∧
      (writeYRewritten.body.filter isCall) =
        [ { id := 206, ty := Ty.void,
            op := Op.call { ret := Ty.void, params := [Ty.int 32, Ty.int 1], varArg := false }
              (Callee.func 207) [Value.inst 205, Value.arg 200 1 (Ty.int 1)] } ] ∧
      (setField1Decl 207).name = "set_field_1_in_MyStruct_ffi" ∧
      (writeYRewritten.body.filter isStore) =
        [ { id := 203, ty := Ty.void,
            op := Op.store (Value.arg 200 0 (Ty.int 32)) (Value.inst 202) false 4 } ])) :=
  ⟨⟨by rfl, by decide, by rfl, by rfl, by rfl, by rfl⟩,
    C6_field_write (Ty.struct "FakePtr") writeYState writeYStore writeYGep readXInner
      (handlePrologue 200 ++ [readXInner, writeYGep])
      [{ id := 6, ty := Ty.void, op := Op.other 1 [] }] 4 3 (Value.arg 200 1 (Ty.int 1))
      (Ty.int 1) false 1
      (Ty.struct "struct.MyStruct") [Value.constInt 32 0, Value.constInt 32 1] true 32 1
      (Value.inst 201) false 8 "MyStruct" 0
      (by rfl) (by decide) (by rfl) (by rfl) (by decide) (by rfl) (by rfl) (by rfl) (by rfl)
      (by rfl) (by decide) (by rfl) (by rfl)⟩

/-! ## C7: the accessor declarations -/

theorem target_ite (c : Prop) [Decidable c] (id : Nat) (ty : FnTy) :
    (if c then Callee.func id else Callee.castFunc id ty).target = some (Sum.inl id) := by
  split <;> rfl

theorem getOrInsertFunction_cases (M : Module) (name : String) (fnTy : FnTy) :
    (∃ f, M.functions.find? (fun f => f.name = name) = some f ∧
      (M.getOrInsertFunction name fnTy).2 = M ∧
      (M.getOrInsertFunction name fnTy).1 =
        if f.ty = fnTy then Callee.func f.id else Callee.castFunc f.id fnTy) ∨
    (M.functions.find? (fun f => f.name = name) = none ∧ name ∈ M.globals ∧
      (M.getOrInsertFunction name fnTy).2 = M ∧
      (M.getOrInsertFunction name fnTy).1 = Callee.castGlobal name fnTy) ∨
    (M.functions.find? (fun f => f.name = name) = none ∧ name ∉ M.globals ∧
      (M.getOrInsertFunction name fnTy).2 = M.withDeclaration name fnTy ∧
      (M.getOrInsertFunction name fnTy).1 = Callee.func (newDeclaration M name fnTy).id) := by
  unfold Module.getOrInsertFunction
  cases hf : M.functions.find? (fun f => f.name = name) with
  | some f =>
    left
    refine ⟨f, rfl, ?_, ?_⟩ <;> by_cases h : f.ty = fnTy <;> simp [h]
  | none =>
    right
    by_cases hg : name ∈ M.globals
    · left; simp [hg]
    · right; simp [hg, newDeclaration, Module.withDeclaration]

/-- `getOrInsertFunction` is idempotent: a second request for the same name,
    with any function type, adds no declaration and stands for the same global
    value as the first. -/
theorem getOrInsertFunction_again (M : Module) (name : String) (fnTy fnTy2 : FnTy) :
    ((M.getOrInsertFunction name fnTy).2.getOrInsertFunction name fnTy2).2 =
      (M.getOrInsertFunction name fnTy).2 ∧
    ((M.getOrInsertFunction name fnTy).2.getOrInsertFunction name fnTy2).1.target =
      (M.getOrInsertFunction name fnTy).1.target := by
  rcases getOrInsertFunction_cases M name fnTy with ⟨f, hf, h2, h1⟩ | ⟨hf, hg, h2, h1⟩ |
    ⟨hf, hg, h2, h1⟩
  · rw [h2, h1]
    rcases getOrInsertFunction_cases M name fnTy2 with ⟨f', hf', h2', h1'⟩ | ⟨hf', _⟩ | ⟨hf', _⟩
    · rw [hf] at hf'
      injection hf' with hf'
      subst hf'
      rw [h2', h1']
      exact ⟨rfl, by rw [target_ite, target_ite]⟩
    · rw [hf] at hf'; cases hf'
    · rw [hf] at hf'; cases hf'
  · rw [h2, h1]
    rcases getOrInsertFunction_cases M name fnTy2 with ⟨f', hf', _⟩ | ⟨_, _, h2', h1'⟩ |
      ⟨_, hg', _⟩
    · rw [hf] at hf'; cases hf'
    · rw [h2', h1']; exact ⟨rfl, rfl⟩
    · exact absurd hg hg'
  · rw [h2, h1]
    have hfind : (M.withDeclaration name fnTy).functions.find? (fun f => f.name = name) =
        some (newDeclaration M name fnTy) := by
      simp only [Module.withDeclaration, List.find?_append, hf, Option.none_or]
      simp [newDeclaration]
    rcases getOrInsertFunction_cases (M.withDeclaration name fnTy) name fnTy2 with
      ⟨f', hf', h2', h1'⟩ | ⟨hf', _⟩ | ⟨hf', _⟩
    · rw [hfind] at hf'
      injection hf' with hf'
      subst hf'
      rw [h2', h1']
      exact ⟨rfl, by rw [target_ite]; rfl⟩
    · rw [hfind] at hf'; cases hf'
    · rw [hfind] at hf'; cases hf'

/-- What a successful round of a rewrite loop did: nothing (the trailing
    index is no constant), or the commit of the site with the call to the
    accessor that `getOrInsertFunction` handed out. -/
theorem rewriteSite_inv (fakeptr_t int32arg_t : Ty) (st st' : RewriteState) (site : Inst)
    (addr : Value) (acc : Access)
    (h : rewriteSite fakeptr_t int32arg_t st site addr acc = Except.ok st') :
    (∃ s, resolveSite st.body addr = Except.ok s ∧ s.field_index = none ∧ st' = st) ∨
    (∃ s k hl fnTy, resolveSite st.body addr = Except.ok s ∧ s.field_index = some k ∧
      newHandleLoad fakeptr_t int32arg_t st.body s.prev_load_inst st.M.nextId = Except.ok hl ∧
      accessorType int32arg_t st.body site acc = Except.ok fnTy ∧
      commitSite site.id s.gep_inst.id hl.prev_load_inst.id hl.new_gep_inst hl.new_load_inst
        { id := st.M.nextId + 2, ty := fnTy.ret,
          op := Op.call fnTy
            (({ st.M with nextId := st.M.nextId + 3 } : Module).getOrInsertFunction
              (accessorName k s.struct_name acc) fnTy).1
            (accessorArgs hl.new_load_inst acc) } st.body = Except.ok st'.body ∧
      st'.M = (({ st.M with nextId := st.M.nextId + 3 } : Module).getOrInsertFunction
              (accessorName k s.struct_name acc) fnTy).2) := by
  unfold rewriteSite at h
  obtain ⟨s, hs, h⟩ := bind_ok h
  cases hk : s.field_index with
  | none =>
    rw [hk] at h
    exact Or.inl ⟨s, hs, hk, (pure_ok h).symm⟩
  | some k =>
    rw [hk] at h
    simp only at h
    obtain ⟨hl, hhl, h⟩ := bind_ok h
    obtain ⟨fnTy, hfn, h⟩ := bind_ok h
    obtain ⟨body, hbody, h⟩ := bind_ok h
    have := pure_ok h
    subst this
    exact Or.inr ⟨s, k, hl, fnTy, hs, hk, hhl, hfn, hbody, rfl⟩

/-- C7 as stated fails: the module declares `get_field_1_in_MyStruct_ffi` as
    `i1 (i32)`; the read of field 1 as `i8` is replaced by a call of type
    `i8 (i32)` whose callee is a bitcast of that declaration, so no function
    of the module has the call's signature and is its callee. -/
theorem C7_signature_clash :
    runOnModule readYModule = Except.ok (true, readYResult) ∧
    readYCall ∈ readYRewritten.body ∧ readYCall ∉ readYFunction.body ∧
    readYRewritten ∈ readYResult.functions ∧
    (readYResult.functions.filter (fun f => f.name = "get_field_1_in_MyStruct_ffi")) =
      [headerGetter] ∧
    headerGetter.ty = { ret := Ty.int 1, params := [Ty.int 32], varArg := false } ∧
    ¬ CallResolves readYResult readYCall := by
  refine ⟨by rfl, by decide, by decide, by decide, by rfl, by rfl, by decide⟩

/-- C7 (as amended): a round of a rewrite loop that rewrites its site asks
    `getOrInsertFunction` for the accessor name with the signature
    `(i32) -> T` (getter, `T` the type of the read) or `(i32, T) -> void`
    (setter, `T` the type of the stored value), and the call it commits has
    that function type and the callee it was handed. The callee stands for
    the global value of that name: a new declaration of exactly that signature
    when the name was free, the existing function when it has that signature,
    a bitcast of the existing function (whose own signature stays) otherwise.
    A further request for the same name, with any signature, adds no
    declaration and stands for the same global value. -/
theorem C7_accessor_resolution (fakeptr_t : Ty) (st st' : RewriteState) (site : Inst)
    (addr : Value) (acc : Access)
    (h : rewriteSite fakeptr_t (Ty.int 32) st site addr acc = Except.ok st') :
    st' = st ∨
    ∃ name fnTy callee gepId loadId newGep newLoad,
      (callee, st'.M) =
        ({ st.M with nextId := st.M.nextId + 3 } : Module).getOrInsertFunction name fnTy ∧
      (∃ k S, name = accessorName k S acc) ∧
      (acc = Access.read → fnTy = { ret := site.ty, params := [Ty.int 32], varArg := false }) ∧
      (∀ v, acc = Access.write v → ∃ T, typeOf st.body v = Except.ok T ∧
        fnTy = { ret := Ty.void, params := [Ty.int 32, T], varArg := false }) ∧
      commitSite site.id gepId loadId newGep newLoad
        { id := st.M.nextId + 2, ty := fnTy.ret,
          op := Op.call fnTy callee (accessorArgs newLoad acc) } st.body = Except.ok st'.body ∧
      callee.denotes st'.M name ∧
      (st.M.functions.find? (fun f => f.name = name) = none → name ∉ st.M.globals →
        st'.M.functions = st.M.functions ++ [newDeclaration
          ({ st.M with nextId := st.M.nextId + 3 } : Module) name fnTy] ∧
        callee = Callee.func (st.M.nextId + 3)) ∧
      (∀ f, st.M.functions.find? (fun f => f.name = name) = some f →
        st'.M.functions = st.M.functions ∧
        callee = if f.ty = fnTy then Callee.func f.id else Callee.castFunc f.id fnTy) ∧
      (∀ fnTy2, (st'.M.getOrInsertFunction name fnTy2).2 = st'.M ∧
        (st'.M.getOrInsertFunction name fnTy2).1.target = callee.target) := by
  rcases rewriteSite_inv _ _ _ _ _ _ _ h with ⟨_, _, _, h1⟩ | ⟨s, k, hl, fnTy, _, _, _, hfn, hc, hM⟩
  · exact Or.inl h1
  · right
    refine ⟨accessorName k s.struct_name acc, fnTy, _, _, _, _, _, ?_, ⟨k, s.struct_name, rfl⟩,
      ?_, ?_, hc, ?_, ?_, ?_, ?_⟩
    · rw [hM]
    · intro ha
      subst ha
      simp only [accessorType] at hfn
      exact (pure_ok hfn).symm
    · intro v ha
      subst ha
      simp only [accessorType] at hfn
      obtain ⟨T, hT, hfn⟩ := bind_ok hfn
      exact ⟨T, hT, (pure_ok hfn).symm⟩
    · rw [hM]; exact getOrInsertFunction_denotes _ _ _
    · intro hnone hng
      rcases getOrInsertFunction_cases ({ st.M with nextId := st.M.nextId + 3 } : Module)
        (accessorName k s.struct_name acc) fnTy with ⟨f, hf, _⟩ | ⟨_, hg, _⟩ | ⟨_, _, h2, h1⟩
      · rw [hnone] at hf; cases hf
      · exact absurd hg hng
      · rw [hM, h2, h1]; exact ⟨rfl, rfl⟩
    · intro f hf
      rcases getOrInsertFunction_cases ({ st.M with nextId := st.M.nextId + 3 } : Module)
        (accessorName k s.struct_name acc) fnTy with ⟨f', hf', h2, h1⟩ | ⟨hf', _⟩ | ⟨hf', _⟩
      · simp only at hf'
        rw [hf] at hf'
        injection hf' with hf'
        subst hf'
        rw [hM, h2, h1]
        exact ⟨rfl, rfl⟩
      · simp only at hf'; rw [hf] at hf'; cases hf'
      · simp only at hf'; rw [hf] at hf'; cases hf'
    · intro fnTy2
      rw [hM]
      exact getOrInsertFunction_again _ _ _ _

theorem C7_accessor_resolution_witness :
    rewriteSite (Ty.struct "FakePtr") (Ty.int 32) readXState readXLoad (Value.inst 4)
      Access.read = Except.ok readXAfter ∧
    (readXAfter = readXState ∨
    ∃ name fnTy callee gepId loadId newGep newLoad,
      (callee, readXAfter.M) =
        ({ readXState.M with nextId := readXState.M.nextId + 3 } : Module).getOrInsertFunction
          name fnTy ∧
      (∃ k S, name = accessorName k S Access.read) ∧
      (Access.read = Access.read →
        fnTy = { ret := readXLoad.ty, params := [Ty.int 32], varArg := false }) ∧
      (∀ v, Access.read = Access.write v → ∃ T, typeOf readXState.body v = Except.ok T ∧
        fnTy = { ret := Ty.void, params := [Ty.int 32, T], varArg := false }) ∧
      commitSite readXLoad.id gepId loadId newGep newLoad
        { id := readXState.M.nextId + 2, ty := fnTy.ret,
          op := Op.call fnTy callee (accessorArgs newLoad Access.read) } readXState.body =
        Except.ok readXAfter.body ∧
      callee.denotes readXAfter.M name ∧
      (readXState.M.functions.find? (fun f => f.name = name) = none →
        name ∉ readXState.M.globals →
        readXAfter.M.functions = readXState.M.functions ++ [newDeclaration
          ({ readXState.M with nextId := readXState.M.nextId + 3 } : Module) name fnTy] ∧
        callee = Callee.func (readXState.M.nextId + 3)) ∧
      (∀ f, readXState.M.functions.find? (fun f => f.name = name) = some f →
        readXAfter.M.functions = readXState.M.functions ∧
        callee = if f.ty = fnTy then Callee.func f.id else Callee.castFunc f.id fnTy) ∧
      (∀ fnTy2, (readXAfter.M.getOrInsertFunction name fnTy2).2 = readXAfter.M ∧
        (readXAfter.M.getOrInsertFunction name fnTy2).1.target = callee.target)) :=
  ⟨by rfl, C7_accessor_resolution (Ty.struct "FakePtr") readXState readXAfter readXLoad
    (Value.inst 4) Access.read (by rfl)⟩

/-! ## C9: the verifier on the result -/

/-- C9 fails on `pass_on`: every load of the input is well typed; after the
    pass the load of the slot, which feeds a call and no field access, is
    still there with the result type `%struct.MyStruct*` while its pointer
    operand, the retyped slot, is a pointer to the handle struct. -/
theorem C9_slot_load_ill_typed :
    (∀ i ∈ passOnFunction.body, loadWellTyped passOnFunction.body i) ∧
    runOnModule passOnModule = Except.ok (true, passOnResult) ∧
    passOnRewritten ∈ passOnResult.functions ∧
    passOnLoad 201 ∈ passOnRewritten.body ∧
    typeOf passOnRewritten.body (Value.inst 201) =
      Except.ok (Ty.ptr (Ty.struct "FakePtr") 0) ∧
    (passOnLoad 201).ty = Ty.ptr (Ty.struct "struct.MyStruct") 0 ∧
    ¬ loadWellTyped passOnRewritten.body (passOnLoad 201) := by
  refine ⟨?_, by rfl, by decide, by decide, by rfl, by rfl, ?_⟩
  · intro i hi
    simp only [passOnFunction, List.mem_cons, List.mem_singleton, List.not_mem_nil,
      or_false] at hi
    rcases hi with rfl | rfl | rfl | rfl | rfl
    · trivial
    · trivial
    · exact ⟨0, by rfl⟩
    · trivial
    · trivial
  · rintro ⟨a, ha⟩
    have h2 : typeOf passOnRewritten.body (Value.inst 201) =
        Except.ok (Ty.ptr (Ty.struct "FakePtr") 0) := by rfl
    simp only [passOnLoad] at ha
    rw [h2] at ha
    injection ha with ha
    injection ha with h3 h4
    revert h3
    decide

theorem recognisedAccess_iff (fpp : Ty) (B : List Inst) (I : Inst) :
    recognisedAccess fpp B I = true ↔
      ∃ g G srcTy l idxs ib L lptr vol al,
        I.accessAddress = some (Value.inst g) ∧ findInst B g = some G ∧
        G.op = Op.gep srcTy (Value.inst l) idxs ib ∧ findInst B l = some L ∧
        L.op = Op.load lptr vol al ∧ isProtectedPtr L.ty = true ∧
        typeOf B lptr = Except.ok fpp ∧
        isConstInt (trailingIndex (Value.inst l) idxs) = true := by
  constructor
  · intro h
    unfold recognisedAccess at h
    split at h
    · rename_i g hg
      split at h
      · rename_i G hG
        split at h
        · rename_i srcTy l idxs ib hop
          split at h
          · rename_i L hL
            split at h
            · rename_i lptr vol al hLop
              split at h
              · rename_i t ht
                simp only [Bool.and_eq_true, decide_eq_true_eq] at h
                obtain ⟨⟨h1, h2⟩, h3⟩ := h
                subst h2
                exact ⟨g, G, srcTy, l, idxs, ib, L, lptr, vol, al, hg, hG, hop, hL, hLop, h1, ht, h3⟩
              · cases h
            · cases h
          · cases h
        · cases h
      · cases h
    · cases h
  · rintro ⟨g, G, srcTy, l, idxs, ib, L, lptr, vol, al, hg, hG, hop, hL, hLop, h1, ht, h3⟩
    unfold recognisedAccess
    simp only [hg, hG, hop, hL, hLop, ht, h1, h3, decide_True, Bool.and_self]

theorem bodyWF_mono {n m : Nat} {B : List Inst} (h : BodyWF n B) (hnm : n ≤ m) : BodyWF m B := by
  obtain ⟨h1, h2, h3⟩ := h
  refine ⟨h1, fun i hi => Nat.lt_of_lt_of_le (h2 i hi) hnm, fun i hi v hv => ?_⟩
  have := h3 i hi v hv
  cases v <;> simp only [Value.below] at this ⊢
  omega

theorem below_mono {n m : Nat} {v : Value} (h : v.below n) (hnm : n ≤ m) : v.below m := by
  cases v <;> simp only [Value.below] at h ⊢
  omega

theorem bodyWF_map_mapOperands {N : Nat} {B : List Inst} (f : Value → Value)
    (h : BodyWF N B) (hf : ∀ v, v.below N → (f v).below N) :
    BodyWF N (B.map (Inst.mapOperands f)) := by
  obtain ⟨h1, h2, h3⟩ := h
  refine ⟨by rw [ids_map_mapOperands]; exact h1, ?_, ?_⟩
  · intro i hi
    obtain ⟨J, hJ, rfl⟩ := List.mem_map.mp hi
    exact h2 J hJ
  · intro i hi v hv
    obtain ⟨J, hJ, rfl⟩ := List.mem_map.mp hi
    rw [operands_mapOperands] at hv
    obtain ⟨w, hw, rfl⟩ := List.mem_map.mp hv
    exact hf w (h3 J hJ w hw)

theorem redirect_below {N a b : Nat} (hb : b < N) (v : Value) (h : v.below N) :
    (redirect a b v).below N := by
  unfold redirect
  split
  · exact hb
  · exact h

theorem bodyWF_replaceInstUses {N : Nat} {B : List Inst} (a b : Nat) (h : BodyWF N B)
    (hb : b < N) : BodyWF N (replaceInstUses a b B) :=
  bodyWF_map_mapOperands _ h (redirect_below hb)

theorem bodyWF_eraseInst {N : Nat} {B : List Inst} (x : Nat) (h : BodyWF N B) :
    BodyWF N (eraseInst x B) := by
  obtain ⟨h1, h2, h3⟩ := h
  refine ⟨?_, ?_, ?_⟩
  · rw [ids_eraseInst]; exact h1.filter _
  · intro i hi; exact h2 i ((mem_eraseInst _ _ _).mp hi).1
  · intro i hi; exact h3 i ((mem_eraseInst _ _ _).mp hi).1

theorem bodyWF_insertBefore {N : Nat} {B : List Inst} (p : Nat) (new : Inst) (h : BodyWF N B)
    (hfresh : new.id ∉ ids B) (hid : new.id < N) (hops : ∀ v ∈ new.op.operands, v.below N) :
    BodyWF N (insertBefore p new B) := by
  obtain ⟨h1, h2, h3⟩ := h
  refine ⟨nodup_insertBefore p new B h1 hfresh, ?_, ?_⟩
  · intro i hi
    rcases (mem_insertBefore _ _ _ _).mp hi with hi | ⟨rfl, _⟩
    · exact h2 i hi
    · exact hid
  · intro i hi
    rcases (mem_insertBefore _ _ _ _).mp hi with hi | ⟨rfl, _⟩
    · exact h3 i hi
    · exact hops

theorem bodyWF_replaceInstWithInst {N : Nat} {B : List Inst} (old : Nat) (new : Inst)
    (h : BodyWF N B) (hfresh : new.id ∉ ids B) (hid : new.id < N)
    (hops : ∀ v ∈ new.op.operands, v.below N) :
    BodyWF N (replaceInstWithInst old new B) :=
  bodyWF_eraseInst _ (bodyWF_replaceInstUses _ _ (bodyWF_insertBefore _ _ h hfresh hid hops) hid)

theorem id_of_mem_replaceInstWithInst {old : Nat} {new K : Inst} {B : List Inst}
    (h : K ∈ replaceInstWithInst old new B) : K.id = new.id ∨ K.id ∈ ids B := by
  unfold replaceInstWithInst at h
  obtain ⟨h, _⟩ := (mem_eraseInst _ _ _).mp h
  obtain ⟨J, hJ, rfl⟩ := (mem_replaceInstUses _ _ _ _).mp h
  rcases (mem_insertBefore _ _ _ _).mp hJ with hJ | ⟨rfl, _⟩
  · exact Or.inr (mem_ids.mpr ⟨J, hJ, rfl⟩)
  · exact Or.inl rfl

theorem id_of_mem_insertBefore {p : Nat} {new K : Inst} {B : List Inst}
    (h : K ∈ insertBefore p new B) : K.id = new.id ∨ K.id ∈ ids B := by
  rcases (mem_insertBefore _ _ _ _).mp h with hJ | ⟨rfl, _⟩
  · exact Or.inr (mem_ids.mpr ⟨K, hJ, rfl⟩)
  · exact Or.inl rfl

theorem not_mem_ids_of_bound {N : Nat} {B : List Inst} (h : BodyWF N B) {x : Nat} (hx : N ≤ x) :
    x ∉ ids B := by
  intro hm
  obtain ⟨J, hJ, rfl⟩ := mem_ids.mp hm
  have := h.2.1 J hJ
  omega

theorem bodyWF_replaceAllArgs {N : Nat} {B : List Inst} (oldFn newFn : Nat) (params : List Ty)
    (h : BodyWF N B) : BodyWF N (replaceAllArgs oldFn newFn params B) := by
  rw [replaceAllArgs_eq]
  apply bodyWF_map_mapOperands _ h
  intro v hv
  unfold argSubst
  split
  · split
    · trivial
    · exact hv
  · exact hv

theorem getFirstArgStoreInst_mem {fn argi : Nat} {B : List Inst} {S : Inst}
    (h : getFirstArgStoreInst fn B argi = Except.ok S) : S ∈ B := by
  unfold getFirstArgStoreInst at h
  split at h
  · rename_i s hs
    have := pure_ok h
    subst this
    exact List.mem_of_find?_eq_some hs
  · exact (throw_ne_ok h).elim

theorem bodyWF_retypeSlot (fakeptr_t int32arg_t : Ty) (st : BodyState) (a s : Nat) (val : Value)
    (h : BodyWF st.nextId st.body) (hval : val.below st.nextId) :
    BodyWF (retypeSlot fakeptr_t int32arg_t st a s val).nextId
      (retypeSlot fakeptr_t int32arg_t st a s val).body := by
  unfold retypeSlot
  simp only
  have hB1 : BodyWF (st.nextId + 1) (replaceInstWithInst a
      { id := st.nextId, ty := Ty.ptr fakeptr_t 0,
        op := Op.alloca fakeptr_t (Value.constInt 32 1) 4 } st.body) := by
    apply bodyWF_replaceInstWithInst _ _ (bodyWF_mono h (Nat.le_succ _))
    · exact not_mem_ids_of_bound h (Nat.le_refl _)
    · exact Nat.lt_succ_self _
    · intro v hv
      simp only [Op.operands, List.mem_singleton] at hv
      subst hv
      trivial
  have hB2 : BodyWF (st.nextId + 2) (insertBefore s
      { id := st.nextId + 1, ty := Ty.ptr int32arg_t 0,
        op := Op.gep fakeptr_t (Value.inst st.nextId)
          [Value.constInt 32 0, Value.constInt 32 0] true }
      (replaceInstWithInst a
      { id := st.nextId, ty := Ty.ptr fakeptr_t 0,
        op := Op.alloca fakeptr_t (Value.constInt 32 1) 4 } st.body)) := by
    apply bodyWF_insertBefore _ _ (bodyWF_mono hB1 (Nat.le_succ _))
    · exact not_mem_ids_of_bound hB1 (Nat.le_refl _)
    · exact Nat.lt_succ_self _
    · intro v hv
      simp only [Op.operands, List.mem_cons, List.mem_singleton, List.not_mem_nil, or_false] at hv
      rcases hv with rfl | rfl | rfl
      · simp only [Value.below]; omega
      · trivial
      · trivial
  apply bodyWF_replaceInstWithInst _ _ (bodyWF_mono hB2 (Nat.le_succ _))
  · exact not_mem_ids_of_bound hB2 (Nat.le_refl _)
  · exact Nat.lt_succ_self _
  · intro v hv
    simp only [Op.operands, List.mem_cons, List.mem_singleton, List.not_mem_nil, or_false] at hv
    rcases hv with rfl | rfl
    · exact below_mono hval (by omega)
    · simp only [Value.below]; omega

theorem bodyWF_fixPrologueArg (fakeptr_t int32arg_t : Ty) (fn : Nat) (st : BodyState)
    (argi : Nat) (st' : BodyState) (hwf : BodyWF st.nextId st.body)
    (h : fixPrologueArg fakeptr_t int32arg_t fn st argi = Except.ok st') :
    BodyWF st'.nextId st'.body := by
  unfold fixPrologueArg at h
  obtain ⟨S, hS, h⟩ := bind_ok h
  have hmem := getFirstArgStoreInst_mem hS
  split at h
  · rename_i val a vol al hop
    split at h
    · exact (throw_ne_ok h).elim
    · split at h
      · have := pure_ok h; subst this
        apply bodyWF_retypeSlot _ _ _ _ _ _ hwf
        apply hwf.2.2 S hmem
        rw [hop]
        simp [Op.operands]
      · have := pure_ok h; subst this; exact hwf
  · have := pure_ok h; subst this; exact hwf

theorem bodyWF_fixPrologue (fakeptr_t int32arg_t : Ty) (fn : Nat) (changedArgs : List Nat) :
    ∀ (st st' : BodyState), BodyWF st.nextId st.body →
      fixPrologue fakeptr_t int32arg_t fn st changedArgs = Except.ok st' →
      BodyWF st'.nextId st'.body := by
  unfold fixPrologue
  induction changedArgs with
  | nil =>
    intro st st' hwf h
    have := pure_ok h
    subst this
    exact hwf
  | cons a rest ih =>
    intro st st' hwf h
    rw [List.foldlM_cons] at h
    obtain ⟨st1, h1, h2⟩ := bind_ok h
    exact ih st1 st' (bodyWF_fixPrologueArg _ _ _ _ _ _ hwf h1) h2

theorem probeStructName_ne (names : List String) :
    ∀ (fuel uid : Nat), (probeStructName names FAKEPTR_NAME fuel uid).1 ∉ struct_names := by
  have key : ∀ uid : Nat, (FAKEPTR_NAME ++ "." ++ toString uid) ∉ struct_names := by
    intro uid hm
    simp only [struct_names, makeRealStructName, List.mem_singleton] at hm
    have := congrArg String.data hm
    simp only [String.data_append, FAKEPTR_NAME] at this
    have h2 := congrArg List.head? this
    simp at h2
  intro fuel
  induction fuel with
  | zero => intro uid; exact key uid
  | succ n ih =>
    intro uid
    unfold probeStructName
    split
    · exact ih _
    · exact key uid

/-- The handle struct is not in the protected set: a pointer to it is not a
    protected pointer. -/
theorem handle_not_protected (ctx : Context) (addrSpace : Nat) :
    isProtectedPtr (Ty.ptr (getFakePtrType ctx).1 addrSpace) = false := by
  unfold getFakePtrType Context.createStruct
  simp only [isProtectedPtr, isStructPtrWithName, isStructWithName]
  split
  · simp only [decide_eq_false_iff_not]
    exact probeStructName_ne _ _ _
  · simp only [decide_eq_false_iff_not]
    decide

theorem collectStep_spec (sn : List String) (fpp : Ty) (B : List Inst) (q q' : Queues)
    (I : Inst) (h : collectStep sn fpp B q I = Except.ok q') :
    (∀ x, x ∈ q.queued_loadinsts ++ q.queued_storeinsts →
      x ∈ q'.queued_loadinsts ++ q'.queued_storeinsts) ∧
    (∀ addr, I.accessAddress = some addr → isAccessSite sn fpp B addr = Except.ok true →
      I.id ∈ q'.queued_loadinsts ++ q'.queued_storeinsts) := by
  unfold collectStep at h
  unfold Inst.accessAddress
  cases hop : I.op with
  | load p vol al =>
    rw [hop] at h
    simp only at h
    obtain ⟨b, hb, h⟩ := bind_ok h
    have := pure_ok h
    subst this
    constructor
    · intro x hx
      split
      · simp only [List.mem_append] at hx ⊢
        rcases hx with hx | hx
        · exact Or.inl (Or.inl hx)
        · exact Or.inr hx
      · exact hx
    · intro addr ha hs
      simp only [Option.some.injEq] at ha
      subst ha
      rw [hb] at hs
      injection hs with hs
      subst hs
      simp
  | store val p vol al =>
    rw [hop] at h
    simp only at h
    obtain ⟨b, hb, h⟩ := bind_ok h
    have := pure_ok h
    subst this
    constructor
    · intro x hx
      split
      · simp only [List.mem_append] at hx ⊢
        rcases hx with hx | hx
        · exact Or.inl hx
        · exact Or.inr (Or.inl hx)
      · exact hx
    · intro addr ha hs
      simp only [Option.some.injEq] at ha
      subst ha
      rw [hb] at hs
      injection hs with hs
      subst hs
      simp
  | alloca _ _ _ =>
    rw [hop] at h
    have := pure_ok h
    subst this
    exact ⟨fun x hx => hx, fun addr ha => by cases ha⟩
  | gep _ _ _ _ =>
    rw [hop] at h
    have := pure_ok h
    subst this
    exact ⟨fun x hx => hx, fun addr ha => by cases ha⟩
  | call _ _ _ =>
    rw [hop] at h
    have := pure_ok h
    subst this
    exact ⟨fun x hx => hx, fun addr ha => by cases ha⟩
  | other _ _ =>
    rw [hop] at h
    have := pure_ok h
    subst this
    exact ⟨fun x hx => hx, fun addr ha => by cases ha⟩

theorem collectFold_spec (sn : List String) (fpp : Ty) (B : List Inst) :
    ∀ (l : List Inst) (q q' : Queues), l.foldlM (collectStep sn fpp B) q = Except.ok q' →
      (∀ x, x ∈ q.queued_loadinsts ++ q.queued_storeinsts →
        x ∈ q'.queued_loadinsts ++ q'.queued_storeinsts) ∧
      (∀ I ∈ l, ∀ addr, I.accessAddress = some addr →
        isAccessSite sn fpp B addr = Except.ok true →
        I.id ∈ q'.queued_loadinsts ++ q'.queued_storeinsts) := by
  intro l
  induction l with
  | nil =>
    intro q q' h
    have := pure_ok h
    subst this
    exact ⟨fun x hx => hx, fun I hI => by cases hI⟩
  | cons J rest ih =>
    intro q q' h
    rw [List.foldlM_cons] at h
    obtain ⟨q1, h1, h2⟩ := bind_ok h
    obtain ⟨s1, s2⟩ := collectStep_spec sn fpp B q q1 J h1
    obtain ⟨r1, r2⟩ := ih q1 q' h2
    refine ⟨fun x hx => r1 x (s1 x hx), ?_⟩
    intro I hI addr ha hs
    rcases List.mem_cons.mp hI with rfl | hI
    · exact r1 _ (s2 addr ha hs)
    · exact r2 I hI addr ha hs

/-- The collection loop queues every load and store of the body that its
    test accepts. -/
theorem collectQueues_complete (sn : List String) (fpp : Ty) (B : List Inst) (q : Queues)
    (h : collectQueues sn fpp B = Except.ok q) (I : Inst) (hI : I ∈ B) (addr : Value)
    (ha : I.accessAddress = some addr) (hs : isAccessSite sn fpp B addr = Except.ok true) :
    I.id ∈ q.queued_loadinsts ++ q.queued_storeinsts :=
  (collectFold_spec sn fpp B B _ q h).2 I hI addr ha hs

/-- An access that `recognisedAccess` describes passes the test of the
    collection loop. -/
theorem isAccessSite_of_recognised (fpp : Ty) (B : List Inst) (I : Inst)
    (h : recognisedAccess fpp B I = true) :
    ∃ addr, I.accessAddress = some addr ∧
      isAccessSite struct_names fpp B addr = Except.ok true := by
  obtain ⟨g, G, srcTy, l, idxs, ib, L, lptr, vol, al, hg, hG, hop, hL, hLop, h1, ht, _⟩ :=
    (recognisedAccess_iff fpp B I).mp h
  refine ⟨Value.inst g, hg, ?_⟩
  have hgep : isGep G = true := by simp [isGep, hop]
  have hload : isLoad L = true := by simp [isLoad, hLop]
  unfold isAccessSite
  rw [dynCastInst_of_find hG hgep]
  simp only [bind, Except.bind, Inst.pointerOperand, hop]
  unfold gepIsAccess
  rw [typeOf_of_find hL]
  simp only [bind, Except.bind]
  have h1' : isStructPtrWithName (some L.ty) struct_names = true := h1
  rw [if_pos h1']
  unfold innerLoadReadsHandle
  rw [dynCastInst_of_find hL hload]
  simp only [bind, Except.bind, Inst.pointerOperand, hLop, ht, pure, Except.pure, decide_True]

theorem dynCastInst_some {isT : Inst → Bool} {B : List Inst} {v : Value} {J : Inst}
    (h : dynCastInst isT B v = Except.ok (some J)) :
    ∃ x, v = Value.inst x ∧ findInst B x = some J ∧ isT J = true := by
  unfold dynCastInst at h
  split at h
  · rename_i x
    split at h
    · exact (throw_ne_ok h).elim
    · rename_i K hK
      have := pure_ok h
      split at this
      · rename_i hT
        injection this with this
        subst this
        exact ⟨x, rfl, hK, hT⟩
      · cases this
  · have := pure_ok h
    cases this

theorem resolveSite_inv {B : List Inst} {addr : Value} {s : Site}
    (h : resolveSite B addr = Except.ok s) :
    ∃ g srcTy gptr idxs ib, addr = Value.inst g ∧ findInst B g = some s.gep_inst ∧
      s.gep_inst.op = Op.gep srcTy gptr idxs ib ∧
      dynCastInst isLoad B gptr = Except.ok s.prev_load_inst ∧
      fieldIndex B gptr idxs = Except.ok s.field_index := by
  unfold resolveSite at h
  obtain ⟨go, hgo, h2⟩ := bind_ok h
  cases go with
  | none => exact (throw_ne_ok h2).elim
  | some G =>
    simp only at h2
    obtain ⟨g, hg, hG, _⟩ := dynCastInst_some hgo
    cases hop : G.op with
    | gep srcTy gptr idxs ib =>
      rw [hop] at h2
      simp only at h2
      obtain ⟨pl, hpl, h2⟩ := bind_ok h2
      obtain ⟨fi, hfi, h2⟩ := bind_ok h2
      obtain ⟨t, _, h2⟩ := bind_ok h2
      have := pure_ok h2
      subst this
      exact ⟨g, srcTy, gptr, idxs, ib, hg, hG, hop, hpl, hfi⟩
    | alloca _ _ _ => rw [hop] at h2; exact (throw_ne_ok h2).elim
    | load _ _ _ => rw [hop] at h2; exact (throw_ne_ok h2).elim
    | store _ _ _ _ => rw [hop] at h2; exact (throw_ne_ok h2).elim
    | call _ _ _ => rw [hop] at h2; exact (throw_ne_ok h2).elim
    | other _ _ => rw [hop] at h2; exact (throw_ne_ok h2).elim

theorem fieldIndex_none {B : List Inst} {gptr : Value} {idxs : List Value}
    (h : fieldIndex B gptr idxs = Except.ok none) :
    isConstInt (trailingIndex gptr idxs) = false := by
  unfold fieldIndex at h
  split at h
  · have := pure_ok h; cases this
  · rename_i hv; rw [hv]; rfl
  · rename_i h1 h2
    cases ht : trailingIndex gptr idxs with
    | constInt b v => exact absurd ht (h1 b v)
    | inst _ => rfl
    | arg _ _ _ => rfl
    | const _ _ => rfl

theorem newHandleLoad_inv {fakeptr_t int32arg_t : Ty} {B : List Inst} {prev : Option Inst}
    {n : Nat} {hl : HandleLoad}
    (h : newHandleLoad fakeptr_t int32arg_t B prev n = Except.ok hl) :
    ∃ L lptr a, prev = some L ∧ L.pointerOperand = some lptr ∧
      typeOf B lptr = Except.ok (Ty.ptr fakeptr_t a) ∧
      hl = { prev_load_inst := L,
             new_gep_inst :=
               { id := n, ty := Ty.ptr int32arg_t a,
                 op := Op.gep fakeptr_t lptr [Value.constInt 32 0, Value.constInt 32 0] true },
             new_load_inst :=
               { id := n + 1, ty := int32arg_t, op := Op.load (Value.inst n) false 0 } } := by
  unfold newHandleLoad at h
  split at h
  · exact (throw_ne_ok h).elim
  · rename_i L
    split at h
    · exact (throw_ne_ok h).elim
    · rename_i lptr hlptr
      obtain ⟨t, ht, h⟩ := bind_ok h
      obtain ⟨gt, hgt, h⟩ := bind_ok h
      have := pure_ok h
      subst this
      unfold handleFieldPtrType at hgt
      split at hgt
      · rename_i elem a
        split at hgt
        · rename_i he
          have := pure_ok hgt
          subst this
          subst he
          exact ⟨L, lptr, a, rfl, hlptr, ht, rfl⟩
        · exact (throw_ne_ok hgt).elim
      · exact (throw_ne_ok hgt).elim

theorem accessorType_ret {int32arg_t : Ty} {B : List Inst} {site : Inst} {acc : Access}
    {fnTy : FnTy} (h : accessorType int32arg_t B site acc = Except.ok fnTy) :
    fnTy.ret = site.ty ∨ fnTy.ret = Ty.void := by
  cases acc with
  | read =>
    simp only [accessorType] at h
    have := pure_ok h
    subst this
    exact Or.inl rfl
  | write val =>
    simp only [accessorType] at h
    obtain ⟨t, _, h⟩ := bind_ok h
    have := pure_ok h
    subst this
    exact Or.inr rfl

theorem eraseLive_ok {x : Nat} {B B' : List Inst} (h : eraseLive x B = Except.ok B') :
    B' = eraseInst x B := by
  unfold eraseLive at h
  split at h
  · exact (throw_ne_ok h).elim
  · exact (pure_ok h).symm

theorem getOrInsertFunction_operands (M : Module) (name : String) (fnTy : FnTy) :
    (M.getOrInsertFunction name fnTy).1.operands = [] := by
  rcases getOrInsertFunction_cases M name fnTy with ⟨f, _, _, h⟩ | ⟨_, _, _, h⟩ | ⟨_, _, _, h⟩
  · rw [h]; split <;> rfl
  · rw [h]; rfl
  · rw [h]; rfl

/-- Every instruction of the body after a commit is the new GEP, the new
    load, the call, or an instruction of the body before, each with the uses
    of the site redirected to the call. -/
theorem mem_commitSite {x g l : Nat} {newGep newLoad call : Inst} {B B' : List Inst}
    (h : commitSite x g l newGep newLoad call B = Except.ok B') (K : Inst) (hK : K ∈ B') :
    K = newGep.mapOperands (redirect x call.id) ∨
    K = newLoad.mapOperands (redirect x call.id) ∨
    K = call.mapOperands (redirect x call.id) ∨
    ∃ J ∈ B, K = J.mapOperands (redirect x call.id) ∧ J.id ≠ x := by
  unfold commitSite at h
  obtain ⟨B4, h4, h5⟩ := bind_ok h
  have e4 := eraseLive_ok h4
  have e5 := eraseLive_ok h5
  subst e5
  subst e4
  have k1 := ((mem_eraseInst _ _ _).mp hK).1
  have k2 := ((mem_eraseInst _ _ _).mp k1).1
  rcases (mem_insertBefore _ _ _ _).mp k2 with h3 | ⟨rfl, _⟩
  · rcases (mem_insertBefore _ _ _ _).mp h3 with h2 | ⟨rfl, _⟩
    · unfold replaceInstWithInst at h2
      obtain ⟨h2a, h2b⟩ := (mem_eraseInst _ _ _).mp h2
      obtain ⟨J, hJ, rfl⟩ := (mem_replaceInstUses _ _ _ _).mp h2a
      rcases (mem_insertBefore _ _ _ _).mp hJ with hJ | ⟨rfl, _⟩
      · right; right; right; exact ⟨J, hJ, rfl, h2b⟩
      · right; right; left; rfl
    · right; left; rfl
  · left; rfl

theorem mapOperands_below {N : Nat} {f : Value → Value} {i : Inst}
    (hf : ∀ v, v.below N → (f v).below N) (h : ∀ v ∈ i.op.operands, v.below N) :
    ∀ v ∈ (i.mapOperands f).op.operands, v.below N := by
  intro v hv
  rw [operands_mapOperands] at hv
  obtain ⟨w, hw, rfl⟩ := List.mem_map.mp hv
  exact hf w (h w hw)

theorem bodyWF_commitSite {n x g l : Nat} {newGep newLoad call : Inst} {B B' : List Inst}
    (hwf : BodyWF n B) (hg : newGep.id = n) (hl : newLoad.id = n + 1) (hc : call.id = n + 2)
    (og : ∀ v ∈ newGep.op.operands, v.below (n + 3))
    (ol : ∀ v ∈ newLoad.op.operands, v.below (n + 3))
    (oc : ∀ v ∈ call.op.operands, v.below (n + 3))
    (h : commitSite x g l newGep newLoad call B = Except.ok B') : BodyWF (n + 3) B' := by
  unfold commitSite at h
  obtain ⟨B4, h4, h5⟩ := bind_ok h
  have e4 := eraseLive_ok h4
  have e5 := eraseLive_ok h5
  subst e5
  subst e4
  have hcid : call.id < n + 3 := by omega
  have hB1 : BodyWF (n + 3) (replaceInstWithInst x call B) := by
    apply bodyWF_replaceInstWithInst _ _ (bodyWF_mono hwf (by omega))
    · rw [hc]; exact not_mem_ids_of_bound hwf (by omega)
    · exact hcid
    · exact oc
  have hB2 : BodyWF (n + 3) (insertBefore call.id (newLoad.mapOperands (redirect x call.id))
      (replaceInstWithInst x call B)) := by
    apply bodyWF_insertBefore _ _ hB1
    · intro hm
      obtain ⟨J, hJ, hid⟩ := mem_ids.mp hm
      rw [mapOperands_id, hl] at hid
      rcases id_of_mem_replaceInstWithInst hJ with h1 | h1
      · omega
      · rw [hid] at h1
        exact not_mem_ids_of_bound hwf (by omega) h1
    · rw [mapOperands_id, hl]; omega
    · exact mapOperands_below (redirect_below hcid) ol
  have hB3 : BodyWF (n + 3) (insertBefore newLoad.id (newGep.mapOperands (redirect x call.id))
      (insertBefore call.id (newLoad.mapOperands (redirect x call.id))
        (replaceInstWithInst x call B))) := by
    apply bodyWF_insertBefore _ _ hB2
    · intro hm
      obtain ⟨J, hJ, hid⟩ := mem_ids.mp hm
      rw [mapOperands_id, hg] at hid
      rcases id_of_mem_insertBefore hJ with h1 | h1
      · rw [mapOperands_id, hl] at h1; omega
      · obtain ⟨K, hK, hid2⟩ := mem_ids.mp h1
        rcases id_of_mem_replaceInstWithInst hK with h2 | h2
        · omega
        · rw [hid2, hid] at h2
          exact not_mem_ids_of_bound hwf (Nat.le_refl _) h2
    · rw [mapOperands_id, hg]; omega
    · exact mapOperands_below (redirect_below hcid) og
  exact bodyWF_eraseInst _ (bodyWF_eraseInst _ hB3)

theorem redirect_inst_inv {a b y : Nat} {v : Value} (h : redirect a b v = Value.inst y) :
    (v = Value.inst a ∧ y = b) ∨ (v = Value.inst y ∧ y ≠ a) := by
  unfold redirect at h
  split at h
  · rename_i hv
    injection h with h
    exact Or.inl ⟨hv, h.symm⟩
  · rename_i hv
    subst h
    right
    refine ⟨rfl, ?_⟩
    intro hy
    exact hv (by rw [hy])

theorem isConstInt_redirect (a b : Nat) (v : Value) :
    isConstInt (redirect a b v) = isConstInt v := by
  unfold redirect
  split
  · rename_i hv; rw [hv]; rfl
  · rfl

theorem trailingIndex_map (f : Value → Value) (p : Value) (idxs : List Value) :
    trailingIndex (f p) (idxs.map f) = f (trailingIndex p idxs) := by
  unfold trailingIndex
  rw [List.length_map, ← List.map_cons, List.getD_map]

theorem accessAddress_mapOperands (f : Value → Value) (i : Inst) :
    (i.mapOperands f).accessAddress = i.accessAddress.map f := by
  unfold Inst.accessAddress Inst.mapOperands
  cases i.op <;> rfl

theorem accessAddress_mem_operands {i : Inst} {a : Value} (h : i.accessAddress = some a) :
    a ∈ i.op.operands := by
  unfold Inst.accessAddress at h
  cases hop : i.op <;> rw [hop] at h <;> simp only [Option.some.injEq] at h <;>
    first
    | (subst h; simp [Op.operands])
    | cases h

theorem mapOperands_gep_inv {f : Value → Value} {i : Inst} {t : Ty} {p : Value}
    {idxs : List Value} {ib : Bool} (h : (i.mapOperands f).op = Op.gep t p idxs ib) :
    ∃ p0 idxs0, i.op = Op.gep t p0 idxs0 ib ∧ f p0 = p ∧ idxs0.map f = idxs := by
  unfold Inst.mapOperands at h
  simp only at h
  cases hop : i.op <;> rw [hop] at h <;> simp only [Op.mapOperands] at h <;>
    first
    | (injection h with h1 h2 h3 h4; subst h1; subst h4; exact ⟨_, _, rfl, h2, h3⟩)
    | cases h

theorem mapOperands_load_inv {f : Value → Value} {i : Inst} {p : Value} {vol : Bool}
    {al : Nat} (h : (i.mapOperands f).op = Op.load p vol al) :
    ∃ p0, i.op = Op.load p0 vol al ∧ f p0 = p := by
  unfold Inst.mapOperands at h
  simp only at h
  cases hop : i.op <;> rw [hop] at h <;> simp only [Op.mapOperands] at h <;>
    first
    | (injection h with h1 h2 h3; subst h2; subst h3; exact ⟨_, rfl, h1⟩)
    | cases h

theorem typeOf_inst_inv {B : List Inst} {j : Nat} {t : Ty}
    (h : typeOf B (Value.inst j) = Except.ok t) : ∃ J, findInst B j = some J ∧ J.ty = t := by
  simp only [typeOf] at h
  cases hJ : findInst B j with
  | none => rw [hJ] at h; exact (throw_ne_ok h).elim
  | some J => rw [hJ] at h; exact ⟨J, rfl, pure_ok h⟩

/-- Looking up an instruction after a commit: it is one of the three new
    instructions, or the redirected image of the instruction of that identity
    before the commit. -/
theorem find_commit {n x g l : Nat} {newGep newLoad call : Inst} {B B' : List Inst}
    (hwf : BodyWF n B) (hg : newGep.id = n) (hl : newLoad.id = n + 1) (hc : call.id = n + 2)
    (h : commitSite x g l newGep newLoad call B = Except.ok B') {j : Nat} {J' : Inst}
    (hf : findInst B' j = some J') :
    (j = n ∧ J' = newGep.mapOperands (redirect x call.id)) ∨
    (j = n + 1 ∧ J' = newLoad.mapOperands (redirect x call.id)) ∨
    (j = n + 2 ∧ J' = call.mapOperands (redirect x call.id)) ∨
    (j < n ∧ j ≠ x ∧ ∃ J0, findInst B j = some J0 ∧ J' = J0.mapOperands (redirect x call.id)) := by
  obtain ⟨hmem, hid⟩ := findInst_some hf
  rcases mem_commitSite h J' hmem with h1 | h1 | h1 | ⟨J, hJ, h1, hne⟩
  · left; rw [h1, mapOperands_id, hg] at hid; exact ⟨hid.symm, h1⟩
  · right; left; rw [h1, mapOperands_id, hl] at hid; exact ⟨hid.symm, h1⟩
  · right; right; left; rw [h1, mapOperands_id, hc] at hid; exact ⟨hid.symm, h1⟩
  · right; right; right
    have hid2 : J.id = j := by rw [h1, mapOperands_id] at hid; exact hid
    refine ⟨hid2 ▸ hwf.2.1 J hJ, hid2 ▸ hne, J, ?_, h1⟩
    rw [← hid2]
    exact findInst_of_mem hwf.1 hJ

/-- The type of an operand after a commit is its type before, or the type
    of the call when the operand named the site. -/
theorem typeOf_commit {n x g l : Nat} {newGep newLoad call : Inst} {B B' : List Inst}
    (hwf : BodyWF n B) (hg : newGep.id = n) (hl : newLoad.id = n + 1) (hc : call.id = n + 2)
    (h : commitSite x g l newGep newLoad call B = Except.ok B') {v : Value} {t : Ty}
    (hv : v.below n) (ht : typeOf B' (redirect x call.id v) = Except.ok t) :
    typeOf B v = Except.ok t ∨ (v = Value.inst x ∧ t = call.ty) := by
  by_cases hvx : v = Value.inst x
  · right
    refine ⟨hvx, ?_⟩
    subst hvx
    simp only [redirect, if_true] at ht
    obtain ⟨J, hJ, hty⟩ := typeOf_inst_inv ht
    rcases find_commit hwf hg hl hc h hJ with ⟨h1, _⟩ | ⟨h1, _⟩ | ⟨_, h2⟩ | ⟨h1, _⟩
    · omega
    · omega
    · rw [h2, mapOperands_ty] at hty; exact hty.symm
    · omega
  · left
    rw [redirect_self_of_ne hvx] at ht
    cases v with
    | inst j =>
      obtain ⟨J, hJ, hty⟩ := typeOf_inst_inv ht
      simp only [Value.below] at hv
      rcases find_commit hwf hg hl hc h hJ with ⟨h1, _⟩ | ⟨h1, _⟩ | ⟨h1, _⟩ | ⟨_, _, J0, hJ0, h2⟩
      · omega
      · omega
      · omega
      · rw [typeOf_of_find hJ0, ← hty, h2, mapOperands_ty]
    | arg _ _ _ => exact ht
    | constInt _ _ => exact ht
    | const _ _ => exact ht

/-- A commit leaves no access that `recognisedAccess` describes other than
    those the body had before, and the site is not among them. -/
theorem commit_recognised {n x g l a : Nat} {fake fpp T int32arg_t : Ty} {lptr : Value}
    {site call : Inst} {B B' : List Inst}
    (hwf : BodyWF n B) (hsite : findInst B x = some site)
    (hc : call.id = n + 2) (hca : call.accessAddress = none)
    (hcg : isGep call = false) (hcl : isLoad call = false)
    (hty : call.ty = site.ty ∨ call.ty = Ty.void) (hvoid : fpp ≠ Ty.void)
    (hnp : isProtectedPtr (Ty.ptr fake a) = false)
    (hlptr : lptr.below n) (htl : typeOf B lptr = Except.ok (Ty.ptr fake a))
    (h : commitSite x g l
      { id := n, ty := T,
        op := Op.gep fake lptr [Value.constInt 32 0, Value.constInt 32 0] true }
      { id := n + 1, ty := int32arg_t, op := Op.load (Value.inst n) false 0 } call B
        = Except.ok B')
    (I' : Inst) (hI' : I' ∈ B') (hrec : recognisedAccess fpp B' I' = true) :
    ∃ I ∈ B, I.id = I'.id ∧ I.id ≠ x ∧ recognisedAccess fpp B I = true := by
  have hxn : x < n := by
    have := findInst_some hsite
    rw [← this.2]
    exact hwf.2.1 _ this.1
  have hfind := fun {j : Nat} {J' : Inst} (hf : findInst B' j = some J') =>
    find_commit hwf rfl rfl hc h hf
  have hcallNotGep : ∀ {t p idxs ib},
      (call.mapOperands (redirect x call.id)).op ≠ Op.gep t p idxs ib := by
    intro t p idxs ib hop
    obtain ⟨p0, idxs0, hop0, _⟩ := mapOperands_gep_inv hop
    simp [isGep, hop0] at hcg
  have hcallNotLoad : ∀ {p vol al},
      (call.mapOperands (redirect x call.id)).op ≠ Op.load p vol al := by
    intro p vol al hop
    obtain ⟨p0, hop0, _⟩ := mapOperands_load_inv hop
    simp [isLoad, hop0] at hcl
  obtain ⟨g', G', srcTy, l', idxs', ib, L', lptr', vol, al, hg', hG', hop', hL', hLop', hprot,
    htl', hconst⟩ := (recognisedAccess_iff fpp B' I').mp hrec
  rcases mem_commitSite h I' hI' with h1 | h1 | h1 | ⟨J, hJ, h1, hJx⟩
  · -- the new GEP is no access
    rw [h1, accessAddress_mapOperands] at hg'
    simp [Inst.accessAddress] at hg'
  · -- the new load reads the handle, not a protected struct
    rw [h1, accessAddress_mapOperands] at hg'
    simp only [Inst.accessAddress, Option.map_some', Option.some.injEq] at hg'
    rcases redirect_inst_inv hg' with ⟨hh, _⟩ | ⟨hh, _⟩
    · injection hh with hh; omega
    · injection hh with hh
      subst hh
      rcases hfind hG' with ⟨_, h2⟩ | ⟨h2, _⟩ | ⟨h2, _⟩ | ⟨h2, _⟩
      · rw [h2] at hop'
        obtain ⟨p0, idxs0, hop0, hp0, _⟩ := mapOperands_gep_inv hop'
        simp only at hop0
        injection hop0 with _ e2 _ _
        subst e2
        rcases redirect_inst_inv hp0 with ⟨_, hh⟩ | ⟨hh, _⟩
        · subst hh
          rcases hfind hL' with ⟨h3, _⟩ | ⟨h3, _⟩ | ⟨_, h3⟩ | ⟨h3, _⟩
          · omega
          · omega
          · rw [h3] at hLop'; exact absurd hLop' hcallNotLoad
          · omega
        · subst hh
          simp only [Value.below] at hlptr
          rcases hfind hL' with ⟨h3, _⟩ | ⟨h3, _⟩ | ⟨h3, _⟩ | ⟨_, _, L0, hL0, h3⟩
          · omega
          · omega
          · omega
          · rw [typeOf_of_find hL0] at htl
            injection htl with htl
            rw [h3, mapOperands_ty, htl, hnp] at hprot
            cases hprot
      · omega
      · omega
      · omega
  · -- the call is no access
    rw [h1, accessAddress_mapOperands, hca] at hg'
    cases hg'
  · -- an instruction of the body before
    rw [h1, accessAddress_mapOperands] at hg'
    cases ha0 : J.accessAddress with
    | none => rw [ha0] at hg'; cases hg'
    | some a0 =>
      rw [ha0] at hg'
      simp only [Option.map_some', Option.some.injEq] at hg'
      have ha0b : a0.below n := hwf.2.2 J hJ a0 (accessAddress_mem_operands ha0)
      rcases redirect_inst_inv hg' with ⟨_, hh⟩ | ⟨hh, hgx⟩
      · subst hh
        rcases hfind hG' with ⟨h3, _⟩ | ⟨h3, _⟩ | ⟨_, h3⟩ | ⟨h3, _⟩
        · omega
        · omega
        · rw [h3] at hop'; exact absurd hop' hcallNotGep
        · omega
      · subst hh
        simp only [Value.below] at ha0b
        rcases hfind hG' with ⟨h3, _⟩ | ⟨h3, _⟩ | ⟨h3, _⟩ | ⟨_, _, G0, hG0, h3⟩
        · omega
        · omega
        · omega
        · rw [h3] at hop'
          obtain ⟨p0, idxs0, hop0, hp0, hidx⟩ := mapOperands_gep_inv hop'
          have hG0mem := (findInst_some hG0).1
          have hp0b : p0.below n := hwf.2.2 G0 hG0mem p0 (by rw [hop0]; simp [Op.operands])
          rcases redirect_inst_inv hp0 with ⟨_, hh⟩ | ⟨hh, hlx⟩
          · subst hh
            rcases hfind hL' with ⟨h4, _⟩ | ⟨h4, _⟩ | ⟨_, h4⟩ | ⟨h4, _⟩
            · omega
            · omega
            · rw [h4] at hLop'; exact absurd hLop' hcallNotLoad
            · omega
          · subst hh
            simp only [Value.below] at hp0b
            rcases hfind hL' with ⟨h4, _⟩ | ⟨h4, _⟩ | ⟨h4, _⟩ | ⟨_, _, L0, hL0, h4⟩
            · omega
            · omega
            · omega
            · rw [h4] at hLop'
              obtain ⟨lptr0, hLop0, hlp⟩ := mapOperands_load_inv hLop'
              have hL0mem := (findInst_some hL0).1
              have hlb : lptr0.below n :=
                hwf.2.2 L0 hL0mem lptr0 (by rw [hLop0]; simp [Op.operands])
              rw [← hlp] at htl'
              have htl0 : typeOf B lptr0 = Except.ok fpp := by
                rcases typeOf_commit hwf rfl rfl hc h hlb htl' with h5 | ⟨h5, h6⟩
                · exact h5
                · subst h5
                  rw [typeOf_of_find hsite]
                  rcases hty with h7 | h7
                  · rw [h6, h7]
                  · exact absurd (h6.trans h7) hvoid
              refine ⟨J, hJ, by rw [h1, mapOperands_id], hJx, ?_⟩
              apply (recognisedAccess_iff fpp B J).mpr
              refine ⟨g', G0, srcTy, l', idxs0, ib, L0, lptr0, vol, al, ha0, hG0, hop0, hL0,
                hLop0, ?_, htl0, ?_⟩
              · rw [h4, mapOperands_ty] at hprot; exact hprot
              · rw [← hidx, ← hp0, trailingIndex_map, isConstInt_redirect] at hconst
                exact hconst

theorem pointerOperand_mem_operands {i : Inst} {p : Value} (h : i.pointerOperand = some p) :
    p ∈ i.op.operands := by
  unfold Inst.pointerOperand at h
  cases hop : i.op <;> rw [hop] at h <;> simp only [Option.some.injEq] at h <;>
    first
    | (subst h; simp [Op.operands])
    | cases h

/-- A site whose trailing index is no constant is not an access that
    `recognisedAccess` describes. -/
theorem not_recognised_of_skip {fpp : Ty} {B : List Inst} {site : Inst} {addr : Value}
    {s : Site} (haddr : site.accessAddress = some addr)
    (hs : resolveSite B addr = Except.ok s) (hk : s.field_index = none) :
    recognisedAccess fpp B site = false := by
  cases hr : recognisedAccess fpp B site with
  | false => rfl
  | true =>
    obtain ⟨g, G, srcTy, l, idxs, ib, L, lptr, vol, al, hg, hG, hop, _, _, _, _, hconst⟩ :=
      (recognisedAccess_iff fpp B site).mp hr
    obtain ⟨g2, srcTy2, gptr2, idxs2, ib2, ha2, hG2, hop2, _, hfi⟩ := resolveSite_inv hs
    rw [haddr] at hg
    injection hg with hg
    rw [hg] at ha2
    injection ha2 with ha2
    subst ha2
    rw [hG] at hG2
    injection hG2 with hG2
    rw [← hG2, hop] at hop2
    injection hop2 with _ e2 e3 _
    subst e2
    subst e3
    rw [hk] at hfi
    rw [fieldIndex_none hfi] at hconst
    cases hconst

/-- One round of a rewrite loop keeps the body well-formed and leaves no
    access that `recognisedAccess` describes other than those the body had
    before the round; the site of the round is not among them. -/
theorem rewriteSite_step (fake : Ty) (hnp : ∀ a, isProtectedPtr (Ty.ptr fake a) = false)
    (st st' : RewriteState) (site : Inst) (addr : Value) (acc : Access)
    (hwf : BodyWF st.M.nextId st.body) (hfind : findInst st.body site.id = some site)
    (haddr : site.accessAddress = some addr)
    (hval : ∀ v, acc = Access.write v → v.below st.M.nextId)
    (h : rewriteSite fake (Ty.int 32) st site addr acc = Except.ok st') :
    BodyWF st'.M.nextId st'.body ∧
    ∀ I' ∈ st'.body, recognisedAccess (Ty.ptr fake 0) st'.body I' = true →
      ∃ I ∈ st.body, I.id = I'.id ∧ I.id ≠ site.id ∧
        recognisedAccess (Ty.ptr fake 0) st.body I = true := by
  rcases rewriteSite_inv _ _ _ _ _ _ _ h with
    ⟨s, hs, hk, heq⟩ | ⟨s, k, hl, fnTy, hs, hk, hhl, hfn, hc, hM⟩
  · subst heq
    refine ⟨hwf, ?_⟩
    intro I' hI' hrec
    refine ⟨I', hI', rfl, ?_, hrec⟩
    intro hid
    have h1 := findInst_of_mem hwf.1 hI'
    rw [hid, hfind] at h1
    injection h1 with h1
    subst h1
    rw [not_recognised_of_skip haddr hs hk] at hrec
    cases hrec
  · obtain ⟨g, srcTy, gptr, idxs, ib, _, _, _, hdc, _⟩ := resolveSite_inv hs
    obtain ⟨L, lptr, a, hprev, hptr, htl, hhl2⟩ := newHandleLoad_inv hhl
    subst hhl2
    rw [hprev] at hdc
    obtain ⟨l, _, hL, _⟩ := dynCastInst_some hdc
    have hLmem := (findInst_some hL).1
    have hlptr : lptr.below st.M.nextId :=
      hwf.2.2 L hLmem lptr (pointerOperand_mem_operands hptr)
    simp only at hc
    constructor
    · have hB : BodyWF (st.M.nextId + 3) st'.body := by
        refine bodyWF_commitSite hwf rfl rfl rfl ?_ ?_ ?_ hc
        · intro v hv
          simp only [Op.operands, List.mem_cons, List.mem_singleton, List.not_mem_nil,
            or_false] at hv
          rcases hv with rfl | rfl | rfl
          · exact below_mono hlptr (by omega)
          · trivial
          · trivial
        · intro v hv
          simp only [Op.operands, List.mem_singleton] at hv
          subst hv
          simp only [Value.below]
          omega
        · intro v hv
          simp only [Op.operands, getOrInsertFunction_operands, List.nil_append] at hv
          cases acc with
          | read =>
            simp only [accessorArgs, List.mem_singleton] at hv
            subst hv
            simp only [Value.below]
            omega
          | write val =>
            simp only [accessorArgs, List.mem_cons, List.mem_singleton, List.not_mem_nil,
              or_false] at hv
            rcases hv with rfl | rfl
            · simp only [Value.below]
              omega
            · exact below_mono (hval _ rfl) (by omega)
      refine bodyWF_mono hB ?_
      rw [hM]
      exact getOrInsertFunction_nextId ({ st.M with nextId := st.M.nextId + 3 } : Module) _ _
    · intro I' hI' hrec
      refine commit_recognised hwf hfind ?_ ?_ ?_ ?_ (accessorType_ret hfn) ?_ (hnp a) hlptr
        htl hc I' hI' hrec
      · rfl
      · rfl
      · rfl
      · rfl
      · intro hh; cases hh

theorem rewriteLoad_step (fake : Ty) (hnp : ∀ a, isProtectedPtr (Ty.ptr fake a) = false)
    (st : RewriteState) (x : Nat) (st' : RewriteState)
    (hwf : BodyWF st.M.nextId st.body)
    (h : rewriteLoad fake (Ty.int 32) st x = Except.ok st') :
    BodyWF st'.M.nextId st'.body ∧
    ∀ I' ∈ st'.body, recognisedAccess (Ty.ptr fake 0) st'.body I' = true →
      ∃ I ∈ st.body, I.id = I'.id ∧ I.id ≠ x ∧
        recognisedAccess (Ty.ptr fake 0) st.body I = true := by
  unfold rewriteLoad at h
  cases hf : findInst st.body x with
  | none => rw [hf] at h; exact (throw_ne_ok h).elim
  | some site =>
    rw [hf] at h
    simp only at h
    have hid := (findInst_some hf).2
    subst hid
    cases hop : site.op with
    | load addr vol al =>
      rw [hop] at h
      simp only at h
      exact rewriteSite_step fake hnp st st' site addr Access.read hwf hf
        (by simp [Inst.accessAddress, hop]) (by intro v hv; cases hv) h
    | alloca _ _ _ => rw [hop] at h; exact (throw_ne_ok h).elim
    | store _ _ _ _ => rw [hop] at h; exact (throw_ne_ok h).elim
    | gep _ _ _ _ => rw [hop] at h; exact (throw_ne_ok h).elim
    | call _ _ _ => rw [hop] at h; exact (throw_ne_ok h).elim
    | other _ _ => rw [hop] at h; exact (throw_ne_ok h).elim

theorem rewriteStore_step (fake : Ty) (hnp : ∀ a, isProtectedPtr (Ty.ptr fake a) = false)
    (st : RewriteState) (x : Nat) (st' : RewriteState)
    (hwf : BodyWF st.M.nextId st.body)
    (h : rewriteStore fake (Ty.int 32) st x = Except.ok st') :
    BodyWF st'.M.nextId st'.body ∧
    ∀ I' ∈ st'.body, recognisedAccess (Ty.ptr fake 0) st'.body I' = true →
      ∃ I ∈ st.body, I.id = I'.id ∧ I.id ≠ x ∧
        recognisedAccess (Ty.ptr fake 0) st.body I = true := by
  unfold rewriteStore at h
  cases hf : findInst st.body x with
  | none => rw [hf] at h; exact (throw_ne_ok h).elim
  | some site =>
    rw [hf] at h
    simp only at h
    have hmem := (findInst_some hf).1
    have hid := (findInst_some hf).2
    subst hid
    cases hop : site.op with
    | store val addr vol al =>
      rw [hop] at h
      simp only at h
      refine rewriteSite_step fake hnp st st' site addr (Access.write val) hwf hf
        (by simp [Inst.accessAddress, hop]) ?_ h
      intro v hv
      injection hv with hv
      subst hv
      exact hwf.2.2 site hmem _ (by rw [hop]; simp [Op.operands])
    | alloca _ _ _ => rw [hop] at h; exact (throw_ne_ok h).elim
    | load _ _ _ => rw [hop] at h; exact (throw_ne_ok h).elim
    | gep _ _ _ _ => rw [hop] at h; exact (throw_ne_ok h).elim
    | call _ _ _ => rw [hop] at h; exact (throw_ne_ok h).elim
    | other _ _ => rw [hop] at h; exact (throw_ne_ok h).elim

/-- Invariant of a rewrite loop: every access of the body that
    `recognisedAccess` describes is still in the queue. -/
theorem fold_pending (fpp : Ty) (f : RewriteState → Nat → Result RewriteState)
    (hstep : ∀ (st : RewriteState) (x : Nat) (st' : RewriteState),
      BodyWF st.M.nextId st.body → f st x = Except.ok st' →
      BodyWF st'.M.nextId st'.body ∧
      ∀ I' ∈ st'.body, recognisedAccess fpp st'.body I' = true →
        ∃ I ∈ st.body, I.id = I'.id ∧ I.id ≠ x ∧ recognisedAccess fpp st.body I = true) :
    ∀ (q : List Nat) (st st' : RewriteState) (rest : List Nat),
      BodyWF st.M.nextId st.body →
      (∀ I ∈ st.body, recognisedAccess fpp st.body I = true → I.id ∈ q ++ rest) →
      q.foldlM f st = Except.ok st' →
      BodyWF st'.M.nextId st'.body ∧
      ∀ I ∈ st'.body, recognisedAccess fpp st'.body I = true → I.id ∈ rest := by
  intro q
  induction q with
  | nil =>
    intro st st' rest hwf hinv h
    have := pure_ok h
    subst this
    exact ⟨hwf, fun I hI hr => by simpa using hinv I hI hr⟩
  | cons x q ih =>
    intro st st' rest hwf hinv h
    rw [List.foldlM_cons] at h
    obtain ⟨st1, h1, h2⟩ := bind_ok h
    obtain ⟨hwf1, hrec1⟩ := hstep st x st1 hwf h1
    refine ih st1 st' rest hwf1 ?_ h2
    intro I' hI' hr
    obtain ⟨I, hI, hid, hne, hrI⟩ := hrec1 I' hI' hr
    have := hinv I hI hrI
    rw [List.cons_append, List.mem_cons] at this
    rcases this with h3 | h3
    · exact absurd h3 hne
    · rw [← hid]; exact h3

/-- The body that lines 264-413 of `runOnModule` produce holds no access
    that `recognisedAccess` describes. -/
theorem rewriteBody_no_recognised (fake : Ty)
    (hnp : ∀ a, isProtectedPtr (Ty.ptr fake a) = false) (M : Module) (newFn : Nat)
    (changedArgs : List Nat) (body : List Inst) (st : RewriteState)
    (hwf : BodyWF M.nextId body)
    (h : rewriteBody fake (Ty.int 32) M newFn changedArgs body = Except.ok st) :
    BodyWF st.M.nextId st.body ∧
    ∀ I ∈ st.body, recognisedAccess (Ty.ptr fake 0) st.body I = false := by
  unfold rewriteBody at h
  obtain ⟨bs, h0, h⟩ := bind_ok h
  obtain ⟨_, _, h⟩ := bind_ok h
  obtain ⟨q, hq, h⟩ := bind_ok h
  obtain ⟨st1, h1, h2⟩ := bind_ok h
  have hwf0 : BodyWF bs.nextId bs.body :=
    bodyWF_fixPrologue fake (Ty.int 32) newFn changedArgs
      { nextId := M.nextId, body := body } bs hwf h0
  have hinv0 : ∀ I ∈ bs.body, recognisedAccess (Ty.ptr fake 0) bs.body I = true →
      I.id ∈ q.queued_loadinsts ++ q.queued_storeinsts := by
    intro I hI hr
    obtain ⟨addr, ha, hs⟩ := isAccessSite_of_recognised _ _ _ hr
    exact collectQueues_complete _ _ _ _ hq I hI addr ha hs
  obtain ⟨hwf1, hinv1⟩ := fold_pending (Ty.ptr fake 0) (rewriteLoad fake (Ty.int 32))
    (rewriteLoad_step fake hnp) q.queued_loadinsts _ st1 q.queued_storeinsts hwf0 hinv0 h1
  obtain ⟨hwf2, hinv2⟩ := fold_pending (Ty.ptr fake 0) (rewriteStore fake (Ty.int 32))
    (rewriteStore_step fake hnp) q.queued_storeinsts st1 st []
    hwf1 (fun I hI hr => by simpa using hinv1 I hI hr) h2
  refine ⟨hwf2, fun I hI => ?_⟩
  cases hr : recognisedAccess (Ty.ptr fake 0) st.body I with
  | false => rfl
  | true => exact absurd (hinv2 I hI hr) (List.not_mem_nil _)

/-! ## C4: the accesses that remain -/

/-- C4 as stated fails: `read_copy(%struct.MyStruct* %p)` copies `%p` into
    the local `q` and reads field 0 through `q`. The inner load of that
    read reads the slot of `q`, which is no handle slot, so the collection
    loop passes over the read: after the completed run the function still
    holds the load whose address is the GEP over the `%struct.MyStruct*`
    loaded from `q`. -/
theorem C4_local_copy_remains :
    ModuleWF readCopyModule ∧
    readCopyModule.functions = [readCopyFunction] ∧
    readCopyFunction.hasProtectedParam = true ∧
    runOnModule readCopyModule = Except.ok (true, readCopyResult) ∧
    readCopyResult.functions = [readCopyRewritten] ∧
    readCopyRewritten.name = readCopyFunction.name ∧
    readCopyLoad ∈ readCopyRewritten.body ∧ isLoad readCopyLoad = true ∧
    protectedAccess readCopyRewritten.body readCopyLoad = true := by
  refine ⟨by decide, by rfl, by rfl, by rfl, by rfl, by rfl, by decide, by rfl, by rfl⟩

/-- C4 (as amended): when `runOnModule` completes on a well-formed module,
    the function that stands at the position of a function `F` with a
    protected struct pointer among its parameters has the name of `F` and
    holds no load and no store whose address operand is a GEP with a constant
    integer as last index whose pointer operand is the result of a load that
    has the type of a pointer to a protected struct and reads through a
    pointer to the handle struct. A load or store through a GEP over a
    protected struct pointer that is not of this shape is not touched by the
    pass. -/
theorem C4_recognised_accesses_rewritten (M M' : Module) (b : Bool) (hwf : ModuleWF M)
    (h : runOnModule M = Except.ok (b, M')) (i : Nat) (F : Function)
    (hF : M.functions[i]? = some F) (hp : F.hasProtectedParam = true) :
    ∃ G, M'.functions[i]? = some G ∧ G.name = F.name ∧
      ∀ I ∈ G.body,
        recognisedAccess (Ty.ptr (getFakePtrType M.ctx).1 0) G.body I = false := by
  obtain ⟨_, _, _, _, h1, h2, _⟩ := runOnModule_spec M M' b h
  cases hn : F.needsRewrite with
  | false =>
    refine ⟨F, h1 i F hF hn, rfl, ?_⟩
    rcases (needsRewrite_false_iff F).mp hn with h0 | h0
    · have hnil : F.body = [] := List.eq_nil_of_length_eq_zero h0
      rw [hnil]
      intro I hI
      cases hI
    · rw [hp] at h0; cases h0
  | true =>
    obtain ⟨k, body, hk, ⟨M1, st, hM1, hst, hbody⟩, hG⟩ := h2 i F hF hn
    refine ⟨_, hG, rfl, ?_⟩
    have hFwf : BodyWF M.nextId F.body := hwf F (List.getElem?_mem hF)
    have hwf1 : BodyWF M1.nextId
        (replaceAllArgs F.id k (newSignature F.ty).params F.body) :=
      bodyWF_replaceAllArgs _ _ _ (bodyWF_mono hFwf (by omega))
    have := (rewriteBody_no_recognised (getFakePtrType M.ctx).1
      (handle_not_protected M.ctx) M1 k (changedArgsOf F) _ st hwf1 hst).2
    rw [hbody] at this
    exact this

theorem C4_recognised_accesses_rewritten_witness :
    ModuleWF readXModule ∧ runOnModule readXModule = Except.ok (true, readXResult) ∧
    readXModule.functions[0]? = some readXFunction ∧
    readXFunction.hasProtectedParam = true ∧
    ∃ G, readXResult.functions[0]? = some G ∧ G.name = readXFunction.name ∧
      ∀ I ∈ G.body,
        recognisedAccess (Ty.ptr (getFakePtrType readXModule.ctx).1 0) G.body I = false :=
  ⟨by decide, by rfl, by rfl, by rfl,
    C4_recognised_accesses_rewritten readXModule readXResult true (by decide) (by rfl) 0
      readXFunction (by rfl) (by rfl)⟩

/-! ## C11, C12, C13: the type helpers -/

theorem isStructWithName_iff (t : Option Ty) (names : List String) :
    isStructWithName t names = true ↔ ∃ name, t = some (Ty.struct name) ∧ name ∈ names := by
  unfold isStructWithName
  constructor
  · intro h
    split at h
    · rename_i name
      exact ⟨name, rfl, of_decide_eq_true h⟩
    · cases h
  · rintro ⟨name, rfl, hn⟩
    exact decide_eq_true hn

theorem isStructPtrWithName_iff (t : Option Ty) (names : List String) :
    isStructPtrWithName t names = true ↔
      ∃ name addrSpace, t = some (Ty.ptr (Ty.struct name) addrSpace) ∧ name ∈ names := by
  unfold isStructPtrWithName
  constructor
  · intro h
    split at h
    · rename_i elem a
      obtain ⟨name, hn, hm⟩ := (isStructWithName_iff _ _).mp h
      injection hn with hn
      subst hn
      exact ⟨name, a, rfl, hm⟩
    · cases h
  · rintro ⟨name, a, rfl, hn⟩
    exact (isStructWithName_iff _ _).mpr ⟨name, rfl, hn⟩

/-- C11: `correctType(t, names, replacement)` is `replacement` when
    `isStructPtrWithName(t, names)` holds and `t` itself otherwise, and
    `isStructPtrWithName` holds exactly for a pointer whose direct pointee is
    a named struct with a name in `names`. In particular a protected struct by
    value, a pointer to a pointer to a protected struct and the null type come
    back unchanged. -/
theorem C11_correctType (t : Option Ty) (names : List String) (replacement : Option Ty) :
    correctType t names replacement =
      (if isStructPtrWithName t names = true then replacement else t) ∧
    (isStructPtrWithName t names = true ↔
      ∃ name addrSpace, t = some (Ty.ptr (Ty.struct name) addrSpace) ∧ name ∈ names) ∧
    (∀ name addrSpace, name ∈ names →
      correctType (some (Ty.ptr (Ty.struct name) addrSpace)) names replacement = replacement) ∧
    (∀ name, correctType (some (Ty.struct name)) names replacement = some (Ty.struct name)) ∧
    (∀ name a b, correctType (some (Ty.ptr (Ty.ptr (Ty.struct name) a) b)) names replacement =
      some (Ty.ptr (Ty.ptr (Ty.struct name) a) b)) ∧
    correctType none names replacement = none := by
  refine ⟨rfl, isStructPtrWithName_iff t names, ?_, fun _ => rfl, fun _ _ _ => rfl, rfl⟩
  intro name a hn
  unfold correctType
  rw [if_pos ((isStructPtrWithName_iff _ _).mpr ⟨name, a, rfl, hn⟩)]

theorem C11_correctType_witness :
    "struct.MyStruct" ∈ struct_names ∧
    correctType (some (Ty.ptr (Ty.struct "struct.MyStruct") 0)) struct_names (some (Ty.int 32)) =
      some (Ty.int 32) :=
  ⟨by decide,
    (C11_correctType (some (Ty.ptr (Ty.struct "struct.MyStruct") 0)) struct_names
      (some (Ty.int 32))).2.2.1 "struct.MyStruct" 0 (by decide)⟩

/-- C13: `isStructWithName(t, names)` is true exactly when `t` is a named
    struct whose name is an element of `names`; it is false for a struct
    without a name, for a pointer and for the null type. -/
theorem C13_isStructWithName (t : Option Ty) (names : List String) :
    (isStructWithName t names = true ↔ ∃ name, t = some (Ty.struct name) ∧ name ∈ names) ∧
    (∀ id, isStructWithName (some (Ty.anonStruct id)) names = false) ∧
    (∀ elem addrSpace, isStructWithName (some (Ty.ptr elem addrSpace)) names = false) ∧
    isStructWithName none names = false :=
  ⟨isStructWithName_iff t names, fun _ => rfl, fun _ _ => rfl, rfl⟩

theorem startswith_struct_prefix (S : String) : startswith ("struct." ++ S) "struct." = true := by
  unfold startswith
  rw [String.data_append, List.isPrefixOf_iff_prefix]
  exact List.prefix_append _ _

theorem substr_struct_prefix (S : String) : substr ("struct." ++ S) 7 = S := by
  have hlen : ("struct." : String).data.length = 7 := by decide
  unfold substr
  rw [String.data_append, List.drop_left' hlen]

theorem strippedStructNameOf_root (t : Ty) :
    strippedStructNameOf t = strippedStructNameOf (pointeeRoot t) := by
  induction t with
  | ptr elem a ih => simp only [strippedStructNameOf, pointeeRoot]; exact ih
  | void => rfl
  | int _ => rfl
  | struct _ => rfl
  | anonStruct _ => rfl
  | other _ => rfl

/-- C12 as stated fails: a named struct whose name lacks the prefix
    `struct.` gives its full name, not the empty string; and the name is found
    through any number of pointer layers, not only through one. -/
theorem C12_unprefixed_name_kept :
    startswith "FakePtr" "struct." = false ∧
    getStrippedStructName (some (Ty.struct "FakePtr")) = "FakePtr" ∧
    getStrippedStructName (some (Ty.ptr (Ty.struct "class.Widget") 0)) = "class.Widget" ∧
    getStrippedStructName (some (Ty.ptr (Ty.ptr (Ty.struct "struct.MyStruct") 0) 0)) =
      "MyStruct" := by
  refine ⟨by decide, by decide, by decide, by decide⟩

/-- C12 (as amended): `getStrippedStructName(t)` looks through every
    pointer layer of `t`. When what is left is a named struct, the result is
    the part of the name after `struct.` when the name starts with `struct.`
    and the full name otherwise; for every other type (a struct without a
    name, a non-struct type) and for the null type it is the empty string. -/
theorem C12_stripped_struct_name (t : Ty) (S name : String) :
    getStrippedStructName (some t) = getStrippedStructName (some (pointeeRoot t)) ∧
    getStrippedStructName (some (Ty.struct ("struct." ++ S))) = S ∧
    getStrippedStructName (some (Ty.struct name)) =
      (if startswith name "struct." = true then substr name 7 else name) ∧
    (∀ id, getStrippedStructName (some (Ty.anonStruct id)) = "") ∧
    (∀ bits, getStrippedStructName (some (Ty.int bits)) = "") ∧
    (∀ id, getStrippedStructName (some (Ty.other id)) = "") ∧
    getStrippedStructName (some Ty.void) = "" ∧
    getStrippedStructName none = "" := by
  refine ⟨strippedStructNameOf_root t, ?_, ?_, fun _ => rfl, fun _ => rfl, fun _ => rfl, rfl,
    rfl⟩
  · simp only [getStrippedStructName, strippedStructNameOf, startswith_struct_prefix,
      Bool.not_true, Bool.false_eq_true, if_false, substr_struct_prefix]
  · simp only [getStrippedStructName, strippedStructNameOf]
    cases startswith name "struct." <;> simp

/-! ## C14, C15: the prologue fixer -/

theorem replaceInstWithInst_flatMap (old : Nat) (new : Inst) (B : List Inst)
    (hne : new.id ≠ old) :
    replaceInstWithInst old new B =
      B.flatMap (fun i => if i.id = old then [new.mapOperands (redirect old new.id)]
        else [i.mapOperands (redirect old new.id)]) := by
  unfold replaceInstWithInst eraseInst replaceInstUses insertBefore
  induction B with
  | nil => rfl
  | cons i t ih =>
    rw [List.flatMap_cons, List.map_append, List.filter_append, ih, List.flatMap_cons]
    congr 1
    by_cases h : i.id = old
    · simp [h, mapOperands_id, hne]
    · simp [h, mapOperands_id]

theorem insertBefore_flatMap (p : Nat) (new : Inst) (B : List Inst) :
    insertBefore p new B = B.flatMap (fun i => if i.id = p then [new, i] else [i]) := rfl

theorem isStoreOfArg_inv {fn argi : Nat} {S : Inst} (h : isStoreOfArg fn argi S = true) :
    ∃ ty p vol al, S.op = Op.store (Value.arg fn argi ty) p vol al := by
  unfold isStoreOfArg at h
  split at h
  · rename_i v p vol al hop
    unfold isArgNo at h
    split at h
    · rename_i f i ty
      simp only [Bool.and_eq_true, decide_eq_true_eq] at h
      obtain ⟨h1, h2⟩ := h
      subst h1
      subst h2
      exact ⟨ty, p, vol, al, hop⟩
    · cases h
  · cases h

theorem getFirstArgStoreInst_isStoreOfArg {fn argi : Nat} {B : List Inst} {S : Inst}
    (h : getFirstArgStoreInst fn B argi = Except.ok S) : isStoreOfArg fn argi S = true := by
  unfold getFirstArgStoreInst at h
  split at h
  · rename_i s hs
    have := pure_ok h
    subst this
    simpa using List.find?_some hs
  · exact (throw_ne_ok h).elim

theorem redirect_arg (a b fn i : Nat) (ty : Ty) :
    redirect a b (Value.arg fn i ty) = Value.arg fn i ty := by
  unfold redirect
  rw [if_neg (by intro h; cases h)]

theorem redirect_constInt (a b bits val : Nat) :
    redirect a b (Value.constInt bits val) = Value.constInt bits val := by
  unfold redirect
  rw [if_neg (by intro h; cases h)]

theorem redirect_inst_ne {a b x : Nat} (h : x ≠ a) :
    redirect a b (Value.inst x) = Value.inst x := by
  unfold redirect
  rw [if_neg (by intro e; injection e with e; exact h e)]

/-- The prologue fixer's three edits amount to `retypedBody`. -/
theorem retypeSlot_eq (fakeptr_t int32arg_t : Ty) (st : BodyState) (a s fn argi : Nat) (ty : Ty)
    (hwf : BodyWF st.nextId st.body) (ha : a < st.nextId) (hs : s < st.nextId) (has : a ≠ s) :
    retypeSlot fakeptr_t int32arg_t st a s (Value.arg fn argi ty) =
      { nextId := st.nextId + 3,
        body := retypedBody fakeptr_t int32arg_t st.nextId a s (Value.arg fn argi ty) st.body } := by
  unfold retypeSlot retypedBody
  simp only
  congr 1
  rw [replaceInstWithInst_flatMap _ _ _ (by simp only; omega), insertBefore_flatMap,
    replaceInstWithInst_flatMap _ _ _ (by simp only; omega), List.flatMap_assoc,
    List.flatMap_assoc]
  apply List.flatMap_congr
  intro i hi
  have hlt : i.id < st.nextId := hwf.2.1 i hi
  have hn1 : st.nextId ≠ s := by omega
  have hn2 : st.nextId + 1 ≠ s := by omega
  by_cases h1 : i.id = a
  · have h2 : ¬ (st.nextId = s) := hn1
    simp only [h1, if_true, List.flatMap_cons, List.flatMap_nil, List.append_nil, mapOperands_id,
      h2, if_false]
    simp [Inst.mapOperands, Op.mapOperands, redirect_constInt]
  · by_cases h2 : i.id = s
    · have has2 : ¬ (s = a) := fun e => has e.symm
      rw [if_neg h1, if_neg h1, if_pos h2]
      simp only [List.flatMap_cons, List.flatMap_nil, List.append_nil, mapOperands_id, h2,
        if_true, hn2, if_false, List.cons_append, List.nil_append]
      simp [Inst.mapOperands, Op.mapOperands, redirect_constInt, redirect_arg,
        redirect_inst_ne hn1, redirect_inst_ne hn2]
    · rw [if_neg h1, if_neg h1, if_neg h2]
      simp only [List.flatMap_cons, List.flatMap_nil, List.append_nil, mapOperands_id, h2,
        if_false]
      rw [inst_mapOperands_comp]
      rfl

/-- C14: when the first store of the new argument `argi` has a stack
    allocation as destination, the prologue fixer puts an allocation of the
    handle struct with alignment 4 where that allocation stood, a GEP with
    the indices `0, 0` on the new slot right before the place of the store,
    and a store with alignment 4 of the new argument to that GEP where the
    store stood; every other instruction stays where it is, its uses of the
    old slot being uses of the new slot. -/
theorem C14_prologue_slot_retyped (fakeptr_t : Ty) (fn : Nat) (st : BodyState) (argi : Nat)
    (S A : Inst) (val : Value) (a : Nat) (vol : Bool) (al : Nat)
    (hwf : BodyWF st.nextId st.body)
    (hS : getFirstArgStoreInst fn st.body argi = Except.ok S)
    (hop : S.op = Op.store val (Value.inst a) vol al)
    (hA : findInst st.body a = some A) (hAl : isAlloca A = true) :
    isArgNo val fn argi = true ∧
    fixPrologueArg fakeptr_t (Ty.int 32) fn st argi =
      Except.ok { nextId := st.nextId + 3,
                  body := retypedBody fakeptr_t (Ty.int 32) st.nextId a S.id val st.body } ∧
    ids (retypedBody fakeptr_t (Ty.int 32) st.nextId a S.id val st.body) =
      (ids st.body).flatMap (fun y =>
        if y = a then [st.nextId]
        else if y = S.id then [st.nextId + 1, st.nextId + 2] else [y]) := by
  obtain ⟨ty, p, vol2, al2, hop2⟩ := isStoreOfArg_inv (getFirstArgStoreInst_isStoreOfArg hS)
  rw [hop] at hop2
  injection hop2 with e1 e2 e3 e4
  subst e1
  have hSmem := getFirstArgStoreInst_mem hS
  obtain ⟨hAmem, hAid⟩ := findInst_some hA
  have ha : a < st.nextId := hAid ▸ hwf.2.1 A hAmem
  have hs : S.id < st.nextId := hwf.2.1 S hSmem
  have has : a ≠ S.id := by
    intro e
    have : A = S := eq_of_mem_of_id_eq hwf.1 hAmem hSmem (hAid.trans e)
    subst this
    simp [isAlloca, hop] at hAl
  refine ⟨by simp [isArgNo], ?_, ?_⟩
  · unfold fixPrologueArg
    rw [hS]
    simp only [bind, Except.bind, hop, hA, hAl, if_true]
    rw [hAid, retypeSlot_eq fakeptr_t (Ty.int 32) st a S.id fn argi ty hwf ha hs has]
    rfl
  · unfold retypedBody ids
    rw [List.map_flatMap, List.flatMap_map]
    apply List.flatMap_congr
    intro i _
    by_cases h1 : i.id = a
    · simp [h1]
    · by_cases h2 : i.id = S.id
      · have h3 : ¬ (S.id = a) := fun e => has e.symm
        simp [h2, h3]
      · simp [h1, h2, mapOperands_id]

theorem C14_prologue_slot_retyped_witness :
    BodyWF readXMoved.nextId readXMoved.body ∧
    isArgNo (Value.arg 200 0 (Ty.int 32)) 200 0 = true ∧
    fixPrologueArg (Ty.struct "FakePtr") (Ty.int 32) 200 readXMoved 0 =
      Except.ok { nextId := readXMoved.nextId + 3,
                  body := retypedBody (Ty.struct "FakePtr") (Ty.int 32) readXMoved.nextId 1
                    2 (Value.arg 200 0 (Ty.int 32)) readXMoved.body } ∧
    ids (retypedBody (Ty.struct "FakePtr") (Ty.int 32) readXMoved.nextId 1 2
        (Value.arg 200 0 (Ty.int 32)) readXMoved.body) =
      (ids readXMoved.body).flatMap (fun y =>
        if y = 1 then [readXMoved.nextId]
        else if y = 2 then [readXMoved.nextId + 1, readXMoved.nextId + 2] else [y]) :=
  ⟨by decide,
    C14_prologue_slot_retyped (Ty.struct "FakePtr") 200 readXMoved 0
      { id := 2, ty := Ty.void,
        op := Op.store (Value.arg 200 0 (Ty.int 32)) (Value.inst 1) false 8 }
      { id := 1, ty := Ty.ptr myStructPtr 0, op := Op.alloca myStructPtr (Value.constInt 32 1) 8 }
      (Value.arg 200 0 (Ty.int 32)) 1 false 8 (by decide) (by rfl) (by rfl) (by rfl) (by rfl)⟩

theorem getFirstArgStoreInst_none (fn argi : Nat) (B : List Inst)
    (h : ∀ i ∈ B, isStoreOfArg fn argi i = false) :
    getFirstArgStoreInst fn B argi = Except.error Fault.missingReturn := by
  unfold getFirstArgStoreInst
  have : B.find? (isStoreOfArg fn argi) = none := by
    rw [List.find?_eq_none]
    intro x hx
    simp [h x hx]
  rw [this]
  rfl

/-- C15 as it stands in the code: `getFirstArgStoreInst` has no `return`
    for a body in which no store has the argument as value operand, so the
    prologue fixer does not skip the argument: control flows off the end of a
    function that returns a pointer, which the embedding reports as the fault
    `missingReturn`. The second half of C15 holds: when the first store of the
    argument does not have a stack allocation as destination, the argument is
    skipped and the body is unchanged. -/
theorem C15_missing_store (fakeptr_t : Ty) (fn : Nat) (st : BodyState) (argi : Nat) :
    ((∀ i ∈ st.body, isStoreOfArg fn argi i = false) →
      fixPrologueArg fakeptr_t (Ty.int 32) fn st argi = Except.error Fault.missingReturn) ∧
    (∀ S val p vol al, getFirstArgStoreInst fn st.body argi = Except.ok S →
      S.op = Op.store val p vol al →
      (∀ a, p = Value.inst a → ∃ A, findInst st.body a = some A ∧ isAlloca A = false) →
      fixPrologueArg fakeptr_t (Ty.int 32) fn st argi = Except.ok st) := by
  constructor
  · intro h
    unfold fixPrologueArg
    rw [getFirstArgStoreInst_none fn argi st.body h]
    rfl
  · intro S val p vol al hS hop hp
    unfold fixPrologueArg
    rw [hS]
    simp only [bind, Except.bind, hop]
    cases p with
    | inst a =>
      obtain ⟨A, hA, hAl⟩ := hp a rfl
      simp only [hA, hAl]
      rfl
    | arg _ _ _ => rfl
    | constInt _ _ => rfl
    | const _ _ => rfl

theorem C15_missing_store_witness :
    (∀ i ∈ ignoreMoved.body, isStoreOfArg 200 0 i = false) ∧
    fixPrologueArg (Ty.struct "FakePtr") (Ty.int 32) 200 ignoreMoved 0 =
      Except.error Fault.missingReturn ∧
    runOnModule ignoreModule = Except.error Fault.missingReturn :=
  ⟨by decide,
    (C15_missing_store (Ty.struct "FakePtr") 200 ignoreMoved 0).1 (by decide), by rfl⟩

/-! ## C18: a site with a non-constant trailing index -/

theorem fieldIndex_of_not_const {B : List Inst} {gptr : Value} {idxs : List Value}
    (hc : isConstInt (trailingIndex gptr idxs) = false)
    (hlive : ∀ id, trailingIndex gptr idxs = Value.inst id → (findInst B id).isSome = true) :
    fieldIndex B gptr idxs = Except.ok none := by
  unfold fieldIndex
  cases ht : trailingIndex gptr idxs with
  | constInt b v => rw [ht] at hc; cases hc
  | inst id =>
    have := hlive id ht
    cases hf : findInst B id with
    | none => rw [hf] at this; cases this
    | some J => simp only [hf]; rfl
  | arg _ _ _ => rfl
  | const _ _ => rfl

theorem typeOf_of_dynCast {isT : Inst → Bool} {B : List Inst} {v : Value} {r : Option Inst}
    (h : dynCastInst isT B v = Except.ok r) : ∃ t, typeOf B v = Except.ok t := by
  cases v with
  | inst id =>
    simp only [dynCastInst] at h
    cases hf : findInst B id with
    | none => rw [hf] at h; exact (throw_ne_ok h).elim
    | some J => exact ⟨J.ty, typeOf_of_find hf⟩
  | arg _ _ ty => exact ⟨ty, rfl⟩
  | constInt b _ => exact ⟨Ty.int b, rfl⟩
  | const ty _ => exact ⟨ty, rfl⟩

/-- C18: a round of a rewrite loop whose site has a GEP with a trailing
    index that is no constant integer returns the state it was given: the
    body and the module (its declarations and its counter of object numbers)
    are the same, so nothing is created, replaced, erased or declared; and the
    loop goes on with the remaining queued sites from that same state. -/
theorem C18_non_constant_index_skipped (fakeptr_t : Ty) (st : RewriteState) (site G : Inst)
    (g : Nat) (acc : Access) (srcTy : Ty) (gptr : Value) (idxs : List Value) (ib : Bool)
    (prev : Option Inst)
    (hG : findInst st.body g = some G) (hop : G.op = Op.gep srcTy gptr idxs ib)
    (hprev : dynCastInst isLoad st.body gptr = Except.ok prev)
    (hc : isConstInt (trailingIndex gptr idxs) = false)
    (hlive : ∀ id, trailingIndex gptr idxs = Value.inst id →
      (findInst st.body id).isSome = true) :
    rewriteSite fakeptr_t (Ty.int 32) st site (Value.inst g) acc = Except.ok st ∧
    (∀ vol al rest, findInst st.body site.id = some site →
      site.op = Op.load (Value.inst g) vol al →
      (site.id :: rest).foldlM (rewriteLoad fakeptr_t (Ty.int 32)) st =
        rest.foldlM (rewriteLoad fakeptr_t (Ty.int 32)) st) ∧
    (∀ val vol al rest, findInst st.body site.id = some site →
      site.op = Op.store val (Value.inst g) vol al →
      (site.id :: rest).foldlM (rewriteStore fakeptr_t (Ty.int 32)) st =
        rest.foldlM (rewriteStore fakeptr_t (Ty.int 32)) st) := by
  have hskip : ∀ (s : Inst) (a : Access),
      rewriteSite fakeptr_t (Ty.int 32) st s (Value.inst g) a = Except.ok st := by
    intro s a
    obtain ⟨t, ht⟩ := typeOf_of_dynCast hprev
    have hgep : isGep G = true := by simp [isGep, hop]
    unfold rewriteSite resolveSite
    rw [dynCastInst_of_find hG hgep]
    simp only [bind, Except.bind, hop, hprev, fieldIndex_of_not_const hc hlive, ht, pure,
      Except.pure]
  refine ⟨hskip site acc, ?_, ?_⟩
  · intro vol al rest hf hl
    rw [List.foldlM_cons]
    have : rewriteLoad fakeptr_t (Ty.int 32) st site.id = Except.ok st := by
      unfold rewriteLoad
      rw [hf]
      simp only [hl]
      exact hskip site Access.read
    rw [this]
    rfl
  · intro val vol al rest hf hs
    rw [List.foldlM_cons]
    have : rewriteStore fakeptr_t (Ty.int 32) st site.id = Except.ok st := by
      unfold rewriteStore
      rw [hf]
      simp only [hs]
      exact hskip site (Access.write val)
    rw [this]
    rfl

theorem C18_non_constant_index_skipped_witness :
    runOnModule elemModule = Except.ok (true, elemResult) ∧
    elemKept.Sublist elemRewritten.body ∧
    (rewriteSite (Ty.struct "FakePtr") (Ty.int 32) elemState
        { id := 8, ty := Ty.int 32, op := Op.load (Value.inst 7) false 4 } (Value.inst 7)
        Access.read = Except.ok elemState ∧
    (∀ vol al rest, findInst elemState.body 8 =
        some { id := 8, ty := Ty.int 32, op := Op.load (Value.inst 7) false 4 } →
      Op.load (Value.inst 7) false 4 = Op.load (Value.inst 7) vol al →
      ((8 : Nat) :: rest).foldlM (rewriteLoad (Ty.struct "FakePtr") (Ty.int 32)) elemState =
        rest.foldlM (rewriteLoad (Ty.struct "FakePtr") (Ty.int 32)) elemState) ∧
    (∀ val vol al rest, findInst elemState.body 8 =
        some { id := 8, ty := Ty.int 32, op := Op.load (Value.inst 7) false 4 } →
      Op.load (Value.inst 7) false 4 = Op.store val (Value.inst 7) vol al →
      ((8 : Nat) :: rest).foldlM (rewriteStore (Ty.struct "FakePtr") (Ty.int 32)) elemState =
        rest.foldlM (rewriteStore (Ty.struct "FakePtr") (Ty.int 32)) elemState)) :=
  ⟨by rfl, by decide,
    C18_non_constant_index_skipped (Ty.struct "FakePtr") elemState
      { id := 8, ty := Ty.int 32, op := Op.load (Value.inst 7) false 4 }
      { id := 7, ty := Ty.ptr (Ty.int 32) 0,
        op := Op.gep (Ty.struct "struct.MyStruct") (Value.inst 5)
          [Value.constInt 64 0, Value.constInt 32 2, Value.inst 6] true }
      7 Access.read (Ty.struct "struct.MyStruct") (Value.inst 5)
      [Value.constInt 64 0, Value.constInt 32 2, Value.inst 6] true
      (some { id := 5, ty := myStructPtr, op := Op.load (Value.inst 201) false 8 })
      (by rfl) (by rfl) (by rfl) (by rfl)
      (by intro id h; injection h with h; subst h; rfl)⟩

/-! ## C17: two sites that share their inner load -/

/-- C17 fails in the code: in `sum_xy` the two queued reads share the inner
    load numbered 3. The round for the first read erases that load while the
    GEP of the second read still uses it (the GEP stays in the body with an
    operand that names no instruction), and the round for the second read
    then reads the erased load: the embedding reports the fault `dangling`,
    in this round and for the whole pass. -/
theorem C17_shared_inner_load_erased :
    ModuleWF sumXYModule ∧
    (fixPrologue (Ty.struct "FakePtr") (Ty.int 32) 200
        { nextId := 201, body := replaceAllArgs 100 200 [Ty.int 32] sumXYFunction.body } [0] >>=
      fun bs => collectQueues struct_names (Ty.ptr (Ty.struct "FakePtr") 0) bs.body) =
      Except.ok { queued_loadinsts := [5, 7], queued_storeinsts := [] } ∧
    (rewriteLoad (Ty.struct "FakePtr") (Ty.int 32) sumXYState 5 >>= fun st1 =>
      pure (decide (sumXYSecondGep ∈ st1.body) &&
        decide (Value.inst 3 ∈ sumXYSecondGep.op.operands) &&
        (findInst st1.body 3).isNone)) = Except.ok true ∧
    (rewriteLoad (Ty.struct "FakePtr") (Ty.int 32) sumXYState 5 >>= fun st1 =>
      rewriteLoad (Ty.struct "FakePtr") (Ty.int 32) st1 7) = Except.error Fault.dangling ∧
    runOnModule sumXYModule = Except.error Fault.dangling := by
  refine ⟨by decide, by rfl, by rfl, by rfl, by rfl⟩

/-! ## C20: the driver loop -/

theorem noFuel_pure {α : Type} (a : α) : NoFuelFault (pure a : Result α) := by
  intro h; cases h

theorem noFuel_ok {α : Type} (a : α) : NoFuelFault (Except.ok a : Result α) := by
  intro h; cases h

theorem noFuel_throw {α : Type} (e : Fault) (he : e ≠ Fault.outOfFuel) :
    NoFuelFault (throw e : Result α) := by
  intro h
  injection h with h
  exact he h

theorem noFuel_bind {α β : Type} {x : Result α} {f : α → Result β} (hx : NoFuelFault x)
    (hf : ∀ a, NoFuelFault (f a)) : NoFuelFault (x >>= f) := by
  cases x with
  | error e =>
    intro h
    apply hx
    simpa [bind, Except.bind] using h
  | ok a => exact hf a

theorem noFuel_foldlM {α β : Type} (f : β → α → Result β) (hf : ∀ b a, NoFuelFault (f b a)) :
    ∀ (l : List α) (b : β), NoFuelFault (l.foldlM f b) := by
  intro l
  induction l with
  | nil => intro b; exact noFuel_pure b
  | cons a t ih =>
    intro b
    rw [List.foldlM_cons]
    exact noFuel_bind (hf b a) ih

theorem noFuel_getFirstArgStoreInst (fn : Nat) (B : List Inst) (argi : Nat) :
    NoFuelFault (getFirstArgStoreInst fn B argi) := by
  unfold getFirstArgStoreInst
  split
  · exact noFuel_pure _
  · exact noFuel_throw _ (by decide)

theorem noFuel_getFirstNonAllocaInst (B : List Inst) : NoFuelFault (getFirstNonAllocaInst B) := by
  unfold getFirstNonAllocaInst
  split
  · exact noFuel_pure _
  · exact noFuel_throw _ (by decide)

theorem noFuel_fixPrologueArg (fakeptr_t int32arg_t : Ty) (fn : Nat) (st : BodyState)
    (argi : Nat) : NoFuelFault (fixPrologueArg fakeptr_t int32arg_t fn st argi) := by
  unfold fixPrologueArg
  refine noFuel_bind (noFuel_getFirstArgStoreInst _ _ _) (fun S => ?_)
  split
  · split
    · exact noFuel_throw _ (by decide)
    · split
      · exact noFuel_pure _
      · exact noFuel_pure _
  · exact noFuel_pure _

theorem noFuel_dynCastInst (isT : Inst → Bool) (B : List Inst) (v : Value) :
    NoFuelFault (dynCastInst isT B v) := by
  unfold dynCastInst
  split
  · split
    · exact noFuel_throw _ (by decide)
    · exact noFuel_pure _
  · exact noFuel_pure _

theorem noFuel_typeOf (B : List Inst) (v : Value) : NoFuelFault (typeOf B v) := by
  unfold typeOf
  split
  · split
    · exact noFuel_pure _
    · exact noFuel_throw _ (by decide)
  · exact noFuel_pure _
  · exact noFuel_pure _
  · exact noFuel_pure _

theorem noFuel_innerLoadReadsHandle (fpp : Ty) (B : List Inst) (gptr : Value) :
    NoFuelFault (innerLoadReadsHandle fpp B gptr) := by
  unfold innerLoadReadsHandle
  refine noFuel_bind (noFuel_dynCastInst _ _ _) (fun prev => ?_)
  split
  · exact noFuel_pure _
  · split
    · exact noFuel_pure _
    · exact noFuel_bind (noFuel_typeOf _ _) (fun _ => noFuel_pure _)

theorem noFuel_gepIsAccess (sn : List String) (fpp : Ty) (B : List Inst) (gptr : Value) :
    NoFuelFault (gepIsAccess sn fpp B gptr) := by
  unfold gepIsAccess
  refine noFuel_bind (noFuel_typeOf _ _) (fun t => ?_)
  split
  · exact noFuel_innerLoadReadsHandle _ _ _
  · exact noFuel_pure _

theorem noFuel_isAccessSite (sn : List String) (fpp : Ty) (B : List Inst) (addr : Value) :
    NoFuelFault (isAccessSite sn fpp B addr) := by
  unfold isAccessSite
  refine noFuel_bind (noFuel_dynCastInst _ _ _) (fun g => ?_)
  split
  · exact noFuel_pure _
  · split
    · exact noFuel_pure _
    · exact noFuel_gepIsAccess _ _ _ _

theorem noFuel_collectStep (sn : List String) (fpp : Ty) (B : List Inst) (q : Queues)
    (i : Inst) : NoFuelFault (collectStep sn fpp B q i) := by
  unfold collectStep
  split
  · exact noFuel_bind (noFuel_isAccessSite _ _ _ _) (fun _ => noFuel_pure _)
  · exact noFuel_bind (noFuel_isAccessSite _ _ _ _) (fun _ => noFuel_pure _)
  · exact noFuel_pure _

theorem noFuel_fieldIndex (B : List Inst) (gptr : Value) (idxs : List Value) :
    NoFuelFault (fieldIndex B gptr idxs) := by
  unfold fieldIndex
  split
  · exact noFuel_pure _
  · split
    · exact noFuel_throw _ (by decide)
    · exact noFuel_pure _
  · exact noFuel_pure _

theorem noFuel_resolveSite (B : List Inst) (addr : Value) : NoFuelFault (resolveSite B addr) := by
  unfold resolveSite
  refine noFuel_bind (noFuel_dynCastInst _ _ _) (fun g => ?_)
  split
  · exact noFuel_throw _ (by decide)
  · split
    · refine noFuel_bind (noFuel_dynCastInst _ _ _) (fun _ => ?_)
      refine noFuel_bind (noFuel_fieldIndex _ _ _) (fun _ => ?_)
      exact noFuel_bind (noFuel_typeOf _ _) (fun _ => noFuel_pure _)
    · exact noFuel_throw _ (by decide)

theorem noFuel_handleFieldPtrType (fakeptr_t int32arg_t t : Ty) :
    NoFuelFault (handleFieldPtrType fakeptr_t int32arg_t t) := by
  unfold handleFieldPtrType
  split
  · split
    · exact noFuel_pure _
    · exact noFuel_throw _ (by decide)
  · exact noFuel_throw _ (by decide)

theorem noFuel_newHandleLoad (fakeptr_t int32arg_t : Ty) (B : List Inst) (prev : Option Inst)
    (n : Nat) : NoFuelFault (newHandleLoad fakeptr_t int32arg_t B prev n) := by
  unfold newHandleLoad
  split
  · exact noFuel_throw _ (by decide)
  · split
    · exact noFuel_throw _ (by decide)
    · refine noFuel_bind (noFuel_typeOf _ _) (fun _ => ?_)
      exact noFuel_bind (noFuel_handleFieldPtrType _ _ _) (fun _ => noFuel_pure _)

theorem noFuel_accessorType (int32arg_t : Ty) (B : List Inst) (site : Inst) (acc : Access) :
    NoFuelFault (accessorType int32arg_t B site acc) := by
  cases acc with
  | read => exact noFuel_pure _
  | write val => exact noFuel_bind (noFuel_typeOf _ _) (fun _ => noFuel_pure _)

theorem noFuel_eraseLive (x : Nat) (B : List Inst) : NoFuelFault (eraseLive x B) := by
  unfold eraseLive
  split
  · exact noFuel_throw _ (by decide)
  · exact noFuel_pure _

theorem noFuel_commitSite (x g l : Nat) (newGep newLoad call : Inst) (B : List Inst) :
    NoFuelFault (commitSite x g l newGep newLoad call B) := by
  unfold commitSite
  exact noFuel_bind (noFuel_eraseLive _ _) (fun _ => noFuel_eraseLive _ _)

theorem noFuel_rewriteSite (fakeptr_t int32arg_t : Ty) (st : RewriteState) (site : Inst)
    (addr : Value) (acc : Access) :
    NoFuelFault (rewriteSite fakeptr_t int32arg_t st site addr acc) := by
  unfold rewriteSite
  refine noFuel_bind (noFuel_resolveSite _ _) (fun s => ?_)
  split
  · exact noFuel_pure _
  · refine noFuel_bind (noFuel_newHandleLoad _ _ _ _ _) (fun _ => ?_)
    refine noFuel_bind (noFuel_accessorType _ _ _ _) (fun _ => ?_)
    exact noFuel_bind (noFuel_commitSite _ _ _ _ _ _ _) (fun _ => noFuel_pure _)

theorem noFuel_rewriteLoad (fakeptr_t int32arg_t : Ty) (st : RewriteState) (x : Nat) :
    NoFuelFault (rewriteLoad fakeptr_t int32arg_t st x) := by
  unfold rewriteLoad
  split
  · exact noFuel_throw _ (by decide)
  · split
    · exact noFuel_rewriteSite _ _ _ _ _ _
    · exact noFuel_throw _ (by decide)

theorem noFuel_rewriteStore (fakeptr_t int32arg_t : Ty) (st : RewriteState) (x : Nat) :
    NoFuelFault (rewriteStore fakeptr_t int32arg_t st x) := by
  unfold rewriteStore
  split
  · exact noFuel_throw _ (by decide)
  · split
    · exact noFuel_rewriteSite _ _ _ _ _ _
    · exact noFuel_throw _ (by decide)

theorem noFuel_rewriteBody (fakeptr_t int32arg_t : Ty) (M : Module) (newFn : Nat)
    (changedArgs : List Nat) (body : List Inst) :
    NoFuelFault (rewriteBody fakeptr_t int32arg_t M newFn changedArgs body) := by
  unfold rewriteBody fixPrologue collectQueues
  refine noFuel_bind (noFuel_foldlM _ (noFuel_fixPrologueArg _ _ _) _ _) (fun _ => ?_)
  refine noFuel_bind (noFuel_getFirstNonAllocaInst _) (fun _ => ?_)
  refine noFuel_bind (noFuel_foldlM _ (noFuel_collectStep _ _ _) _ _) (fun _ => ?_)
  refine noFuel_bind (noFuel_foldlM _ (noFuel_rewriteLoad _ _) _ _) (fun _ => ?_)
  exact noFuel_foldlM _ (noFuel_rewriteStore _ _) _ _

theorem noFuel_visitFunction (fakeptr_t : Ty) (M : Module) (pos : Nat) (oldFun : Function) :
    NoFuelFault (visitFunction fakeptr_t M pos oldFun) := by
  unfold visitFunction
  split
  · exact noFuel_pure _
  · simp only
    split
    · exact noFuel_pure _
    · exact noFuel_bind (noFuel_rewriteBody _ _ _ _ _ _) (fun _ => noFuel_pure _)

theorem noFuel_driverRounds (fakeptr_t : Ty) :
    ∀ (n : Nat) (s : DriverState), NoFuelFault (driverRounds fakeptr_t n s) := by
  intro n
  induction n with
  | zero => intro s; exact noFuel_pure _
  | succ n ih =>
    intro s
    unfold driverRounds
    split
    · exact noFuel_pure _
    · exact noFuel_bind (noFuel_visitFunction _ _ _ _) (fun _ => ih _)

/-- The rounds that `runOnModule` allows are enough: it never stops with
    the fault `outOfFuel`. -/
theorem noFuel_runOnModule (M : Module) : NoFuelFault (runOnModule M) := by
  cases ha : driverRounds (getFakePtrType M.ctx).1 M.functions.length
      { isChanged := false, M := { M with ctx := (getFakePtrType M.ctx).2 }, pos := 0 } with
  | error e =>
    rw [driverRounds_error_run M e ha]
    have := noFuel_driverRounds (getFakePtrType M.ctx).1 M.functions.length
      { isChanged := false, M := { M with ctx := (getFakePtrType M.ctx).2 }, pos := 0 }
    rw [ha] at this
    intro h
    apply this
    injection h with h
    rw [h]
  | ok a =>
    rw [runOnModule_eq M a ha]
    exact noFuel_ok _

theorem driverRounds_add (fakeptr_t : Ty) :
    ∀ (a b : Nat) (s : DriverState),
      driverRounds fakeptr_t (a + b) s =
        driverRounds fakeptr_t a s >>= fun s1 => driverRounds fakeptr_t b s1 := by
  intro a
  induction a with
  | zero =>
    intro b s
    rw [Nat.zero_add]
    rfl
  | succ a ih =>
    intro b s
    rw [Nat.succ_add]
    cases hget : s.M.functions.get? s.pos with
    | none =>
      have h1 : driverRounds fakeptr_t (a + 1) s = pure s := by
        unfold driverRounds; rw [hget]
      have h2 : driverRounds fakeptr_t (a + b + 1) s = pure s := by
        unfold driverRounds; rw [hget]
      rw [h1, h2]
      cases b with
      | zero => rfl
      | succ b =>
        show pure s = driverRounds fakeptr_t (b + 1) s
        unfold driverRounds
        rw [hget]
    | some F =>
      have h1 : driverRounds fakeptr_t (a + 1) s =
          visitFunction fakeptr_t s.M s.pos F >>= fun r =>
            driverRounds fakeptr_t a
              { isChanged := s.isChanged || r.1, M := r.2, pos := s.pos + 1 } := by
        conv => lhs; unfold driverRounds
        rw [hget]
      have h2 : driverRounds fakeptr_t (a + b + 1) s =
          visitFunction fakeptr_t s.M s.pos F >>= fun r =>
            driverRounds fakeptr_t (a + b)
              { isChanged := s.isChanged || r.1, M := r.2, pos := s.pos + 1 } := by
        conv => lhs; unfold driverRounds
        rw [hget]
      rw [h1, h2]
      cases hv : visitFunction fakeptr_t s.M s.pos F with
      | error e => rfl
      | ok r =>
        simp only [bind, Except.bind]
        exact ih b _

/-- The rounds of the driver loop leave the functions at and behind the
    cursor as they were. -/
theorem driverRounds_tail (fakeptr_t : Ty) :
    ∀ (n : Nat) (s s' : DriverState), driverRounds fakeptr_t n s = Except.ok s' →
      ∀ (i : Nat) (F : Function), s.M.functions[i]? = some F → s'.pos ≤ i →
        s'.M.functions[i]? = some F := by
  intro n
  induction n with
  | zero =>
    intro s s' h i F hF _
    unfold driverRounds at h
    have := pure_ok h
    subst this
    exact hF
  | succ n ih =>
    intro s s' h i F hF hi
    unfold driverRounds at h
    rw [List.get?_eq_getElem?] at h
    split at h
    · have := pure_ok h
      subst this
      exact hF
    · rename_i oldFun hsome
      obtain ⟨r, hr, h⟩ := bind_ok h
      obtain ⟨X, decls, hf, _, _, _, _, _, _⟩ :=
        visitFunction_shape fakeptr_t s.M s.pos oldFun r hsome hr
      have hpos := (driverRounds_spec fakeptr_t n _ s' h).2.2.1
      simp only at hpos
      have hposlt : s.pos < s.M.functions.length := (List.getElem?_eq_some.mp hsome).1
      apply ih _ s' h i F _ hi
      simp only
      rw [hf, getElem?_splice_gt _ _ _ _ _ (Nat.le_of_lt hposlt) (by omega)
        (List.getElem?_eq_some.mp hF).1]
      exact hF

/-! ## C16: the order of the accessor calls -/

theorem isCall_mapOperands (f : Value → Value) (i : Inst) :
    isCall (i.mapOperands f) = isCall i := by
  unfold isCall Inst.mapOperands
  cases i.op <;> rfl

theorem isGep_mapOperands (f : Value → Value) (i : Inst) :
    isGep (i.mapOperands f) = isGep i := by
  unfold isGep Inst.mapOperands
  cases i.op <;> rfl

theorem isLoad_mapOperands (f : Value → Value) (i : Inst) :
    isLoad (i.mapOperands f) = isLoad i := by
  unfold isLoad Inst.mapOperands
  cases i.op <;> rfl

/-- What a commit keeps: an instruction of the body before that is not the
    site, its GEP or its inner load is in the body after the commit, the uses
    of the site among its operands redirected to the call. -/
theorem mem_commitSite_of_mem {x g l : Nat} {newGep newLoad call : Inst} {B B' : List Inst}
    (h : commitSite x g l newGep newLoad call B = Except.ok B') {J : Inst} (hJ : J ∈ B)
    (hx : J.id ≠ x) (hg : J.id ≠ g) (hl : J.id ≠ l) :
    J.mapOperands (redirect x call.id) ∈ B' := by
  unfold commitSite at h
  obtain ⟨B4, h4, h5⟩ := bind_ok h
  have e4 := eraseLive_ok h4
  have e5 := eraseLive_ok h5
  subst e5
  subst e4
  rw [mem_eraseInst, mem_eraseInst, mem_insertBefore, mem_insertBefore]
  refine ⟨⟨Or.inl (Or.inl ?_), hg⟩, hl⟩
  unfold replaceInstWithInst
  rw [mem_eraseInst, mem_replaceInstUses]
  exact ⟨⟨J, (mem_insertBefore _ _ _ _).mpr (Or.inl hJ), rfl⟩, hx⟩

/-- The call of a commit is in the body after the commit. -/
theorem call_mem_commitSite {x g l : Nat} {newGep newLoad call site : Inst} {B B' : List Inst}
    (h : commitSite x g l newGep newLoad call B = Except.ok B') (hsite : site ∈ B)
    (hid : site.id = x) (hx : call.id ≠ x) (hg : call.id ≠ g) (hl : call.id ≠ l) :
    call.mapOperands (redirect x call.id) ∈ B' := by
  unfold commitSite at h
  obtain ⟨B4, h4, h5⟩ := bind_ok h
  have e4 := eraseLive_ok h4
  have e5 := eraseLive_ok h5
  subst e5
  subst e4
  rw [mem_eraseInst, mem_eraseInst, mem_insertBefore, mem_insertBefore]
  refine ⟨⟨Or.inl (Or.inl ?_), hg⟩, hl⟩
  unfold replaceInstWithInst
  rw [mem_eraseInst, mem_replaceInstUses]
  exact ⟨⟨call, (mem_insertBefore _ _ _ _).mpr (Or.inr ⟨rfl, site, hsite, hid⟩), rfl⟩, hx⟩

/-- A successful round of a rewrite loop in full: either nothing happened,
    or the site, its GEP `G` and its inner load `L` were in the body and the
    body after the round is the commit of the three new instructions. -/
theorem rewriteSite_cases (fakeptr_t : Ty) (st st' : RewriteState) (site : Inst) (addr : Value)
    (acc : Access) (h : rewriteSite fakeptr_t (Ty.int 32) st site addr acc = Except.ok st') :
    st' = st ∨
    ∃ g l G L lptr a callee fnTy,
      addr = Value.inst g ∧ findInst st.body g = some G ∧ isGep G = true ∧
      G.pointerOperand = some (Value.inst l) ∧ findInst st.body l = some L ∧
      isLoad L = true ∧ L.pointerOperand = some lptr ∧
      typeOf st.body lptr = Except.ok (Ty.ptr fakeptr_t a) ∧
      callee.operands = [] ∧ (fnTy.ret = site.ty ∨ fnTy.ret = Ty.void) ∧
      commitSite site.id g l
        { id := st.M.nextId, ty := Ty.ptr (Ty.int 32) a,
          op := Op.gep fakeptr_t lptr [Value.constInt 32 0, Value.constInt 32 0] true }
        { id := st.M.nextId + 1, ty := Ty.int 32,
          op := Op.load (Value.inst st.M.nextId) false 0 }
        { id := st.M.nextId + 2, ty := fnTy.ret,
          op := Op.call fnTy callee
            (accessorArgs { id := st.M.nextId + 1, ty := Ty.int 32,
                            op := Op.load (Value.inst st.M.nextId) false 0 } acc) }
        st.body = Except.ok st'.body ∧
      st.M.nextId + 3 ≤ st'.M.nextId := by
  rcases rewriteSite_inv _ _ _ _ _ _ _ h with
    ⟨s, hs, hk, heq⟩ | ⟨s, k, hl, fnTy, hs, hk, hhl, hfn, hc, hM⟩
  · exact Or.inl heq
  · right
    obtain ⟨g, srcTy, gptr, idxs, ib, haddr, hG, hop, hdc, _⟩ := resolveSite_inv hs
    obtain ⟨L, lptr, a, hprev, hptr, htl, hhl2⟩ := newHandleLoad_inv hhl
    subst hhl2
    rw [hprev] at hdc
    obtain ⟨l, hgl, hL, hLl⟩ := dynCastInst_some hdc
    subst hgl
    have hGid := (findInst_some hG).2
    have hLid := (findInst_some hL).2
    simp only at hc
    rw [hGid, hLid] at hc
    refine ⟨g, l, s.gep_inst, L, lptr, a, _, fnTy, haddr, hG, by simp [isGep, hop],
      by simp [Inst.pointerOperand, hop], hL, hLl, hptr, htl,
      getOrInsertFunction_operands _ _ _, accessorType_ret hfn, hc, ?_⟩
    rw [hM]
    exact getOrInsertFunction_nextId ({ st.M with nextId := st.M.nextId + 3 } : Module) _ _

/-- A round of a rewrite loop keeps the body well-formed. -/
theorem rewriteSite_bodyWF (fakeptr_t : Ty) (st st' : RewriteState) (site : Inst) (addr : Value)
    (acc : Access) (hwf : BodyWF st.M.nextId st.body)
    (hval : ∀ v, acc = Access.write v → v.below st.M.nextId)
    (h : rewriteSite fakeptr_t (Ty.int 32) st site addr acc = Except.ok st') :
    BodyWF st'.M.nextId st'.body := by
  rcases rewriteSite_cases _ _ _ _ _ _ h with heq |
    ⟨g, l, G, L, lptr, a, callee, fnTy, _, _, _, _, hL, _, hptr, _, hco, _, hc, hn⟩
  · subst heq; exact hwf
  · have hlptr : lptr.below st.M.nextId :=
      hwf.2.2 L (findInst_some hL).1 lptr (pointerOperand_mem_operands hptr)
    refine bodyWF_mono (bodyWF_commitSite hwf rfl rfl rfl ?_ ?_ ?_ hc) hn
    · intro v hv
      simp only [Op.operands, List.mem_cons, List.mem_singleton, List.not_mem_nil,
        or_false] at hv
      rcases hv with rfl | rfl | rfl
      · exact below_mono hlptr (by omega)
      · trivial
      · trivial
    · intro v hv
      simp only [Op.operands, List.mem_singleton] at hv
      subst hv
      simp only [Value.below]
      omega
    · intro v hv
      simp only [Op.operands, hco, List.nil_append] at hv
      cases acc with
      | read =>
        simp only [accessorArgs, List.mem_singleton] at hv
        subst hv
        simp only [Value.below]
        omega
      | write val =>
        simp only [accessorArgs, List.mem_cons, List.mem_singleton, List.not_mem_nil,
          or_false] at hv
        rcases hv with rfl | rfl
        · simp only [Value.below]
          omega
        · exact below_mono (hval _ rfl) (by omega)

theorem callArity_not_gep_load {K : Inst} {n : Nat} (h : callArity K = some n) :
    isGep K = false ∧ isLoad K = false ∧ isCall K = true := by
  unfold callArity at h
  unfold isGep isLoad isCall
  cases hop : K.op <;> rw [hop] at h <;> simp at h ⊢

theorem callArity_of_isCall {K : Inst} (h : isCall K = true) : ∃ n, callArity K = some n := by
  unfold isCall at h
  unfold callArity
  cases hop : K.op <;> rw [hop] at h <;> simp at h ⊢

theorem id_ne_of_kind {B : List Inst} (hnd : (ids B).Nodup) {K G : Inst} {g : Nat}
    (hK : K ∈ B) (hG : findInst B g = some G) (hkind : K ≠ G) : K.id ≠ g := by
  intro e
  obtain ⟨hGm, hGid⟩ := findInst_some hG
  exact hkind (eq_of_mem_of_id_eq hnd hK hGm (e.trans hGid.symm))

theorem collectStep_ids (sn : List String) (fpp : Ty) (B : List Inst) (q q' : Queues)
    (I : Inst) (h : collectStep sn fpp B q I = Except.ok q') :
    ∀ x, x ∈ q'.queued_loadinsts ++ q'.queued_storeinsts →
      x ∈ q.queued_loadinsts ++ q.queued_storeinsts ∨ x = I.id := by
  unfold collectStep at h
  split at h
  · obtain ⟨b, _, h⟩ := bind_ok h
    have := pure_ok h
    subst this
    intro x hx
    split at hx
    · simp only [List.mem_append, List.mem_singleton] at hx ⊢
      tauto
    · exact Or.inl hx
  · obtain ⟨b, _, h⟩ := bind_ok h
    have := pure_ok h
    subst this
    intro x hx
    split at hx
    · simp only [List.mem_append, List.mem_singleton] at hx ⊢
      tauto
    · exact Or.inl hx
  · have := pure_ok h
    subst this
    intro x hx
    exact Or.inl hx

theorem collectFold_ids (sn : List String) (fpp : Ty) (B : List Inst) :
    ∀ (l : List Inst) (q q' : Queues), l.foldlM (collectStep sn fpp B) q = Except.ok q' →
      ∀ x, x ∈ q'.queued_loadinsts ++ q'.queued_storeinsts →
        x ∈ q.queued_loadinsts ++ q.queued_storeinsts ∨ x ∈ ids l := by
  intro l
  induction l with
  | nil =>
    intro q q' h x hx
    have := pure_ok h
    subst this
    exact Or.inl hx
  | cons J rest ih =>
    intro q q' h x hx
    rw [List.foldlM_cons] at h
    obtain ⟨q1, h1, h2⟩ := bind_ok h
    rcases ih q1 q' h2 x hx with h3 | h3
    · rcases collectStep_ids sn fpp B q q1 J h1 x h3 with h4 | h4
      · exact Or.inl h4
      · right; rw [ids_cons]; exact List.mem_cons.mpr (Or.inl h4)
    · right; rw [ids_cons]; exact List.mem_cons_of_mem _ h3

/-- The collection loop queues identities of instructions of the body. -/
theorem collectQueues_ids (sn : List String) (fpp : Ty) (B : List Inst) (q : Queues)
    (h : collectQueues sn fpp B = Except.ok q) :
    ∀ x, x ∈ q.queued_loadinsts ++ q.queued_storeinsts → x ∈ ids B := by
  intro x hx
  rcases collectFold_ids sn fpp B B _ q h x hx with h1 | h1
  · simp at h1
  · exact h1

theorem collectStep_sound (sn : List String) (fpp : Ty) (B : List Inst) (q q' : Queues)
    (I : Inst) (h : collectStep sn fpp B q I = Except.ok q') :
    ∀ x, x ∈ q'.queued_loadinsts ++ q'.queued_storeinsts →
      x ∈ q.queued_loadinsts ++ q.queued_storeinsts ∨
      (x = I.id ∧ ∃ addr, I.accessAddress = some addr ∧
        isAccessSite sn fpp B addr = Except.ok true) := by
  unfold collectStep at h
  unfold Inst.accessAddress
  cases hop : I.op with
  | load p vol al =>
    rw [hop] at h
    simp only at h
    obtain ⟨b, hb, h⟩ := bind_ok h
    have := pure_ok h
    subst this
    intro x hx
    cases b with
    | false => exact Or.inl hx
    | true =>
      simp only [if_true, List.mem_append, List.mem_singleton] at hx
      rcases hx with (hx | hx) | hx
      · exact Or.inl (List.mem_append_left _ hx)
      · exact Or.inr ⟨hx, p, rfl, hb⟩
      · exact Or.inl (List.mem_append_right _ hx)
  | store val p vol al =>
    rw [hop] at h
    simp only at h
    obtain ⟨b, hb, h⟩ := bind_ok h
    have := pure_ok h
    subst this
    intro x hx
    cases b with
    | false => exact Or.inl hx
    | true =>
      simp only [if_true, List.mem_append, List.mem_singleton] at hx
      rcases hx with hx | hx | hx
      · exact Or.inl (List.mem_append_left _ hx)
      · exact Or.inl (List.mem_append_right _ hx)
      · exact Or.inr ⟨hx, p, rfl, hb⟩
  | alloca _ _ _ =>
    rw [hop] at h
    have := pure_ok h
    subst this
    exact fun x hx => Or.inl hx
  | gep _ _ _ _ =>
    rw [hop] at h
    have := pure_ok h
    subst this
    exact fun x hx => Or.inl hx
  | call _ _ _ =>
    rw [hop] at h
    have := pure_ok h
    subst this
    exact fun x hx => Or.inl hx
  | other _ _ =>
    rw [hop] at h
    have := pure_ok h
    subst this
    exact fun x hx => Or.inl hx

theorem collectFold_sound (sn : List String) (fpp : Ty) (B : List Inst) :
    ∀ (l : List Inst) (q q' : Queues), l.foldlM (collectStep sn fpp B) q = Except.ok q' →
      ∀ x, x ∈ q'.queued_loadinsts ++ q'.queued_storeinsts →
        x ∈ q.queued_loadinsts ++ q.queued_storeinsts ∨
        ∃ I ∈ l, I.id = x ∧ ∃ addr, I.accessAddress = some addr ∧
          isAccessSite sn fpp B addr = Except.ok true := by
  intro l
  induction l with
  | nil =>
    intro q q' h x hx
    have := pure_ok h
    subst this
    exact Or.inl hx
  | cons J rest ih =>
    intro q q' h x hx
    rw [List.foldlM_cons] at h
    obtain ⟨q1, h1, h2⟩ := bind_ok h
    rcases ih q1 q' h2 x hx with h3 | ⟨I, hI, h3⟩
    · rcases collectStep_sound sn fpp B q q1 J h1 x h3 with h4 | ⟨h4, h5⟩
      · exact Or.inl h4
      · exact Or.inr ⟨J, List.mem_cons_self _ _, h4.symm, h5⟩
    · exact Or.inr ⟨I, List.mem_cons_of_mem _ hI, h3⟩

/-- Every queued identity is that of a load or store of the body whose
    address passes the test of the collection loop. -/
theorem collectQueues_sound (sn : List String) (fpp : Ty) (B : List Inst) (q : Queues)
    (h : collectQueues sn fpp B = Except.ok q) :
    ∀ x, x ∈ q.queued_loadinsts ++ q.queued_storeinsts →
      ∃ I ∈ B, I.id = x ∧ ∃ addr, I.accessAddress = some addr ∧
        isAccessSite sn fpp B addr = Except.ok true := by
  intro x hx
  rcases collectFold_sound sn fpp B B _ q h x hx with h1 | h1
  · simp at h1
  · exact h1

/-- The test of the collection loop, for an address that is a GEP whose
    pointer operand is a load. -/
theorem isAccessSite_eq {fpp : Ty} {B : List Inst} {g l : Nat} {G L : Inst} {lptr : Value}
    {t : Ty} (hG : findInst B g = some G) (hGg : isGep G = true)
    (hGp : G.pointerOperand = some (Value.inst l)) (hL : findInst B l = some L)
    (hLl : isLoad L = true) (hLp : L.pointerOperand = some lptr)
    (ht : typeOf B lptr = Except.ok t) :
    isAccessSite struct_names fpp B (Value.inst g) =
      Except.ok (isProtectedPtr L.ty && decide (t = fpp)) := by
  unfold isAccessSite
  rw [dynCastInst_of_find hG hGg]
  simp only [bind, Except.bind, hGp]
  unfold gepIsAccess
  rw [typeOf_of_find hL]
  simp only [bind, Except.bind]
  unfold innerLoadReadsHandle
  rw [dynCastInst_of_find hL hLl]
  simp only [bind, Except.bind, hLp, ht, pure, Except.pure]
  cases hp : isProtectedPtr L.ty with
  | true =>
    have : isStructPtrWithName (some L.ty) struct_names = true := hp
    rw [if_pos this]
    simp
  | false =>
    have : ¬ (isStructPtrWithName (some L.ty) struct_names = true) := by
      intro e
      have e2 : isProtectedPtr L.ty = true := e
      rw [hp] at e2
      cases e2
    rw [if_neg this]
    simp

/-- What the test of the collection loop found when it said yes. -/
theorem isAccessSite_true_inv {fpp : Ty} {B : List Inst} {addr : Value}
    (h : isAccessSite struct_names fpp B addr = Except.ok true) :
    ∃ g l G L lptr, addr = Value.inst g ∧ findInst B g = some G ∧ isGep G = true ∧
      G.pointerOperand = some (Value.inst l) ∧ findInst B l = some L ∧ isLoad L = true ∧
      L.pointerOperand = some lptr ∧ typeOf B lptr = Except.ok fpp := by
  unfold isAccessSite at h
  obtain ⟨go, hgo, h⟩ := bind_ok h
  cases go with
  | none => have := pure_ok h; cases this
  | some G =>
    obtain ⟨g, hg, hG, hGg⟩ := dynCastInst_some hgo
    simp only at h
    cases hGp : G.pointerOperand with
    | none => rw [hGp] at h; have := pure_ok h; cases this
    | some gptr =>
      rw [hGp] at h
      simp only at h
      unfold gepIsAccess at h
      obtain ⟨gt, _, h⟩ := bind_ok h
      split at h
      · unfold innerLoadReadsHandle at h
        obtain ⟨po, hpo, h⟩ := bind_ok h
        cases po with
        | none => have := pure_ok h; cases this
        | some L =>
          obtain ⟨l, hl, hL, hLl⟩ := dynCastInst_some hpo
          simp only at h
          cases hLp : L.pointerOperand with
          | none => rw [hLp] at h; have := pure_ok h; cases this
          | some lptr =>
            rw [hLp] at h
            simp only at h
            obtain ⟨lt, hlt, h⟩ := bind_ok h
            have := pure_ok h
            have e : lt = fpp := of_decide_eq_true this
            subst e
            subst hl
            exact ⟨g, l, G, L, lptr, hg, hG, hGg, hGp, hL, hLl, hLp, hlt⟩
      · have := pure_ok h; cases this

theorem pointerOperand_mapOperands (f : Value → Value) (i : Inst) :
    (i.mapOperands f).pointerOperand = i.pointerOperand.map f := by
  unfold Inst.pointerOperand Inst.mapOperands
  cases i.op <;> rfl

theorem redirect_ne_self {a b : Nat} {v : Value} (h : redirect a b v ≠ v) :
    v = Value.inst a ∧ redirect a b v = Value.inst b := by
  unfold redirect at h ⊢
  by_cases hv : v = Value.inst a
  · rw [if_pos hv]; exact ⟨hv, rfl⟩
  · rw [if_neg hv] at h; exact absurd rfl h

theorem call_ne_of_find {B : List Inst} (hnd : (ids B).Nodup) {K J : Inst} {j : Nat}
    (hK : K ∈ B) (hKc : isCall K = true) (hJ : findInst B j = some J)
    (hkind : isGep J = true ∨ isLoad J = true) : K.id ≠ j := by
  apply id_ne_of_kind hnd hK hJ
  intro e
  subst e
  obtain ⟨n, hn⟩ := callArity_of_isCall hKc
  obtain ⟨h1, h2, _⟩ := callArity_not_gep_load hn
  rcases hkind with h | h
  · rw [h1] at h; cases h
  · rw [h2] at h; cases h

/-- The operand maps of the invariant stay good through a commit. -/
theorem goodSubst_commit {q : List Nat} {n0 n x g l : Nat} {newGep newLoad call site G L : Inst}
    {B B' : List Inst} {f : Value → Value}
    (hgood : GoodSubst q n0 B f) (hnd : (ids B).Nodup) (hxq : x ∈ q) (hx : x < n0)
    (hn0 : n0 ≤ n) (hcid : call.id = n + 2) (hcc : isCall call = true)
    (hsite : site ∈ B) (hsid : site.id = x)
    (hG : findInst B g = some G) (hGg : isGep G = true)
    (hL : findInst B l = some L) (hLl : isLoad L = true)
    (hgn : g < n) (hln : l < n)
    (hc : commitSite x g l newGep newLoad call B = Except.ok B') :
    GoodSubst q n0 B' (fun v => redirect x call.id (f v)) := by
  intro v hv
  by_cases hfv : f v = v
  · simp only [hfv] at hv
    obtain ⟨h1, h2⟩ := redirect_ne_self hv
    refine ⟨x, call.id, h1, hxq, by simp only [hfv]; exact h2, by omega, _,
      call_mem_commitSite hc hsite hsid (by omega) (by omega) (by omega), rfl, ?_⟩
    rw [isCall_mapOperands]
    exact hcc
  · obtain ⟨y, c, hvy, hyq, hfc, hc0, K, hK, hKid, hKc⟩ := hgood v hfv
    have hcx : c ≠ x := by omega
    refine ⟨y, c, hvy, hyq, ?_, hc0, _, mem_commitSite_of_mem hc hK ?_ ?_ ?_, hKid, ?_⟩
    · simp only [hfc]
      exact redirect_inst_ne hcx
    · rw [hKid]; exact hcx
    · exact call_ne_of_find hnd hK hKc hG (Or.inl hGg)
    · exact call_ne_of_find hnd hK hKc hL (Or.inr hLl)
    · rw [isCall_mapOperands]; exact hKc

/-- One round of a rewrite loop keeps the tracking invariant. -/
theorem rewriteSite_track (fakeptr_t : Ty) (B0 : List Inst) (n0 : Nat) (q : List Nat)
    (st st' : RewriteState) (site : Inst) (addr : Value) (acc : Access)
    (hwf0 : BodyWF n0 B0) (hqlt : ∀ x ∈ q, x < n0)
    (hinv : TrackInv B0 n0 q st) (hfind : findInst st.body site.id = some site)
    (hxq : site.id ∈ q) (haddr : site.accessAddress = some addr)
    (hval : ∀ v, acc = Access.write v → v.below st.M.nextId)
    (h : rewriteSite fakeptr_t (Ty.int 32) st site addr acc = Except.ok st') :
    TrackInv B0 n0 q st' := by
  have hwf' := rewriteSite_bodyWF fakeptr_t st st' site addr acc hinv.1 hval h
  obtain ⟨hwf, hn0, hT1, hT2⟩ := hinv
  rcases rewriteSite_cases _ _ _ _ _ _ h with heq |
    ⟨g, l, G, L, lptr, a, callee, fnTy, hag, hG, hGg, hGp, hL, hLl, _, _, _, _, hc, hn⟩
  · subst heq
    exact ⟨hwf, hn0, hT1, hT2⟩
  · subst hag
    obtain ⟨hsmem, _⟩ := findInst_some hfind
    obtain ⟨hGmem, hGid⟩ := findInst_some hG
    obtain ⟨hLmem, hLid⟩ := findInst_some hL
    have hx : site.id < n0 := hqlt _ hxq
    have hgN : g < st.M.nextId := hGid ▸ hwf.2.1 G hGmem
    have hlN : l < st.M.nextId := hLid ▸ hwf.2.1 L hLmem
    -- the site, its GEP and its inner load are those of the body at the start
    obtain ⟨S0, f, hS0, hsf, hgoodS⟩ := hT1 site hsmem hx
    have hS0mem := (findInst_some hS0).1
    have ha0 : S0.accessAddress = some (Value.inst g) := by
      rw [hsf, accessAddress_mapOperands] at haddr
      cases hA : S0.accessAddress with
      | none => rw [hA] at haddr; cases haddr
      | some a0 =>
        rw [hA] at haddr
        simp only [Option.map_some', Option.some.injEq] at haddr
        by_cases hfa : f a0 = a0
        · rw [hfa] at haddr; rw [haddr]
        · obtain ⟨y, c, _, _, hfc, _, K, hK, hKid, hKc⟩ := hgoodS a0 hfa
          rw [hfc] at haddr
          injection haddr with haddr
          exact absurd (hKid.trans haddr) (call_ne_of_find hwf.1 hK hKc hG (Or.inl hGg))
    have hg0 : g < n0 := hwf0.2.2 S0 hS0mem _ (accessAddress_mem_operands ha0)
    obtain ⟨G0, f', hG0, hGf, hgoodG⟩ := hT1 G hGmem (hGid ▸ hg0)
    rw [hGid] at hG0
    have hp0 : G0.pointerOperand = some (Value.inst l) := by
      rw [hGf, pointerOperand_mapOperands] at hGp
      cases hP : G0.pointerOperand with
      | none => rw [hP] at hGp; cases hGp
      | some p0 =>
        rw [hP] at hGp
        simp only [Option.map_some', Option.some.injEq] at hGp
        by_cases hfp : f' p0 = p0
        · rw [hfp] at hGp; rw [hGp]
        · obtain ⟨y, c, _, _, hfc, _, K, hK, hKid, hKc⟩ := hgoodG p0 hfp
          rw [hfc] at hGp
          injection hGp with hGp
          exact absurd (hKid.trans hGp) (call_ne_of_find hwf.1 hK hKc hL (Or.inr hLl))
    have htx : Touched B0 q site.id := Or.inl hxq
    have htg : Touched B0 q g := Or.inr ⟨site.id, hxq, S0, g, hS0, ha0, Or.inl rfl⟩
    have htl : Touched B0 q l :=
      Or.inr ⟨site.id, hxq, S0, g, hS0, ha0, Or.inr ⟨G0, hG0, hp0⟩⟩
    have hgoodStep : ∀ f0, GoodSubst q n0 st.body f0 →
        GoodSubst q n0 st'.body (fun v => redirect site.id (st.M.nextId + 2) (f0 v)) := by
      intro f0 hf0
      refine goodSubst_commit hf0 hwf.1 hxq hx hn0 ?_ ?_ hsmem rfl hG hGg hL hLl hgN hlN hc
      · rfl
      · rfl
    refine ⟨hwf', by omega, ?_, ?_⟩
    · intro K' hK' hid
      rcases mem_commitSite hc K' hK' with e | e | e | ⟨J, hJ, e, _⟩
      · rw [e, mapOperands_id] at hid; simp only at hid; omega
      · rw [e, mapOperands_id] at hid; simp only at hid; omega
      · rw [e, mapOperands_id] at hid; simp only at hid; omega
      · have hJid : J.id < n0 := by rw [e, mapOperands_id] at hid; exact hid
        obtain ⟨J0, f0, hJ0, hJf, hgood0⟩ := hT1 J hJ hJid
        refine ⟨J0, fun v => redirect site.id (st.M.nextId + 2) (f0 v), ?_, ?_,
          hgoodStep f0 hgood0⟩
        · rw [e, mapOperands_id]; exact hJ0
        · rw [e, hJf, inst_mapOperands_comp]; rfl
    · intro J0 hJ0 hnt
      obtain ⟨f0, hmem0, hgood0⟩ := hT2 J0 hJ0 hnt
      refine ⟨fun v => redirect site.id (st.M.nextId + 2) (f0 v), ?_, hgoodStep f0 hgood0⟩
      have := mem_commitSite_of_mem hc hmem0
        (by rw [mapOperands_id]; intro e; exact hnt (e ▸ htx))
        (by rw [mapOperands_id]; intro e; exact hnt (e ▸ htg))
        (by rw [mapOperands_id]; intro e; exact hnt (e ▸ htl))
      rw [inst_mapOperands_comp] at this
      exact this

theorem rewriteLoad_track (fakeptr_t : Ty) (B0 : List Inst) (n0 : Nat) (q : List Nat)
    (hwf0 : BodyWF n0 B0) (hqlt : ∀ x ∈ q, x < n0) (st : RewriteState) (x : Nat)
    (st' : RewriteState) (hinv : TrackInv B0 n0 q st) (hxq : x ∈ q)
    (h : rewriteLoad fakeptr_t (Ty.int 32) st x = Except.ok st') :
    TrackInv B0 n0 q st' := by
  unfold rewriteLoad at h
  cases hf : findInst st.body x with
  | none => rw [hf] at h; exact (throw_ne_ok h).elim
  | some site =>
    rw [hf] at h
    simp only at h
    have hid := (findInst_some hf).2
    subst hid
    cases hop : site.op with
    | load addr vol al =>
      rw [hop] at h
      simp only at h
      exact rewriteSite_track fakeptr_t B0 n0 q st st' site addr Access.read hwf0 hqlt hinv hf
        hxq (by simp [Inst.accessAddress, hop]) (by intro v hv; cases hv) h
    | alloca _ _ _ => rw [hop] at h; exact (throw_ne_ok h).elim
    | store _ _ _ _ => rw [hop] at h; exact (throw_ne_ok h).elim
    | gep _ _ _ _ => rw [hop] at h; exact (throw_ne_ok h).elim
    | call _ _ _ => rw [hop] at h; exact (throw_ne_ok h).elim
    | other _ _ => rw [hop] at h; exact (throw_ne_ok h).elim

theorem rewriteStore_track (fakeptr_t : Ty) (B0 : List Inst) (n0 : Nat) (q : List Nat)
    (hwf0 : BodyWF n0 B0) (hqlt : ∀ x ∈ q, x < n0) (st : RewriteState) (x : Nat)
    (st' : RewriteState) (hinv : TrackInv B0 n0 q st) (hxq : x ∈ q)
    (h : rewriteStore fakeptr_t (Ty.int 32) st x = Except.ok st') :
    TrackInv B0 n0 q st' := by
  unfold rewriteStore at h
  cases hf : findInst st.body x with
  | none => rw [hf] at h; exact (throw_ne_ok h).elim
  | some site =>
    rw [hf] at h
    simp only at h
    have hmem := (findInst_some hf).1
    have hid := (findInst_some hf).2
    subst hid
    cases hop : site.op with
    | store val addr vol al =>
      rw [hop] at h
      simp only at h
      refine rewriteSite_track fakeptr_t B0 n0 q st st' site addr (Access.write val) hwf0 hqlt
        hinv hf hxq (by simp [Inst.accessAddress, hop]) ?_ h
      intro v hv
      injection hv with hv
      subst hv
      exact hinv.1.2.2 site hmem _ (by rw [hop]; simp [Op.operands])
    | alloca _ _ _ => rw [hop] at h; exact (throw_ne_ok h).elim
    | load _ _ _ => rw [hop] at h; exact (throw_ne_ok h).elim
    | gep _ _ _ _ => rw [hop] at h; exact (throw_ne_ok h).elim
    | call _ _ _ => rw [hop] at h; exact (throw_ne_ok h).elim
    | other _ _ => rw [hop] at h; exact (throw_ne_ok h).elim

theorem fold_track (B0 : List Inst) (n0 : Nat) (q : List Nat)
    (f : RewriteState → Nat → Result RewriteState)
    (hstep : ∀ (st : RewriteState) (x : Nat) (st' : RewriteState), TrackInv B0 n0 q st →
      x ∈ q → f st x = Except.ok st' → TrackInv B0 n0 q st') :
    ∀ (l : List Nat) (st st' : RewriteState), TrackInv B0 n0 q st → (∀ x ∈ l, x ∈ q) →
      l.foldlM f st = Except.ok st' → TrackInv B0 n0 q st' := by
  intro l
  induction l with
  | nil =>
    intro st st' hinv _ h
    have := pure_ok h
    subst this
    exact hinv
  | cons x l ih =>
    intro st st' hinv hl h
    rw [List.foldlM_cons] at h
    obtain ⟨st1, h1, h2⟩ := bind_ok h
    exact ih st1 st' (hstep st x st1 hinv (hl x (List.mem_cons_self _ _)) h1)
      (fun y hy => hl y (List.mem_cons_of_mem _ hy)) h2

/-- The tracking invariant holds when the rewrite loops are done. -/
theorem track_loops (fakeptr_t fpp : Ty) (st0 st1 st2 : RewriteState) (q : Queues)
    (hwf : BodyWF st0.M.nextId st0.body)
    (hq : collectQueues struct_names fpp st0.body = Except.ok q)
    (h1 : q.queued_loadinsts.foldlM (rewriteLoad fakeptr_t (Ty.int 32)) st0 = Except.ok st1)
    (h2 : q.queued_storeinsts.foldlM (rewriteStore fakeptr_t (Ty.int 32)) st1 = Except.ok st2) :
    TrackInv st0.body st0.M.nextId (q.queued_loadinsts ++ q.queued_storeinsts) st2 := by
  have hqids := collectQueues_ids _ _ _ _ hq
  have hlt : ∀ x, x ∈ q.queued_loadinsts ++ q.queued_storeinsts → x < st0.M.nextId := by
    intro x hx
    obtain ⟨J, hJ, rfl⟩ := mem_ids.mp (hqids x hx)
    exact hwf.2.1 J hJ
  have hgood0 : GoodSubst (q.queued_loadinsts ++ q.queued_storeinsts) st0.M.nextId st0.body
      (fun v => v) := fun v hv => absurd rfl hv
  have hinv0 : TrackInv st0.body st0.M.nextId (q.queued_loadinsts ++ q.queued_storeinsts)
      st0 := by
    refine ⟨hwf, Nat.le_refl _, ?_, ?_⟩
    · intro J hJ _
      exact ⟨J, fun v => v, findInst_of_mem hwf.1 hJ, (mapOperands_self J).symm, hgood0⟩
    · intro J0 hJ0 _
      exact ⟨fun v => v, by rw [mapOperands_self]; exact hJ0, hgood0⟩
  have hinv1 := fold_track st0.body st0.M.nextId _ (rewriteLoad fakeptr_t (Ty.int 32))
    (fun st x st' hi hx h => rewriteLoad_track fakeptr_t _ _ _ hwf hlt st x st' hi hx h)
    q.queued_loadinsts st0 st1 hinv0 (fun x hx => List.mem_append_left _ hx) h1
  exact fold_track st0.body st0.M.nextId _ (rewriteStore fakeptr_t (Ty.int 32))
    (fun st x st' hi hx h => rewriteStore_track fakeptr_t _ _ _ hwf hlt st x st' hi hx h)
    q.queued_storeinsts st1 st2 hinv1 (fun x hx => List.mem_append_right _ hx) h2

theorem accessAddress_none_of_isGep {J : Inst} (h : isGep J = true) : J.accessAddress = none := by
  unfold isGep at h
  unfold Inst.accessAddress
  cases hop : J.op <;> rw [hop] at h <;> simp at h ⊢

theorem isLoad_false_of_isGep {J : Inst} (h : isGep J = true) : isLoad J = false := by
  unfold isGep at h
  unfold isLoad
  cases hop : J.op <;> rw [hop] at h <;> simp at h ⊢

theorem pointerOperand_of_accessAddress {J : Inst} {a : Value} (h : J.accessAddress = some a) :
    J.pointerOperand = some a := by
  unfold Inst.accessAddress at h
  unfold Inst.pointerOperand
  cases hop : J.op <;> rw [hop] at h <;> simp at h ⊢ <;> exact h

/-- A queued site, seen from the body the queues were collected from: its
    address is a GEP whose pointer operand is a load through a pointer of the
    type `fpp`. -/
theorem queued_site_facts {fpp : Ty} {B0 : List Inst} {q : Queues} (hnd : (ids B0).Nodup)
    (hq : collectQueues struct_names fpp B0 = Except.ok q) {x g : Nat} {S : Inst}
    (hx : x ∈ q.queued_loadinsts ++ q.queued_storeinsts) (hS : findInst B0 x = some S)
    (hSa : S.accessAddress = some (Value.inst g)) :
    ∃ G l L lptr, findInst B0 g = some G ∧ isGep G = true ∧
      G.pointerOperand = some (Value.inst l) ∧ findInst B0 l = some L ∧ isLoad L = true ∧
      L.pointerOperand = some lptr ∧ typeOf B0 lptr = Except.ok fpp := by
  obtain ⟨J, hJ, hJid, addr, hJa, hsite⟩ := collectQueues_sound _ _ _ _ hq x hx
  obtain ⟨hSm, hSid⟩ := findInst_some hS
  have : J = S := eq_of_mem_of_id_eq hnd hJ hSm (hJid.trans hSid.symm)
  subst this
  rw [hSa] at hJa
  injection hJa with hJa
  subst hJa
  obtain ⟨g2, l2, G2, L2, lptr2, e, a1, a2, a3, a4, a5, a6, a7⟩ := isAccessSite_true_inv hsite
  injection e with e
  subst e
  exact ⟨G2, l2, L2, lptr2, a1, a2, a3, a4, a5, a6, a7⟩

/-- C19 (as amended): for a load or store `I` of the body the rewrite loops
    start with, whose address is a GEP `G` over a protected struct pointer
    that an inner load `L` produced, `I` is queued exactly when the type of
    the pointer operand of `L` is pointer-to-handle. When it is not, `G`
    is still in the body after both loops, and so is `I` when the type of `G`
    is not pointer-to-handle; their operands are as before except that an
    operand that named a queued site may have been redirected (to the call
    that replaced the site). Nothing is said of `L`: it may itself be a
    queued read, which the pass replaces. -/
theorem C19_unrecognised_access_kept (fakeptr_t : Ty) (st0 st1 st2 : RewriteState) (q : Queues)
    (I G L : Inst) (g l : Nat) (lptr : Value) (t : Ty)
    (hwf : BodyWF st0.M.nextId st0.body)
    (hq : collectQueues struct_names (Ty.ptr fakeptr_t 0) st0.body = Except.ok q)
    (h1 : q.queued_loadinsts.foldlM (rewriteLoad fakeptr_t (Ty.int 32)) st0 = Except.ok st1)
    (h2 : q.queued_storeinsts.foldlM (rewriteStore fakeptr_t (Ty.int 32)) st1 = Except.ok st2)
    (hI : I ∈ st0.body) (hIa : I.accessAddress = some (Value.inst g))
    (hG : findInst st0.body g = some G) (hGg : isGep G = true)
    (hGp : G.pointerOperand = some (Value.inst l))
    (hL : findInst st0.body l = some L) (hLl : isLoad L = true)
    (hLp : L.pointerOperand = some lptr) (hprot : isProtectedPtr L.ty = true)
    (ht : typeOf st0.body lptr = Except.ok t) :
    (I.id ∈ q.queued_loadinsts ++ q.queued_storeinsts ↔ t = Ty.ptr fakeptr_t 0) ∧
    (t ≠ Ty.ptr fakeptr_t 0 →
      (∃ f, G.mapOperands f ∈ st2.body ∧
        ∀ v, f v ≠ v → ∃ x ∈ q.queued_loadinsts ++ q.queued_storeinsts, v = Value.inst x) ∧
      (G.ty ≠ Ty.ptr fakeptr_t 0 →
        ∃ f, I.mapOperands f ∈ st2.body ∧
          ∀ v, f v ≠ v →
            ∃ x ∈ q.queued_loadinsts ++ q.queued_storeinsts, v = Value.inst x)) := by
  have hsite : isAccessSite struct_names (Ty.ptr fakeptr_t 0) st0.body (Value.inst g) =
      Except.ok (isProtectedPtr L.ty && decide (t = Ty.ptr fakeptr_t 0)) :=
    isAccessSite_eq hG hGg hGp hL hLl hLp ht
  rw [hprot, Bool.true_and] at hsite
  obtain ⟨hGm, hGid⟩ := findInst_some hG
  have hiff : I.id ∈ q.queued_loadinsts ++ q.queued_storeinsts ↔ t = Ty.ptr fakeptr_t 0 := by
    constructor
    · intro hm
      obtain ⟨J, hJ, hJid, addr, hJa, hs⟩ := collectQueues_sound _ _ _ _ hq _ hm
      have : J = I := eq_of_mem_of_id_eq hwf.1 hJ hI hJid
      subst this
      rw [hIa] at hJa
      injection hJa with hJa
      subst hJa
      rw [hsite] at hs
      injection hs with hs
      exact of_decide_eq_true hs
    · intro e
      rw [decide_eq_true e] at hsite
      exact collectQueues_complete _ _ _ _ hq I hI _ hIa hsite
  refine ⟨hiff, ?_⟩
  intro hne
  obtain ⟨_, _, _, hT2⟩ := track_loops fakeptr_t (Ty.ptr fakeptr_t 0) st0 st1 st2 q hwf hq h1 h2
  have hweak : ∀ f, GoodSubst (q.queued_loadinsts ++ q.queued_storeinsts) st0.M.nextId
      st2.body f →
      ∀ v, f v ≠ v → ∃ x ∈ q.queued_loadinsts ++ q.queued_storeinsts, v = Value.inst x := by
    intro f hf v hv
    obtain ⟨y, c, hvy, hyq, _⟩ := hf v hv
    exact ⟨y, hyq, hvy⟩
  constructor
  · have hnt : ¬ Touched st0.body (q.queued_loadinsts ++ q.queued_storeinsts) G.id := by
      rw [hGid]
      rintro (hm | ⟨x, hx, S, g', hS, hSa, hcase⟩)
      · obtain ⟨J, hJ, hJid, addr, hJa, _⟩ := collectQueues_sound _ _ _ _ hq _ hm
        have : J = G := eq_of_mem_of_id_eq hwf.1 hJ hGm (hJid.trans hGid.symm)
        subst this
        rw [accessAddress_none_of_isGep hGg] at hJa
        cases hJa
      · obtain ⟨G2, l2, L2, lptr2, a1, a2, a3, a4, a5, a6, a7⟩ :=
          queued_site_facts hwf.1 hq hx hS hSa
        rcases hcase with e | ⟨G', hG', hG'p⟩
        · subst e
          rw [hG] at a1
          injection a1 with a1
          subst a1
          rw [hGp] at a3
          injection a3 with a3
          injection a3 with a3
          subst a3
          rw [hL] at a4
          injection a4 with a4
          subst a4
          rw [hLp] at a6
          injection a6 with a6
          subst a6
          rw [ht] at a7
          injection a7 with a7
          exact hne a7
        · rw [a1] at hG'
          injection hG' with hG'
          subst hG'
          rw [a3] at hG'p
          injection hG'p with e
          injection e with e
          subst e
          rw [hG] at a4
          injection a4 with a4
          subst a4
          rw [isLoad_false_of_isGep hGg] at a5
          cases a5
    obtain ⟨f, hf, hgood⟩ := hT2 G hGm hnt
    exact ⟨f, hf, hweak f hgood⟩
  · intro hGty
    have hnt : ¬ Touched st0.body (q.queued_loadinsts ++ q.queued_storeinsts) I.id := by
      rintro (hm | ⟨x, hx, S, g', hS, hSa, hcase⟩)
      · exact hne (hiff.mp hm)
      · obtain ⟨G2, l2, L2, lptr2, a1, a2, a3, a4, a5, a6, a7⟩ :=
          queued_site_facts hwf.1 hq hx hS hSa
        rcases hcase with e | ⟨G', hG', hG'p⟩
        · subst e
          have : G2 = I :=
            eq_of_mem_of_id_eq hwf.1 (findInst_some a1).1 hI (findInst_some a1).2
          subst this
          rw [accessAddress_none_of_isGep a2] at hIa
          cases hIa
        · rw [a1] at hG'
          injection hG' with hG'
          subst hG'
          rw [a3] at hG'p
          injection hG'p with e
          injection e with e
          subst e
          have : L2 = I :=
            eq_of_mem_of_id_eq hwf.1 (findInst_some a4).1 hI (findInst_some a4).2
          subst this
          rw [pointerOperand_of_accessAddress hIa] at a6
          injection a6 with a6
          subst a6
          rw [typeOf_of_find hG] at a7
          injection a7 with a7
          exact hGty a7
    obtain ⟨f, hf, hgood⟩ := hT2 I hI hnt
    exact ⟨f, hf, hweak f hgood⟩

/-- C19 as stated fails: in `next_x` the read of `x` (the load numbered 7)
    goes through the GEP numbered 6 over the `%struct.MyStruct*` that the
    inner load numbered 5 produced, and that inner load reads through a
    `%struct.MyStruct**`, not through a pointer to the handle: the read of `x`
    is not queued. But the inner load is itself the queued read of `next`:
    after the pass it is gone, replaced by the call numbered 206, and the
    GEP numbered 6 takes its pointer from that call. Only the load numbered 7
    is as it was. -/
theorem C19_inner_load_replaced :
    runOnModule nextXModule = Except.ok (true, nextXResult) ∧
    nextXResult.functions = [nextXRewritten, getField2Decl 207] ∧
    collectQueues struct_names (Ty.ptr (Ty.struct "FakePtr") 0) nextXState.body =
      Except.ok { queued_loadinsts := [5], queued_storeinsts := [] } ∧
    [5].foldlM (rewriteLoad (Ty.struct "FakePtr") (Ty.int 32)) nextXState =
      Except.ok nextXAfter ∧
    nextXLoad ∈ nextXState.body ∧ nextXLoad.accessAddress = some (Value.inst 6) ∧
    findInst nextXState.body 6 = some nextXGep ∧
    nextXGep.pointerOperand = some (Value.inst 5) ∧
    findInst nextXState.body 5 = some nextXInner ∧ isLoad nextXInner = true ∧
    isProtectedPtr nextXInner.ty = true ∧
    nextXInner.pointerOperand = some (Value.inst 4) ∧
    typeOf nextXState.body (Value.inst 4) = Except.ok (Ty.ptr myStructPtr 0) ∧
    Ty.ptr myStructPtr 0 ≠ Ty.ptr (Ty.struct "FakePtr") 0 ∧
    findInst nextXRewritten.body 5 = none ∧
    nextXGep ∉ nextXRewritten.body ∧
    (findInst nextXRewritten.body 6).bind Inst.pointerOperand = some (Value.inst 206) ∧
    nextXLoad ∈ nextXRewritten.body := by
  refine ⟨by rfl, by rfl, by rfl, by rfl, by decide, by rfl, by rfl, by rfl, by rfl, by rfl,
    by rfl, by rfl, by rfl, by decide, by rfl, by decide, by rfl, by decide⟩

theorem C19_unrecognised_access_kept_witness :
    BodyWF nextXState.M.nextId nextXState.body ∧
    collectQueues struct_names (Ty.ptr (Ty.struct "FakePtr") 0) nextXState.body =
      Except.ok { queued_loadinsts := [5], queued_storeinsts := [] } ∧
    [5].foldlM (rewriteLoad (Ty.struct "FakePtr") (Ty.int 32)) nextXState =
      Except.ok nextXAfter ∧
    ([] : List Nat).foldlM (rewriteStore (Ty.struct "FakePtr") (Ty.int 32)) nextXAfter =
      Except.ok nextXAfter ∧
    nextXLoad ∈ nextXState.body ∧ nextXLoad.accessAddress = some (Value.inst 6) ∧
    findInst nextXState.body 6 = some nextXGep ∧ isGep nextXGep = true ∧
    nextXGep.pointerOperand = some (Value.inst 5) ∧
    findInst nextXState.body 5 = some nextXInner ∧ isLoad nextXInner = true ∧
    nextXInner.pointerOperand = some (Value.inst 4) ∧
    isProtectedPtr nextXInner.ty = true ∧
    typeOf nextXState.body (Value.inst 4) = Except.ok (Ty.ptr myStructPtr 0) ∧
    ((nextXLoad.id ∈ [5] ++ [] ↔ Ty.ptr myStructPtr 0 = Ty.ptr (Ty.struct "FakePtr") 0) ∧
    (Ty.ptr myStructPtr 0 ≠ Ty.ptr (Ty.struct "FakePtr") 0 →
      (∃ f, nextXGep.mapOperands f ∈ nextXAfter.body ∧
        ∀ v, f v ≠ v → ∃ x ∈ [5] ++ [], v = Value.inst x) ∧
      (nextXGep.ty ≠ Ty.ptr (Ty.struct "FakePtr") 0 →
        ∃ f, nextXLoad.mapOperands f ∈ nextXAfter.body ∧
          ∀ v, f v ≠ v → ∃ x ∈ [5] ++ [], v = Value.inst x))) :=
  ⟨by decide, by rfl, by rfl, by rfl, by decide, by rfl, by rfl, by rfl, by rfl, by rfl, by rfl,
    by rfl, by rfl, by rfl,
    C19_unrecognised_access_kept (Ty.struct "FakePtr") nextXState nextXAfter nextXAfter
      { queued_loadinsts := [5], queued_storeinsts := [] } nextXLoad nextXGep nextXInner 6 5
      (Value.inst 4) (Ty.ptr myStructPtr 0) (by decide) (by rfl) (by rfl) (by rfl) (by decide)
      (by rfl) (by rfl) (by rfl) (by rfl) (by rfl) (by rfl) (by rfl) (by rfl) (by rfl)⟩

/-! ## C21: calls of a rewritten function -/

/-- C21 fails in the code: the pass never touches the call sites of a
    function it rewrites. In `callerModule` the function `main` calls `read_x`
    (the function numbered 100) on a local `%struct.MyStruct`; before the pass
    every call of the module matches its callee. The pass replaces `read_x` by
    the function numbered 200 of type `i32 (i32)` and erases the function
    numbered 100, and it skips `main`, which has no parameter: after the pass
    the call in `main` is the same instruction, its callee is the erased
    function, which is not in the function list, and its argument is still a
    `%struct.MyStruct*` while the function now called `read_x` takes an
    `i32`. -/
theorem C21_caller_keeps_erased_callee :
    ModuleWF callerModule ∧ CallsMatch callerModule ∧
    readXFunction ∈ callerModule.functions ∧ readXFunction.id = 100 ∧
    readXFunction.needsRewrite = true ∧ mainFunction.needsRewrite = false ∧
    runOnModule callerModule = Except.ok (true, callerResult) ∧
    mainFunction ∈ callerResult.functions ∧ mainCall ∈ mainFunction.body ∧
    mainCall.op = Op.call readXFunction.ty (Callee.func 100) [Value.inst 11] ∧
    (∀ f ∈ callerResult.functions, f.id ≠ 100) ∧
    ¬ CallMatches callerResult mainFunction.body mainCall ∧
    ¬ CallsMatch callerResult ∧
    (∀ f ∈ callerResult.functions, f.name = "read_x" → f.id = 200 ∧ f.ty.params = [Ty.int 32]) ∧
    typeOf mainFunction.body (Value.inst 11) = Except.ok myStructPtr ∧
    myStructPtr ≠ Ty.int 32 := by
  refine ⟨by decide, by decide, by decide, rfl, by rfl, by rfl, by rfl, by decide, by decide,
    rfl, by decide, by decide, by decide, by decide, by rfl, by decide⟩

/-! ## C22: the two variants of the pass -/

theorem collectStep_loads (sn : List String) (fpp : Ty) (B : List Inst) (q q' : Queues)
    (I : Inst) (h : collectStep sn fpp B q I = Except.ok q') :
    ∀ x, x ∈ q'.queued_loadinsts → x ∈ q.queued_loadinsts ∨
      (x = I.id ∧ ∃ addr vol al, I.op = Op.load addr vol al ∧
        isAccessSite sn fpp B addr = Except.ok true) := by
  unfold collectStep at h
  cases hop : I.op with
  | load p vol al =>
    rw [hop] at h
    simp only at h
    obtain ⟨b, hb, h⟩ := bind_ok h
    have := pure_ok h
    subst this
    intro x hx
    cases b with
    | false => exact Or.inl hx
    | true =>
      simp only [if_true, List.mem_append, List.mem_singleton] at hx
      rcases hx with hx | hx
      · exact Or.inl hx
      · exact Or.inr ⟨hx, p, vol, al, rfl, hb⟩
  | store val p vol al =>
    rw [hop] at h
    simp only at h
    obtain ⟨b, hb, h⟩ := bind_ok h
    have := pure_ok h
    subst this
    intro x hx
    cases b with
    | false => exact Or.inl hx
    | true => exact Or.inl hx
  | alloca _ _ _ =>
    rw [hop] at h
    have := pure_ok h
    subst this
    exact fun x hx => Or.inl hx
  | gep _ _ _ _ =>
    rw [hop] at h
    have := pure_ok h
    subst this
    exact fun x hx => Or.inl hx
  | call _ _ _ =>
    rw [hop] at h
    have := pure_ok h
    subst this
    exact fun x hx => Or.inl hx
  | other _ _ =>
    rw [hop] at h
    have := pure_ok h
    subst this
    exact fun x hx => Or.inl hx

theorem collectFold_loads (sn : List String) (fpp : Ty) (B : List Inst) :
    ∀ (l : List Inst) (q q' : Queues), l.foldlM (collectStep sn fpp B) q = Except.ok q' →
      ∀ x, x ∈ q'.queued_loadinsts → x ∈ q.queued_loadinsts ∨
        ∃ I ∈ l, I.id = x ∧ ∃ addr vol al, I.op = Op.load addr vol al ∧
          isAccessSite sn fpp B addr = Except.ok true := by
  intro l
  induction l with
  | nil =>
    intro q q' h x hx
    have := pure_ok h
    subst this
    exact Or.inl hx
  | cons J rest ih =>
    intro q q' h x hx
    rw [List.foldlM_cons] at h
    obtain ⟨q1, h1, h2⟩ := bind_ok h
    rcases ih q1 q' h2 x hx with h3 | ⟨I, hI, h3⟩
    · rcases collectStep_loads sn fpp B q q1 J h1 x h3 with h4 | ⟨h4, h5⟩
      · exact Or.inl h4
      · exact Or.inr ⟨J, List.mem_cons_self _ _, h4.symm, h5⟩
    · exact Or.inr ⟨I, List.mem_cons_of_mem _ hI, h3⟩

/-- Every identity in the queue of loads is that of a load of the body whose
    address passes the test of the collection loop. -/
theorem collectQueues_loads (sn : List String) (fpp : Ty) (B : List Inst) (q : Queues)
    (h : collectQueues sn fpp B = Except.ok q) :
    ∀ x, x ∈ q.queued_loadinsts →
      ∃ I ∈ B, I.id = x ∧ ∃ addr vol al, I.op = Op.load addr vol al ∧
        isAccessSite sn fpp B addr = Except.ok true := by
  intro x hx
  rcases collectFold_loads sn fpp B B _ q h x hx with h1 | h1
  · simp at h1
  · exact h1

/-- The round of the out-of-tree loop over the queued loads returns the
    state it was given, for every load the collection loop queued. -/
theorem outOfTree_rewriteLoad_queued (fpp : Ty) (st : RewriteState) (q : Queues)
    (hnd : (ids st.body).Nodup)
    (hq : collectQueues struct_names fpp st.body = Except.ok q) (x : Nat)
    (hx : x ∈ q.queued_loadinsts) :
    OutOfTree.rewriteLoad st x = Except.ok st := by
  obtain ⟨I, hI, hid, addr, vol, al, hop, hs⟩ := collectQueues_loads _ _ _ _ hq x hx
  obtain ⟨g, l, G, L, lptr, ha, hG, hGg, hGp, hL, hLl, _, _⟩ := isAccessSite_true_inv hs
  have hf : findInst st.body x = some I := by
    rw [← hid]
    exact findInst_of_mem hnd hI
  unfold OutOfTree.rewriteLoad
  rw [hf]
  simp only [hop]
  rw [ha, dynCastInst_of_find hG hGg]
  simp only [bind, Except.bind]
  cases hGop : G.op with
  | gep srcTy gptr idxs ib =>
    simp only
    have : gptr = Value.inst l := by
      unfold Inst.pointerOperand at hGp
      rw [hGop] at hGp
      injection hGp
    rw [this, dynCastInst_of_find hL hLl]
    rfl
  | alloca _ _ _ => unfold isGep at hGg; rw [hGop] at hGg; cases hGg
  | load _ _ _ => unfold isGep at hGg; rw [hGop] at hGg; cases hGg
  | store _ _ _ _ => unfold isGep at hGg; rw [hGop] at hGg; cases hGg
  | call _ _ _ => unfold isGep at hGg; rw [hGop] at hGg; cases hGg
  | other _ _ => unfold isGep at hGg; rw [hGop] at hGg; cases hGg

/-- The out-of-tree loop over the queued loads returns the state it was
    given. -/
theorem outOfTree_loads_kept (fpp : Ty) (st : RewriteState) (q : Queues)
    (hnd : (ids st.body).Nodup)
    (hq : collectQueues struct_names fpp st.body = Except.ok q) :
    q.queued_loadinsts.foldlM OutOfTree.rewriteLoad st = Except.ok st := by
  have key : ∀ (l : List Nat), (∀ x ∈ l, x ∈ q.queued_loadinsts) →
      l.foldlM OutOfTree.rewriteLoad st = Except.ok st := by
    intro l
    induction l with
    | nil => intro _; rfl
    | cons a rest ih =>
      intro h
      rw [List.foldlM_cons, outOfTree_rewriteLoad_queued fpp st q hnd hq a
        (h a (List.mem_cons_self _ _))]
      exact ih (fun x hx => h x (List.mem_cons_of_mem _ hx))
  exact key _ (fun _ h => h)

theorem resultRel_bind {α β γ δ : Type} {P : α → β → Prop} {Q : γ → δ → Prop}
    {x : Result α} {y : Result β} {f : α → Result γ} {g : β → Result δ}
    (h : ResultRel P x y) (hfg : ∀ a b, P a b → ResultRel Q (f a) (g b)) :
    ResultRel Q (x >>= f) (y >>= g) := by
  cases x with
  | error e =>
    cases y with
    | error e' => exact h
    | ok b => exact h.elim
  | ok a =>
    cases y with
    | error e' => exact h.elim
    | ok b => exact hfg a b h

theorem resultRel_mono {α β : Type} {P Q : α → β → Prop} {x : Result α} {y : Result β}
    (h : ResultRel P x y) (hPQ : ∀ a b, P a b → Q a b) : ResultRel Q x y := by
  cases x with
  | error e =>
    cases y with
    | error e' => exact h
    | ok b => exact h.elim
  | ok a =>
    cases y with
    | error e' => exact h.elim
    | ok b => exact hPQ a b h

theorem resultRel_foldlM {α β γ : Type} {P : α → β → Prop} {f : α → γ → Result α}
    {g : β → γ → Result β} (hfg : ∀ a b c, P a b → ResultRel P (f a c) (g b c)) :
    ∀ (l : List γ) (a : α) (b : β), P a b → ResultRel P (l.foldlM f a) (l.foldlM g b) := by
  intro l
  induction l with
  | nil => intro a b h; exact h
  | cons c rest ih =>
    intro a b h
    rw [List.foldlM_cons, List.foldlM_cons]
    exact resultRel_bind (hfg a b c h) ih

theorem differs_refl (f : Function) : DiffersInOptimizeNone f f := Or.inl rfl

theorem differs_fields {f g : Function} (h : DiffersInOptimizeNone f g) :
    g.id = f.id ∧ g.name = f.name ∧ g.ty = f.ty ∧ g.body = f.body := by
  rcases h with h | h <;> subst h <;> exact ⟨rfl, rfl, rfl, rfl⟩

theorem forall2_differs_refl (l : List Function) : List.Forall₂ DiffersInOptimizeNone l l := by
  induction l with
  | nil => exact List.Forall₂.nil
  | cons a l ih => exact List.Forall₂.cons (differs_refl a) ih

/-- The lookup by name finds functions with the same number and type in two
    lists that agree up to `DiffersInOptimizeNone`, followed by the same
    declarations. -/
theorem find_agree (name : String) (D : List Function) :
    ∀ (FA FB : List Function), List.Forall₂ DiffersInOptimizeNone FA FB →
      ((FA ++ D).find? (fun f => f.name = name) = none ∧
        (FB ++ D).find? (fun f => f.name = name) = none) ∨
      ∃ f g, (FA ++ D).find? (fun f => f.name = name) = some f ∧
        (FB ++ D).find? (fun f => f.name = name) = some g ∧ g.id = f.id ∧ g.ty = f.ty := by
  intro FA FB h
  induction h with
  | nil =>
    simp only [List.nil_append]
    cases hD : D.find? (fun f => f.name = name) with
    | none => exact Or.inl ⟨rfl, rfl⟩
    | some f => exact Or.inr ⟨f, f, rfl, rfl, rfl, rfl⟩
  | @cons a b la lb hab _ ih =>
    obtain ⟨hid, hname, hty, _⟩ := differs_fields hab
    simp only [List.cons_append, List.find?_cons, hname]
    by_cases hn : a.name = name
    · simp only [hn, decide_True]
      exact Or.inr ⟨a, b, rfl, rfl, hid, hty⟩
    · simp only [hn, decide_False]
      exact ih

theorem getOrInsertFunction_agree {FA FB : List Function}
    (hF : List.Forall₂ DiffersInOptimizeNone FA FB) {A B : Module} (h : LoopsAgree FA FB A B)
    (name : String) (fnTy : FnTy) :
    (B.getOrInsertFunction name fnTy).1 = (A.getOrInsertFunction name fnTy).1 ∧
    LoopsAgree FA FB (A.getOrInsertFunction name fnTy).2 (B.getOrInsertFunction name fnTy).2 := by
  obtain ⟨hctx, hg, hpa, hn, D, hA, hB, hD⟩ := h
  obtain ⟨cA, fA, gA, pA, nA⟩ := A
  obtain ⟨cB, fB, gB, pB, nB⟩ := B
  simp only at hctx hg hpa hn hA hB
  subst hctx hg hpa hn hA hB
  unfold Module.getOrInsertFunction
  simp only
  rcases find_agree name D FA FB hF with ⟨h1, h2⟩ | ⟨f, g, h1, h2, hid, hty⟩
  · rw [h1, h2]
    simp only
    by_cases hgl : name ∈ gB
    · simp only [hgl, if_true]
      exact ⟨trivial, rfl, rfl, rfl, rfl, D, rfl, rfl, hD⟩
    · simp only [hgl, if_false, true_and]
      refine ⟨rfl, rfl, rfl, rfl, _, List.append_assoc _ _ _, List.append_assoc _ _ _, ?_⟩
      intro d hd
      rcases List.mem_append.mp hd with hd | hd
      · exact hD d hd
      · rw [List.mem_singleton.mp hd]
  · rw [h1, h2]
    simp only [hty, hid]
    by_cases ht : f.ty = fnTy
    · simp only [ht, if_true]
      exact ⟨trivial, rfl, rfl, rfl, rfl, D, rfl, rfl, hD⟩
    · simp only [ht, if_false]
      exact ⟨trivial, rfl, rfl, rfl, rfl, D, rfl, rfl, hD⟩

theorem loopsAgree_nextId {FA FB : List Function} {A B : Module} (h : LoopsAgree FA FB A B)
    (n : Nat) :
    LoopsAgree FA FB { A with nextId := n } { B with nextId := n } := by
  obtain ⟨hctx, hg, hpa, _, D, hA, hB, hD⟩ := h
  exact ⟨hctx, hg, hpa, rfl, D, hA, hB, hD⟩

/-- A round of a rewrite loop does the same to the body, and appends the
    same declaration, in two modules that agree. -/
theorem rewriteSite_agree {FA FB : List Function}
    (hF : List.Forall₂ DiffersInOptimizeNone FA FB) (fakeptr_t int32arg_t : Ty)
    (sa sb : RewriteState) (site : Inst) (addr : Value) (acc : Access)
    (hM : LoopsAgree FA FB sa.M sb.M) (hb : sb.body = sa.body) :
    ResultRel (fun x y => LoopsAgree FA FB x.M y.M ∧ y.body = x.body)
      (rewriteSite fakeptr_t int32arg_t sa site addr acc)
      (rewriteSite fakeptr_t int32arg_t sb site addr acc) := by
  obtain ⟨MA, body⟩ := sa
  obtain ⟨MB, bodyB⟩ := sb
  simp only at hb hM
  subst hb
  have hn : MB.nextId = MA.nextId := hM.2.2.2.1
  unfold rewriteSite
  simp only [hn]
  cases h1 : resolveSite bodyB addr with
  | error e => exact rfl
  | ok s =>
    simp only [bind, Except.bind]
    cases hk : s.field_index with
    | none => exact ⟨hM, rfl⟩
    | some k =>
      simp only
      cases h2 : newHandleLoad fakeptr_t int32arg_t bodyB s.prev_load_inst MA.nextId with
      | error e => exact rfl
      | ok hl =>
        simp only
        cases h3 : accessorType int32arg_t bodyB site acc with
        | error e => exact rfl
        | ok fnTy =>
          simp only
          have key := getOrInsertFunction_agree hF (loopsAgree_nextId hM (MA.nextId + 3))
            (accessorName k s.struct_name acc) fnTy
          rw [key.1]
          cases h4 : commitSite site.id s.gep_inst.id hl.prev_load_inst.id hl.new_gep_inst
              hl.new_load_inst
              { id := MA.nextId + 2, ty := fnTy.ret,
                op := Op.call fnTy
                  (({ MA with nextId := MA.nextId + 3 } : Module).getOrInsertFunction
                    (accessorName k s.struct_name acc) fnTy).1
                  (accessorArgs hl.new_load_inst acc) } bodyB with
          | error e => exact rfl
          | ok b => exact ⟨key.2, rfl⟩

theorem rewriteStore_agree {FA FB : List Function}
    (hF : List.Forall₂ DiffersInOptimizeNone FA FB) (fakeptr_t int32arg_t : Ty)
    (sa sb : RewriteState) (x : Nat)
    (h : LoopsAgree FA FB sa.M sb.M ∧ sb.body = sa.body) :
    ResultRel (fun x y => LoopsAgree FA FB x.M y.M ∧ y.body = x.body)
      (rewriteStore fakeptr_t int32arg_t sa x) (rewriteStore fakeptr_t int32arg_t sb x) := by
  unfold rewriteStore
  rw [h.2]
  cases hf : findInst sa.body x with
  | none => exact rfl
  | some I =>
    simp only
    cases hop : I.op with
    | store val addr vol al => exact rewriteSite_agree hF _ _ sa sb I addr _ h.1 h.2
    | alloca _ _ _ => exact rfl
    | load _ _ _ => exact rfl
    | gep _ _ _ _ => exact rfl
    | call _ _ _ => exact rfl
    | other _ _ => exact rfl

theorem forall2_differs_append {l1 l2 l3 l4 : List Function}
    (h1 : List.Forall₂ DiffersInOptimizeNone l1 l2)
    (h2 : List.Forall₂ DiffersInOptimizeNone l3 l4) :
    List.Forall₂ DiffersInOptimizeNone (l1 ++ l3) (l2 ++ l4) := by
  induction h1 with
  | nil => exact h2
  | cons hab _ ih => exact List.Forall₂.cons hab ih

/-- The part of a round that works on the moved body gives the same body,
    and appends the same declarations, in the two variants when the
    collection loop queues no load. -/
theorem rewriteBody_agree {FA FB : List Function}
    (hF : List.Forall₂ DiffersInOptimizeNone FA FB) (fakeptr_t int32arg_t : Ty)
    (A B : Module) (newFn : Nat) (changedArgs : List Nat) (body : List Inst)
    (hM : LoopsAgree FA FB A B)
    (hq : ∀ st u q,
      fixPrologue fakeptr_t int32arg_t newFn { nextId := B.nextId, body := body } changedArgs
        = Except.ok st →
      getFirstNonAllocaInst st.body = Except.ok u →
      collectQueues struct_names (Ty.ptr fakeptr_t 0) st.body = Except.ok q →
      q.queued_loadinsts = []) :
    ResultRel (fun x y => LoopsAgree FA FB x.M y.M ∧ y.body = x.body)
      (OutOfTree.rewriteBody fakeptr_t int32arg_t A newFn changedArgs body)
      (rewriteBody fakeptr_t int32arg_t B newFn changedArgs body) := by
  have hn : B.nextId = A.nextId := hM.2.2.2.1
  unfold OutOfTree.rewriteBody rewriteBody
  have e : OutOfTree.fixPrologue = fixPrologue := rfl
  rw [e]
  rw [hn] at hq ⊢
  cases h1 : fixPrologue fakeptr_t int32arg_t newFn { nextId := A.nextId, body := body }
      changedArgs with
  | error e => exact rfl
  | ok st =>
    simp only [bind, Except.bind]
    cases h2 : getFirstNonAllocaInst st.body with
    | error e => exact rfl
    | ok u =>
      simp only
      cases h3 : collectQueues struct_names (Ty.ptr fakeptr_t 0) st.body with
      | error e => exact rfl
      | ok q =>
        simp only
        rw [hq st u q h1 h2 h3]
        exact resultRel_foldlM (fun a b c h => rewriteStore_agree hF fakeptr_t int32arg_t a b c h)
          _ _ _ ⟨loopsAgree_nextId hM st.nextId, rfl⟩

theorem length_take_of_getElem? {α : Type} {l : List α} {pos : Nat} {x : α}
    (h : l[pos]? = some x) : (l.take pos).length = pos := by
  have := (List.getElem?_eq_some.mp h).1
  simp only [List.length_take]
  omega

/-- One round of the driver loop in the two variants, on modules that agree
    and have the same function `F` under the cursor, when the round queues no
    load: the same fault, or the same flag and function lists of the same
    shape, with the same declarations appended and with functions at the
    cursor that differ at most in `optnone`. -/
theorem visit_agree (fakeptr_t : Ty) (A B : Module) (pos : Nat) (F : Function)
    (hM : ModulesAgree A B) (hA : A.functions[pos]? = some F) (hB : B.functions[pos]? = some F)
    (hq : noLoadQueuedIn fakeptr_t B F = true) :
    ResultRel (fun ra rb => rb.1 = ra.1 ∧ rb.2.ctx = ra.2.ctx ∧ rb.2.globals = ra.2.globals ∧
        rb.2.programAddrSpace = ra.2.programAddrSpace ∧ rb.2.nextId = ra.2.nextId ∧
        ∃ XA XB D,
          ra.2.functions = A.functions.take pos ++ XA :: (A.functions.drop (pos + 1) ++ D) ∧
          rb.2.functions = B.functions.take pos ++ XB :: (B.functions.drop (pos + 1) ++ D) ∧
          DiffersInOptimizeNone XA XB ∧ (F.needsRewrite = false → XA = F ∧ XB = F) ∧
          ∀ d ∈ D, d.body = [])
      (OutOfTree.visitFunction fakeptr_t A pos F) (visitFunction fakeptr_t B pos F) := by
  obtain ⟨hctx, hg, hpa, hn, hR⟩ := hM
  have eA := eq_take_cons_drop _ _ _ hA
  have eB := eq_take_cons_drop _ _ _ hB
  have skip : ResultRel (fun ra rb => rb.1 = ra.1 ∧ rb.2.ctx = ra.2.ctx ∧
        rb.2.globals = ra.2.globals ∧
        rb.2.programAddrSpace = ra.2.programAddrSpace ∧ rb.2.nextId = ra.2.nextId ∧
        ∃ XA XB D,
          ra.2.functions = A.functions.take pos ++ XA :: (A.functions.drop (pos + 1) ++ D) ∧
          rb.2.functions = B.functions.take pos ++ XB :: (B.functions.drop (pos + 1) ++ D) ∧
          DiffersInOptimizeNone XA XB ∧ (F.needsRewrite = false → XA = F ∧ XB = F) ∧
          ∀ d ∈ D, d.body = [])
      (Except.ok (false, A)) (Except.ok (false, B)) := by
    refine ⟨rfl, hctx, hg, hpa, hn, F, F, [], ?_, ?_, differs_refl F, fun _ => ⟨rfl, rfl⟩, ?_⟩
    · simpa using eA
    · simpa using eB
    · intro d hd; cases hd
  unfold OutOfTree.visitFunction visitFunction
  by_cases hc : F.getInstructionCount = 0
  · simp only [hc, if_true]
    exact skip
  · simp only [hc, if_false]
    by_cases hp : F.ty.params.any isProtectedPtr = false
    · have ht := (newFunTy_eq_iff F.ty F.attrs).mpr hp
      simp only [ht, if_true]
      exact skip
    · have ht := (newFunTy_eq_iff F.ty F.attrs).not.mpr hp
      simp only [ht, if_false]
      have e : OutOfTree.replaceAllArgs = replaceAllArgs := rfl
      rw [e, hn]
      have hlen := length_take_of_getElem? hA
      have hlenB := length_take_of_getElem? hB
      refine resultRel_bind
        (rewriteBody_agree
          (forall2_differs_append (List.forall₂_take pos hR)
            (List.Forall₂.cons (differs_refl _)
              (List.Forall₂.cons (differs_refl _) (List.forall₂_drop (pos + 1) hR))))
          fakeptr_t (Ty.int 32) _ _ A.nextId _ _
          ⟨hctx, hg, hpa, rfl, [], (List.append_nil _).symm, (List.append_nil _).symm,
            fun d hd => by cases hd⟩ ?_) ?_
      · intro st u q h1 h2 h3
        unfold noLoadQueuedIn queuedLoads at hq
        simp only [hc, ht, if_false, hn] at hq
        simp only [h1, h2, h3, bind, Except.bind, pure, Except.pure] at hq
        cases hl : q.queued_loadinsts with
        | nil => rfl
        | cons a rest => rw [hl] at hq; cases hq
      · intro x y hxy
        obtain ⟨⟨h1, h2, h3, h4, D, h5, h6, h7⟩, hb⟩ := hxy
        refine ⟨rfl, h1, h2, h3, h4, ?_, ?_, D, ?_, ?_, ?_, ?_, h7⟩
        rotate_left 2
        · simp only [h5]
          exact take_drop_splice _ _ _ _ _ _ pos hlen
        · simp only [h6]
          exact take_drop_splice _ _ _ _ _ _ pos hlenB
        · right
          rw [hb]
        · intro hnr
          rcases (needsRewrite_false_iff F).mp hnr with h | h
          · exact absurd h hc
          · exact absurd h hp

/-- The driver loops of the two variants, started from states that agree,
    stay in agreement as long as no round queues a load; the out-of-tree loop
    keeps every function behind its cursor and every function that needs no
    rewriting. -/
theorem driver_agree (fakeptr_t : Ty) :
    ∀ (n : Nat) (a b : DriverState), DriversAgree a b →
      noLoadQueuedFrom fakeptr_t n b = true →
      ResultRel (fun a' b' => DriversAgree a' b' ∧
          ∀ i F, a.M.functions[i]? = some F → (i < a.pos ∨ F.needsRewrite = false) →
            a'.M.functions[i]? = some F)
        (OutOfTree.driverRounds fakeptr_t n a) (driverRounds fakeptr_t n b) := by
  intro n
  induction n with
  | zero =>
    intro a b h _
    exact ⟨h, fun i F hi _ => hi⟩
  | succ n ih =>
    intro a b h hq
    obtain ⟨ac, aM, ap⟩ := a
    obtain ⟨bc, bM, bp⟩ := b
    obtain ⟨hpos, hch, hM, hdrop⟩ := h
    simp only at hpos hch hM hdrop
    subst hpos hch
    have hget : aM.functions[bp]? = bM.functions[bp]? := by
      have := congrArg (fun l => l[0]?) hdrop
      simpa [List.getElem?_drop] using this
    unfold OutOfTree.driverRounds driverRounds
    unfold noLoadQueuedFrom at hq
    simp only [List.get?_eq_getElem?] at hq ⊢
    rw [hget]
    cases hB : bM.functions[bp]? with
    | none => exact ⟨⟨rfl, rfl, hM, hdrop⟩, fun i F hi _ => hi⟩
    | some F =>
      simp only
      have hA : aM.functions[bp]? = some F := by rw [hget, hB]
      rw [hB] at hq
      simp only [Bool.and_eq_true] at hq
      obtain ⟨hq1, hq2⟩ := hq
      have hv := visit_agree fakeptr_t aM bM bp F hM hA hB hq1
      have hlt : bp < aM.functions.length := (List.getElem?_eq_some.mp hA).1
      have hltB : bp < bM.functions.length := (List.getElem?_eq_some.mp hB).1
      cases hva : OutOfTree.visitFunction fakeptr_t aM bp F with
      | error e =>
        cases hvb : visitFunction fakeptr_t bM bp F with
        | error e' => rw [hva, hvb] at hv; exact hv
        | ok rb => rw [hva, hvb] at hv; exact hv.elim
      | ok ra =>
        cases hvb : visitFunction fakeptr_t bM bp F with
        | error e' => rw [hva, hvb] at hv; exact hv.elim
        | ok rb =>
          rw [hva, hvb] at hv
          rw [hvb] at hq2
          simp only at hq2
          obtain ⟨h1, hctx, hg, hpa, hn, XA, XB, D, hfa, hfb, hX, hnr, hD⟩ := hv
          have hR := hM.2.2.2.2
          have hagree : DriversAgree
              { isChanged := bc || ra.1, M := ra.2, pos := bp + 1 }
              { isChanged := bc || rb.1, M := rb.2, pos := bp + 1 } := by
            refine ⟨rfl, by rw [h1], ⟨hctx, hg, hpa, hn, ?_⟩, ?_⟩
            · rw [hfa, hfb]
              exact forall2_differs_append (List.forall₂_take bp hR)
                (List.Forall₂.cons hX
                  (forall2_differs_append (List.forall₂_drop (bp + 1) hR)
                    (forall2_differs_refl D)))
            · simp only
              rw [hfa, hfb, drop_splice _ _ _ _ (Nat.le_of_lt hlt),
                drop_splice _ _ _ _ (Nat.le_of_lt hltB)]
              have := congrArg (List.drop 1) hdrop
              simp only [List.drop_drop] at this
              rw [this]
          refine resultRel_mono (ih _ _ hagree hq2) ?_
          intro a' b' hab
          refine ⟨hab.1, ?_⟩
          intro i G hi hor
          apply hab.2 i G
          · simp only
            rw [hfa]
            rcases Nat.lt_trichotomy i bp with hlt1 | heq | hgt
            · rw [getElem?_splice_lt _ _ _ _ _ (Nat.le_of_lt hlt) hlt1]
              exact hi
            · subst heq
              rw [getElem?_splice_eq _ _ _ _ (Nat.le_of_lt hlt)]
              have hGF : G = F := by
                rw [hA] at hi
                injection hi with hi
                exact hi.symm
              rcases hor with h | h
              · omega
              · rw [hGF] at h ⊢
                rw [(hnr h).1]
            · rw [getElem?_splice_gt _ _ _ _ _ (Nat.le_of_lt hlt) hgt
                (List.getElem?_eq_some.mp hi).1]
              exact hi
          · simp only
            rcases hor with h | h
            · left; omega
            · right; exact h

theorem noLoadQueuedIn_skip (fakeptr_t : Ty) (M : Module) (F : Function)
    (h : F.needsRewrite = false) : noLoadQueuedIn fakeptr_t M F = true := by
  unfold noLoadQueuedIn queuedLoads
  rcases (needsRewrite_false_iff F).mp h with hc | hp
  · simp only [hc, if_true]
    rfl
  · have ht := (newFunTy_eq_iff F.ty F.attrs).mpr hp
    simp only [ht, if_true, ite_self]
    rfl

/-- Rounds that only meet functions that need no rewriting queue no load. -/
theorem noLoadQueuedFrom_skip (fakeptr_t : Ty) :
    ∀ (n : Nat) (s : DriverState),
      (∀ (i : Nat) (F : Function), s.M.functions[i]? = some F → s.pos ≤ i →
        F.needsRewrite = false) →
      noLoadQueuedFrom fakeptr_t n s = true := by
  intro n
  induction n with
  | zero => intro s _; rfl
  | succ n ih =>
    intro s h
    unfold noLoadQueuedFrom
    simp only [List.get?_eq_getElem?]
    cases hF : s.M.functions[s.pos]? with
    | none => rfl
    | some F =>
      have hnr := h s.pos F hF (Nat.le_refl _)
      simp only [noLoadQueuedIn_skip fakeptr_t s.M F hnr, Bool.true_and,
        visitFunction_skip fakeptr_t s.M s.pos F ((needsRewrite_false_iff F).mp hnr)]
      apply ih
      intro i G hG hi
      exact h i G hG (by simp only at hi; omega)

/-- The two variants of `runOnModule` on a module in which no load is
    queued. -/
theorem variants_agree (M : Module) (h : M.noLoadQueued = true) :
    SameUpToOptimizeNone (OutOfTree.runOnModule M) (runOnModule M) ∧
    ∀ (b : Bool) (M' : Module), OutOfTree.runOnModule M = Except.ok (b, M') →
      ∀ (i : Nat) (F : Function), M.functions[i]? = some F → F.needsRewrite = false →
        M'.functions[i]? = some F := by
  unfold Module.noLoadQueued at h
  have h1 := driver_agree (getFakePtrType M.ctx).1 M.functions.length _ _
    ⟨rfl, rfl, ⟨rfl, rfl, rfl, rfl, forall2_differs_refl _⟩, rfl⟩ h
  unfold SameUpToOptimizeNone OutOfTree.runOnModule runOnModule
  simp only
  cases hA1 : OutOfTree.driverRounds (getFakePtrType M.ctx).1 M.functions.length
      { isChanged := false, M := { M with ctx := (getFakePtrType M.ctx).2 }, pos := 0 } with
  | error e =>
    cases hB1 : driverRounds (getFakePtrType M.ctx).1 M.functions.length
        { isChanged := false, M := { M with ctx := (getFakePtrType M.ctx).2 }, pos := 0 } with
    | error e' =>
      rw [hA1, hB1] at h1
      exact ⟨h1, fun b M' hh => by cases hh⟩
    | ok b1 => rw [hA1, hB1] at h1; exact h1.elim
  | ok a1 =>
    cases hB1 : driverRounds (getFakePtrType M.ctx).1 M.functions.length
        { isChanged := false, M := { M with ctx := (getFakePtrType M.ctx).2 }, pos := 0 } with
    | error e' => rw [hA1, hB1] at h1; exact h1.elim
    | ok b1 =>
      rw [hA1, hB1] at h1
      obtain ⟨hag1, keep1⟩ := h1
      simp only at keep1
      obtain ⟨_, _, _, _, hend, _, _, _, _, hdecl, _⟩ :=
        driverRounds_spec _ _ _ _ hB1
      simp only at hend hdecl
      have hskip : ∀ (i : Nat) (F : Function), b1.M.functions[i]? = some F → b1.pos ≤ i →
          F.needsRewrite = false := by
        intro i F hF hi
        rcases hend with he | he
        · exact needsRewrite_of_body_nil (hdecl i F hF (by omega))
        · have := (List.getElem?_eq_some.mp hF).1
          omega
      have hlen1 : a1.M.functions.length = b1.M.functions.length :=
        hag1.2.2.1.2.2.2.2.length_eq
      have hpos1 : b1.pos = a1.pos := hag1.1
      have h2 := driver_agree (getFakePtrType M.ctx).1 (b1.M.functions.length - b1.pos) a1 b1
        hag1 (noLoadQueuedFrom_skip _ _ b1 hskip)
      simp only [bind, Except.bind]
      rw [hlen1, ← hpos1]
      cases hA2 : OutOfTree.driverRounds (getFakePtrType M.ctx).1
          (b1.M.functions.length - b1.pos) a1 with
      | error e =>
        cases hB2 : driverRounds (getFakePtrType M.ctx).1
            (b1.M.functions.length - b1.pos) b1 with
        | error e' =>
          rw [hA2, hB2] at h2
          exact ⟨h2, fun b M' hh => by cases hh⟩
        | ok b2 => rw [hA2, hB2] at h2; exact h2.elim
      | ok a2 =>
        cases hB2 : driverRounds (getFakePtrType M.ctx).1
            (b1.M.functions.length - b1.pos) b1 with
        | error e' => rw [hA2, hB2] at h2; exact h2.elim
        | ok b2 =>
          rw [hA2, hB2] at h2
          obtain ⟨hag2, keep2⟩ := h2
          have hlen2 : a2.M.functions.length = b2.M.functions.length :=
            hag2.2.2.1.2.2.2.2.length_eq
          have hpos2 : b2.pos = a2.pos := hag2.1
          simp only
          rw [hlen2, ← hpos2]
          by_cases hlt : b2.pos < b2.M.functions.length
          · simp only [hlt, if_true]
            exact ⟨rfl, fun b M' hh => by cases hh⟩
          · simp only [hlt, if_false]
            refine ⟨⟨hag2.2.1, hag2.2.2.1⟩, ?_⟩
            intro b M' hh i F hi hnr
            injection hh with hh
            injection hh with _ hh
            subst hh
            exact keep2 i F (keep1 i F hi (Or.inr hnr)) (Or.inr hnr)

theorem fieldIndex_some {B : List Inst} {gptr : Value} {idxs : List Value} {k : Int}
    (h : fieldIndex B gptr idxs = Except.ok (some k)) :
    ∃ bits val, trailingIndex gptr idxs = Value.constInt bits val ∧ k = fieldIndexOf bits val := by
  unfold fieldIndex at h
  cases ht : trailingIndex gptr idxs with
  | constInt bits val =>
    rw [ht] at h
    have := pure_ok h
    injection this with this
    exact ⟨bits, val, rfl, this.symm⟩
  | inst id =>
    rw [ht] at h
    simp only at h
    cases hf : findInst B id with
    | none => rw [hf] at h; exact (throw_ne_ok h).elim
    | some J =>
      rw [hf] at h
      have := pure_ok h
      cases this
  | arg _ _ _ => rw [ht] at h; have := pure_ok h; cases this
  | const _ _ => rw [ht] at h; have := pure_ok h; cases this

/-- A successful round of the in-tree loop over the queued loads, for a load
    `I` of a well-formed body: the address of the load is a GEP; when the
    trailing index of the GEP is no constant integer the state is the one the
    round was given (the load stays), and when it is the constant `k` the
    load is gone and the call of `get_field_<k>_in_<S>_ffi` on the new 32-bit
    load is in the body. -/
theorem rewriteLoad_replaces (fakeptr_t : Ty) (st st' : RewriteState) (I : Inst) (addr : Value)
    (vol : Bool) (al : Nat) (hwf : BodyWF st.M.nextId st.body) (hI : I ∈ st.body)
    (hop : I.op = Op.load addr vol al)
    (h : rewriteLoad fakeptr_t (Ty.int 32) st I.id = Except.ok st') :
    ∃ g G srcTy gptr idxs ib, addr = Value.inst g ∧ findInst st.body g = some G ∧
      G.op = Op.gep srcTy gptr idxs ib ∧
      ((isConstInt (trailingIndex gptr idxs) = false ∧ st' = st) ∨
       (∃ bits val S, trailingIndex gptr idxs = Value.constInt bits val ∧
          findInst st'.body I.id = none ∧
          ({ id := st.M.nextId + 2, ty := I.ty,
             op := Op.call { ret := I.ty, params := [Ty.int 32], varArg := false }
               (({ st.M with nextId := st.M.nextId + 3 } : Module).getOrInsertFunction
                 ("get_field_" ++ toString (fieldIndexOf bits val) ++ "_in_" ++ S ++ "_ffi")
                 { ret := I.ty, params := [Ty.int 32], varArg := false }).1
               [Value.inst (st.M.nextId + 1)] } : Inst) ∈ st'.body)) := by
  rw [rewriteLoad_eq_site fakeptr_t st I addr vol al hwf hI hop] at h
  rcases rewriteSite_inv _ _ _ _ _ _ _ h with ⟨s, hs, hk, heq⟩ | ⟨s, k, hl, fnTy, hs, hk, hh, ha, hc, _⟩
  · obtain ⟨g, srcTy, gptr, idxs, ib, hg, hG, hGop, _, hfi⟩ := resolveSite_inv hs
    rw [hk] at hfi
    exact ⟨g, s.gep_inst, srcTy, gptr, idxs, ib, hg, hG, hGop,
      Or.inl ⟨fieldIndex_none hfi, heq⟩⟩
  · obtain ⟨g, srcTy, gptr, idxs, ib, hg, hG, hGop, hprev, hfi⟩ := resolveSite_inv hs
    rw [hk] at hfi
    obtain ⟨bits, val, htr, hkv⟩ := fieldIndex_some hfi
    obtain ⟨L, lptr, a, hpL, _, _, hhl⟩ := newHandleLoad_inv hh
    rw [hpL] at hprev
    obtain ⟨l, _, hL, _⟩ := dynCastInst_some hprev
    have hfn : fnTy = { ret := I.ty, params := [Ty.int 32], varArg := false } := by
      have := pure_ok ha
      exact this.symm
    subst hfn
    subst hhl
    simp only at hc
    have hIlt : I.id < st.M.nextId := hwf.2.1 I hI
    have hGlt : s.gep_inst.id < st.M.nextId := hwf.2.1 _ (findInst_some hG).1
    have hLlt : L.id < st.M.nextId := hwf.2.1 _ (findInst_some hL).1
    refine ⟨g, s.gep_inst, srcTy, gptr, idxs, ib, hg, hG, hGop,
      Or.inr ⟨bits, val, s.struct_name, htr, ?_, ?_⟩⟩
    · rw [findInst_none]
      intro K hK
      rcases mem_commitSite hc K hK with e | e | e | ⟨J, _, e, hJ⟩
      · rw [e, mapOperands_id]; simp only; omega
      · rw [e, mapOperands_id]; simp only; omega
      · rw [e, mapOperands_id]; simp only; omega
      · rw [e, mapOperands_id]; exact hJ
    · have hm := call_mem_commitSite hc hI rfl (by simp only; omega) (by simp only; omega)
        (by simp only; omega)
      have hcal : ∀ (c : Callee), c.operands = [] →
          c.mapOperands (redirect I.id (st.M.nextId + 2)) = c := by
        intro c hc0
        cases c with
        | value v => simp [Callee.operands] at hc0
        | func _ => rfl
        | castFunc _ _ => rfl
        | castGlobal _ _ => rfl
      have hr : redirect I.id (st.M.nextId + 2) (Value.inst (st.M.nextId + 1)) =
          Value.inst (st.M.nextId + 1) := by
        apply redirect_self_of_ne
        intro e
        injection e with e
        omega
      simp only [Inst.mapOperands, Op.mapOperands, accessorArgs, List.map_cons, List.map_nil,
        hr, hcal _ (getOrInsertFunction_operands _ _ _)] at hm
      rw [hkv] at hm
      exact hm

theorem gep_op_of_isGep {G : Inst} {p : Value} (hg : isGep G = true)
    (hp : G.pointerOperand = some p) : ∃ srcTy idxs ib, G.op = Op.gep srcTy p idxs ib := by
  unfold isGep at hg
  unfold Inst.pointerOperand at hp
  cases hop : G.op with
  | gep srcTy gptr idxs ib =>
    rw [hop] at hp
    injection hp with hp
    subst hp
    exact ⟨srcTy, idxs, ib, rfl⟩
  | alloca _ _ _ => rw [hop] at hg; cases hg
  | load _ _ _ => rw [hop] at hg; cases hg
  | store _ _ _ _ => rw [hop] at hg; cases hg
  | call _ _ _ => rw [hop] at hg; cases hg
  | other _ _ => rw [hop] at hg; cases hg

theorem load_op_of_isLoad {L : Inst} {p : Value} (hl : isLoad L = true)
    (hp : L.pointerOperand = some p) : ∃ vol al, L.op = Op.load p vol al := by
  unfold isLoad at hl
  unfold Inst.pointerOperand at hp
  cases hop : L.op with
  | load q vol al =>
    rw [hop] at hp
    injection hp with hp
    subst hp
    exact ⟨vol, al, rfl⟩
  | alloca _ _ _ => rw [hop] at hl; cases hl
  | gep _ _ _ _ => rw [hop] at hl; cases hl
  | store _ _ _ _ => rw [hop] at hl; cases hl
  | call _ _ _ => rw [hop] at hl; cases hl
  | other _ _ => rw [hop] at hl; cases hl

/-- The in-tree round for a load that the collection loop queued, from the
    state the queues were collected in: the round returns the state it was
    given when the trailing index of the GEP is no constant integer, and
    returns a state without the load and with the call of the getter when the
    index is a constant. -/
theorem queuedLoad_round (fakeptr_t : Ty) (st : RewriteState) (q : Queues) (x : Nat)
    (hwf : BodyWF st.M.nextId st.body)
    (hq : collectQueues struct_names (Ty.ptr fakeptr_t 0) st.body = Except.ok q)
    (hx : x ∈ q.queued_loadinsts) :
    ∃ I G g l srcTy idxs ib vol al, I ∈ st.body ∧ I.id = x ∧
      I.op = Op.load (Value.inst g) vol al ∧ findInst st.body g = some G ∧
      G.op = Op.gep srcTy (Value.inst l) idxs ib ∧
      (isConstInt (trailingIndex (Value.inst l) idxs) = false →
        (∀ id, trailingIndex (Value.inst l) idxs = Value.inst id →
          (findInst st.body id).isSome = true) →
        rewriteLoad fakeptr_t (Ty.int 32) st x = Except.ok st) ∧
      (∀ bits val, trailingIndex (Value.inst l) idxs = Value.constInt bits val → l ≠ x →
        ∃ st' S, rewriteLoad fakeptr_t (Ty.int 32) st x = Except.ok st' ∧
          findInst st'.body x = none ∧
          ({ id := st.M.nextId + 2, ty := I.ty,
             op := Op.call { ret := I.ty, params := [Ty.int 32], varArg := false }
               (({ st.M with nextId := st.M.nextId + 3 } : Module).getOrInsertFunction
                 ("get_field_" ++ toString (fieldIndexOf bits val) ++ "_in_" ++ S ++ "_ffi")
                 { ret := I.ty, params := [Ty.int 32], varArg := false }).1
               [Value.inst (st.M.nextId + 1)] } : Inst) ∈ st'.body) := by
  obtain ⟨I, hI, hid, addr, vol, al, hop, hs⟩ := collectQueues_loads _ _ _ _ hq x hx
  obtain ⟨g, l, G, L, lptr, ha, hG, hGg, hGp, hL, hLl, hLp, hH⟩ := isAccessSite_true_inv hs
  subst ha
  obtain ⟨srcTy, idxs, ib, hGop⟩ := gep_op_of_isGep hGg hGp
  obtain ⟨lv, la, hLop⟩ := load_op_of_isLoad hLl hLp
  have hfI : findInst st.body x = some I := by
    rw [← hid]; exact findInst_of_mem hwf.1 hI
  refine ⟨I, G, g, l, srcTy, idxs, ib, vol, al, hI, hid, hop, hG, hGop, ?_, ?_⟩
  · intro hc hlive
    have hprev := dynCastInst_of_find hL hLl
    obtain ⟨t, ht⟩ := typeOf_of_dynCast hprev
    have : rewriteSite fakeptr_t (Ty.int 32) st I (Value.inst g) Access.read = Except.ok st := by
      unfold rewriteSite resolveSite
      rw [dynCastInst_of_find hG hGg]
      simp only [bind, Except.bind, hGop, hprev, fieldIndex_of_not_const hc hlive, ht, pure,
        Except.pure]
    rw [← hid, rewriteLoad_eq_site fakeptr_t st I _ vol al hwf hI hop]
    exact this
  · intro bits val hk hne
    obtain ⟨pre, post, hbody⟩ := List.append_of_mem hI
    have hgne : g ≠ I.id := by
      intro e
      rw [e, findInst_of_mem hwf.1 hI] at hG
      injection hG with hG
      rw [← hG, hop] at hGop
      cases hGop
    have hfw := rewriteSite_forward fakeptr_t st I G L pre post g l srcTy idxs ib bits val lptr
      lv la 0 Access.read { ret := I.ty, params := [Ty.int 32], varArg := false } hbody hwf hG
      hGop hk hL hLop (by rw [hid]; exact hne) hgne hH rfl
    have hrl := rewriteLoad_eq_site fakeptr_t st I _ vol al hwf hI hop
    rw [hid] at hrl
    rw [← hrl] at hfw
    obtain ⟨g', G', srcTy', gptr', idxs', ib', hg', hG', hGop', hcases⟩ :=
      rewriteLoad_replaces fakeptr_t st _ I (Value.inst g) vol al hwf hI hop
        (by rw [hid]; exact hfw)
    injection hg' with hg'
    subst hg'
    rw [hG] at hG'
    injection hG' with hG'
    subst hG'
    rw [hGop] at hGop'
    injection hGop' with _ e2 e3 _
    subst e2 e3
    rcases hcases with ⟨hnc, _⟩ | ⟨bits', val', S, hk', hnone, hcall⟩
    · rw [hk] at hnc
      cases hnc
    · rw [hk] at hk'
      injection hk' with e4 e5
      subst e4 e5
      rw [hid] at hnone
      exact ⟨_, S, hfw, hnone, hcall⟩

/-- C22 as stated fails in its second half: a queued field read is not
    always replaced by the in-tree variant. In `elem_plus_x` the loads
    numbered 8 and 11 are queued; the GEP of the load numbered 8 has the
    trailing index `%n`, so the in-tree round skips it: after the in-tree pass
    the load numbered 8 is in the body as it was and the only call of the
    function is the getter that replaced the load numbered 11. The
    out-of-tree variant keeps both loads. In `sum_xy`, whose two queued reads
    share their inner load, the in-tree variant ends in the fault `dangling`
    while the out-of-tree variant returns. -/
theorem C22_queued_read_kept_in_tree :
    ModuleWF elemModule ∧
    (fixPrologue (Ty.struct "FakePtr") (Ty.int 32) 200
        { nextId := 201,
          body := replaceAllArgs 100 200 [Ty.int 32, Ty.int 64] elemFunction.body } [0] >>=
      fun bs => collectQueues struct_names (Ty.ptr (Ty.struct "FakePtr") 0) bs.body) =
      Except.ok { queued_loadinsts := [8, 11], queued_storeinsts := [] } ∧
    elemLoad.id = 8 ∧
    runOnModule elemModule = Except.ok (true, elemResult) ∧
    elemResult.functions = [elemRewritten, getField0Decl 207] ∧
    elemLoad ∈ elemRewritten.body ∧
    elemRewritten.body.filter isCall = [elemCall] ∧
    OutOfTree.runOnModule elemModule = Except.ok (true, elemOutOfTree) ∧
    (∀ f ∈ elemOutOfTree.functions, elemLoad ∈ f.body ∧ f.body.filter isCall = []) ∧
    ModuleWF sumXYModule ∧
    runOnModule sumXYModule = Except.error Fault.dangling ∧
    (OutOfTree.runOnModule sumXYModule).toBool = true := by
  refine ⟨by decide, by rfl, rfl, by rfl, rfl, by decide, by decide, by rfl, by decide,
    by decide, by rfl, by rfl⟩

/-- C22 (amended). For a module in which no round of the driver loop queues
    a load, the out-of-tree and the in-tree variant of `runOnModule` end in
    the same fault or return the same flag and modules with the same context,
    globals and counter whose function lists agree function by function: a
    function of the in-tree result is the function of the out-of-tree result
    or that function without `optnone` (so names, signatures and instruction
    lists are the same), and both variants keep every function that needs no
    rewriting. For a state of the rewrite loops with a queued load `x`, the
    out-of-tree loop over the queued loads returns the state it was given
    (every queued read stays in place); the in-tree round for `x` returns the
    state it was given when the trailing index of the GEP of `x` is no
    constant integer (and names a live instruction if it names one), and when
    the index is a constant `k` (and the inner load is not `x`) it returns a
    state in which `x` is gone and the call of `get_field_<k>_in_<S>_ffi` on
    the new 32-bit load is in the body. -/
theorem C22_variants_compared (M : Module) (fakeptr_t : Ty) (st : RewriteState) (q : Queues)
    (x : Nat) (hno : M.noLoadQueued = true) (hwf : BodyWF st.M.nextId st.body)
    (hq : collectQueues struct_names (Ty.ptr fakeptr_t 0) st.body = Except.ok q)
    (hx : x ∈ q.queued_loadinsts) :
    (SameUpToOptimizeNone (OutOfTree.runOnModule M) (runOnModule M) ∧
      ∀ (i : Nat) (F : Function), M.functions[i]? = some F → F.needsRewrite = false →
        ∀ (b : Bool) (M' : Module),
          OutOfTree.runOnModule M = Except.ok (b, M') ∨ runOnModule M = Except.ok (b, M') →
          M'.functions[i]? = some F) ∧
    q.queued_loadinsts.foldlM OutOfTree.rewriteLoad st = Except.ok st ∧
    ∃ I G g l srcTy idxs ib vol al, I ∈ st.body ∧ I.id = x ∧
      I.op = Op.load (Value.inst g) vol al ∧ findInst st.body g = some G ∧
      G.op = Op.gep srcTy (Value.inst l) idxs ib ∧
      (isConstInt (trailingIndex (Value.inst l) idxs) = false →
        (∀ id, trailingIndex (Value.inst l) idxs = Value.inst id →
          (findInst st.body id).isSome = true) →
        rewriteLoad fakeptr_t (Ty.int 32) st x = Except.ok st) ∧
      (∀ bits val, trailingIndex (Value.inst l) idxs = Value.constInt bits val → l ≠ x →
        ∃ st' S, rewriteLoad fakeptr_t (Ty.int 32) st x = Except.ok st' ∧
          findInst st'.body x = none ∧
          ({ id := st.M.nextId + 2, ty := I.ty,
             op := Op.call { ret := I.ty, params := [Ty.int 32], varArg := false }
               (({ st.M with nextId := st.M.nextId + 3 } : Module).getOrInsertFunction
                 ("get_field_" ++ toString (fieldIndexOf bits val) ++ "_in_" ++ S ++ "_ffi")
                 { ret := I.ty, params := [Ty.int 32], varArg := false }).1
               [Value.inst (st.M.nextId + 1)] } : Inst) ∈ st'.body) := by
  have ha := variants_agree M hno
  refine ⟨⟨ha.1, ?_⟩, outOfTree_loads_kept _ st q hwf.1 hq,
    queuedLoad_round fakeptr_t st q x hwf hq hx⟩
  intro i F hi hnr b M' hor
  rcases hor with h | h
  · exact ha.2 b M' h i F hi hnr
  · exact (runOnModule_spec M M' b h).2.2.2.2.1 i F hi hnr

theorem C22_variants_compared_witness :
    writeYModule.noLoadQueued = true ∧
    BodyWF readXState.M.nextId readXState.body ∧
    collectQueues struct_names (Ty.ptr (Ty.struct "FakePtr") 0) readXState.body =
      Except.ok { queued_loadinsts := [5], queued_storeinsts := [] } ∧
    OutOfTree.runOnModule readXModule = Except.ok (true, readXOutOfTree) ∧
    (∀ f ∈ readXOutOfTree.functions, readXLoad ∈ f.body ∧ f.body.filter isCall = []) ∧
    runOnModule readXModule = Except.ok (true, readXResult) ∧
    findInst readXRewritten.body 5 = none ∧
    ((SameUpToOptimizeNone (OutOfTree.runOnModule writeYModule) (runOnModule writeYModule) ∧
      ∀ (i : Nat) (F : Function), writeYModule.functions[i]? = some F →
        F.needsRewrite = false →
        ∀ (b : Bool) (M' : Module),
          OutOfTree.runOnModule writeYModule = Except.ok (b, M') ∨
            runOnModule writeYModule = Except.ok (b, M') →
          M'.functions[i]? = some F) ∧
    [5].foldlM OutOfTree.rewriteLoad readXState = Except.ok readXState ∧
    ∃ I G g l srcTy idxs ib vol al, I ∈ readXState.body ∧ I.id = 5 ∧
      I.op = Op.load (Value.inst g) vol al ∧ findInst readXState.body g = some G ∧
      G.op = Op.gep srcTy (Value.inst l) idxs ib ∧
      (isConstInt (trailingIndex (Value.inst l) idxs) = false →
        (∀ id, trailingIndex (Value.inst l) idxs = Value.inst id →
          (findInst readXState.body id).isSome = true) →
        rewriteLoad (Ty.struct "FakePtr") (Ty.int 32) readXState 5 = Except.ok readXState) ∧
      (∀ bits val, trailingIndex (Value.inst l) idxs = Value.constInt bits val → l ≠ 5 →
        ∃ st' S, rewriteLoad (Ty.struct "FakePtr") (Ty.int 32) readXState 5 = Except.ok st' ∧
          findInst st'.body 5 = none ∧
          ({ id := readXState.M.nextId + 2, ty := I.ty,
             op := Op.call { ret := I.ty, params := [Ty.int 32], varArg := false }
               (({ readXState.M with nextId := readXState.M.nextId + 3 } :
                   Module).getOrInsertFunction
                 ("get_field_" ++ toString (fieldIndexOf bits val) ++ "_in_" ++ S ++ "_ffi")
                 { ret := I.ty, params := [Ty.int 32], varArg := false }).1
               [Value.inst (readXState.M.nextId + 1)] } : Inst) ∈ st'.body)) :=
  ⟨by rfl, by decide, by rfl, by rfl, by decide, by rfl, by decide,
    C22_variants_compared writeYModule (Ty.struct "FakePtr") readXState
      { queued_loadinsts := [5], queued_storeinsts := [] } 5 (by rfl) (by decide) (by rfl)
      (by decide)⟩

/-! ## C3: the flag, and the runs that return none -/

/-- C3 fails in the code where a round of the pass runs into undefined
    behaviour: `ignoreModule` holds the function
    `define i32 @ignore(%struct.MyStruct* %p)` with one instruction and a
    protected pointer parameter, and `runOnModule` returns no flag for it but
    ends in the fault `missingReturn` (`getFirstArgStoreInst` has no `return`
    for a parameter that is never stored); `sumXYModule` holds such a function
    too and the pass ends in the fault `dangling`. What holds for every
    module `M`: a flag that `runOnModule` returns is true exactly when the
    module has a function with at least one instruction and a protected
    pointer parameter; when there is none (an empty module, a module with only
    a declaration) the pass does return, the flag is false and the function
    list is the one it was given; when there is one the pass returns true or
    ends in a fault of the C++ code, never for lack of rounds and never with
    the flag false. -/
theorem C3_changed_flag :
    (ignoreFunction ∈ ignoreModule.functions ∧ ignoreFunction.getInstructionCount ≠ 0 ∧
      ignoreFunction.hasProtectedParam = true ∧
      runOnModule ignoreModule = Except.error Fault.missingReturn) ∧
    (sumXYFunction ∈ sumXYModule.functions ∧ sumXYFunction.getInstructionCount ≠ 0 ∧
      sumXYFunction.hasProtectedParam = true ∧
      runOnModule sumXYModule = Except.error Fault.dangling) ∧
    ∀ M : Module,
      (∀ b M', runOnModule M = Except.ok (b, M') →
        (b = true ↔
          ∃ F ∈ M.functions, F.getInstructionCount ≠ 0 ∧ F.hasProtectedParam = true)) ∧
      ((¬ ∃ F ∈ M.functions, F.getInstructionCount ≠ 0 ∧ F.hasProtectedParam = true) →
        ∃ M', runOnModule M = Except.ok (false, M') ∧ M'.functions = M.functions) ∧
      ((∃ F ∈ M.functions, F.getInstructionCount ≠ 0 ∧ F.hasProtectedParam = true) →
        (∃ M', runOnModule M = Except.ok (true, M')) ∨
        (∃ e, runOnModule M = Except.error e ∧ e ≠ Fault.outOfFuel)) := by
  refine ⟨⟨by decide, by decide, by rfl, by rfl⟩, ⟨by decide, by decide, by rfl, by rfl⟩, ?_⟩
  intro M
  have h1 : ∀ b M', runOnModule M = Except.ok (b, M') →
      (b = true ↔
        ∃ F ∈ M.functions, F.getInstructionCount ≠ 0 ∧ F.hasProtectedParam = true) := by
    intro b M' h
    obtain ⟨_, _, _, hb, _⟩ := runOnModule_spec M M' b h
    rw [hb]
    exact any_needsRewrite_iff _
  refine ⟨h1, fun h => ⟨_, runOnModule_nothing_to_rewrite M h, rfl⟩, ?_⟩
  intro hex
  cases hr : runOnModule M with
  | error e =>
    right
    refine ⟨e, rfl, ?_⟩
    intro he
    exact noFuel_runOnModule M (by rw [hr, he])
  | ok r =>
    left
    obtain ⟨b, M'⟩ := r
    have hb := (h1 b M' hr).mpr hex
    subst hb
    exact ⟨M', rfl⟩

theorem C3_changed_flag_witness :
    (runOnModule pairModule = Except.ok (true, pairResult) ∧
      (true = true ↔ ∃ F ∈ pairModule.functions,
        F.getInstructionCount ≠ 0 ∧ F.hasProtectedParam = true)) ∧
    ((¬ ∃ F ∈ declarationModule.functions,
        F.getInstructionCount ≠ 0 ∧ F.hasProtectedParam = true) ∧
      ∃ M', runOnModule declarationModule = Except.ok (false, M') ∧
        M'.functions = declarationModule.functions) ∧
    ((¬ ∃ F ∈ emptyModule.functions,
        F.getInstructionCount ≠ 0 ∧ F.hasProtectedParam = true) ∧
      ∃ M', runOnModule emptyModule = Except.ok (false, M') ∧
        M'.functions = emptyModule.functions) ∧
    ((∃ F ∈ bothModule.functions, F.getInstructionCount ≠ 0 ∧ F.hasProtectedParam = true) ∧
      runOnModule bothModule = Except.ok (true, bothResult) ∧
      ((∃ M', runOnModule bothModule = Except.ok (true, M')) ∨
        (∃ e, runOnModule bothModule = Except.error e ∧ e ≠ Fault.outOfFuel))) :=
  ⟨⟨by rfl, (C3_changed_flag.2.2 pairModule).1 true pairResult (by rfl)⟩,
   ⟨by decide, (C3_changed_flag.2.2 declarationModule).2.1 (by decide)⟩,
   ⟨by decide, (C3_changed_flag.2.2 emptyModule).2.1 (by decide)⟩,
   ⟨by decide, by rfl, (C3_changed_flag.2.2 bothModule).2.2 (by decide)⟩⟩

/-! ## C20: the visits of the driver loop -/

/-- The driver loop, from a state whose function list holds `L` and then
    declarations from the cursor on, is the visit of the functions of `L` in
    list order, each once, at the positions from the cursor on. -/
theorem driverRounds_visitInOrder (fakeptr_t : Ty) :
    ∀ (L : List Function) (s : DriverState) (D : List Function),
      s.M.functions.drop s.pos = L ++ D →
      driverRounds fakeptr_t L.length s =
        visitInOrder fakeptr_t L s.pos (s.isChanged, s.M) >>= fun r =>
          pure { isChanged := r.1, M := r.2, pos := s.pos + L.length } := by
  intro L
  induction L with
  | nil =>
    intro s D _
    show pure s = pure _
    simp only [List.length_nil, Nat.add_zero]
  | cons F rest ih =>
    intro s D h
    have hF : s.M.functions[s.pos]? = some F := by
      have := congrArg (fun l => l[0]?) h
      simpa [List.getElem?_drop] using this
    have hlt : s.pos < s.M.functions.length := (List.getElem?_eq_some.mp hF).1
    have htail : s.M.functions.drop (s.pos + 1) = rest ++ D := by
      have := congrArg (List.drop 1) h
      simpa [List.drop_drop, Nat.add_comm] using this
    simp only [List.length_cons]
    unfold driverRounds visitInOrder
    simp only [List.get?_eq_getElem?, hF]
    cases hv : visitFunction fakeptr_t s.M s.pos F with
    | error e => rfl
    | ok r =>
      simp only [bind, Except.bind]
      obtain ⟨X, decls, hf, _⟩ := visitFunction_shape fakeptr_t s.M s.pos F r hF hv
      have hd : r.2.functions.drop (s.pos + 1) = rest ++ (D ++ decls) := by
        rw [hf, drop_splice _ _ _ _ (Nat.le_of_lt hlt), htail, List.append_assoc]
      have := ih { isChanged := s.isChanged || r.1, M := r.2, pos := s.pos + 1 } (D ++ decls) hd
      simp only [bind, Except.bind] at this
      rw [this, Nat.add_assoc, Nat.add_comm 1 rest.length]

/-- The pass is the visit of the functions of the module, as they are at
    the start, in list order, each once. -/
theorem runOnModule_visitInOrder (M : Module) :
    runOnModule M =
      visitInOrder (getFakePtrType M.ctx).1 M.functions 0
        (false, { M with ctx := (getFakePtrType M.ctx).2 }) := by
  have h := driverRounds_visitInOrder (getFakePtrType M.ctx).1 M.functions
    { isChanged := false, M := { M with ctx := (getFakePtrType M.ctx).2 }, pos := 0 } []
    (by simp)
  cases hv : visitInOrder (getFakePtrType M.ctx).1 M.functions 0
      (false, { M with ctx := (getFakePtrType M.ctx).2 }) with
  | error e =>
    rw [hv] at h
    exact driverRounds_error_run M e h
  | ok r =>
    rw [hv] at h
    exact runOnModule_eq M _ h

/-- C20: the driver loop of `runOnModule` never stops for lack of rounds,
    and the pass is the visit of the functions that the module has at the
    start, each of them once, in list order (`visitInOrder`): nothing else is
    visited. Round by round: after `j` rounds the cursor stands at position
    `j`, the functions at the positions from `j` on are the functions the
    module had there at the start, and round `j + 1` is the visit of the
    function that was at position `j` at the start, at position `j` of the
    module as the rounds before left it (a replacement stands before the
    cursor and is never visited; erasing the old function leaves the cursor
    on the next function). Everything behind the original list is a
    declaration without instructions, and a visit to a function without
    instructions leaves the module as it is, so the result of the pass is
    fixed when the functions of the original list are done. -/
theorem C20_driver_loop (M : Module) :
    runOnModule M ≠ Except.error Fault.outOfFuel ∧
    runOnModule M =
      visitInOrder (getFakePtrType M.ctx).1 M.functions 0
        (false, { M with ctx := (getFakePtrType M.ctx).2 }) ∧
    (∀ (j : Nat) (s : DriverState), j ≤ M.functions.length →
      driverRounds (getFakePtrType M.ctx).1 j
        { isChanged := false, M := { M with ctx := (getFakePtrType M.ctx).2 }, pos := 0 }
          = Except.ok s →
      s.pos = j ∧
      (∀ (i : Nat) (F : Function), M.functions[i]? = some F → j ≤ i →
        s.M.functions[i]? = some F) ∧
      (∀ (i : Nat) (F : Function), s.M.functions[i]? = some F → M.functions.length ≤ i →
        F.body = []) ∧
      driverRounds (getFakePtrType M.ctx).1 (j + 1)
        { isChanged := false, M := { M with ctx := (getFakePtrType M.ctx).2 }, pos := 0 }
          = driverRounds (getFakePtrType M.ctx).1 1 s ∧
      (∀ (F : Function), M.functions[j]? = some F →
        driverRounds (getFakePtrType M.ctx).1 (j + 1)
          { isChanged := false, M := { M with ctx := (getFakePtrType M.ctx).2 }, pos := 0 }
            = visitFunction (getFakePtrType M.ctx).1 s.M j F >>= fun r =>
                pure { isChanged := s.isChanged || r.1, M := r.2, pos := j + 1 })) ∧
    (∀ (a : DriverState),
      driverRounds (getFakePtrType M.ctx).1 M.functions.length
        { isChanged := false, M := { M with ctx := (getFakePtrType M.ctx).2 }, pos := 0 }
          = Except.ok a →
      runOnModule M = Except.ok (a.isChanged, a.M)) ∧
    (∀ (M2 : Module) (pos : Nat) (F : Function), F.body = [] →
      visitFunction (getFakePtrType M.ctx).1 M2 pos F = Except.ok (false, M2)) := by
  refine ⟨noFuel_runOnModule M, runOnModule_visitInOrder M, ?_,
    fun a ha => runOnModule_eq M a ha, ?_⟩
  · intro j s hj h
    obtain ⟨_, _, hp1, hp2, hend, hlen, _, _, _, hdecl, _⟩ := driverRounds_spec _ _ _ _ h
    simp only at hp1 hp2 hend hlen hdecl
    have hpos : s.pos = j := by
      rcases hend with h1 | h1 <;> omega
    have htail : ∀ (i : Nat) (F : Function), M.functions[i]? = some F → j ≤ i →
        s.M.functions[i]? = some F := by
      intro i F hF hi
      exact driverRounds_tail _ _ _ _ h i F hF (by omega)
    have hadd : driverRounds (getFakePtrType M.ctx).1 (j + 1)
        { isChanged := false, M := { M with ctx := (getFakePtrType M.ctx).2 }, pos := 0 }
          = driverRounds (getFakePtrType M.ctx).1 1 s := by
      rw [driverRounds_add, h]
      rfl
    refine ⟨hpos, htail, hdecl, hadd, ?_⟩
    intro F hF
    rw [hadd]
    have hs := htail j F hF (Nat.le_refl _)
    unfold driverRounds
    simp only [List.get?_eq_getElem?, hpos, hs]
    rfl
  · intro M2 pos F hF
    apply visitFunction_skip
    left
    simp [Function.getInstructionCount, hF]

theorem C20_driver_loop_witness :
    2 ≤ bothModule.functions.length ∧
    driverRounds (getFakePtrType bothModule.ctx).1 2
      { isChanged := false,
        M := { bothModule with ctx := (getFakePtrType bothModule.ctx).2 }, pos := 0 }
        = Except.ok { isChanged := true, M := bothMiddle, pos := 2 } ∧
    bothModule.functions[2]? = some writeZFunction ∧
    visitFunction (getFakePtrType bothModule.ctx).1 bothMiddle 2 writeZFunction =
      Except.ok (true, bothResult) ∧
    runOnModule bothModule = Except.ok (true, bothResult) ∧
    ((2 : Nat) = 2 ∧
      (∀ (i : Nat) (F : Function), bothModule.functions[i]? = some F → 2 ≤ i →
        bothMiddle.functions[i]? = some F) ∧
      (∀ (i : Nat) (F : Function), bothMiddle.functions[i]? = some F →
        bothModule.functions.length ≤ i → F.body = []) ∧
      driverRounds (getFakePtrType bothModule.ctx).1 (2 + 1)
        { isChanged := false,
          M := { bothModule with ctx := (getFakePtrType bothModule.ctx).2 }, pos := 0 }
          = driverRounds (getFakePtrType bothModule.ctx).1 1
              { isChanged := true, M := bothMiddle, pos := 2 } ∧
      (∀ (F : Function), bothModule.functions[2]? = some F →
        driverRounds (getFakePtrType bothModule.ctx).1 (2 + 1)
          { isChanged := false,
            M := { bothModule with ctx := (getFakePtrType bothModule.ctx).2 }, pos := 0 }
            = visitFunction (getFakePtrType bothModule.ctx).1 bothMiddle 2 F >>= fun r =>
                pure { isChanged := true || r.1, M := r.2, pos := 2 + 1 })) :=
  ⟨by decide, by rfl, by rfl, by rfl, by rfl,
    (C20_driver_loop bothModule).2.2.1 2 { isChanged := true, M := bothMiddle, pos := 2 }
      (by decide) (by rfl)⟩

end FakePtr
